import Mathlib

/-!
# Charstring interpreter (`libefont/t1interp.cc`)

A shallow embedding of `Efont::CharstringInterp`, the Type 1 / Type 2
charstring virtual machine, and theorems about its opcodes.
The encoding reader of `t1reencode/t1reencode.cc` (`tokenize`,
`parse_encoding`) is embedded in the namespace `T1reencode`.

Conventions of the embedding.

* `double` values are exact rationals (`ℚ`) and their sums are exact; where
  the rounding of the `double` sums decides a statement (the end point of
  `cFlex1`), the sums are rounded to the nearest `double` (`round_double`).
* `int` values are integers (`Int`).  The `int` sum `i + amount` of
  `roll_command` leaves the range of a C `int` for amounts near `INT_MAX`:
  that is undefined behaviour in C, and it is embedded as the wrap modulo
  `2^32` that two's complement machines compute (`wrap_int`).  Conversions
  from `double` that leave the range of an `int` are not modelled.
* The operand stack is the pair of the cell array `_s` and the depth `_sp`,
  as in the source.  Cells are addressed by an `Int`; the C array has the
  cells `0 .. STACK_SIZE - 1`, an access to any other cell is an access
  outside the array, which stays visible here as an access to that index.
* Every call of a virtual `act_*` callback is appended to the ghost field
  `_trace`, together with the value `_error` had when the call was made.
-/

namespace Efont

/-! ## Constants -/

/-- Modelled from the spec: the capacity of the operand stack (`STACK_SIZE`
of the class declaration, which is not among the sources); "use 48". -/
abbrev STACK_SIZE : Int := 48

/-- Modelled from the spec: the capacity of the PostScript stack
(`PS_STACK_SIZE` of the class declaration); "capacity ≥ 24". -/
abbrev PS_STACK_SIZE : Int := 24

/-- Modelled from the spec: the subroutine nesting ceiling (`MAX_SUBR_DEPTH`
of the class declaration); "recommend 10". -/
abbrev MAX_SUBR_DEPTH : Int := 10

/-- Modelled from the spec: the initial size of the scratch vector
(`SCRATCH_SIZE` of the class declaration); "32+ cells". -/
abbrev SCRATCH_SIZE : Nat := 32

/-! Error codes: the negated index into `error_formats`
(`error_formats[-error]`, and `error() >= 0` means no error). -/

abbrev errOK : Int := 0
abbrev errInternal : Int := -1
abbrev errRunoff : Int := -2
abbrev errUnimplemented : Int := -3
abbrev errOverflow : Int := -4
abbrev errUnderflow : Int := -5
abbrev errVector : Int := -6
abbrev errValue : Int := -7
abbrev errSubr : Int := -8
abbrev errGlyph : Int := -9
abbrev errCurrentPoint : Int := -10
abbrev errFlex : Int := -11
abbrev errMultipleMaster : Int := -12
abbrev errOpenStroke : Int := -13
abbrev errLateSidebearing : Int := -14
abbrev errOthersubr : Int := -15
abbrev errOrdering : Int := -16
abbrev errHintmask : Int := -17
abbrev errSubrDepth : Int := -18

/-! Ordering states, in the order the source compares them
(`_state > S_SEAC`, `_state > S_SBW`, `_state < S_IPATH`, ...). -/

abbrev S_INITIAL : Int := 0
abbrev S_SEAC : Int := 1
abbrev S_SBW : Int := 2
abbrev S_HSTEM : Int := 3
abbrev S_VSTEM : Int := 4
abbrev S_HINTMASK : Int := 5
abbrev S_IPATH : Int := 6
abbrev S_PATH : Int := 7

/-! Command numbers (`Charstring::Commands`, declared in a header that is
not among the sources): the Adobe Type 1 and Type 2 operator codes, escaped
operators being `32 + n`. -/

namespace CS

abbrev cError : Int := 0
abbrev cHstem : Int := 1
abbrev cVstem : Int := 3
abbrev cVmoveto : Int := 4
abbrev cRlineto : Int := 5
abbrev cHlineto : Int := 6
abbrev cVlineto : Int := 7
abbrev cRrcurveto : Int := 8
abbrev cClosepath : Int := 9
abbrev cCallsubr : Int := 10
abbrev cReturn : Int := 11
abbrev cEscape : Int := 12
abbrev cHsbw : Int := 13
abbrev cEndchar : Int := 14
abbrev cBlend : Int := 16
abbrev cHstemhm : Int := 18
abbrev cHintmask : Int := 19
abbrev cCntrmask : Int := 20
abbrev cRmoveto : Int := 21
abbrev cHmoveto : Int := 22
abbrev cVstemhm : Int := 23
abbrev cRcurveline : Int := 24
abbrev cRlinecurve : Int := 25
abbrev cVvcurveto : Int := 26
abbrev cHhcurveto : Int := 27
abbrev cShortint : Int := 28
abbrev cCallgsubr : Int := 29
abbrev cVhcurveto : Int := 30
abbrev cHvcurveto : Int := 31
abbrev cEscapeDelta : Int := 32
abbrev cDotsection : Int := 32 + 0
abbrev cVstem3 : Int := 32 + 1
abbrev cHstem3 : Int := 32 + 2
abbrev cAnd : Int := 32 + 3
abbrev cOr : Int := 32 + 4
abbrev cNot : Int := 32 + 5
abbrev cSeac : Int := 32 + 6
abbrev cSbw : Int := 32 + 7
abbrev cStore : Int := 32 + 8
abbrev cAbs : Int := 32 + 9
abbrev cAdd : Int := 32 + 10
abbrev cSub : Int := 32 + 11
abbrev cDiv : Int := 32 + 12
abbrev cLoad : Int := 32 + 13
abbrev cNeg : Int := 32 + 14
abbrev cEq : Int := 32 + 15
abbrev cCallothersubr : Int := 32 + 16
abbrev cPop : Int := 32 + 17
abbrev cDrop : Int := 32 + 18
abbrev cPut : Int := 32 + 20
abbrev cGet : Int := 32 + 21
abbrev cIfelse : Int := 32 + 22
abbrev cRandom : Int := 32 + 23
abbrev cMul : Int := 32 + 24
abbrev cSqrt : Int := 32 + 26
abbrev cDup : Int := 32 + 27
abbrev cExch : Int := 32 + 28
abbrev cIndex : Int := 32 + 29
abbrev cRoll : Int := 32 + 30
abbrev cSetcurrentpoint : Int := 32 + 33
abbrev cHflex : Int := 32 + 34
abbrev cFlex : Int := 32 + 35
abbrev cHflex1 : Int := 32 + 36
abbrev cFlex1 : Int := 32 + 37

/-! Othersubr numbers, as in the table of the spec (section 4.4.5). -/

abbrev othcFlexend : Int := 0
abbrev othcFlexbegin : Int := 1
abbrev othcFlexmiddle : Int := 2
abbrev othcReplacehints : Int := 3
abbrev othcMM1 : Int := 14
abbrev othcMM2 : Int := 15
abbrev othcMM3 : Int := 16
abbrev othcMM4 : Int := 17
abbrev othcMM6 : Int := 18
abbrev othcITC_load : Int := 19
abbrev othcITC_add : Int := 20
abbrev othcITC_sub : Int := 21
abbrev othcITC_mul : Int := 22
abbrev othcITC_div : Int := 23
abbrev othcITC_put : Int := 24
abbrev othcITC_get : Int := 25
abbrev othcITC_unknown : Int := 26
abbrev othcITC_ifelse : Int := 27
abbrev othcITC_random : Int := 28

end CS

/-! ## Data model -/

/-- A point `Point{x, y}`. -/
structure Point where
  x : ℚ
  y : ℚ
  deriving DecidableEq, Repr

/-- The point `Point(p, dx, dy)` and `p.shifted(dx, dy)`. -/
def Point.shifted (p : Point) (dx dy : ℚ) : Point := ⟨p.x + dx, p.y + dy⟩

/-- One call of a virtual `act_*` callback, with its arguments. -/
inductive Act where
  | sidebearing (cmd : Int) (p : Point)
  | width (cmd : Int) (p : Point)
  | default_width (cmd : Int)
  | nominal_width_delta (cmd : Int) (delta : ℚ)
  | seac (cmd : Int) (asb adx ady : ℚ) (bchar achar : Int)
  | line (cmd : Int) (p0 p1 : Point)
  | curve (cmd : Int) (p0 p1 p2 p3 : Point)
  | flex (cmd : Int) (p0 p1 p2 p3_4 p5 p6 p7 : Point) (flex_depth : ℚ)
  | closepath (cmd : Int)
  | hstem (cmd : Int) (y dy : ℚ)
  | vstem (cmd : Int) (x dx : ℚ)
  | hstem3 (cmd : Int) (y0 dy0 y1 dy1 y2 dy2 : ℚ)
  | vstem3 (cmd : Int) (x0 dx0 x1 dx1 x2 dx2 : ℚ)
  | hintmask (cmd : Int) (data : List Nat) (nhints : Int)
  deriving DecidableEq, Repr

/-- Modelled from the spec: one decoded event of a charstring, the container
class `Charstring` not being among the sources ("calls back into the
interpreter with decoded (opcode, number) events plus a cursor into its own
buffer for mask bytes"). `byte` is a raw byte of a hint mask. -/
inductive Item where
  | number (v : ℚ)
  | command (cmd : Int)
  | byte (b : Nat)
  deriving DecidableEq, Repr

/-- Modelled from the spec: a charstring, of the Type 1 or of the Type 2
dialect, as the sequence of its decoded events. -/
structure Charstring where
  type2 : Bool
  items : List Item
  deriving DecidableEq, Repr

/-- Modelled from the spec: the program environment `EfontProgram`
(section 4.2), declared in a header that is not among the sources. The
vectors are held by value; `global_width_x` is `none` for `UNKDOUBLE`. -/
structure EfontProgram where
  subr : Int → Option Charstring
  gsubr : Int → Option Charstring
  glyph : String → Option Charstring
  norm_design_vector : Option (List ℚ)
  design_vector : Option (List ℚ)
  writable_vectors : Bool
  global_width_x : Bool → Option ℚ

/-- The interpreter object. The fields with a leading underscore are the
data members the source uses; the others are the environment the source
reaches through library calls. -/
structure CharstringInterp where
  _error : Int
  _error_data : Int
  _done : Bool
  _s : Int → ℚ
  _sp : Int
  _ps_s : Int → ℚ
  _ps_sp : Int
  _weight_vector : Option (List ℚ)
  _scratch_vector : List ℚ
  _lsb : Point
  _cp : Point
  _seac_origin : Point
  _state : Int
  _flex : Bool
  _t2nhints : Int
  _subr_depth : Int
  _program : Option EfontProgram
  /-- The static `CharstringInterp::double_for_error`. -/
  double_for_error : ℚ
  /-- The results the next calls of the C library `random()` return. -/
  random_source : List Nat
  /-- The C library `sqrt`. -/
  libm_sqrt : ℚ → ℚ
  /-- The result of `Type1Encoding::standard_encoding()`. -/
  standard_encoding : Option (Int → String)
  /-- The overriding `act_*` methods of the dynamic class of the object:
  `none` when the callback is not overridden, so that the implementation of
  the source runs; `some r` when it is, `r` being the error the override
  reports, if any. -/
  sink : Act → Option (Option (Int × Int))
  /-- Ghost: the `act_*` calls made so far, each with `_error` at the call. -/
  _trace : List (Int × Act)

/-- The result of a handler: the returned `bool` and the object afterwards. -/
abbrev Result := Bool × CharstringInterp

/-- Writes one cell of a cell array. -/
def setCell (cells : Int → ℚ) (i : Int) (v : ℚ) : Int → ℚ :=
  fun k => if k = i then v else cells k

/-- The C conversion `(int)d` of a double: truncation toward zero. -/
def toInt (d : ℚ) : Int := Int.tdiv d.num d.den

/-- The conversion of a C `bool` to a double. -/
def ofBool (b : Bool) : ℚ := if b then 1 else 0

namespace CharstringInterp

/-- The function `CharstringInterp::error(err, error_data)`. -/
def error (err : Int) (error_data : Int) (s : CharstringInterp) : Result :=
  (false, { s with _error := err, _error_data := error_data })

/-- Modelled from the spec: `size()`, the current depth. -/
def size (s : CharstringInterp) : Int := s._sp

/-- Modelled from the spec: `at(i)`, the cell `i` counted from the bottom. -/
def «at» (s : CharstringInterp) (i : Int) : ℚ := s._s i

/-- Modelled from the spec: `top(i)`, the cell `i` below the topmost one.
The spec gives `top` and `pop` an `errUnderflow` of their own on a stack that
is too shallow; the model leaves that check out, since the source guards
their uses with `CHECK_STACK`, and so says nothing of an access that gets
past that guard and below the bottom of the stack. -/
def top (s : CharstringInterp) (i : Int) : ℚ := s._s (s._sp - i - 1)

/-- Modelled from the spec: an assignment through the reference `top(i)`,
without the underflow check of the accessor (see `top`). -/
def set_top (i : Int) (v : ℚ) (s : CharstringInterp) : CharstringInterp :=
  { s with _s := setCell s._s (s._sp - i - 1) v }

/-- Modelled from the spec: `pop(n)`, which lowers the depth by `n` and
returns the cell that is then just above the top, without the underflow
check of the accessor (see `top`). -/
def pop (s : CharstringInterp) (n : Int) : ℚ × CharstringInterp :=
  (s._s (s._sp - n), { s with _sp := s._sp - n })

/-- Modelled from the spec: `push(d)`; "push overflows with errOverflow". -/
def push (d : ℚ) (s : CharstringInterp) : CharstringInterp :=
  if s._sp < STACK_SIZE then
    { s with _s := setCell s._s s._sp d, _sp := s._sp + 1 }
  else (error errOverflow 0 s).2

/-- Modelled from the spec: `clear()`. -/
def clear (s : CharstringInterp) : CharstringInterp := { s with _sp := 0 }

/-- Modelled from the spec: `ps_size()`. -/
def ps_size (s : CharstringInterp) : Int := s._ps_sp

/-- Modelled from the spec: `ps_at(i)`. -/
def ps_at (s : CharstringInterp) (i : Int) : ℚ := s._ps_s i

/-- Modelled from the spec: `ps_pop()`. -/
def ps_pop (s : CharstringInterp) : ℚ × CharstringInterp :=
  (s._ps_s (s._ps_sp - 1), { s with _ps_sp := s._ps_sp - 1 })

/-- Modelled from the spec: `ps_push(d)`. -/
def ps_push (d : ℚ) (s : CharstringInterp) : CharstringInterp :=
  if s._ps_sp < PS_STACK_SIZE then
    { s with _ps_s := setCell s._ps_s s._ps_sp d, _ps_sp := s._ps_sp + 1 }
  else (error errOverflow 0 s).2

/-- Modelled from the spec: `ps_clear()`. -/
def ps_clear (s : CharstringInterp) : CharstringInterp := { s with _ps_sp := 0 }

/-- Modelled from the spec: `weight_vector()`. -/
def weight_vector (s : CharstringInterp) : Option (List ℚ) := s._weight_vector

/-- Modelled from the spec: `done()`. -/
def done (s : CharstringInterp) : Bool := s._done

/-- Modelled from the spec: `set_done()`. -/
def set_done (s : CharstringInterp) : CharstringInterp := { s with _done := true }

/-- The function `CharstringInterp::init()`. -/
def init (s : CharstringInterp) : CharstringInterp :=
  { ps_clear (clear s) with
    _done := false, _error := errOK,
    _lsb := ⟨0, 0⟩, _cp := ⟨0, 0⟩, _seac_origin := ⟨0, 0⟩,
    _state := S_INITIAL, _flex := false, _t2nhints := 0, _subr_depth := 0 }

/-- The constructor `CharstringInterp(prog, weight)` followed by `init()`,
on zeroed memory, with the default callbacks and no library results. -/
def create (prog : Option EfontProgram) (weight : Option (List ℚ)) : CharstringInterp :=
  init
    { _error := errOK, _error_data := 0, _done := false,
      _s := fun _ => 0, _sp := 0, _ps_s := fun _ => 0, _ps_sp := 0,
      _weight_vector := weight, _scratch_vector := List.replicate SCRATCH_SIZE 0,
      _lsb := ⟨0, 0⟩, _cp := ⟨0, 0⟩, _seac_origin := ⟨0, 0⟩,
      _state := S_INITIAL, _flex := false, _t2nhints := 0, _subr_depth := 0,
      _program := prog, double_for_error := 0, random_source := [],
      libm_sqrt := fun _ => 0, standard_encoding := none,
      sink := fun _ => none, _trace := [] }

/-- The function `CharstringInterp::number(v)`. -/
def number (v : ℚ) (s : CharstringInterp) : Result := (true, push v s)

/-- The live cells of the operand stack, bottom first. -/
def stack (s : CharstringInterp) : List ℚ :=
  (List.range s._sp.toNat).map fun i => s._s i

/-- The live cells of the PostScript stack, bottom first. -/
def ps_stack (s : CharstringInterp) : List ℚ :=
  (List.range s._ps_sp.toNat).map fun i => s._ps_s i

/-! ## `blend_command` -/

/-- The inner loop of `blend_command`,
`for (int i = 1; i < nmasters; i++, off++) val += weight->at_u(i) * _s[off];`
with `val` the cell `tgt`; the first argument counts the iterations left. -/
def blend_inner (weight : List ℚ) (tgt : Int) :
    Nat → Nat → Int → (Int → ℚ) → (Int → ℚ) × Int
  | 0, _, off, cells => (cells, off)
  | k + 1, i, off, cells =>
      blend_inner weight tgt k (i + 1) (off + 1)
        (setCell cells tgt (cells tgt + weight.getD i 0 * cells off))

/-- The outer loop of `blend_command`, `for (int j = 0; j < nargs; j++)`;
the first argument counts the iterations left. -/
def blend_outer (weight : List ℚ) (nmasters : Nat) (base : Int) :
    Nat → Int → Int → (Int → ℚ) → (Int → ℚ) × Int
  | 0, _, off, cells => (cells, off)
  | k + 1, j, off, cells =>
      let r := blend_inner weight (base + j) (nmasters - 1) 1 off cells
      blend_outer weight nmasters base k (j + 1) r.2 r.1

/-- The function `CharstringInterp::blend_command()`. -/
def blend_command (s : CharstringInterp) : Result :=
  let cmd := CS.cBlend
  if s.size < 1 then error errUnderflow cmd s else
  let d := (s.pop 1).1
  let s := (s.pop 1).2
  let nargs := toInt d
  match s.weight_vector with
  | none => error errVector cmd s
  | some weight =>
    if weight.length = 0 then error errVector cmd s else
    let nmasters : Int := weight.length
    if s.size < nargs * nmasters then error errUnderflow cmd s else
    let base := s._sp - nargs * nmasters
    let off := base + nargs
    let r := blend_outer weight weight.length base nargs.toNat 0 off s._s
    let s := { s with _s := r.1 }
    (true, (s.pop (nargs * (nmasters - 1))).2)

/-! ## `roll_command` -/

/-- The loop `while (amount < 0) amount += n;` of `roll_command`; the first
argument bounds the number of iterations. -/
def roll_normalize : Nat → Int → Int → Int
  | 0, amount, _ => amount
  | k + 1, amount, n => if amount < 0 then roll_normalize k (amount + n) n else amount

/-- The value of a 32-bit two's complement `int` whose exact value would be `z`:
`z` itself when `INT_MIN ≤ z ≤ INT_MAX`, and `z` reduced modulo `2^32` into
that range when the sum that produced it overflowed (undefined behaviour in
C, which the machine computes as this wrap). -/
def wrap_int (z : Int) : Int := (z + 2147483648) % 4294967296 - 2147483648

/-- The loop `for (i = 0; i < n; i++) copy_stack[i] = _s[base + (i+amount) % n];`
of `roll_command`; `%` is the C remainder and `i+amount` an `int` sum, which
wraps when it leaves the range of an `int`. -/
def roll_copy (cells : Int → ℚ) (base amount n : Int) :
    Nat → Int → (Int → ℚ) → (Int → ℚ)
  | 0, _, copy_stack => copy_stack
  | k + 1, i, copy_stack =>
      roll_copy cells base amount n k (i + 1)
        (setCell copy_stack i (cells (base + Int.tmod (wrap_int (i + amount)) n)))

/-- The loop `for (i = 0; i < n; i++) _s[base + i] = copy_stack[i];`. -/
def roll_store (copy_stack : Int → ℚ) (base : Int) :
    Nat → Int → (Int → ℚ) → (Int → ℚ)
  | 0, _, cells => cells
  | k + 1, i, cells =>
      roll_store copy_stack base k (i + 1) (setCell cells (base + i) (copy_stack i))

/-- The function `CharstringInterp::roll_command()`. The local array `copy_stack` starts
out as zeroes; the loop `while (amount < 0)` runs at most `-amount` times
since `n >= 1` there. -/
def roll_command (s : CharstringInterp) : Result :=
  let cmd := CS.cRoll
  if s.size < 2 then error errUnderflow cmd s else
  let d := (s.pop 1).1
  let s := (s.pop 1).2
  let amount := toInt d
  let d := (s.pop 1).1
  let s := (s.pop 1).2
  let n := toInt d
  if n ≤ 0 then error errValue cmd s else
  if s.size < n then error errUnderflow cmd s else
  let base := s._sp - n
  let amount := roll_normalize (-amount).toNat amount n
  let copy_stack := roll_copy s._s base amount n n.toNat 0 (fun _ => 0)
  (true, { s with _s := roll_store copy_stack base n.toNat 0 s._s })

/-! ## Vectors -/

/-- The vectors a `Vector<double> *` of `vector_command` can point to. -/
inductive VecRef where
  | weight
  | norm_design
  | design
  deriving DecidableEq, Repr

/-- Modelled from the spec: a read through `vec(v, i)`; "reads past the end
return an implementation-defined sentinel", here `double_for_error`. -/
def vec_read (v : List ℚ) (i : Int) (sentinel : ℚ) : ℚ :=
  if 0 ≤ i ∧ i < v.length then v.getD i.toNat 0 else sentinel

/-- Modelled from the spec: a write through `vec(v, i)`; "random-access by
nonnegative index; writes grow the vector". The result is the vector and
the sentinel cell, which takes a write at a negative index. -/
def vec_write (v : List ℚ) (i : Int) (x : ℚ) (sentinel : ℚ) : List ℚ × ℚ :=
  if i < 0 then (v, x)
  else ((v ++ List.replicate (i.toNat + 1 - v.length) 0).set i.toNat x, sentinel)

/-- Modelled from the spec: `get_subr(n)`, the local subroutine `n` of the
program; "absent ⇒ errSubr". -/
def get_subr (s : CharstringInterp) (n : Int) : Option Charstring :=
  match s._program with
  | none => none
  | some prog => prog.subr n

/-- Modelled from the spec: `get_gsubr(n)`, the global subroutine `n`. -/
def get_gsubr (s : CharstringInterp) (n : Int) : Option Charstring :=
  match s._program with
  | none => none
  | some prog => prog.gsubr n

/-- Modelled from the spec: `get_glyph(name)`, the glyph of that name. -/
def get_glyph (s : CharstringInterp) (name : String) : Option Charstring :=
  match s._program with
  | none => none
  | some prog => prog.glyph name

/-- The vector a `VecRef` points to, null when the program has none. -/
def get_vector (s : CharstringInterp) : VecRef → Option (List ℚ)
  | .weight => s.weight_vector
  | .norm_design => s._program.bind fun prog => prog.norm_design_vector
  | .design => s._program.bind fun prog => prog.design_vector

/-- Stores a vector back where a `VecRef` points to. -/
def set_vector (s : CharstringInterp) (r : VecRef) (v : List ℚ) : CharstringInterp :=
  match r with
  | .weight => { s with _weight_vector := some v }
  | .norm_design =>
      { s with _program := s._program.map fun prog => { prog with norm_design_vector := some v } }
  | .design =>
      { s with _program := s._program.map fun prog => { prog with design_vector := some v } }

/-- An assignment `vec(&_scratch_vector, offset) = x`. -/
def scratch_write (offset : Int) (x : ℚ) (s : CharstringInterp) : CharstringInterp :=
  let r := vec_write s._scratch_vector offset x s.double_for_error
  { s with _scratch_vector := r.1, double_for_error := r.2 }

/-- A read of `vec(&_scratch_vector, offset)`. -/
def scratch_read (s : CharstringInterp) (offset : Int) : ℚ :=
  vec_read s._scratch_vector offset s.double_for_error

/-- The loop of `cStore`,
`for (i = 0; i < num; i++, offset++, vectoroff++) vec(vector, vectoroff) = vec(&_scratch_vector, offset);`
on the vector `v`; the first argument counts the iterations left. -/
def store_loop : Nat → Int → Int → List ℚ → CharstringInterp → List ℚ × CharstringInterp
  | 0, _, _, v, s => (v, s)
  | k + 1, offset, vectoroff, v, s =>
      let r := vec_write v vectoroff (s.scratch_read offset) s.double_for_error
      store_loop k (offset + 1) (vectoroff + 1) r.1 { s with double_for_error := r.2 }

/-- The loop of `cLoad`,
`for (i = 0; i < num; i++, offset++) vec(&_scratch_vector, offset) = vec(vector, i);`. -/
def load_loop (v : List ℚ) : Nat → Int → Int → CharstringInterp → CharstringInterp
  | 0, _, _, s => s
  | k + 1, i, offset, s =>
      load_loop v k (i + 1) (offset + 1) (scratch_write offset (vec_read v i s.double_for_error) s)

/-- The function `CharstringInterp::vector_command(cmd)`. -/
def vector_command (cmd : Int) (s : CharstringInterp) : Result :=
  if cmd = CS.cPut then
    if s.size < 2 then error errUnderflow cmd s else
    let offset := toInt (s.top 0)
    let s := scratch_write offset (s.top 1) s
    (true, (s.pop 2).2)
  else if cmd = CS.cGet then
    if s.size < 1 then error errUnderflow cmd s else
    let offset := toInt (s.top 0)
    (true, s.set_top 0 (s.scratch_read offset))
  else if cmd = CS.cStore then
    if s.size < 4 then error errUnderflow cmd s else
    let which_vector := toInt (s.top 3)
    let vectoroff := toInt (s.top 2)
    let offset := toInt (s.top 1)
    let num := toInt (s.top 0)
    let s := (s.pop 4).2
    match s._program with
    | none => error errVector cmd s
    | some prog =>
      let vector : Option VecRef :=
        if which_vector = 0 then some .weight
        else if which_vector = 1 then some .norm_design
        else none
      match vector with
      | none => error errVector cmd s
      | some r =>
        match s.get_vector r with
        | none => error errVector cmd s
        | some v =>
          if ¬ prog.writable_vectors then error errVector cmd s else
          let res := store_loop num.toNat offset vectoroff v s
          (true, set_vector res.2 r res.1)
  else if cmd = CS.cLoad then
    if s.size < 3 then error errUnderflow cmd s else
    let which_vector := toInt (s.top 2)
    let offset := toInt (s.top 1)
    let num := toInt (s.top 0)
    let s := (s.pop 3).2
    match s._program with
    | none => error errVector cmd s
    | some _ =>
      let vector : Option VecRef :=
        if which_vector = 0 then some .weight
        else if which_vector = 1 then some .norm_design
        else if which_vector = 2 then some .design
        else none
      match vector with
      | none => error errVector cmd s
      | some r =>
        match s.get_vector r with
        | none => error errVector cmd s
        | some v => (true, load_loop v num.toNat 0 offset s)
  else error errUnimplemented cmd s

/-! ## `arith_command` -/

/-- Modelled from the spec: `RAND_MAX` of the C library. -/
abbrev RAND_MAX : ℚ := 2147483647

/-- The loop `do { d = random() / ((double)RAND_MAX); } while (d == 0);` of
`cRandom`, on the results `random()` is going to return; `none` when the
loop does not end within them. -/
def random_loop : List Nat → Option (ℚ × List Nat)
  | [] => none
  | r :: rest =>
      let d : ℚ := (r : ℚ) / RAND_MAX
      if d = 0 then random_loop rest else some (d, rest)

/-- The function `CharstringInterp::arith_command(cmd)`; `none` when `cRandom` does not
return. -/
def arith_command (cmd : Int) (s : CharstringInterp) : Option Result :=
  if cmd = CS.cBlend then some (blend_command s)
  else if cmd = CS.cAbs then
    if s.size < 1 then some (error errUnderflow cmd s) else
    some (true, if s.top 0 < 0 then s.set_top 0 (-(s.top 0)) else s)
  else if cmd = CS.cAdd then
    if s.size < 1 then some (error errUnderflow cmd s) else
    let d := (s.pop 1).1
    let s := (s.pop 1).2
    some (true, s.set_top 0 (s.top 0 + d))
  else if cmd = CS.cSub then
    if s.size < 1 then some (error errUnderflow cmd s) else
    let d := (s.pop 1).1
    let s := (s.pop 1).2
    some (true, s.set_top 0 (s.top 0 - d))
  else if cmd = CS.cDiv then
    if s.size < 2 then some (error errUnderflow cmd s) else
    let d := (s.pop 1).1
    let s := (s.pop 1).2
    some (true, s.set_top 0 (s.top 0 / d))
  else if cmd = CS.cNeg then
    if s.size < 1 then some (error errUnderflow cmd s) else
    some (true, s.set_top 0 (-(s.top 0)))
  else if cmd = CS.cRandom then
    (random_loop s.random_source).map fun r =>
      (true, push r.1 { s with random_source := r.2 })
  else if cmd = CS.cMul then
    if s.size < 2 then some (error errUnderflow cmd s) else
    let d := (s.pop 1).1
    let s := (s.pop 1).2
    some (true, s.set_top 0 (s.top 0 * d))
  else if cmd = CS.cSqrt then
    if s.size < 1 then some (error errUnderflow cmd s) else
    if s.top 0 < 0 then some (error errValue cmd s) else
    some (true, s.set_top 0 (s.libm_sqrt (s.top 0)))
  else if cmd = CS.cDrop then
    if s.size < 1 then some (error errUnderflow cmd s) else
    some (true, (s.pop 1).2)
  else if cmd = CS.cExch then
    if s.size < 2 then some (error errUnderflow cmd s) else
    let d := s.top 0
    let s := s.set_top 0 (s.top 1)
    some (true, s.set_top 1 d)
  else if cmd = CS.cIndex then
    if s.size < 1 then some (error errUnderflow cmd s) else
    let i := toInt (s.top 0)
    if i < 0 then some (error errValue cmd s) else
    if s.size < i + 2 then some (error errUnderflow cmd s) else
    some (true, s.set_top 0 (s.top (i + 1)))
  else if cmd = CS.cRoll then some (roll_command s)
  else if cmd = CS.cDup then
    if s.size < 1 then some (error errUnderflow cmd s) else
    some (true, push (s.top 0) s)
  else if cmd = CS.cAnd then
    if s.size < 2 then some (error errUnderflow cmd s) else
    let d := (s.pop 1).1
    let s := (s.pop 1).2
    some (true, s.set_top 0 (ofBool (decide (s.top 0 ≠ 0) && decide (d ≠ 0))))
  else if cmd = CS.cOr then
    if s.size < 2 then some (error errUnderflow cmd s) else
    let d := (s.pop 1).1
    let s := (s.pop 1).2
    some (true, s.set_top 0 (ofBool (decide (s.top 0 ≠ 0) || decide (d ≠ 0))))
  else if cmd = CS.cNot then
    if s.size < 1 then some (error errUnderflow cmd s) else
    some (true, s.set_top 0 (ofBool (decide (s.top 0 = 0))))
  else if cmd = CS.cEq then
    if s.size < 2 then some (error errUnderflow cmd s) else
    let d := (s.pop 1).1
    let s := (s.pop 1).2
    some (true, s.set_top 0 (ofBool (decide (s.top 0 = d))))
  else if cmd = CS.cIfelse then
    if s.size < 4 then some (error errUnderflow cmd s) else
    let s := if s.top 1 > s.top 0 then s.set_top 3 (s.top 2) else s
    some (true, (s.pop 3).2)
  else if cmd = CS.cPop then
    if s.ps_size < 1 then some (error errUnderflow cmd s) else
    let d := (s.ps_pop).1
    let s := (s.ps_pop).2
    some (true, push d s)
  else if cmd = 15 then
    -- this command is found with no explanation in JansonText-Roman
    if s.size < 2 then some (error errUnderflow cmd s) else
    some (true, (s.pop 2).2)
  else some (error errUnimplemented cmd s)

/-! ## Subroutine calls -/

/-- The type of `Charstring::run(interp)`, which the source calls on a
subroutine or glyph body: the object after the body has run, `none` when
the body does not return. -/
abbrev Runner := Charstring → CharstringInterp → Option CharstringInterp

/-- The first part of `callsubr_command()`, up to the call
`subr_cs->run(*this)`: either the result of an early `return`, or the
subroutine and the object its body is run on. -/
def callsubr_enter (s : CharstringInterp) : Result ⊕ (Charstring × CharstringInterp) :=
  let cmd := CS.cCallsubr
  if s.size < 1 then .inl (error errUnderflow cmd s) else
  let d := (s.pop 1).1
  let s := (s.pop 1).2
  let which := toInt d
  match s.get_subr which with
  | none => .inl (error errSubr which s)
  | some subr_cs =>
    if s._subr_depth ≥ MAX_SUBR_DEPTH then .inl (error errSubrDepth which s) else
    .inr (subr_cs, { s with _subr_depth := s._subr_depth + 1 })

/-- The first part of `callgsubr_command()`, up to the call
`subr_cs->run(*this)`. -/
def callgsubr_enter (s : CharstringInterp) : Result ⊕ (Charstring × CharstringInterp) :=
  let cmd := CS.cCallgsubr
  if s.size < 1 then .inl (error errUnderflow cmd s) else
  let d := (s.pop 1).1
  let s := (s.pop 1).2
  let which := toInt d
  match s.get_gsubr which with
  | none => .inl (error errSubr which s)
  | some subr_cs =>
    if s._subr_depth ≥ MAX_SUBR_DEPTH then .inl (error errSubrDepth which s) else
    .inr (subr_cs, { s with _subr_depth := s._subr_depth + 1 })

/-- The last part of `callsubr_command()` and of `callgsubr_command()`, after
the call `subr_cs->run(*this)`:
`_subr_depth--; if (_error != errOK) return false; return !done();`. -/
def subr_leave (s : CharstringInterp) : Result :=
  let s := { s with _subr_depth := s._subr_depth - 1 }
  if s._error ≠ errOK then (false, s) else
  (!s.done, s)

/-- The function `CharstringInterp::callsubr_command()`, `run` being `Charstring::run`. -/
def callsubr_command (run : Runner) (s : CharstringInterp) : Option Result :=
  match callsubr_enter s with
  | .inl r => some r
  | .inr (subr_cs, s) => (run subr_cs s).map subr_leave

/-- The function `CharstringInterp::callgsubr_command()`, `run` being `Charstring::run`. -/
def callgsubr_command (run : Runner) (s : CharstringInterp) : Option Result :=
  match callgsubr_enter s with
  | .inl r => some r
  | .inr (subr_cs, s) => (run subr_cs s).map subr_leave

/-! ## Multiple master and ITC othersubrs -/

/-- The loop `for (int i = nargs - 1; i >= 0; i--) ps_push(at(base + i));` of
`mm_command`; the first argument is `i + 1`. -/
def mm_push_loop (base : Int) : Nat → CharstringInterp → CharstringInterp
  | 0, s => s
  | i + 1, s => mm_push_loop base i (ps_push (s.«at» (base + i)) s)

/-- The function `CharstringInterp::mm_command(command, on_stack)`. -/
def mm_command (command : Int) (on_stack : Int) (s : CharstringInterp) : Result :=
  match s.weight_vector with
  | none => error errVector command s
  | some weight =>
    let nargs? : Option Int :=
      if command = CS.othcMM1 then some 1
      else if command = CS.othcMM2 then some 2
      else if command = CS.othcMM3 then some 3
      else if command = CS.othcMM4 then some 4
      else if command = CS.othcMM6 then some 6
      else none
    match nargs? with
    | none => error errInternal command s
    | some nargs =>
      let nmasters : Int := weight.length
      if s.size < nargs * nmasters ∨ on_stack ≠ nargs * nmasters then
        error errMultipleMaster command s
      else
      let base := s.size - on_stack
      let off := base + nargs
      let r := blend_outer weight weight.length base nargs.toNat 0 off s._s
      let s := { s with _s := r.1 }
      let s := mm_push_loop base nargs.toNat s
      (true, (s.pop on_stack).2)

/-- The loop of `othcITC_load`,
`for (int i = 0; i < weight->size(); i++) vec(&_scratch_vector, offset+i) = weight->at_u(i);`. -/
def itc_load_loop (weight : List ℚ) (offset : Int) : Nat → Nat → CharstringInterp → CharstringInterp
  | 0, _, s => s
  | k + 1, i, s => itc_load_loop weight offset k (i + 1) (scratch_write (offset + i) (weight.getD i 0) s)

/-- The function `CharstringInterp::itc_command(command, on_stack)`. -/
def itc_command (command : Int) (on_stack : Int) (s : CharstringInterp) : Result :=
  match s.weight_vector with
  | none => error errVector command s
  | some weight =>
    let base := s.size - on_stack
    if command = CS.othcITC_load then
      if on_stack ≠ 1 then error errOthersubr command s else
      let offset := toInt (s.«at» base)
      let s := itc_load_loop weight offset weight.length 0 s
      (true, (s.pop on_stack).2)
    else if command = CS.othcITC_put then
      if on_stack ≠ 2 then error errOthersubr command s else
      let offset := toInt (s.«at» (base + 1))
      let s := scratch_write offset (s.«at» base) s
      (true, (s.pop on_stack).2)
    else if command = CS.othcITC_get then
      if on_stack ≠ 1 then error errOthersubr command s else
      let offset := toInt (s.«at» base)
      let s := ps_push (s.scratch_read offset) s
      (true, (s.pop on_stack).2)
    else if command = CS.othcITC_add then
      if on_stack ≠ 2 then error errOthersubr command s else
      let s := ps_push (s.«at» base + s.«at» (base + 1)) s
      (true, (s.pop on_stack).2)
    else if command = CS.othcITC_sub then
      if on_stack ≠ 2 then error errOthersubr command s else
      let s := ps_push (s.«at» base - s.«at» (base + 1)) s
      (true, (s.pop on_stack).2)
    else if command = CS.othcITC_mul then
      if on_stack ≠ 2 then error errOthersubr command s else
      let s := ps_push (s.«at» base * s.«at» (base + 1)) s
      (true, (s.pop on_stack).2)
    else if command = CS.othcITC_div then
      if on_stack ≠ 2 then error errOthersubr command s else
      let s := ps_push (s.«at» base / s.«at» (base + 1)) s
      (true, (s.pop on_stack).2)
    else if command = CS.othcITC_ifelse then
      if on_stack ≠ 4 then error errOthersubr command s else
      let s :=
        if s.«at» (base + 2) ≤ s.«at» (base + 3) then ps_push (s.«at» base) s
        else ps_push (s.«at» (base + 1)) s
      (true, (s.pop on_stack).2)
    else error errOthersubr command s

/-! ## The action callbacks -/

/-- A call of the virtual callback `a`: the call is recorded; an overriding
method reports at most an error; otherwise the implementation `dflt` of the
source runs. -/
def call_virtual (a : Act) (dflt : CharstringInterp → CharstringInterp)
    (s : CharstringInterp) : CharstringInterp :=
  let s := { s with _trace := s._trace ++ [(s._error, a)] }
  match s.sink a with
  | none => dflt s
  | some none => s
  | some (some (err, error_data)) => (error err error_data s).2

/-- The callback `act_sidebearing(cmd, p)`; the source does nothing. -/
def act_sidebearing (cmd : Int) (p : Point) (s : CharstringInterp) : CharstringInterp :=
  call_virtual (.sidebearing cmd p) id s

/-- The callback `act_width(cmd, p)`; the source does nothing. -/
def act_width (cmd : Int) (p : Point) (s : CharstringInterp) : CharstringInterp :=
  call_virtual (.width cmd p) id s

/-- The callback `act_default_width(cmd)`. -/
def act_default_width (cmd : Int) (s : CharstringInterp) : CharstringInterp :=
  call_virtual (.default_width cmd) (fun s =>
    let d : Option ℚ := match s._program with
      | some prog => prog.global_width_x false
      | none => none
    match d with
    | some d => act_width cmd ⟨d, 0⟩ s
    | none => s) s

/-- The callback `act_nominal_width_delta(cmd, delta)`. -/
def act_nominal_width_delta (cmd : Int) (delta : ℚ) (s : CharstringInterp) : CharstringInterp :=
  call_virtual (.nominal_width_delta cmd delta) (fun s =>
    let d : Option ℚ := match s._program with
      | some prog => prog.global_width_x true
      | none => none
    match d with
    | some d => act_width cmd ⟨d + delta, 0⟩ s
    | none => s) s

/-- The callback `act_curve(cmd, p0, p1, p2, p3)`; the source reports `errUnimplemented`. -/
def act_curve (cmd : Int) (p0 p1 p2 p3 : Point) (s : CharstringInterp) : CharstringInterp :=
  call_virtual (.curve cmd p0 p1 p2 p3) (fun s => (error errUnimplemented cmd s).2) s

/-- The callback `act_line(cmd, p0, p1)`. -/
def act_line (cmd : Int) (p0 p1 : Point) (s : CharstringInterp) : CharstringInterp :=
  call_virtual (.line cmd p0 p1) (fun s => act_curve cmd p0 p0 p1 p1 s) s

/-- The callback `act_flex(cmd, p0, p1, p2, p3_4, p5, p6, p7, flex_depth)`. -/
def act_flex (cmd : Int) (p0 p1 p2 p3_4 p5 p6 p7 : Point) (flex_depth : ℚ)
    (s : CharstringInterp) : CharstringInterp :=
  call_virtual (.flex cmd p0 p1 p2 p3_4 p5 p6 p7 flex_depth) (fun s =>
    let s := act_curve cmd p0 p1 p2 p3_4 s
    act_curve cmd p3_4 p5 p6 p7 s) s

/-- The callback `act_closepath(cmd)`; the source does nothing. -/
def act_closepath (cmd : Int) (s : CharstringInterp) : CharstringInterp :=
  call_virtual (.closepath cmd) id s

/-- The callback `act_hstem(cmd, y, dy)`; the source does nothing. -/
def act_hstem (cmd : Int) (y dy : ℚ) (s : CharstringInterp) : CharstringInterp :=
  call_virtual (.hstem cmd y dy) id s

/-- The callback `act_vstem(cmd, x, dx)`; the source does nothing. -/
def act_vstem (cmd : Int) (x dx : ℚ) (s : CharstringInterp) : CharstringInterp :=
  call_virtual (.vstem cmd x dx) id s

/-- The callback `act_hstem3(cmd, y0, dy0, y1, dy1, y2, dy2)`. -/
def act_hstem3 (cmd : Int) (y0 dy0 y1 dy1 y2 dy2 : ℚ) (s : CharstringInterp) : CharstringInterp :=
  call_virtual (.hstem3 cmd y0 dy0 y1 dy1 y2 dy2) (fun s =>
    let s := act_hstem cmd y0 dy0 s
    let s := act_hstem cmd y1 dy1 s
    act_hstem cmd y2 dy2 s) s

/-- The callback `act_vstem3(cmd, x0, dx0, x1, dx1, x2, dx2)`. -/
def act_vstem3 (cmd : Int) (x0 dx0 x1 dx1 x2 dx2 : ℚ) (s : CharstringInterp) : CharstringInterp :=
  call_virtual (.vstem3 cmd x0 dx0 x1 dx1 x2 dx2) (fun s =>
    let s := act_vstem cmd x0 dx0 s
    let s := act_vstem cmd x1 dx1 s
    act_vstem cmd x2 dx2 s) s

/-- The callback `act_hintmask(cmd, data, nhints)`; the source does nothing. -/
def act_hintmask (cmd : Int) (data : List Nat) (nhints : Int) (s : CharstringInterp) :
    CharstringInterp :=
  call_virtual (.hintmask cmd data nhints) id s

/-- The function `act_rmoveto(cmd, dx, dy)`. -/
def act_rmoveto (_cmd : Int) (dx dy : ℚ) (s : CharstringInterp) : CharstringInterp :=
  { s with _cp := s._cp.shifted dx dy }

/-- The function `act_rlineto(cmd, dx, dy)`. -/
def act_rlineto (cmd : Int) (dx dy : ℚ) (s : CharstringInterp) : CharstringInterp :=
  let p0 := s._cp
  let s := { s with _cp := s._cp.shifted dx dy }
  act_line cmd p0 s._cp s

/-- The function `act_rrcurveto(cmd, dx1, dy1, dx2, dy2, dx3, dy3)`. -/
def act_rrcurveto (cmd : Int) (dx1 dy1 dx2 dy2 dx3 dy3 : ℚ) (s : CharstringInterp) :
    CharstringInterp :=
  let p0 := s._cp
  let p1 := p0.shifted dx1 dy1
  let p2 := p1.shifted dx2 dy2
  let s := { s with _cp := p2.shifted dx3 dy3 }
  act_curve cmd p0 p1 p2 s._cp s

/-- The function `act_rrflex(cmd, dx1, dy1, ..., dx6, dy6, flex_depth)`. -/
def act_rrflex (cmd : Int) (dx1 dy1 dx2 dy2 dx3 dy3 dx4 dy4 dx5 dy5 dx6 dy6 flex_depth : ℚ)
    (s : CharstringInterp) : CharstringInterp :=
  let p0 := s._cp
  let p1 := p0.shifted dx1 dy1
  let p2 := p1.shifted dx2 dy2
  let p3_4 := p2.shifted dx3 dy3
  let p5 := p3_4.shifted dx4 dy4
  let p6 := p5.shifted dx5 dy5
  let s := { s with _cp := p6.shifted dx6 dy6 }
  act_flex cmd p0 p1 p2 p3_4 p5 p6 s._cp flex_depth s

/-- The implementation of `act_seac` in the source, on the object `s`. -/
def seac_default (run : Runner) (cmd : Int) (asb adx ady : ℚ) (bchar achar : Int)
    (s : CharstringInterp) : Option CharstringInterp :=
  match s.standard_encoding with
  | none => some (error errInternal cmd s).2
  | some adobe =>
    if achar < 0 ∨ achar ≥ 256 ∨ bchar < 0 ∨ bchar ≥ 256 then
      some (error errGlyph cmd s).2
    else
    match s.get_glyph (adobe achar) with
    | none => some (error errGlyph cmd s).2
    | some acs =>
      match s.get_glyph (adobe bchar) with
      | none => some (error errGlyph cmd s).2
      | some bcs =>
        let apos : Point := ⟨adx + s._lsb.x - asb, ady + s._lsb.y⟩
        let save_lsb := s._lsb
        let save_seac_origin := s._seac_origin
        let s := init s
        let s := { s with _seac_origin := apos }
        let s := { s with _state := S_SEAC }
        (run acs s).bind fun s =>
          if s._error = errOK then
            let s := init s
            let s := { s with _seac_origin := save_seac_origin }
            let s := { s with _state := S_SEAC }
            (run bcs s).map fun s => { s with _lsb := save_lsb }
          else some { s with _lsb := save_lsb }

/-- The callback `act_seac(cmd, asb, adx, ady, bchar, achar)`. -/
def act_seac (run : Runner) (cmd : Int) (asb adx ady : ℚ) (bchar achar : Int)
    (s : CharstringInterp) : Option CharstringInterp :=
  let a := Act.seac cmd asb adx ady bchar achar
  let s := { s with _trace := s._trace ++ [(s._error, a)] }
  match s.sink a with
  | none => seac_default run cmd asb adx ady bchar achar s
  | some none => some s
  | some (some (err, error_data)) => some (error err error_data s).2

/-! ## Othersubrs -/

/-- The loop `for (int i = 0; i < n; i++) ps_push(top(i));` of the `unknown`
label of `callothersubr_command`; the first argument counts the iterations
left. -/
def unknown_push_loop : Nat → Int → CharstringInterp → CharstringInterp
  | 0, _, s => s
  | k + 1, i, s => unknown_push_loop k (i + 1) (ps_push (s.top i) s)

/-- The code at the label `unknown:` of `callothersubr_command`, up to the
end of the function. -/
def othersubr_unknown (n : Int) (s : CharstringInterp) : Result :=
  let s := ps_clear s
  let s := unknown_push_loop n.toNat 0 s
  (true, (s.pop n).2)

/-- The function `CharstringInterp::callothersubr_command(othersubrnum, n)`. The one
argument call `error(errFlex)` leaves the error data to the default of the
declaration, taken to be `0`. -/
def callothersubr_command (othersubrnum : Int) (n : Int) (s : CharstringInterp) : Result :=
  if othersubrnum = CS.othcFlexend then
    if n ≠ 3 then othersubr_unknown n s else
    if ¬ s._flex ∨ s.ps_size ≠ 16 then error errFlex 0 s else
    let s := act_flex CS.cCallothersubr ⟨s.ps_at 0, s.ps_at 1⟩
      ⟨s.ps_at 4, s.ps_at 5⟩ ⟨s.ps_at 6, s.ps_at 7⟩
      ⟨s.ps_at 8, s.ps_at 9⟩ ⟨s.ps_at 10, s.ps_at 11⟩
      ⟨s.ps_at 12, s.ps_at 13⟩ ⟨s.ps_at 14, s.ps_at 15⟩
      (s.top 2) s
    let s := ps_clear s
    let s := ps_push (s.top 0) s
    let s := ps_push (s.top 1) s
    let s := { s with _flex := false }
    let s := { s with _state := S_PATH }
    (true, (s.pop n).2)
  else if othersubrnum = CS.othcFlexbegin then
    if n ≠ 0 then othersubr_unknown n s else
    if s._flex then error errFlex 0 s else
    let s := ps_clear s
    let s := ps_push s._cp.x s
    let s := ps_push s._cp.y s
    let s := { s with _flex := true }
    let s := { s with _state := S_IPATH }
    (true, (s.pop n).2)
  else if othersubrnum = CS.othcFlexmiddle then
    if n ≠ 0 then othersubr_unknown n s else
    if ¬ s._flex then error errFlex 0 s else
    let s := ps_push s._cp.x s
    let s := ps_push s._cp.y s
    (true, (s.pop n).2)
  else if othersubrnum = CS.othcReplacehints then
    if n ≠ 1 then othersubr_unknown n s else
    let s := ps_clear s
    let s := ps_push (s.top 0) s
    (true, (s.pop n).2)
  else if othersubrnum = CS.othcMM1 ∨ othersubrnum = CS.othcMM2 ∨ othersubrnum = CS.othcMM3
      ∨ othersubrnum = CS.othcMM4 ∨ othersubrnum = CS.othcMM6 then
    mm_command othersubrnum n s
  else if othersubrnum = CS.othcITC_load ∨ othersubrnum = CS.othcITC_add
      ∨ othersubrnum = CS.othcITC_sub ∨ othersubrnum = CS.othcITC_mul
      ∨ othersubrnum = CS.othcITC_div ∨ othersubrnum = CS.othcITC_put
      ∨ othersubrnum = CS.othcITC_get ∨ othersubrnum = CS.othcITC_unknown
      ∨ othersubrnum = CS.othcITC_ifelse ∨ othersubrnum = CS.othcITC_random then
    itc_command othersubrnum n s
  else othersubr_unknown n s

/-! ## `type1_command` -/

/-- The end of `type1_command` and of `type2_command`, reached by `break`:
`clear(); return error() >= 0;`. -/
def finish (s : CharstringInterp) : Result :=
  let s := clear s
  (decide (s._error ≥ 0), s)

/-- The function `CharstringInterp::type1_command(cmd)`, `run` being `Charstring::run`. -/
def type1_command (run : Runner) (cmd : Int) (s : CharstringInterp) : Option Result :=
  if cmd = CS.cReturn then some (false, s)
  else if cmd = CS.cHsbw then
    if s.size < 2 then some (error errUnderflow cmd s) else
    if s._state > S_SEAC then some (error errOrdering cmd s) else
    let s := { s with _cp := s._seac_origin.shifted (s.«at» 0) 0 }
    let s := { s with _lsb := s._cp }
    let s :=
      if s._state = S_INITIAL then
        let s := act_sidebearing cmd s._lsb s
        act_width cmd ⟨s.«at» 1, 0⟩ s
      else s
    let s := { s with _state := S_SBW }
    some (finish s)
  else if cmd = CS.cSbw then
    if s.size < 4 then some (error errUnderflow cmd s) else
    if s._state > S_SEAC then some (error errOrdering cmd s) else
    let s := { s with _cp := s._seac_origin.shifted (s.«at» 0) (s.«at» 1) }
    let s := { s with _lsb := s._cp }
    let s :=
      if s._state = S_INITIAL then
        let s := act_sidebearing cmd s._lsb s
        act_width cmd ⟨s.«at» 2, s.«at» 3⟩ s
      else s
    let s := { s with _state := S_SBW }
    some (finish s)
  else if cmd = CS.cSeac then
    if s.size < 5 then some (error errUnderflow cmd s) else
    if s._state > S_SBW then some (error errOrdering cmd s) else
    (act_seac run cmd (s.«at» 0) (s.«at» 1) (s.«at» 2) (toInt (s.«at» 3)) (toInt (s.«at» 4)) s).map
      fun s => (false, clear s)
  else if cmd = CS.cCallsubr then callsubr_command run s
  else if cmd = CS.cCallothersubr then
    if s.size < 2 then some (error errUnderflow cmd s) else
    let othersubrnum := toInt (s.top 0)
    let n := toInt (s.top 1)
    let s := (s.pop 2).2
    if othersubrnum < 0 ∨ s.size < n then some (error errOthersubr cmd s) else
    some (callothersubr_command othersubrnum n s)
  else if cmd = CS.cPut ∨ cmd = CS.cGet ∨ cmd = CS.cStore ∨ cmd = CS.cLoad then
    some (vector_command cmd s)
  else if cmd = CS.cBlend ∨ cmd = CS.cAbs ∨ cmd = CS.cAdd ∨ cmd = CS.cSub ∨ cmd = CS.cDiv
      ∨ cmd = CS.cNeg ∨ cmd = CS.cRandom ∨ cmd = CS.cMul ∨ cmd = CS.cSqrt ∨ cmd = CS.cDrop
      ∨ cmd = CS.cExch ∨ cmd = CS.cIndex ∨ cmd = CS.cRoll ∨ cmd = CS.cDup ∨ cmd = CS.cAnd
      ∨ cmd = CS.cOr ∨ cmd = CS.cNot ∨ cmd = CS.cEq ∨ cmd = CS.cIfelse ∨ cmd = CS.cPop then
    arith_command cmd s
  else if cmd = CS.cHlineto then
    if s.size < 1 then some (error errUnderflow cmd s) else
    let s := { s with _state := S_PATH }
    some (finish (act_rlineto cmd (s.«at» 0) 0 s))
  else if cmd = CS.cHmoveto then
    if s.size < 1 then some (error errUnderflow cmd s) else
    let s := if s._state = S_PATH then act_closepath cmd s else s
    let s := { s with _state := S_IPATH }
    some (finish (act_rmoveto cmd (s.«at» 0) 0 s))
  else if cmd = CS.cHvcurveto then
    if s.size < 4 then some (error errUnderflow cmd s) else
    let s := { s with _state := S_PATH }
    some (finish (act_rrcurveto cmd (s.«at» 0) 0 (s.«at» 1) (s.«at» 2) 0 (s.«at» 3) s))
  else if cmd = CS.cRlineto then
    if s.size < 2 then some (error errUnderflow cmd s) else
    let s := { s with _state := S_PATH }
    some (finish (act_rlineto cmd (s.«at» 0) (s.«at» 1) s))
  else if cmd = CS.cRmoveto then
    if s.size < 2 then some (error errUnderflow cmd s) else
    let s := if s._state = S_PATH then act_closepath cmd s else s
    let s := { s with _state := S_IPATH }
    some (finish (act_rmoveto cmd (s.«at» 0) (s.«at» 1) s))
  else if cmd = CS.cRrcurveto then
    if s.size < 6 then some (error errUnderflow cmd s) else
    let s := { s with _state := S_PATH }
    some (finish (act_rrcurveto cmd (s.«at» 0) (s.«at» 1) (s.«at» 2) (s.«at» 3) (s.«at» 4) (s.«at» 5) s))
  else if cmd = CS.cVhcurveto then
    if s.size < 4 then some (error errUnderflow cmd s) else
    let s := { s with _state := S_PATH }
    some (finish (act_rrcurveto cmd 0 (s.«at» 0) (s.«at» 1) (s.«at» 2) (s.«at» 3) 0 s))
  else if cmd = CS.cVlineto then
    if s.size < 1 then some (error errUnderflow cmd s) else
    let s := { s with _state := S_PATH }
    some (finish (act_rlineto cmd 0 (s.«at» 0) s))
  else if cmd = CS.cVmoveto then
    if s.size < 1 then some (error errUnderflow cmd s) else
    let s := if s._state = S_PATH then act_closepath cmd s else s
    let s := { s with _state := S_IPATH }
    some (finish (act_rmoveto cmd 0 (s.«at» 0) s))
  else if cmd = CS.cDotsection then some (finish s)
  else if cmd = CS.cHstem then
    if s.size < 2 then some (error errUnderflow cmd s) else
    some (finish (act_hstem cmd (s._lsb.y + s.«at» 0) (s.«at» 1) s))
  else if cmd = CS.cHstem3 then
    if s.size < 6 then some (error errUnderflow cmd s) else
    some (finish (act_hstem3 cmd (s._lsb.y + s.«at» 0) (s.«at» 1) (s._lsb.y + s.«at» 2) (s.«at» 3)
      (s._lsb.y + s.«at» 4) (s.«at» 5) s))
  else if cmd = CS.cVstem then
    if s.size < 2 then some (error errUnderflow cmd s) else
    some (finish (act_vstem cmd (s._lsb.x + s.«at» 0) (s.«at» 1) s))
  else if cmd = CS.cVstem3 then
    if s.size < 6 then some (error errUnderflow cmd s) else
    some (finish (act_vstem3 cmd (s._lsb.x + s.«at» 0) (s.«at» 1) (s._lsb.x + s.«at» 2) (s.«at» 3)
      (s._lsb.x + s.«at» 4) (s.«at» 5) s))
  else if cmd = CS.cSetcurrentpoint then
    if s.size < 2 then some (error errUnderflow cmd s) else
    some (finish { s with _cp := ⟨s.«at» 0, s.«at» 1⟩ })
  else if cmd = CS.cClosepath then
    let s := if s._state = S_PATH then act_closepath cmd s else s
    some (finish { s with _state := S_IPATH })
  else if cmd = CS.cEndchar then
    let s := if s._state = S_PATH then act_closepath cmd s else s
    some (false, set_done s)
  else some (error errUnimplemented cmd s)

/-! ## `type2_command`

The loops of `type2_command` advance `bottom` up to `size()`; each is
translated with the test of the source and a bound on the number of
iterations, which the callers set to `size()`. -/

/-- The function `CharstringInterp::type2_handle_width(cmd, have_width)`. -/
def type2_handle_width (cmd : Int) (have_width : Bool) (s : CharstringInterp) :
    Int × CharstringInterp :=
  if have_width then (1, act_nominal_width_delta cmd (s.«at» 0) s)
  else (0, act_default_width cmd s)

/-- The stem loop of `cHstem`/`cHstemhm` (`horizontal`) and of `cVstem`/
`cVstemhm`/`cHintmask`/`cCntrmask`:
`for (double pos = 0; bottom + 1 < size(); bottom += 2) { _t2nhints++; act_hstem(cmd, pos + at(bottom), at(bottom + 1)); pos += at(bottom) + at(bottom + 1); }`. -/
def t2_stem_loop (cmd : Int) (horizontal : Bool) :
    Nat → ℚ → Int → CharstringInterp → CharstringInterp
  | 0, _, _, s => s
  | k + 1, pos, bottom, s =>
      if bottom + 1 < s.size then
        let s := { s with _t2nhints := s._t2nhints + 1 }
        let s :=
          if horizontal then act_hstem cmd (pos + s.«at» bottom) (s.«at» (bottom + 1)) s
          else act_vstem cmd (pos + s.«at» bottom) (s.«at» (bottom + 1)) s
        t2_stem_loop cmd horizontal k (pos + (s.«at» bottom + s.«at» (bottom + 1))) (bottom + 2) s
      else s

/-- The loop of `cRlineto`,
`for (; bottom + 1 < size(); bottom += 2) act_rlineto(cmd, at(bottom), at(bottom + 1));`. -/
def t2_rlineto_loop (cmd : Int) : Nat → Int → CharstringInterp → CharstringInterp
  | 0, _, s => s
  | k + 1, bottom, s =>
      if bottom + 1 < s.size then
        t2_rlineto_loop cmd k (bottom + 2) (act_rlineto cmd (s.«at» bottom) (s.«at» (bottom + 1)) s)
      else s

/-- The loop of `cHlineto` (`horizontal`) and of `cVlineto`:
`while (bottom < size()) { act_rlineto(cmd, at(bottom++), 0); if (bottom < size()) act_rlineto(cmd, 0, at(bottom++)); }`. -/
def t2_hvlineto_loop (cmd : Int) (horizontal : Bool) :
    Nat → Int → CharstringInterp → CharstringInterp
  | 0, _, s => s
  | k + 1, bottom, s =>
      if bottom < s.size then
        let s :=
          if horizontal then act_rlineto cmd (s.«at» bottom) 0 s
          else act_rlineto cmd 0 (s.«at» bottom) s
        let bottom := bottom + 1
        if bottom < s.size then
          let s :=
            if horizontal then act_rlineto cmd 0 (s.«at» bottom) s
            else act_rlineto cmd (s.«at» bottom) 0 s
          t2_hvlineto_loop cmd horizontal k (bottom + 1) s
        else t2_hvlineto_loop cmd horizontal k bottom s
      else s

/-- The loop of `cRrcurveto`, and of `cRcurveline` with `margin = 7`:
`for (; bottom + 5 < size(); bottom += 6) act_rrcurveto(cmd, at(bottom), ..., at(bottom + 5));`.
The result is the object and `bottom`. -/
def t2_rrcurveto_loop (cmd : Int) (margin : Int) :
    Nat → Int → CharstringInterp → CharstringInterp × Int
  | 0, bottom, s => (s, bottom)
  | k + 1, bottom, s =>
      if bottom + margin < s.size then
        t2_rrcurveto_loop cmd margin k (bottom + 6)
          (act_rrcurveto cmd (s.«at» bottom) (s.«at» (bottom + 1)) (s.«at» (bottom + 2))
            (s.«at» (bottom + 3)) (s.«at» (bottom + 4)) (s.«at» (bottom + 5)) s)
      else (s, bottom)

/-- The loop of `cRlinecurve`,
`for (; bottom + 7 < size(); bottom += 2) act_rlineto(cmd, at(bottom), at(bottom + 1));`.
The result is the object and `bottom`. -/
def t2_rlinecurve_loop (cmd : Int) : Nat → Int → CharstringInterp → CharstringInterp × Int
  | 0, bottom, s => (s, bottom)
  | k + 1, bottom, s =>
      if bottom + 7 < s.size then
        t2_rlinecurve_loop cmd k (bottom + 2) (act_rlineto cmd (s.«at» bottom) (s.«at» (bottom + 1)) s)
      else (s, bottom)

/-- The loop of `cHhcurveto` (`horizontal`) and of `cVvcurveto`:
`for (; bottom + 3 < size(); bottom += 4) act_rrcurveto(cmd, at(bottom), 0, at(bottom + 1), at(bottom + 2), at(bottom + 3), 0);`. -/
def t2_hhvvcurveto_loop (cmd : Int) (horizontal : Bool) :
    Nat → Int → CharstringInterp → CharstringInterp
  | 0, _, s => s
  | k + 1, bottom, s =>
      if bottom + 3 < s.size then
        let s :=
          if horizontal then
            act_rrcurveto cmd (s.«at» bottom) 0 (s.«at» (bottom + 1)) (s.«at» (bottom + 2))
              (s.«at» (bottom + 3)) 0 s
          else
            act_rrcurveto cmd 0 (s.«at» bottom) (s.«at» (bottom + 1)) (s.«at» (bottom + 2))
              0 (s.«at» (bottom + 3)) s
        t2_hhvvcurveto_loop cmd horizontal k (bottom + 4) s
      else s

/-- One curve of `cHvcurveto`/`cVhcurveto` starting horizontally:
`double dx3 = (bottom + 5 == size() ? at(bottom + 4) : 0); act_rrcurveto(cmd, at(bottom), 0, at(bottom + 1), at(bottom + 2), dx3, at(bottom + 3));`. -/
def t2_hv_curve (cmd : Int) (bottom : Int) (s : CharstringInterp) : CharstringInterp :=
  let dx3 : ℚ := if bottom + 5 = s.size then s.«at» (bottom + 4) else 0
  act_rrcurveto cmd (s.«at» bottom) 0 (s.«at» (bottom + 1)) (s.«at» (bottom + 2)) dx3
    (s.«at» (bottom + 3)) s

/-- One curve of `cHvcurveto`/`cVhcurveto` starting vertically:
`double dy3 = (bottom + 5 == size() ? at(bottom + 4) : 0); act_rrcurveto(cmd, 0, at(bottom), at(bottom + 1), at(bottom + 2), at(bottom + 3), dy3);`. -/
def t2_vh_curve (cmd : Int) (bottom : Int) (s : CharstringInterp) : CharstringInterp :=
  let dy3 : ℚ := if bottom + 5 = s.size then s.«at» (bottom + 4) else 0
  act_rrcurveto cmd 0 (s.«at» bottom) (s.«at» (bottom + 1)) (s.«at» (bottom + 2))
    (s.«at» (bottom + 3)) dy3 s

/-- The loop of `cHvcurveto` (`horizontal`) and of `cVhcurveto`:
`while (bottom + 3 < size()) { <curve>; bottom += 4; if (bottom + 3 < size()) { <other curve>; bottom += 4; } }`. -/
def t2_hvvhcurveto_loop (cmd : Int) (horizontal : Bool) :
    Nat → Int → CharstringInterp → CharstringInterp
  | 0, _, s => s
  | k + 1, bottom, s =>
      if bottom + 3 < s.size then
        let s := if horizontal then t2_hv_curve cmd bottom s else t2_vh_curve cmd bottom s
        let bottom := bottom + 4
        if bottom + 3 < s.size then
          let s := if horizontal then t2_vh_curve cmd bottom s else t2_hv_curve cmd bottom s
          t2_hvvhcurveto_loop cmd horizontal k (bottom + 4) s
        else t2_hvvhcurveto_loop cmd horizontal k bottom s
      else s

/-- The macro `CHECK_STATE()`: the error result when `_state < S_IPATH`,
otherwise the object with `_state = S_PATH`. -/
def check_state (cmd : Int) (s : CharstringInterp) : Result ⊕ CharstringInterp :=
  if s._state < S_IPATH then .inl (error errOrdering cmd s)
  else .inr { s with _state := S_PATH }

/-- The function `CharstringInterp::type2_command(cmd, data, left)`, `run` being
`Charstring::run`; `data` and `left` are `none` for null pointers, and the
result carries the value of `*left` afterwards. -/
def type2_command (run : Runner) (cmd : Int) (data : Option (List Nat)) (left : Option Int)
    (s : CharstringInterp) : Option (Result × Option Int) :=
  let bottom : Int := 0
  if cmd = CS.cHstem ∨ cmd = CS.cHstemhm then
    if s.size < 2 then some (error errUnderflow cmd s, left) else
    let r :=
      if s._state = S_INITIAL then type2_handle_width cmd (decide (Int.tmod s.size 2 = 1)) s
      else (bottom, s)
    let bottom := r.1
    let s := r.2
    if s._state > S_HSTEM then some (error errOrdering cmd s, left) else
    let s := { s with _state := S_HSTEM }
    some (finish (t2_stem_loop cmd true s.size.toNat 0 bottom s), left)
  else if cmd = CS.cVstem ∨ cmd = CS.cVstemhm then
    if s.size < 2 then some (error errUnderflow cmd s, left) else
    let r :=
      if s._state = S_INITIAL then type2_handle_width cmd (decide (Int.tmod s.size 2 = 1)) s
      else (bottom, s)
    let bottom := r.1
    let s := r.2
    if s._state > S_VSTEM then some (error errOrdering cmd s, left) else
    let s := { s with _state := S_VSTEM }
    some (finish (t2_stem_loop cmd false s.size.toNat 0 bottom s), left)
  else if cmd = CS.cHintmask ∨ cmd = CS.cCntrmask then
    let s :=
      if s._state = S_HSTEM ∧ s.size ≥ 2 then t2_stem_loop cmd false s.size.toNat 0 bottom s
      else s
    let s := if s._state < S_HINTMASK then { s with _state := S_HINTMASK } else s
    if s._t2nhints = 0 then some (error errHintmask cmd s, left) else
    match data, left with
    | some data, some left =>
      if ((s._t2nhints - 1) >>> 3) + 1 > left then some (error errRunoff cmd s, some left) else
      let s := act_hintmask cmd data s._t2nhints s
      some (finish s, some (left - (((s._t2nhints - 1) >>> 3) + 1)))
    | _, _ => some (error errInternal cmd s, left)
  else if cmd = CS.cRmoveto then
    if s.size < 2 then some (error errUnderflow cmd s, left) else
    let r :=
      if s._state = S_INITIAL then type2_handle_width cmd (decide (s.size > 2)) s
      else if s._state = S_PATH then (bottom, act_closepath cmd s)
      else (bottom, s)
    let bottom := r.1
    let s := r.2
    let s := { s with _state := S_IPATH }
    some (finish (act_rmoveto cmd (s.«at» bottom) (s.«at» (bottom + 1)) s), left)
  else if cmd = CS.cHmoveto then
    if s.size < 1 then some (error errUnderflow cmd s, left) else
    let r :=
      if s._state = S_INITIAL then type2_handle_width cmd (decide (s.size > 1)) s
      else if s._state = S_PATH then (bottom, act_closepath cmd s)
      else (bottom, s)
    let bottom := r.1
    let s := r.2
    let s := { s with _state := S_IPATH }
    some (finish (act_rmoveto cmd (s.«at» bottom) 0 s), left)
  else if cmd = CS.cVmoveto then
    if s.size < 1 then some (error errUnderflow cmd s, left) else
    let r :=
      if s._state = S_INITIAL then type2_handle_width cmd (decide (s.size > 1)) s
      else if s._state = S_PATH then (bottom, act_closepath cmd s)
      else (bottom, s)
    let bottom := r.1
    let s := r.2
    let s := { s with _state := S_IPATH }
    some (finish (act_rmoveto cmd 0 (s.«at» bottom) s), left)
  else if cmd = CS.cRlineto then
    if s.size < 2 then some (error errUnderflow cmd s, left) else
    match check_state cmd s with
    | .inl r => some (r, left)
    | .inr s => some (finish (t2_rlineto_loop cmd s.size.toNat bottom s), left)
  else if cmd = CS.cHlineto then
    if s.size < 1 then some (error errUnderflow cmd s, left) else
    match check_state cmd s with
    | .inl r => some (r, left)
    | .inr s => some (finish (t2_hvlineto_loop cmd true s.size.toNat bottom s), left)
  else if cmd = CS.cVlineto then
    if s.size < 1 then some (error errUnderflow cmd s, left) else
    match check_state cmd s with
    | .inl r => some (r, left)
    | .inr s => some (finish (t2_hvlineto_loop cmd false s.size.toNat bottom s), left)
  else if cmd = CS.cRrcurveto then
    if s.size < 6 then some (error errUnderflow cmd s, left) else
    match check_state cmd s with
    | .inl r => some (r, left)
    | .inr s => some (finish (t2_rrcurveto_loop cmd 5 s.size.toNat bottom s).1, left)
  else if cmd = CS.cHhcurveto then
    if s.size < 4 then some (error errUnderflow cmd s, left) else
    match check_state cmd s with
    | .inl r => some (r, left)
    | .inr s =>
      let r :=
        if Int.tmod s.size 2 = 1 then
          (bottom + 5, act_rrcurveto cmd (s.«at» (bottom + 1)) (s.«at» bottom) (s.«at» (bottom + 2))
            (s.«at» (bottom + 3)) (s.«at» (bottom + 4)) 0 s)
        else (bottom, s)
      let bottom := r.1
      let s := r.2
      some (finish (t2_hhvvcurveto_loop cmd true s.size.toNat bottom s), left)
  else if cmd = CS.cHvcurveto then
    if s.size < 4 then some (error errUnderflow cmd s, left) else
    match check_state cmd s with
    | .inl r => some (r, left)
    | .inr s => some (finish (t2_hvvhcurveto_loop cmd true s.size.toNat bottom s), left)
  else if cmd = CS.cRcurveline then
    if s.size < 8 then some (error errUnderflow cmd s, left) else
    match check_state cmd s with
    | .inl r => some (r, left)
    | .inr s =>
      let r := t2_rrcurveto_loop cmd 7 s.size.toNat bottom s
      let s := r.1
      let bottom := r.2
      some (finish (act_rlineto cmd (s.«at» bottom) (s.«at» (bottom + 1)) s), left)
  else if cmd = CS.cRlinecurve then
    if s.size < 8 then some (error errUnderflow cmd s, left) else
    match check_state cmd s with
    | .inl r => some (r, left)
    | .inr s =>
      let r := t2_rlinecurve_loop cmd s.size.toNat bottom s
      let s := r.1
      let bottom := r.2
      some (finish (act_rrcurveto cmd (s.«at» bottom) (s.«at» (bottom + 1)) (s.«at» (bottom + 2))
        (s.«at» (bottom + 3)) (s.«at» (bottom + 4)) (s.«at» (bottom + 5)) s), left)
  else if cmd = CS.cVhcurveto then
    if s.size < 4 then some (error errUnderflow cmd s, left) else
    match check_state cmd s with
    | .inl r => some (r, left)
    | .inr s => some (finish (t2_hvvhcurveto_loop cmd false s.size.toNat bottom s), left)
  else if cmd = CS.cVvcurveto then
    if s.size < 4 then some (error errUnderflow cmd s, left) else
    match check_state cmd s with
    | .inl r => some (r, left)
    | .inr s =>
      let r :=
        if Int.tmod s.size 2 = 1 then
          (bottom + 5, act_rrcurveto cmd (s.«at» bottom) (s.«at» (bottom + 1)) (s.«at» (bottom + 2))
            (s.«at» (bottom + 3)) 0 (s.«at» (bottom + 4)) s)
        else (bottom, s)
      let bottom := r.1
      let s := r.2
      some (finish (t2_hhvvcurveto_loop cmd false s.size.toNat bottom s), left)
  else if cmd = CS.cFlex then
    if s.size < 13 then some (error errUnderflow cmd s, left) else
    match check_state cmd s with
    | .inl r => some (r, left)
    | .inr s =>
      some (finish (act_rrflex cmd
        (s.«at» 0) (s.«at» 1) (s.«at» 2) (s.«at» 3) (s.«at» 4) (s.«at» 5)
        (s.«at» 6) (s.«at» 7) (s.«at» 8) (s.«at» 9) (s.«at» 10) (s.«at» 11)
        (s.«at» 12) s), left)
  else if cmd = CS.cHflex then
    if s.size < 7 then some (error errUnderflow cmd s, left) else
    match check_state cmd s with
    | .inl r => some (r, left)
    | .inr s =>
      some (finish (act_rrflex cmd
        (s.«at» 0) 0 (s.«at» 1) (s.«at» 2) (s.«at» 3) 0
        (s.«at» 4) 0 (s.«at» 5) (-(s.«at» 2)) (s.«at» 6) 0
        50 s), left)
  else if cmd = CS.cHflex1 then
    if s.size < 9 then some (error errUnderflow cmd s, left) else
    match check_state cmd s with
    | .inl r => some (r, left)
    | .inr s =>
      some (finish (act_rrflex cmd
        (s.«at» 0) (s.«at» 1) (s.«at» 2) (s.«at» 3) (s.«at» 4) 0
        (s.«at» 5) 0 (s.«at» 6) (s.«at» 7) (s.«at» 8) (-(s.«at» 1 + s.«at» 3 + s.«at» 7))
        50 s), left)
  else if cmd = CS.cFlex1 then
    if s.size < 11 then some (error errUnderflow cmd s, left) else
    match check_state cmd s with
    | .inl r => some (r, left)
    | .inr s =>
      let dx := s.«at» 0 + s.«at» 2 + s.«at» 4 + s.«at» 6 + s.«at» 8
      let dy := s.«at» 1 + s.«at» 3 + s.«at» 5 + s.«at» 7 + s.«at» 9
      if |dx| > |dy| then
        some (finish (act_rrflex cmd
          (s.«at» 0) (s.«at» 1) (s.«at» 2) (s.«at» 3) (s.«at» 4) (s.«at» 5)
          (s.«at» 6) (s.«at» 7) (s.«at» 8) (s.«at» 9) (s.«at» 10) (-dy)
          50 s), left)
      else
        some (finish (act_rrflex cmd
          (s.«at» 0) (s.«at» 1) (s.«at» 2) (s.«at» 3) (s.«at» 4) (s.«at» 5)
          (s.«at» 6) (s.«at» 7) (s.«at» 8) (s.«at» 9) (-dx) (s.«at» 10)
          50 s), left)
  else if cmd = CS.cEndchar then
    let r :=
      if s._state = S_INITIAL then
        type2_handle_width cmd (decide (s.size > 0) && decide (s.size ≠ 4)) s
      else (bottom, s)
    let bottom := r.1
    let s := r.2
    let s? : Option CharstringInterp :=
      if bottom + 3 < s.size ∧ s._state = S_INITIAL then
        act_seac run cmd 0 (s.«at» bottom) (s.«at» (bottom + 1)) (toInt (s.«at» (bottom + 2)))
          (toInt (s.«at» (bottom + 3))) s
      else if s._state = S_PATH then some (act_closepath cmd s)
      else some s
    s?.map fun s => ((false, clear (set_done s)), left)
  else if cmd = CS.cReturn then some ((false, s), left)
  else if cmd = CS.cCallsubr then (callsubr_command run s).map fun r => (r, left)
  else if cmd = CS.cCallgsubr then (callgsubr_command run s).map fun r => (r, left)
  else if cmd = CS.cPut ∨ cmd = CS.cGet ∨ cmd = CS.cStore ∨ cmd = CS.cLoad then
    some (vector_command cmd s, left)
  else if cmd = CS.cBlend ∨ cmd = CS.cAbs ∨ cmd = CS.cAdd ∨ cmd = CS.cSub ∨ cmd = CS.cDiv
      ∨ cmd = CS.cNeg ∨ cmd = CS.cRandom ∨ cmd = CS.cMul ∨ cmd = CS.cSqrt ∨ cmd = CS.cDrop
      ∨ cmd = CS.cExch ∨ cmd = CS.cIndex ∨ cmd = CS.cRoll ∨ cmd = CS.cDup ∨ cmd = CS.cAnd
      ∨ cmd = CS.cOr ∨ cmd = CS.cNot ∨ cmd = CS.cEq ∨ cmd = CS.cIfelse ∨ cmd = CS.cPop then
    (arith_command cmd s).map fun r => (r, left)
  else if cmd = CS.cDotsection then some (finish s, left)
  else some (error errUnimplemented cmd s, left)

/-! ## `Charstring::run` -/

/-- Whether an item is a raw byte. -/
def Item.is_byte : Item → Bool
  | .byte _ => true
  | _ => false

/-- The value of a raw byte. -/
def Item.byte_value : Item → Nat
  | .byte b => b
  | _ => 0

/-- Modelled from the spec: the event loop of a Type 1 charstring (the class
`Type1Charstring` is not among the sources): each decoded event is handed
to `number` or to `type1_command`, until a handler returns false or the
events end; a raw byte is no event. -/
def run_type1 (run : Runner) : List Item → CharstringInterp → Option CharstringInterp
  | [], s => some s
  | .number v :: rest, s =>
      let r := number v s
      if r.1 then run_type1 run rest r.2 else some r.2
  | .command cmd :: rest, s =>
      match type1_command run cmd s with
      | none => none
      | some r => if r.1 then run_type1 run rest r.2 else some r.2
  | .byte _ :: rest, s => run_type1 run rest s

/-- Modelled from the spec: the event loop of a Type 2 charstring (the class
`Type2Charstring` is not among the sources): as `run_type1`, with
`type2_command`, which gets the raw bytes that follow the operator as `data`
and the number of items that follow as `*left`, and skips the items a mask
consumed. The first argument bounds the number of events. -/
def run_type2 (run : Runner) : Nat → List Item → CharstringInterp → Option CharstringInterp
  | 0, _, s => some s
  | _ + 1, [], s => some s
  | k + 1, .number v :: rest, s =>
      let r := number v s
      if r.1 then run_type2 run k rest r.2 else some r.2
  | k + 1, .command cmd :: rest, s =>
      let data := (rest.takeWhile Item.is_byte).map Item.byte_value
      match type2_command run cmd (some data) (some (rest.length : Int)) s with
      | none => none
      | some (r, left) =>
        if r.1 then run_type2 run k (rest.drop (rest.length - (left.getD 0).toNat)) r.2
        else some r.2
  | k + 1, .byte _ :: rest, s => run_type2 run k rest s

/-- Modelled from the spec: `Charstring::run(interp)`, which executes the
charstring re-entrantly on the same interpreter. The first argument bounds
the nesting of the calls of `run` (subroutines and seac glyphs); the result
is `none` when the bound is reached. -/
def run : Nat → Runner
  | 0, _, _ => none
  | fuel + 1, cs, s =>
      if cs.type2 then run_type2 (run fuel) cs.items.length cs.items s
      else run_type1 (run fuel) cs.items s

/-! ## Predicates of the statements -/

/-- The cells of the operand stack after a successful `roll_command` with the
count `n` and the amount `a`: the window of `n` cells from `base` is rotated. -/
def rolled (cells : Int → ℚ) (base n a : Int) : Int → ℚ :=
  fun c => if base ≤ c ∧ c < base + n then cells (base + (c - base + a) % n) else cells c

/-- The cells of the operand stack after a successful `roll_command` with the
window of `n` cells at `base` and the amount `a`, as the `int` arithmetic of
the source gives them: the amount after `while (amount < 0) amount += n;`,
the `int` sum `i + amount` and the C remainder. -/
def rolled_int (cells : Int → ℚ) (base n a : Int) : Int → ℚ :=
  fun c =>
    if base ≤ c ∧ c < base + n then
      cells (base + Int.tmod (wrap_int (c - base + (if a < 0 then a % n else a))) n)
    else cells c

/-- Every result of `o` satisfies `P`, on the object `proj` takes from it. -/
def Post {α : Type} (proj : α → CharstringInterp) (P : CharstringInterp → Prop)
    (o : Option α) : Prop :=
  ∀ r, o = some r → P (proj r)

/-- The subroutine depth counter is within its ceiling. -/
def DepthBounded (s : CharstringInterp) : Prop := s._subr_depth ≤ MAX_SUBR_DEPTH

/-- A runner that keeps the subroutine depth counter within its ceiling. -/
def RunnerBounded (run : Runner) : Prop :=
  ∀ cs s, DepthBounded s → Post id DepthBounded (run cs s)

/-- The states an interpreter goes through from `init()`, between two events
of a charstring, at any nesting level: the state after `init()`; the state
after an event handed to `number`, `type1_command` or `type2_command` (the
nested bodies being run by `run fuel`); the state on which `callsubr` or
`callgsubr` starts the body of a subroutine; the state on which seac starts
a glyph. -/
inductive Reachable : CharstringInterp → Prop
  | init (s : CharstringInterp) : Reachable (init s)
  | number (v : ℚ) (s : CharstringInterp) : Reachable s → Reachable (number v s).2
  | type1_command (fuel : Nat) (cmd : Int) (s : CharstringInterp) (r : Result) :
      Reachable s → type1_command (run fuel) cmd s = some r → Reachable r.2
  | type2_command (fuel : Nat) (cmd : Int) (data : Option (List Nat)) (left : Option Int)
      (s : CharstringInterp) (r : Result × Option Int) :
      Reachable s → type2_command (run fuel) cmd data left s = some r → Reachable r.1.2
  | callsubr_body (s : CharstringInterp) (cs : Charstring) (t : CharstringInterp) :
      Reachable s → callsubr_enter s = .inr (cs, t) → Reachable t
  | callgsubr_body (s : CharstringInterp) (cs : Charstring) (t : CharstringInterp) :
      Reachable s → callgsubr_enter s = .inr (cs, t) → Reachable t
  | seac_glyph (s : CharstringInterp) (origin : Point) :
      Reachable s → Reachable { { init s with _seac_origin := origin } with _state := S_SEAC }

/-! ## Concrete inputs -/

/-- The object of the Blend scenario of the spec: weights `[0.25, 0.75]`,
operands `10 20 1 3` and the count `2`. -/
def C1_input : CharstringInterp :=
  push 2 (push 3 (push 1 (push 20 (push 10 (create none (some [1 / 4, 3 / 4]))))))

/-- The operands `10 20 30 40 50`, the count `3` and the amount `2147483647`,
the largest `int`. -/
def C2_overflow_input : CharstringInterp :=
  push 2147483647 (push 3 (push 50 (push 40 (push 30 (push 20 (push 10 (create none none)))))))

/-- The object of the Roll example: the operands `1 2 3 4`, the count `3`
and the amount `-1`. -/
def C2_input : CharstringInterp :=
  push (-1) (push 3 (push 4 (push 3 (push 2 (push 1 (create none none))))))

/-- The operands `1 2 5 3`, on which `top(1) = 5 > top(0) = 3`. -/
def C4_input : CharstringInterp :=
  push 3 (push 5 (push 2 (push 1 (create none none))))

/-- The uniform weights `[1/2, 1/2]`, the operands `1 1` and the count `1`. -/
def C5_input : CharstringInterp :=
  push 1 (push 1 (push 1 (create none (some (List.replicate 2 (1 / 2))))))

/-- The weight vector `[1]`, the operand `7` and the count `1`. -/
def C6_input : CharstringInterp :=
  push 1 (push 7 (create none (some [1])))

/-- The single operand `5`. -/
def C7_input : CharstringInterp :=
  push 5 (create none none)

/-- The weights `[1/2, 1/2]` and the single operand `-100`, a negative count
for Blend. -/
def C8_blend_input : CharstringInterp :=
  push (-100) (create none (some [1 / 2, 1 / 2]))

/-- The operands `-60 5`: the unknown othersubr `5` called with the negative
argument count `-60`. -/
def C8_othersubr_input : CharstringInterp :=
  push 5 (push (-60) (create none none))

/-- A program whose subroutines all are `0 0 0 65 66 seac` and whose glyphs
all are `endchar`. -/
def C10_program : EfontProgram :=
  { subr := fun _ =>
      some ⟨false, [.number 0, .number 0, .number 0, .number 65, .number 66, .command CS.cSeac]⟩,
    gsubr := fun _ => none,
    glyph := fun _ => some ⟨false, [.command CS.cEndchar]⟩,
    norm_design_vector := none, design_vector := none, writable_vectors := false,
    global_width_x := fun _ => none }

/-- The object after `init()` on `C10_program`, with the subroutine number `0`
on the operand stack. -/
def C10_input : CharstringInterp :=
  push 0 { create (some C10_program) none with standard_encoding := some (fun _ => "A") }

/-- The same object with the subroutine number `3` and the subroutine depth
counter at `MAX_SUBR_DEPTH`. -/
def C9_input : CharstringInterp :=
  push 3 { create (some C10_program) none with _subr_depth := MAX_SUBR_DEPTH }

/-- A program with the subroutines `100: 101 callsubr return`,
`101: 102 callsubr return`, `102: 0 0 0 65 66 seac`, `n: n+1 callsubr return`
for `0 ≤ n < 9` and `9: 7 9 hstem return`, and whose glyphs all are
`0 callsubr endchar`. -/
def C9_program : EfontProgram :=
  { subr := fun n =>
      if 0 ≤ n ∧ n < 9 then
        some ⟨false, [.number (n + 1), .command CS.cCallsubr, .command CS.cReturn]⟩
      else if n = 9 then
        some ⟨false, [.number 7, .number 9, .command CS.cHstem, .command CS.cReturn]⟩
      else if n = 100 ∨ n = 101 then
        some ⟨false, [.number (n + 1), .command CS.cCallsubr, .command CS.cReturn]⟩
      else if n = 102 then
        some ⟨false, [.number 0, .number 0, .number 0, .number 65, .number 66,
          .command CS.cSeac]⟩
      else none,
    gsubr := fun _ => none,
    glyph := fun _ => some ⟨false, [.number 0, .command CS.cCallsubr, .command CS.cEndchar]⟩,
    norm_design_vector := none, design_vector := none, writable_vectors := false,
    global_width_x := fun _ => none }

/-- The Type 1 charstring `100 callsubr endchar`. -/
def C9_charstring : Charstring :=
  ⟨false, [.number 100, .command CS.cCallsubr, .command CS.cEndchar]⟩

/-- The object after `init()` on `C9_program`, with the default callbacks. -/
def C9_deep_input : CharstringInterp :=
  init { create (some C9_program) none with standard_encoding := some (fun _ => "A") }

/-! ## Inputs and predicates of the statements on the dispatchers -/

/-- The charstring `0 0 hsbw 1 2 rmoveto 3 4 rlineto endchar`. -/
def C20_acute : Charstring :=
  ⟨false, [.number 0, .number 0, .command CS.cHsbw,
    .number 1, .number 2, .command CS.cRmoveto,
    .number 3, .number 4, .command CS.cRlineto, .command CS.cEndchar]⟩

/-- The charstring `0 0 hsbw 5 6 rmoveto 7 8 rlineto endchar`. -/
def C20_e : Charstring :=
  ⟨false, [.number 0, .number 0, .command CS.cHsbw,
    .number 5, .number 6, .command CS.cRmoveto,
    .number 7, .number 8, .command CS.cRlineto, .command CS.cEndchar]⟩

/-- A program whose glyph `acute` is `C20_acute`, whose glyph `e` is `C20_e`
and whose glyph `bad` is `hmoveto` with no operand. -/
def C20_program : EfontProgram :=
  { subr := fun _ => none,
    gsubr := fun _ => none,
    glyph := fun name =>
      if name = "acute" then some C20_acute
      else if name = "e" then some C20_e
      else if name = "bad" then some ⟨false, [.command CS.cHmoveto]⟩
      else none,
    norm_design_vector := none, design_vector := none, writable_vectors := false,
    global_width_x := fun _ => none }

/-- An object on `C20_program` with the sidebearing point `(30, 0)` and the
seac origin `(1000, 0)`, the standard encoding naming the glyph `acute` at
`194`, the glyph `bad` at `0` and the glyph `e` elsewhere, and a sink that
records every callback but seac. -/
def C20_input : CharstringInterp :=
  { create (some C20_program) none with
    _lsb := ⟨30, 0⟩, _seac_origin := ⟨1000, 0⟩,
    standard_encoding :=
      some (fun c => if c = 194 then "acute" else if c = 0 then "bad" else "e"),
    sink := fun a => match a with
      | .seac _ _ _ _ _ _ => none
      | _ => some none }

/-- The object after the run of the accent glyph `acs` by the default seac on
`C20_input` with `asb = 20`, `adx = 100`, `ady = 200`. -/
def C20_accent_result (acs : Charstring) : CharstringInterp :=
  (run 1 acs
    { { init C20_input with
        _seac_origin := ⟨100 + C20_input._lsb.x - 20, 200 + C20_input._lsb.y⟩ }
      with _state := S_SEAC }).getD C20_input

/-- The object on which `cHintmask`/`cCntrmask` test `_t2nhints == 0`: after
`if (_state == S_HSTEM && size() >= 2) for (...) { _t2nhints++; act_vstem(...); ... }`
and `if (_state < S_HINTMASK) _state = S_HINTMASK;`. -/
def hintmask_ready (cmd : Int) (s : CharstringInterp) : CharstringInterp :=
  let s :=
    if s._state = S_HSTEM ∧ s.size ≥ 2 then t2_stem_loop cmd false s.size.toNat 0 0 s
    else s
  if s._state < S_HINTMASK then { s with _state := S_HINTMASK } else s

/-- The trace of `x` is the trace of `s` followed by calls that satisfy `P`. -/
def Emits (P : Act → Prop) (s x : CharstringInterp) : Prop :=
  ∃ l : List (Int × Act), x._trace = s._trace ++ l ∧ ∀ e ∈ l, P e.2

/-- An object whose callbacks are all overridden by methods that record the
call and report no error. -/
def recording : CharstringInterp :=
  { create none none with sink := fun _ => some none }

/-- The recording object in state Hstem with `8` declared hints and the two
operands `10 20`, a pending vertical stem. -/
def C18_input : CharstringInterp :=
  push 20 (push 10 { recording with _state := S_HSTEM, _t2nhints := 8 })

/-- The recording object in state Path with one declared hint and the two
operands `10 20`. -/
def C15_stem_input : CharstringInterp :=
  push 20 (push 10 { recording with _state := S_PATH, _t2nhints := 1 })

/-- The argument of `CHECK_STACK` in the case of each drawing opcode of
`type2_command` (`0` for the other opcodes). -/
def t2_draw_operands (cmd : Int) : Int :=
  if cmd = CS.cRlineto then 2
  else if cmd = CS.cHlineto then 1
  else if cmd = CS.cVlineto then 1
  else if cmd = CS.cRrcurveto then 6
  else if cmd = CS.cHhcurveto then 4
  else if cmd = CS.cHvcurveto then 4
  else if cmd = CS.cRcurveline then 8
  else if cmd = CS.cRlinecurve then 8
  else if cmd = CS.cVhcurveto then 4
  else if cmd = CS.cVvcurveto then 4
  else if cmd = CS.cFlex then 13
  else if cmd = CS.cHflex then 7
  else if cmd = CS.cHflex1 then 9
  else if cmd = CS.cFlex1 then 11
  else 0

/-- The drawing opcodes of Type 2. -/
def t2_drawing : List Int :=
  [CS.cRlineto, CS.cHlineto, CS.cVlineto, CS.cRrcurveto, CS.cHhcurveto, CS.cHvcurveto,
   CS.cVhcurveto, CS.cVvcurveto, CS.cRcurveline, CS.cRlinecurve, CS.cFlex, CS.cHflex,
   CS.cHflex1, CS.cFlex1]

/-- The recording object in state Initial with the two operands `10 20`. -/
def C16_early_input : CharstringInterp :=
  push 20 (push 10 recording)

/-- The recording object in state IPath with the two operands `10 20`. -/
def C16_late_input : CharstringInterp :=
  push 20 (push 10 { recording with _state := S_IPATH })

/-- The argument of `CHECK_STACK` in the cases `cRmoveto`, `cHmoveto` and
`cVmoveto` of `type1_command` and of `type2_command`. -/
def moveto_operands (cmd : Int) : Int := if cmd = CS.cRmoveto then 2 else 1

/-- The first argument of `act_rmoveto` in the moveto cases, the arguments
starting at `bottom`: `at(bottom)` for `cRmoveto` and `cHmoveto`, `0` for
`cVmoveto`. -/
def moveto_dx (cmd : Int) (bottom : Int) (s : CharstringInterp) : ℚ :=
  if cmd = CS.cVmoveto then 0 else s.«at» bottom

/-- The second argument of `act_rmoveto` in the moveto cases: `at(bottom + 1)`
for `cRmoveto`, `0` for `cHmoveto`, `at(bottom)` for `cVmoveto`. -/
def moveto_dy (cmd : Int) (bottom : Int) (s : CharstringInterp) : ℚ :=
  if cmd = CS.cRmoveto then s.«at» (bottom + 1)
  else if cmd = CS.cHmoveto then 0
  else s.«at» bottom

/-- The recording object in state Path at the point `(1, 2)` with the two
operands `10 20`. -/
def C17_input : CharstringInterp :=
  push 20 (push 10 { recording with _state := S_PATH, _cp := ⟨1, 2⟩ })

/-- The Type 1 charstring `a w hsbw dx e hmoveto lx ly rlineto endchar`. -/
def C13_charstring (a w dx e lx ly : ℚ) : Charstring :=
  ⟨false, [.number a, .number w, .command CS.cHsbw, .number dx, .number e,
    .command CS.cHmoveto, .number lx, .number ly, .command CS.cRlineto,
    .command CS.cEndchar]⟩

/-- The Type 1 charstring `a w hsbw dx e hmoveto`. -/
def C13_start (a w dx e : ℚ) : Charstring :=
  ⟨false, [.number a, .number w, .command CS.cHsbw, .number dx, .number e,
    .command CS.cHmoveto]⟩

/-- Whether a call is a call of `act_sidebearing`. -/
def is_sidebearing : Act → Bool
  | .sidebearing _ _ => true
  | _ => false

/-- The number of calls of `act_sidebearing` in a trace. -/
def sbcount (l : List (Int × Act)) : Nat := (l.filter fun e => is_sidebearing e.2).length

/-- The step from `s` to `x` keeps the flag `_done` and the number of calls of
`act_sidebearing`, and does not enter the state Initial. -/
def Neutral (s x : CharstringInterp) : Prop :=
  x._done = s._done ∧ sbcount x._trace = sbcount s._trace
    ∧ (x._state = S_INITIAL → s._state = S_INITIAL)

/-- The argument of `CHECK_STACK` in the cases `cHsbw` and `cSbw` of
`type1_command`. -/
def sbw_operands (cmd : Int) : Int := if cmd = CS.cHsbw then 2 else 4

/-- The point `_seac_origin.shifted(at(0), 0)` of `cHsbw` and
`_seac_origin.shifted(at(0), at(1))` of `cSbw`. -/
def sbw_point (cmd : Int) (s : CharstringInterp) : Point :=
  if cmd = CS.cHsbw then s._seac_origin.shifted (s.«at» 0) 0
  else s._seac_origin.shifted (s.«at» 0) (s.«at» 1)

/-- The argument `Point(at(1), 0)` of `act_width` in `cHsbw` and
`Point(at(2), at(3))` in `cSbw`. -/
def sbw_width (cmd : Int) (s : CharstringInterp) : Point :=
  if cmd = CS.cHsbw then ⟨s.«at» 1, 0⟩ else ⟨s.«at» 2, s.«at» 3⟩

/-- The value `1` in state Initial and `0` in any other state. -/
def initial_ind (s : CharstringInterp) : Nat := if s._state = S_INITIAL then 1 else 0

/-- From `s` to `x` no call of `act_sidebearing` is lost, and at most one is
added: one only if `s` is in state Initial, and then `x` is not. -/
def SBInv (s x : CharstringInterp) : Prop :=
  sbcount s._trace ≤ sbcount x._trace
    ∧ sbcount x._trace + initial_ind x ≤ sbcount s._trace + initial_ind s

/-- A runner that satisfies `SBInv` from the object it starts on to its result. -/
def RunnerSB (run : Runner) : Prop :=
  ∀ cs t x, run cs t = some x → SBInv t x

/-- The recording object after `init()` with the operands `100 200`. -/
def C12_input : CharstringInterp :=
  push 200 (push 100 recording)

/-- The Type 1 charstring `30 500 hsbw 20 100 200 101 194 seac`, whose accent
(`194`, the glyph `acute` of `C20_program`) and base (`101`, the glyph `e`)
both start with `0 0 hsbw`. -/
def C12_seac_charstring : Charstring :=
  ⟨false, [.number 30, .number 500, .command CS.cHsbw, .number 20, .number 100,
    .number 200, .number 101, .number 194, .command CS.cSeac]⟩

/-- The event loop of a charstring stops at `x` because endchar was executed:
`Ends fuel type2 k items s x` follows the event loop (`run_type2` with the
bound `k` when `type2`, `run_type1` otherwise) on `items` from `s`, the bodies
of subroutines being run by `run fuel`, through the handlers that return true,
up to an endchar, or up to a callsubr or callgsubr whose body, run by
`run fuel`, stops because endchar was executed. -/
inductive Ends : Nat → Bool → Nat → List Item → CharstringInterp → CharstringInterp → Prop
  | endchar1 (fuel k : Nat) (rest : List Item) (s : CharstringInterp) (r : Result) :
      type1_command (run fuel) CS.cEndchar s = some r →
      Ends fuel false k (.command CS.cEndchar :: rest) s r.2
  | callsubr1 (fuel k : Nat) (rest : List Item) (s : CharstringInterp) (sub : Charstring)
      (t x : CharstringInterp) :
      callsubr_enter s = .inr (sub, t) →
      Ends fuel sub.type2 sub.items.length sub.items t x →
      Ends (fuel + 1) false k (.command CS.cCallsubr :: rest) s (subr_leave x).2
  | number1 (fuel k : Nat) (v : ℚ) (rest : List Item) (s x : CharstringInterp) :
      Ends fuel false k rest (number v s).2 x →
      Ends fuel false k (.number v :: rest) s x
  | command1 (fuel k : Nat) (cmd : Int) (rest : List Item) (s x : CharstringInterp)
      (r : Result) :
      type1_command (run fuel) cmd s = some r → r.1 = true →
      Ends fuel false k rest r.2 x →
      Ends fuel false k (.command cmd :: rest) s x
  | byte1 (fuel k : Nat) (b : Nat) (rest : List Item) (s x : CharstringInterp) :
      Ends fuel false k rest s x →
      Ends fuel false k (.byte b :: rest) s x
  | endchar2 (fuel k : Nat) (rest : List Item) (s : CharstringInterp)
      (r : Result × Option Int) :
      type2_command (run fuel) CS.cEndchar
        (some ((rest.takeWhile Item.is_byte).map Item.byte_value))
        (some (rest.length : Int)) s = some r →
      Ends fuel true (k + 1) (.command CS.cEndchar :: rest) s r.1.2
  | callsubr2 (fuel k : Nat) (rest : List Item) (s : CharstringInterp) (sub : Charstring)
      (t x : CharstringInterp) :
      callsubr_enter s = .inr (sub, t) →
      Ends fuel sub.type2 sub.items.length sub.items t x →
      Ends (fuel + 1) true (k + 1) (.command CS.cCallsubr :: rest) s (subr_leave x).2
  | callgsubr2 (fuel k : Nat) (rest : List Item) (s : CharstringInterp) (sub : Charstring)
      (t x : CharstringInterp) :
      callgsubr_enter s = .inr (sub, t) →
      Ends fuel sub.type2 sub.items.length sub.items t x →
      Ends (fuel + 1) true (k + 1) (.command CS.cCallgsubr :: rest) s (subr_leave x).2
  | number2 (fuel k : Nat) (v : ℚ) (rest : List Item) (s x : CharstringInterp) :
      Ends fuel true k rest (number v s).2 x →
      Ends fuel true (k + 1) (.number v :: rest) s x
  | command2 (fuel k : Nat) (cmd : Int) (rest : List Item) (s x : CharstringInterp)
      (r : Result) (left : Option Int) :
      type2_command (run fuel) cmd
        (some ((rest.takeWhile Item.is_byte).map Item.byte_value))
        (some (rest.length : Int)) s = some (r, left) → r.1 = true →
      Ends fuel true k (rest.drop (rest.length - (left.getD 0).toNat)) r.2 x →
      Ends fuel true (k + 1) (.command cmd :: rest) s x
  | byte2 (fuel k : Nat) (b : Nat) (rest : List Item) (s x : CharstringInterp) :
      Ends fuel true k rest s x →
      Ends fuel true (k + 1) (.byte b :: rest) s x

/-- A program whose subroutine `0` is `1 callsubr 9 9 rlineto`, whose
subroutine `1` is `endchar` and whose subroutine `2` is `5 6 rmoveto return`. -/
def C11_program : EfontProgram :=
  { subr := fun n =>
      if n = 0 then
        some ⟨false, [.number 1, .command CS.cCallsubr, .number 9, .number 9,
          .command CS.cRlineto]⟩
      else if n = 1 then some ⟨false, [.command CS.cEndchar]⟩
      else if n = 2 then
        some ⟨false, [.number 5, .number 6, .command CS.cRmoveto, .command CS.cReturn]⟩
      else none,
    gsubr := fun _ => none,
    glyph := fun _ => none,
    norm_design_vector := none, design_vector := none, writable_vectors := false,
    global_width_x := fun _ => none }

/-- The recording object on `C11_program` after `init()`, with the subroutine
number `0` on the operand stack. -/
def C11_input : CharstringInterp :=
  push 0 { create (some C11_program) none with sink := fun _ => some none }

/-- The same object with the subroutine number `2` on the operand stack. -/
def C11_return_input : CharstringInterp :=
  push 2 { create (some C11_program) none with sink := fun _ => some none }

/-- The object on which `callsubr` starts the body of the subroutine whose
number is on top of the stack of `s`: the number popped and the depth counter
raised. -/
def C11_entry (s : CharstringInterp) : CharstringInterp :=
  { (s.pop 1).2 with _subr_depth := (s.pop 1).2._subr_depth + 1 }

/-! ## Inputs and predicates of the statements on errors, othersubrs and the ordering state -/

/-- The object after `init()` and `STACK_SIZE` events `number(0)`: the operand
stack is full. -/
def C24_input : CharstringInterp :=
  (List.replicate 48 (0 : ℚ)).foldl (fun s v => (number v s).2) (create none none)

/-- The operands `1 2`. -/
def C29_input : CharstringInterp :=
  push 2 (push 1 (create none none))

/-- The Type 2 charstring `0 0 rmoveto 1 2 3 4 rlineto`: a moveto and a
repeating rlineto that draws two lines. -/
def C22_charstring : Charstring :=
  ⟨true, [.number 0, .number 0, .command CS.cRmoveto,
    .number 1, .number 2, .number 3, .number 4, .command CS.cRlineto]⟩

/-- The Type 2 charstring `0 0 rmoveto 1 2 3 4 5 6 7 8 9 10 11 12 50 flex`. -/
def C22_flex_charstring : Charstring :=
  ⟨true, [.number 0, .number 0, .command CS.cRmoveto,
    .number 1, .number 2, .number 3, .number 4, .number 5, .number 6, .number 7,
    .number 8, .number 9, .number 10, .number 11, .number 12, .number 50,
    .command CS.cFlex]⟩

/-- An object whose callback `act_line` is overridden by a method that reports
`errInternal`, the other callbacks being overridden by methods that report no
error. -/
def C22_failing_sink : CharstringInterp :=
  { create none none with
    sink := fun a => match a with
      | .line _ _ _ => some (some (errInternal, 0))
      | _ => some none }

/-- The object in state IPath with the operands `1 2 3 4` and the default
callbacks. -/
def C22_line_input : CharstringInterp :=
  push 4 (push 3 (push 2 (push 1 { create none none with _state := S_IPATH })))

/-- The Type 2 charstring `0 0 rmoveto 1 2 3 4 rlineto 5 6 rlineto`. -/
def C22_long_charstring : Charstring :=
  ⟨true, C22_charstring.items ++ [.number 5, .number 6, .command CS.cRlineto]⟩

/-- The argument of `CHECK_STACK` in the case of each drawing opcode of
`type1_command` (`0` for the other opcodes). -/
def t1_draw_operands (cmd : Int) : Int :=
  if cmd = CS.cHlineto then 1
  else if cmd = CS.cHvcurveto then 4
  else if cmd = CS.cRlineto then 2
  else if cmd = CS.cRrcurveto then 6
  else if cmd = CS.cVhcurveto then 4
  else if cmd = CS.cVlineto then 1
  else 0

/-- The drawing opcodes of Type 1. -/
def t1_drawing : List Int :=
  [CS.cHlineto, CS.cHvcurveto, CS.cRlineto, CS.cRrcurveto, CS.cVhcurveto, CS.cVlineto]

/-- The call `act_seac(cmd, at(0), at(1), at(2), (int)at(3), (int)at(4))` of
the case `cSeac` of `type1_command`, as a recorded call. -/
def seac_call (s : CharstringInterp) : Act :=
  Act.seac CS.cSeac (s.«at» 0) (s.«at» 1) (s.«at» 2) (toInt (s.«at» 3)) (toInt (s.«at» 4))

/-- A program whose glyphs all are `0 0 hsbw 5 6 rmoveto`, with no endchar. -/
def C21_program : EfontProgram :=
  { subr := fun _ => none,
    gsubr := fun _ => none,
    glyph := fun _ => some ⟨false, [.number 0, .number 0, .command CS.cHsbw,
      .number 5, .number 6, .command CS.cRmoveto]⟩,
    norm_design_vector := none, design_vector := none, writable_vectors := false,
    global_width_x := fun _ => none }

/-- The Type 1 charstring `30 500 hsbw 20 100 200 101 194 seac` run from
`init()` up to its seac: the object on which seac is executed. -/
def C21_before_seac (s0 : CharstringInterp) : CharstringInterp :=
  (run_type1 (run 0)
    [.number 30, .number 500, .command CS.cHsbw, .number 20, .number 100,
     .number 200, .number 101, .number 194] (init s0)).getD s0

/-- The value `nargs` of `mm_command` for each multiple master othersubr
(`0` for any other number, for which the source returns `errInternal`). -/
def mm_nargs (command : Int) : Int :=
  if command = CS.othcMM1 then 1
  else if command = CS.othcMM2 then 2
  else if command = CS.othcMM3 then 3
  else if command = CS.othcMM4 then 4
  else if command = CS.othcMM6 then 6
  else 0

/-- The multiple master othersubrs. -/
def mm_commands : List Int := [CS.othcMM1, CS.othcMM2, CS.othcMM3, CS.othcMM4, CS.othcMM6]

/-- The `j`-th result of a multiple master othersubr with `nargs` arguments on
the `on_stack` topmost operands of `s`, for the weight vector `w` of length
`m`: the `j`-th of the first `nargs` operands, plus the sum over the masters
`k = 1 .. m - 1` of `w[k]` times the operand at offset
`nargs + j * (m - 1) + (k - 1)`. -/
def mm_result (w : List ℚ) (nargs on_stack : Int) (s : CharstringInterp) (j : Nat) : ℚ :=
  s.«at» (s.size - on_stack + j)
    + ∑ k in Finset.Ico 1 w.length,
        w.getD k 0 * s.«at» (s.size - on_stack + (nargs + j * (w.length - 1) + (k - 1)))

/-- The weights `[1/2, 1/2]` and the operands `1 1`: one argument for two
masters. -/
def C25_input : CharstringInterp :=
  push 1 (push 1 (create none (some [1 / 2, 1 / 2])))

/-- The weights `[1/4, 3/4]`, the operand `9` and above it the operands
`10 20 1 3`: two arguments for two masters. -/
def C26_input : CharstringInterp :=
  push 3 (push 1 (push 20 (push 10 (push 9 (create none (some [1 / 4, 3 / 4]))))))

/-- Whether a call is a call of `act_flex`. -/
def is_flex : Act → Bool
  | .flex _ _ _ _ _ _ _ _ _ => true
  | _ => false

/-- The Type 1 flex sequence of the Adobe convention, run from `init()` on the
recording object: `100 0 hsbw 10 20 rmoveto`, then `0 1 callothersubr`
(Flexbegin), seven times `dx dy rmoveto 0 2 callothersubr` (Flexmiddle) and the
operands `50 77 88` of Flexend: the object on which `3 0 callothersubr` is
executed. -/
def C27_input : CharstringInterp :=
  (run_type1 (run 0)
    [.number 100, .number 0, .command CS.cHsbw, .number 10, .number 20, .command CS.cRmoveto,
     .number 0, .number 1, .command CS.cCallothersubr,
     .number 1, .number 1, .command CS.cRmoveto, .number 0, .number 2, .command CS.cCallothersubr,
     .number 2, .number 0, .command CS.cRmoveto, .number 0, .number 2, .command CS.cCallothersubr,
     .number 3, .number 1, .command CS.cRmoveto, .number 0, .number 2, .command CS.cCallothersubr,
     .number 4, .number 0, .command CS.cRmoveto, .number 0, .number 2, .command CS.cCallothersubr,
     .number 5, .number (-1), .command CS.cRmoveto, .number 0, .number 2, .command CS.cCallothersubr,
     .number 6, .number 0, .command CS.cRmoveto, .number 0, .number 2, .command CS.cCallothersubr,
     .number 7, .number (-1), .command CS.cRmoveto, .number 0, .number 2, .command CS.cCallothersubr,
     .number 50, .number 77, .number 88] (init recording)).getD recording

/-- The sum `at(0) + at(2) + at(4) + at(6) + at(8)` of `cFlex1`. -/
def flex1_dx (s : CharstringInterp) : ℚ :=
  s.«at» 0 + s.«at» 2 + s.«at» 4 + s.«at» 6 + s.«at» 8

/-- The sum `at(1) + at(3) + at(5) + at(7) + at(9)` of `cFlex1`. -/
def flex1_dy (s : CharstringInterp) : ℚ :=
  s.«at» 1 + s.«at» 3 + s.«at» 5 + s.«at» 7 + s.«at» 9

/-- The first five deltas of `cFlex1`: the operands `at(0)` to `at(9)` in
pairs. -/
def flex1_deltas (s : CharstringInterp) : List (ℚ × ℚ) :=
  [(s.«at» 0, s.«at» 1), (s.«at» 2, s.«at» 3), (s.«at» 4, s.«at» 5), (s.«at» 6, s.«at» 7),
   (s.«at» 8, s.«at» 9)]

/-- The sixth delta of `cFlex1`: `(at(10), -dy)` when `fabs(dx) > fabs(dy)`,
`(-dx, at(10))` otherwise. -/
def flex1_last (s : CharstringInterp) : ℚ × ℚ :=
  if |flex1_dx s| > |flex1_dy s| then (s.«at» 10, -flex1_dy s) else (-flex1_dx s, s.«at» 10)

/-- The point reached from `p` by the deltas `ds`, one after the other. -/
def path_point (p : Point) (ds : List (ℚ × ℚ)) : Point :=
  ds.foldl (fun q d => q.shifted d.1 d.2) p

/-! ### The sums of `cFlex1` in `double` arithmetic -/

/-- The power `2 ^ e` for an integer exponent. -/
def pow2 (e : Int) : ℚ :=
  if 0 ≤ e then ((2 ^ e.toNat : Nat) : ℚ) else 1 / ((2 ^ (-e).toNat : Nat) : ℚ)

/-- The loop of `floor_log2`; the first argument bounds the number of
halvings. -/
def floor_log2_loop : Nat → Nat → Nat
  | 0, _ => 0
  | k + 1, n => if n < 2 then 0 else floor_log2_loop k (n / 2) + 1

/-- The integer part of the binary logarithm of `n ≥ 1`. -/
def floor_log2 (n : Nat) : Nat := floor_log2_loop n n

/-- The `double` nearest to the real number `q`: IEEE 754 binary64 with 53
significant bits, rounding to nearest, ties to even; the bounds of the
exponent range (overflow, subnormal numbers) are left out. -/
def round_double (q : ℚ) : ℚ :=
  if q = 0 then 0 else
  let a := |q|
  let e0 : Int := (floor_log2 a.num.natAbs : Int) - (floor_log2 a.den : Int)
  let e : Int := if pow2 e0 ≤ a then e0 else e0 - 1
  let m : ℚ := a * pow2 (52 - e)
  let f : Int := m.num / (m.den : Int)
  let rem : ℚ := m - f
  let r : Int := if rem > 1 / 2 ∨ (rem = 1 / 2 ∧ f % 2 = 1) then f + 1 else f
  (if q < 0 then -1 else 1) * (r : ℚ) * pow2 (e - 52)

/-- The sum `a + b` of two `double` values as the program computes it: the
exact sum, rounded by `rnd`. -/
def rounded_add (rnd : ℚ → ℚ) (a b : ℚ) : ℚ := rnd (a + b)

/-- The point `Point(p, dx, dy)` and `p.shifted(dx, dy)`, with each of the two
additions rounded by `rnd`. -/
def rounded_shift (rnd : ℚ → ℚ) (p : Point) (dx dy : ℚ) : Point :=
  ⟨rounded_add rnd p.x dx, rounded_add rnd p.y dy⟩

/-- The current point after the case `cFlex1` of `type2_command`, every
addition being rounded by `rnd`, for the current point `cp` and the operands
`at(0) .. at(10)` given by `a`: the sums `dx` and `dy`, the choice of the sixth
delta, and the six additions of `act_rrflex`. -/
def flex1_end (rnd : ℚ → ℚ) (cp : Point) (a : Int → ℚ) : Point :=
  let dx := rounded_add rnd (rounded_add rnd (rounded_add rnd (rounded_add rnd
    (a 0) (a 2)) (a 4)) (a 6)) (a 8)
  let dy := rounded_add rnd (rounded_add rnd (rounded_add rnd (rounded_add rnd
    (a 1) (a 3)) (a 5)) (a 7)) (a 9)
  let p1 := rounded_shift rnd cp (a 0) (a 1)
  let p2 := rounded_shift rnd p1 (a 2) (a 3)
  let p3_4 := rounded_shift rnd p2 (a 4) (a 5)
  let p5 := rounded_shift rnd p3_4 (a 6) (a 7)
  let p6 := rounded_shift rnd p5 (a 8) (a 9)
  if |dx| > |dy| then rounded_shift rnd p6 (a 10) (-dy) else rounded_shift rnd p6 (-dx) (a 10)

/-- The exact values of the sums that `cFlex1` and `act_rrflex` compute, for
the current point `cp` and the operands given by `a`: the partial sums of `dx`
and of `dy`, the coordinates of the points `p1` to `p6`, and the coordinates
of the end point for either choice of the sixth delta. When each of them is a
`double`, no addition of the flex rounds. -/
def flex1_sums (cp : Point) (a : Int → ℚ) : List ℚ :=
  [a 0 + a 2, a 0 + a 2 + a 4, a 0 + a 2 + a 4 + a 6, a 0 + a 2 + a 4 + a 6 + a 8,
   a 1 + a 3, a 1 + a 3 + a 5, a 1 + a 3 + a 5 + a 7, a 1 + a 3 + a 5 + a 7 + a 9,
   cp.x + a 0, cp.x + a 0 + a 2, cp.x + a 0 + a 2 + a 4, cp.x + a 0 + a 2 + a 4 + a 6,
   cp.x + a 0 + a 2 + a 4 + a 6 + a 8,
   cp.y + a 1, cp.y + a 1 + a 3, cp.y + a 1 + a 3 + a 5, cp.y + a 1 + a 3 + a 5 + a 7,
   cp.y + a 1 + a 3 + a 5 + a 7 + a 9,
   cp.x + a 0 + a 2 + a 4 + a 6 + a 8 + a 10,
   cp.y + a 1 + a 3 + a 5 + a 7 + a 9 + -(a 1 + a 3 + a 5 + a 7 + a 9),
   cp.x + a 0 + a 2 + a 4 + a 6 + a 8 + -(a 0 + a 2 + a 4 + a 6 + a 8),
   cp.y + a 1 + a 3 + a 5 + a 7 + a 9 + a 10]

/-- The operands `10 1 10 1 10 1 10 1 10 1 7`, for which `dx = 50` and `dy = 5`. -/
def C28_operands (i : Int) : ℚ :=
  if i = 10 then 7 else if i % 2 = 0 then 10 else 1

/-- The recording object in state IPath at the point `(100, 200)` with the
operands `10 1 20 2 30 3 40 -4 50 5 7`, for which `dx = 150` and `dy = 7`. -/
def C28_wide_input : CharstringInterp :=
  push 7 (push 5 (push 50 (push (-4) (push 40 (push 3 (push 30 (push 2 (push 20 (push 1
    (push 10 { recording with _state := S_IPATH, _cp := ⟨100, 200⟩ }))))))))))

/-- The recording object in state IPath at the point `(100, 200)` with the
operands `1 10 2 20 3 30 -4 40 5 50 7`, for which `dx = 7` and `dy = 150`. -/
def C28_tall_input : CharstringInterp :=
  push 7 (push 50 (push 5 (push 40 (push (-4) (push 30 (push 3 (push 20 (push 2 (push 10
    (push 1 { recording with _state := S_IPATH, _cp := ⟨100, 200⟩ }))))))))))

/-- Whether a call is a call of `act_seac`. -/
def is_seac : Act → Bool
  | .seac _ _ _ _ _ _ => true
  | _ => false

/-- The number of calls of `act_seac` in a trace. -/
def seaccount (l : List (Int × Act)) : Nat := (l.filter fun e => is_seac e.2).length

/-- The step from `s` to `x` adds no call of `act_seac`, and the state of `x`
is not earlier than the state of `s`, or it is IPath or Path. -/
def Forward (s x : CharstringInterp) : Prop :=
  seaccount x._trace = seaccount s._trace ∧ (s._state ≤ x._state ∨ S_IPATH ≤ x._state)

/-- From `s` to `x` no call of `act_seac` is lost, and if none is added the
state of `x` is not earlier than the state of `s`, or it is IPath or Path. -/
def SeacInv (s x : CharstringInterp) : Prop :=
  seaccount s._trace ≤ seaccount x._trace
    ∧ (seaccount x._trace = seaccount s._trace → (s._state ≤ x._state ∨ S_IPATH ≤ x._state))

/-- A runner that satisfies `SeacInv` from the object it starts on to its
result. -/
def RunnerSeac (run : Runner) : Prop :=
  ∀ cs t x, run cs t = some x → SeacInv t x

/-- The argument count each ITC othersubr tests `on_stack` against in
`itc_command` (`0` for the numbers that have no case there). -/
def itc_nargs (command : Int) : Int :=
  if command = CS.othcITC_load then 1
  else if command = CS.othcITC_put then 2
  else if command = CS.othcITC_get then 1
  else if command = CS.othcITC_add then 2
  else if command = CS.othcITC_sub then 2
  else if command = CS.othcITC_mul then 2
  else if command = CS.othcITC_div then 2
  else if command = CS.othcITC_ifelse then 4
  else 0

/-- The ITC othersubrs of `itc_command` that call `ps_push`. -/
def itc_pushing : List Int :=
  [CS.othcITC_get, CS.othcITC_add, CS.othcITC_sub, CS.othcITC_mul, CS.othcITC_div,
   CS.othcITC_ifelse]

/-- The value an ITC othersubr of `itc_pushing` hands to `ps_push`, read from
the operand stack with `base = size() - on_stack`. -/
def itc_value (command : Int) (s : CharstringInterp) : ℚ :=
  let base := s.size - itc_nargs command
  if command = CS.othcITC_get then s.scratch_read (toInt (s.«at» base))
  else if command = CS.othcITC_add then s.«at» base + s.«at» (base + 1)
  else if command = CS.othcITC_sub then s.«at» base - s.«at» (base + 1)
  else if command = CS.othcITC_mul then s.«at» base * s.«at» (base + 1)
  else if command = CS.othcITC_div then s.«at» base / s.«at» (base + 1)
  else if s.«at» (base + 2) ≤ s.«at» (base + 3) then s.«at» base
  else s.«at» (base + 1)

/-- The weight vector `[1]` and the operands `7 2 3 4`, with an empty
PostScript stack. -/
def C31_input : CharstringInterp :=
  push 4 (push 3 (push 2 (push 7 (create none (some [1])))))

/-- The Type 1 charstring `5 1 28 callothersubr` (ITC random on the one
argument `5`) and the Type 1 charstring `2 3 2 20 callothersubr` (ITC add on
the two arguments `2 3`). -/
def C31_charstring (random : Bool) : Charstring :=
  if random then
    ⟨false, [.number 5, .number 1, .number 28, .command CS.cCallothersubr]⟩
  else
    ⟨false, [.number 2, .number 3, .number 2, .number 20, .command CS.cCallothersubr]⟩

/-- The position of stem `i` declared from the operand pairs `(a_j, b_j)` held
in the cells `bottom + 2 j` and `bottom + 2 j + 1`: the sum of `a_j + b_j` over
`j < i`, plus `a_i`. -/
def stem_position (s : CharstringInterp) (bottom : Int) (i : Nat) : ℚ :=
  (Finset.range i).sum (fun j => s.«at» (bottom + 2 * j) + s.«at» (bottom + 2 * j + 1))
    + s.«at» (bottom + 2 * i)

/-- The `k` stem calls declared from the operand pairs that start at cell
`bottom`: `act_hstem` calls if `horizontal`, `act_vstem` calls if not, stem
`i` with the position `stem_position s bottom i` and the width `b_i`. -/
def stem_calls (cmd : Int) (horizontal : Bool) (s : CharstringInterp) (bottom : Int)
    (k : Nat) : List Act :=
  (List.range k).map fun i =>
    if horizontal then Act.hstem cmd (stem_position s bottom i) (s.«at» (bottom + 2 * i + 1))
    else Act.vstem cmd (stem_position s bottom i) (s.«at» (bottom + 2 * i + 1))

/-- The calls recorded so far, without the error each one was made under. -/
def calls (s : CharstringInterp) : List Act := s._trace.map Prod.snd

/-- The recording object in state Hstem with `8` declared hints and the five
operands `10 20 5 7 99`: two pending vertical stems and one operand over. -/
def C32_input : CharstringInterp :=
  push 99 (push 7 (push 5 (push 20 (push 10
    { recording with _state := S_HSTEM, _t2nhints := 8 }))))

/-- Whether a call is a call of `act_hstem` or of `act_vstem`. -/
def is_stem : Act → Bool
  | .hstem _ _ _ => true
  | .vstem _ _ _ => true
  | _ => false

/-- The state a Type 2 stem opcode tests `_state` against and then sets:
`S_HSTEM` for `cHstem`/`cHstemhm`, `S_VSTEM` for `cVstem`/`cVstemhm`. -/
def stem_phase (cmd : Int) : Int :=
  if cmd = CS.cHstem ∨ cmd = CS.cHstemhm then S_HSTEM else S_VSTEM

/-- The index of the first stem operand of a Type 2 stem opcode: `1` when the
opcode takes a width, in state Initial with an odd operand count
(`(size() % 2) == 1`), and `0` otherwise. -/
def stem_bottom (s : CharstringInterp) : Int :=
  if s._state = S_INITIAL ∧ Int.tmod s.size 2 = 1 then 1 else 0

/-- The recording object after `init()` with the operands `250 10 20 5 7`: a
width and two stem pairs. -/
def C33_input : CharstringInterp :=
  push 7 (push 5 (push 20 (push 10 (push 250 recording))))

/-- The first and the last point of a path segment handed to `act_line`,
`act_curve` or `act_flex`; `none` for the other callbacks. -/
def seg_ends : Act → Option (Point × Point)
  | .line _ p0 p1 => some (p0, p1)
  | .curve _ p0 _ _ p3 => some (p0, p3)
  | .flex _ p0 _ _ _ _ _ p7 _ => some (p0, p7)
  | _ => none

/-- The point reached by a list of calls that are path segments, the first
starting at `p` and each one starting where the one before it ended; `none`
if a call is no segment or starts elsewhere. -/
def chained : Point → List Act → Option Point
  | p, [] => some p
  | p, a :: l =>
    match seg_ends a with
    | some (p0, p1) => if p0 = p then chained p1 l else none
    | none => none

/-- The calls of a list of blocks: each block is a call followed by the calls
its implementation made in turn. -/
def block_calls : List (Act × List Act) → List Act
  | [] => []
  | b :: l => b.1 :: (b.2 ++ block_calls l)

/-- One segment is emitted between `s` and `x`: the first call added is a
segment from the current point of `s` to the current point of `x`, and the
calls made by its implementation, if any, are segments chained between the
same two points. -/
def Seg (s x : CharstringInterp) : Prop :=
  ∃ (a : Act) (rest : List Act), x.calls = s.calls ++ a :: rest ∧
    seg_ends a = some (s._cp, x._cp) ∧ (rest = [] ∨ chained s._cp rest = some x._cp)

/-- The calls added between `s` and `x` are segments chained through the
current point: the first starts at the current point of `s`, each one starts
where the one before it ended, the last ends at the current point of `x`; the
calls made by the implementation of a segment are chained between its two
ends. -/
def Chain (s x : CharstringInterp) : Prop :=
  ∃ blocks : List (Act × List Act), x.calls = s.calls ++ block_calls blocks ∧
    chained s._cp (blocks.map Prod.fst) = some x._cp ∧
    ∀ b ∈ blocks, b.2 = [] ∨ ∃ p q, seg_ends b.1 = some (p, q) ∧ chained p b.2 = some q

/-- The recording object in state IPath with the twelve operands `1 .. 12`, the
operands of two curves. -/
def C34_input : CharstringInterp :=
  push 12 (push 11 (push 10 (push 9 (push 8 (push 7 (push 6 (push 5 (push 4 (push 3
    (push 2 (push 1 { recording with _state := S_IPATH })))))))))))

/-- The recording object after `init()`, in state Initial, with the twelve
operands `1 .. 12`. -/
def C34_early_input : CharstringInterp :=
  push 12 (push 11 (push 10 (push 9 (push 8 (push 7 (push 6 (push 5 (push 4 (push 3
    (push 2 (push 1 recording)))))))))))

end CharstringInterp

end Efont

/-! ## The encoding reader of `t1reencode` (`t1reencode/t1reencode.cc`)

The static functions `tokenize` and `parse_encoding`. A string is the list of
its character codes, a position is a natural number (the source starts at 0
and only moves forward), and each scanning loop `while (pos < len && ...)`
is a recursion on the characters `data[pos ..]` that are left. -/

namespace T1reencode

/-- The character codes that `tokenize` compares with. -/
abbrev chNewline : Nat := 10
abbrev chReturn : Nat := 13
abbrev chPercent : Nat := 37
abbrev chLParen : Nat := 40
abbrev chRParen : Nat := 41
abbrev chSlash : Nat := 47
abbrev chLBracket : Nat := 91
abbrev chBackslash : Nat := 92
abbrev chRBracket : Nat := 93
abbrev chLBrace : Nat := 123
abbrev chRBrace : Nat := 125

/-- Modelled from the spec: the C library predicate `isspace` in the "C"
locale: space, `\t`, `\n`, `\v`, `\f` and `\r`. -/
def isspace (c : Nat) : Bool := decide (c = 32 ∨ (9 ≤ c ∧ c ≤ 13))

/-- Modelled from the spec: `String::substring(pos, len)` of the string class,
which is not among the sources: the `len` characters from index `pos` on. A
string is the list of its character codes. -/
def substring (s : List Nat) (pos len : Nat) : List Nat := (s.drop pos).take len

/-- The loop `while (pos < len && isspace(data[pos])) { ...; pos++; }` of
`tokenize`, on the characters `data[pos ..]`; the result is `pos` and `line`. -/
def skip_space : List Nat → Nat → Int → Nat × Int
  | [], pos, line => (pos, line)
  | c :: rest, pos, line =>
    if isspace c then
      let line :=
        if c = chNewline then line + 1
        else if c = chReturn ∧ (rest = [] ∨ rest.head? ≠ some chNewline) then line + 1
        else line
      skip_space rest (pos + 1) line
    else (pos, line)

/-- The loop `for (pos++; pos < len && data[pos] != '\n' && data[pos] != '\r'; pos++)`
of `tokenize`, after the `pos++`, on the characters `data[pos ..]`. -/
def skip_comment : List Nat → Nat → Nat
  | [], pos => pos
  | c :: rest, pos =>
    if c ≠ chNewline ∧ c ≠ chReturn then skip_comment rest (pos + 1) else pos

/-- The loop `for (pos++; pos < len && (data[pos] != ')' || nest); pos++) switch (data[pos]) ...`
of `tokenize`, after the first `pos++`, on the characters `data[pos ..]`; the
result is `pos` and `line`. -/
def scan_string : List Nat → Nat → Int → Int → Nat × Int
  | [], pos, _, line => (pos, line)
  | c :: rest, pos, nest, line =>
    if c ≠ chRParen ∨ nest ≠ 0 then
      if c = chLParen then scan_string rest (pos + 1) (nest + 1) line
      else if c = chRParen then scan_string rest (pos + 1) (nest - 1) line
      else if c = chBackslash then
        match rest with
        | [] => (pos + 1, line)
        | _ :: rest2 => scan_string rest2 (pos + 1 + 1) nest line
      else if c = chNewline then scan_string rest (pos + 1) nest (line + 1)
      else if c = chReturn then
        if rest = [] ∨ rest.head? ≠ some chNewline then scan_string rest (pos + 1) nest (line + 1)
        else scan_string rest (pos + 1) nest line
      else scan_string rest (pos + 1) nest line
    else (pos, line)

/-- The loop `while (pos < len && data[pos] == '/') pos++;` of `tokenize`, on
the characters `data[pos ..]`. -/
def skip_slashes : List Nat → Nat → Nat
  | [], pos => pos
  | c :: rest, pos => if c = chSlash then skip_slashes rest (pos + 1) else pos

/-- The loop `while (pos < len && data[pos] != '/' && !isspace(data[pos]) && data[pos] != '[' && ...) pos++;`
of `tokenize`, on the characters `data[pos ..]`. -/
def scan_regular : List Nat → Nat → Nat
  | [], pos => pos
  | c :: rest, pos =>
    if c ≠ chSlash ∧ isspace c = false ∧ c ≠ chLBracket ∧ c ≠ chRBracket ∧ c ≠ chPercent
        ∧ c ≠ chLParen ∧ c ≠ chLBrace ∧ c ≠ chRBrace then
      scan_regular rest (pos + 1)
    else pos

/-- The loop `while (1)` of `tokenize(s, pos_in, line)`: the token, `pos_in` and
`line` afterwards; the first argument bounds the number of iterations, and
the result is `none` when the bound is reached. -/
def tokenize_loop (s : List Nat) : Nat → Nat → Int → Option (List Nat × Nat × Int)
  | 0, _, _ => none
  | fuel + 1, pos, line =>
    let len := s.length
    let r := skip_space (s.drop pos) pos line
    let pos := r.1
    let line := r.2
    if pos ≥ len then some ([], len, line)
    else if s.getD pos 0 = chPercent then
      tokenize_loop s fuel (skip_comment (s.drop (pos + 1)) (pos + 1)) line
    else if s.getD pos 0 = chLBracket ∨ s.getD pos 0 = chRBracket ∨ s.getD pos 0 = chLBrace
        ∨ s.getD pos 0 = chRBrace then
      some (substring s pos 1, pos + 1, line)
    else if s.getD pos 0 = chLParen then
      let first := pos
      let r := scan_string (s.drop (pos + 1)) (pos + 1) 0 line
      let pos := r.1
      let pos_in := if pos < len then pos + 1 else len
      some (substring s first (pos_in - first), pos_in, r.2)
    else
      let first := pos
      let pos := skip_slashes (s.drop pos) pos
      let pos := scan_regular (s.drop pos) pos
      some (substring s first (pos - first), pos, line)

/-- The function `tokenize(s, pos_in, line)`: the token returned and the values of
`pos_in` and `line` afterwards. Every iteration of `while (1)` but the last
passes a comment, so that `s.length() + 1` iterations are enough. -/
def tokenize (s : List Nat) (pos : Nat) (line : Int) : Option (List Nat × Nat × Int) :=
  tokenize_loop s (s.length + 1) pos line

/-- Modelled from the spec: the class `Type1Encoding`, which is not among the
sources: the calls `put(e, name)` made on the object, in order. -/
abbrev Type1Encoding := List (Nat × List Nat)

/-- A message handed to the error handler, with the line of its landmark. -/
inductive Message where
  | expected_name (line : Int)
  | expected_bracket (line : Int)
  | too_many (line : Int)
  deriving DecidableEq, Repr

/-- The outcome of `parse_encoding`: the pointer returned (`none` for `0`), the
global `encoding_name` if it was assigned, and the messages. -/
structure Parsed where
  encoding : Option Type1Encoding
  encoding_name : Option (List Nat)
  messages : List Message
  deriving DecidableEq, Repr

/-- The condition `token && token[0] == '/'`. -/
def is_name (token : List Nat) : Bool := decide (token ≠ [] ∧ token.head? = some chSlash)

/-- The loop `while ((token = tokenize(s, pos, line)) && token[0] == '/') { ... }`
of `parse_encoding`: the encoding and the messages afterwards; the first
argument bounds the number of iterations. -/
def parse_loop (s : List Nat) :
    Nat → Nat → Int → Nat → Type1Encoding → Option (Type1Encoding × List Message)
  | 0, _, _, _, _ => none
  | fuel + 1, pos, line, e, t1e =>
    match tokenize s pos line with
    | none => none
    | some (token, pos, line) =>
      if is_name token then
        if e > 255 then some (t1e, [Message.too_many line])
        else parse_loop s fuel pos line (e + 1) (t1e ++ [(e, substring token 1 token.length)])
      else some (t1e, [])

/-- The function `parse_encoding(s, filename, errh)`, the file name left out.
The loop ends at the latest when `e` is 256, so that 257 iterations are
enough. -/
def parse_encoding (s : List Nat) : Option Parsed :=
  match tokenize s 0 1 with
  | none => none
  | some (token, pos, line) =>
    if ¬ is_name token then
      some ⟨none, none, [Message.expected_name line]⟩
    else
      let encoding_name := substring token 1 token.length
      match tokenize s pos line with
      | none => none
      | some (token, pos, line) =>
        if token ≠ [chLBracket] then
          some ⟨none, some encoding_name, [Message.expected_bracket line]⟩
        else
          (parse_loop s 257 pos line 0 []).map fun r => ⟨some r.1, some encoding_name, r.2⟩

/-! ## Predicates of the statements on the encoding reader -/

/-- The character codes of a text. -/
def bytes (t : String) : List Nat := t.toList.map Char.toNat

/-- The tokens of `s` from `pos` on, up to the end of the input: the results of
successive calls of `tokenize`, the first at `pos`, each one at the position
the one before it left, until the empty token; the first argument bounds
their number. -/
def tokens_from (s : List Nat) : Nat → Nat → Int → List (List Nat)
  | 0, _, _ => []
  | fuel + 1, pos, line =>
    match tokenize s pos line with
    | none => []
    | some (token, pos, line) =>
      if token = [] then [] else token :: tokens_from s fuel pos line

/-- The names of `names` numbered from `e` on, each without its first
character: the calls `put(e, token.substring(1))`. -/
def numbered : Nat → List (List Nat) → Type1Encoding
  | _, [] => []
  | e, token :: l => (e, substring token 1 token.length) :: numbered (e + 1) l

/-- The position and the line after the first two tokens of `s`. -/
def after_bracket (s : List Nat) : Nat × Int :=
  match tokenize s 0 1 with
  | none => (0, 1)
  | some (_, pos, line) =>
    match tokenize s pos line with
    | none => (pos, line)
    | some (_, pos, line) => (pos, line)

/-- The first token of `s` and the second one. -/
def first_tokens (s : List Nat) : List Nat × List Nat :=
  match tokenize s 0 1 with
  | none => ([], [])
  | some (token, pos, line) =>
    match tokenize s pos line with
    | none => (token, [])
    | some (token2, _, _) => (token, token2)

/-- The text `/E [ /a x /b ]`. -/
def C35_input : List Nat := bytes "/E [ /a x /b ]"

end T1reencode

namespace Efont

namespace CharstringInterp

/-! ## Theorems -/

theorem toInt_intCast (z : Int) : toInt (z : ℚ) = z := by
  simp [toInt]

theorem setCell_same (cells : Int → ℚ) (i : Int) (v : ℚ) : setCell cells i v i = v := by
  simp [setCell]

theorem setCell_other (cells : Int → ℚ) (i c : Int) (v : ℚ) (h : c ≠ i) :
    setCell cells i v c = cells c := by
  simp [setCell, h]

theorem blend_inner_off (w : List ℚ) (tgt : Int) :
    ∀ (k i : Nat) (off : Int) (cells : Int → ℚ),
      (blend_inner w tgt k i off cells).2 = off + k := by
  intro k
  induction k with
  | zero => intro i off cells; simp [blend_inner]
  | succ k ih =>
    intro i off cells
    rw [blend_inner, ih]
    push_cast
    ring

theorem blend_inner_other (w : List ℚ) (tgt : Int) :
    ∀ (k i : Nat) (off : Int) (cells : Int → ℚ) (c : Int), c ≠ tgt →
      (blend_inner w tgt k i off cells).1 c = cells c := by
  intro k
  induction k with
  | zero => intro i off cells c _; simp [blend_inner]
  | succ k ih =>
    intro i off cells c hc
    rw [blend_inner, ih _ _ _ _ hc, setCell_other _ _ _ _ hc]

theorem blend_inner_tgt (w : List ℚ) (tgt : Int) :
    ∀ (k i : Nat) (off : Int) (cells : Int → ℚ), tgt < off →
      (blend_inner w tgt k i off cells).1 tgt
        = cells tgt + ∑ t in Finset.range k, w.getD (i + t) 0 * cells (off + t) := by
  intro k
  induction k with
  | zero => intro i off cells _; simp [blend_inner]
  | succ k ih =>
    intro i off cells h
    rw [blend_inner, ih _ _ _ (by omega), setCell_same, Finset.sum_range_succ']
    have hsum : ∀ t ∈ Finset.range k,
        w.getD (i + 1 + t) 0 * setCell cells tgt (cells tgt + w.getD i 0 * cells off) (off + 1 + ↑t)
          = w.getD (i + (t + 1)) 0 * cells (off + ↑(t + 1)) := by
      intro t _
      rw [setCell_other _ _ _ _ (by omega)]
      congr 2
      · omega
      · push_cast; ring
    rw [Finset.sum_congr rfl hsum]
    simp
    ring

theorem blend_outer_spec (w : List ℚ) (m : Nat) (base : Int) :
    ∀ (k : Nat) (j off : Int) (cells : Int → ℚ), base + j + k ≤ off →
      (∀ c, (c < base + j ∨ base + j + k ≤ c) →
        (blend_outer w m base k j off cells).1 c = cells c) ∧
      (∀ t : Nat, t < k →
        (blend_outer w m base k j off cells).1 (base + j + t)
          = cells (base + j + t)
            + ∑ i in Finset.range (m - 1),
                w.getD (1 + i) 0 * cells (off + t * ((m - 1 : Nat) : Int) + i)) := by
  intro k
  induction k with
  | zero =>
    intro j off cells _
    exact ⟨fun c _ => by simp [blend_outer], fun t ht => absurd ht (Nat.not_lt_zero t)⟩
  | succ k ih =>
    intro j off cells h
    have hoff : (blend_inner w (base + j) (m - 1) 1 off cells).2 = off + ((m - 1 : Nat) : Int) :=
      blend_inner_off _ _ _ _ _ _
    have ih1 := ih (j + 1) (blend_inner w (base + j) (m - 1) 1 off cells).2
      (blend_inner w (base + j) (m - 1) 1 off cells).1 (by rw [hoff]; push_cast at h ⊢; omega)
    obtain ⟨ihA, ihB⟩ := ih1
    refine ⟨?_, ?_⟩
    · intro c hc
      rw [blend_outer]
      rw [ihA c (by push_cast at hc ⊢; omega)]
      exact blend_inner_other _ _ _ _ _ _ _ (by push_cast at hc; omega)
    · intro t ht
      rw [blend_outer]
      rcases Nat.eq_zero_or_pos t with h0 | hpos
      · subst h0
        rw [ihA (base + j + (0 : Nat)) (by left; push_cast; omega)]
        simp only [Nat.cast_zero, add_zero, zero_mul]
        exact blend_inner_tgt _ _ _ _ _ _ (by push_cast at h; omega)
      · obtain ⟨u, rfl⟩ : ∃ u, t = u + 1 := ⟨t - 1, by omega⟩
        have hB := ihB u (by omega)
        have e1 : base + j + ((u + 1 : Nat) : Int) = base + (j + 1) + (u : Int) := by
          push_cast; ring
        rw [e1, hB, blend_inner_other _ _ _ _ _ _ _ (by omega)]
        congr 1
        apply Finset.sum_congr rfl
        intro i hi
        have hi' : i < m - 1 := Finset.mem_range.mp hi
        rw [blend_inner_other _ _ _ _ _ _ _ (by
          rw [hoff]
          have : (0:Int) ≤ (u:Int) * ((m - 1 : Nat) : Int) := by positivity
          push_cast at h ⊢; omega)]
        rw [hoff]
        congr 2
        push_cast
        ring


theorem blend_command_eq (s : CharstringInterp) (w : List ℚ) (n : Int)
    (hw : s._weight_vector = some w) (hne : w ≠ [])
    (hcount : s.top 0 = (n : ℚ))
    (h1 : 1 ≤ s._sp)
    (hdepth : n * w.length ≤ s._sp - 1) :
    blend_command s =
      (true, { s with
        _s := (blend_outer w w.length (s._sp - 1 - n * w.length) n.toNat 0
                (s._sp - 1 - n * w.length + n) s._s).1,
        _sp := s._sp - 1 - n * (w.length - 1) }) := by
  have hc : s._s (s._sp - 1) = (n : ℚ) := by
    have := hcount
    simp only [top, sub_zero] at this
    exact this
  have hlen : w.length ≠ 0 := by
    intro h; exact hne (List.length_eq_zero.mp h)
  simp [blend_command, size, pop, weight_vector, hw, hc, toInt_intCast, hlen, hdepth,
    not_lt.mpr h1]


/-- C1: for a non-empty weight vector `w` of length `m` and a count `n ≥ 0`
on top of at least `n * m` operands, `blend_command` succeeds, changes only
the cells and the depth of the operand stack, removes the count and the
trailing `n * (m - 1)` operands, leaves every cell below the block of
`n * m` operands as it was, and replaces the `j`-th base value `b_j` by
`b_j + Σ_{k = 1}^{m - 1} w[k] * d(j, k)`, `d(j, k)` being the operand at
offset `n + j * (m - 1) + (k - 1)` of the block. -/
theorem C1_blend_command (s : CharstringInterp) (w : List ℚ) (n : Nat)
    (hw : s._weight_vector = some w) (hne : w ≠ [])
    (hcount : s.top 0 = (n : ℚ))
    (hdepth : (n : Int) * w.length ≤ s._sp - 1) :
    (blend_command s).1 = true ∧
    (blend_command s).2 = { s with _s := (blend_command s).2._s, _sp := (blend_command s).2._sp } ∧
    (blend_command s).2._sp = s._sp - 1 - n * (w.length - 1) ∧
    (∀ c, c < s._sp - 1 - n * w.length → (blend_command s).2._s c = s._s c) ∧
    (∀ j : Nat, j < n →
      (blend_command s).2._s (s._sp - 1 - n * w.length + j)
        = s._s (s._sp - 1 - n * w.length + j)
          + ∑ k in Finset.Ico 1 w.length,
              w.getD k 0 * s._s (s._sp - 1 - n * w.length + (n + j * (w.length - 1) + (k - 1)))) := by
  have hnn : (0 : Int) ≤ (n : Int) * w.length := by positivity
  have hcount' : s.top 0 = (((n : Int)) : ℚ) := by rw [hcount]; simp
  have heq := blend_command_eq s w (n : Int) hw hne hcount' (by omega) hdepth
  have hspec := blend_outer_spec w w.length (s._sp - 1 - (n : Int) * w.length) n 0
    (s._sp - 1 - (n : Int) * w.length + n) s._s (by omega)
  rw [heq]
  simp only [Int.toNat_ofNat]
  refine ⟨trivial, trivial, trivial, ?_, ?_⟩
  · intro c hc
    exact hspec.1 c (Or.inl (by omega))
  · intro j hj
    have h2 := hspec.2 j hj
    simp only [add_zero] at h2
    rw [h2, Finset.sum_Ico_eq_sum_range]
    congr 1
    apply Finset.sum_congr rfl
    intro i hi
    have hi' : i < w.length - 1 := Finset.mem_range.mp hi
    have hlen : 1 ≤ w.length := by
      rcases w with _ | ⟨a, l⟩
      · exact absurd rfl hne
      · simp
    congr 2
    push_cast [Nat.cast_sub hlen]
    ring

theorem C1_input_sp : C1_input._sp = 5 := by
  simp [C1_input, push, create, init, clear, ps_clear, STACK_SIZE]

theorem C1_input_cells : C1_input._s 0 = 10 ∧ C1_input._s 1 = 20 ∧ C1_input._s 2 = 1 ∧ C1_input._s 3 = 3 ∧ C1_input._s 4 = 2 := by
  simp [C1_input, push, create, init, clear, ps_clear, setCell, STACK_SIZE]

/-- C1, witness: the scenario of the spec, weights `[1/4, 3/4]`, operands
`10 20 1 3` and count `2`, leaves `43/4` and `89/4` at depth `2`. -/
theorem C1_blend_command_witness :
    (blend_command C1_input).1 = true ∧ (blend_command C1_input).2._sp = 2 ∧
    (blend_command C1_input).2._s 0 = 43 / 4 ∧ (blend_command C1_input).2._s 1 = 89 / 4 := by
  have hsp := C1_input_sp
  obtain ⟨c0, c1, c2, c3, c4⟩ := C1_input_cells
  have h := C1_blend_command C1_input [1 / 4, 3 / 4] 2
    (by simp [C1_input, push, create, init, clear, ps_clear, STACK_SIZE]) (by simp)
    (by simp [top, hsp, c4]) (by simp [hsp])
  obtain ⟨h1, -, h3, -, h5⟩ := h
  refine ⟨h1, ?_, ?_, ?_⟩
  · rw [h3, hsp]; norm_num
  · have := h5 0 (by norm_num)
    simp [hsp, Finset.sum_Ico_eq_sum_range] at this
    rw [this, c0, c2]; norm_num
  · have := h5 1 (by norm_num)
    simp [hsp, Finset.sum_Ico_eq_sum_range] at this
    rw [this, c1, c3]; norm_num

theorem roll_normalize_eq (n : Int) (hn : 1 ≤ n) :
    ∀ (k : Nat) (a : Int), (-a).toNat ≤ k →
      roll_normalize k a n = if a < 0 then a % n else a := by
  intro k
  induction k with
  | zero =>
    intro a h
    have : 0 ≤ a := by omega
    simp [roll_normalize, not_lt.mpr this]
  | succ k ih =>
    intro a h
    rw [roll_normalize]
    by_cases ha : a < 0
    · rw [if_pos ha, if_pos ha, ih (a + n) (by omega)]
      by_cases h2 : a + n < 0
      · rw [if_pos h2, Int.add_emod_self]
      · rw [if_neg h2]
        have h3 : 0 ≤ a + n := by omega
        have h4 : a + n < n := by omega
        rw [← Int.add_emod_self, Int.emod_eq_of_lt h3 h4]
    · rw [if_neg ha, if_neg ha]

theorem roll_copy_spec (cells : Int → ℚ) (base amount n : Int) :
    ∀ (k : Nat) (i : Int) (copy_stack : Int → ℚ) (j : Int),
      roll_copy cells base amount n k i copy_stack j
        = if i ≤ j ∧ j < i + k then cells (base + Int.tmod (wrap_int (j + amount)) n)
          else copy_stack j := by
  intro k
  induction k with
  | zero =>
    intro i copy_stack j
    rw [roll_copy, if_neg (by push_cast; omega)]
  | succ k ih =>
    intro i copy_stack j
    rw [roll_copy, ih]
    by_cases h1 : i + 1 ≤ j ∧ j < i + 1 + k
    · rw [if_pos h1, if_pos (by push_cast; omega)]
    · rw [if_neg h1]
      by_cases h2 : j = i
      · subst h2
        rw [setCell_same, if_pos (by push_cast; omega)]
      · rw [setCell_other _ _ _ _ h2, if_neg (by push_cast; omega)]

theorem roll_store_spec (copy_stack : Int → ℚ) (base : Int) :
    ∀ (k : Nat) (i : Int) (cells : Int → ℚ) (c : Int),
      roll_store copy_stack base k i cells c
        = if base + i ≤ c ∧ c < base + i + k then copy_stack (c - base) else cells c := by
  intro k
  induction k with
  | zero =>
    intro i cells c
    rw [roll_store, if_neg (by push_cast; omega)]
  | succ k ih =>
    intro i cells c
    rw [roll_store, ih]
    by_cases h1 : base + (i + 1) ≤ c ∧ c < base + (i + 1) + k
    · rw [if_pos h1, if_pos (by push_cast; omega)]
    · rw [if_neg h1]
      by_cases h2 : c = base + i
      · subst h2
        rw [setCell_same, if_pos (by push_cast; omega)]
        congr 1; ring
      · rw [setCell_other _ _ _ _ h2, if_neg (by push_cast; omega)]

theorem wrap_int_eq (z : Int) (h0 : -2147483648 ≤ z) (h1 : z ≤ 2147483647) : wrap_int z = z := by
  unfold wrap_int
  omega

theorem roll_command_int (s : CharstringInterp) (n a : Int) (hn : 1 ≤ n)
    (ha : s.top 0 = (a : ℚ)) (hn1 : s.top 1 = (n : ℚ)) (hdepth : n ≤ s._sp - 2) :
    roll_command s =
      (true, { s with _s := rolled_int s._s (s._sp - 2 - n) n a, _sp := s._sp - 2 }) := by
  have ha' : s._s (s._sp - 1) = (a : ℚ) := by
    have := ha; simp only [top, sub_zero] at this; exact this
  have hn' : s._s (s._sp - 1 - 1) = (n : ℚ) := by
    have := hn1; simp only [top] at this; exact this
  have hsz : ¬ s._sp < 2 := by omega
  have hsz2 : ¬ s._sp - 1 - 1 < n := by omega
  have hnpos : ¬ n ≤ 0 := by omega
  have hcells : roll_store (roll_copy s._s (s._sp - 1 - 1 - n)
        (roll_normalize (-a).toNat a n) n n.toNat 0 (fun _ => 0)) (s._sp - 1 - 1 - n) n.toNat 0 s._s
      = rolled_int s._s (s._sp - 2 - n) n a := by
    funext c
    rw [roll_store_spec, roll_copy_spec, roll_normalize_eq n hn _ _ le_rfl]
    have e : s._sp - 1 - 1 - n = s._sp - 2 - n := by ring
    rw [e]
    unfold rolled_int
    have hcast : ((n.toNat : Nat) : Int) = n := Int.toNat_of_nonneg (by omega)
    by_cases hc : s._sp - 2 - n ≤ c ∧ c < s._sp - 2 - n + n
    · rw [if_pos hc, if_pos (by rw [hcast]; omega), if_pos (by rw [hcast]; omega)]
    · rw [if_neg hc, if_neg (by rw [hcast]; omega)]
  simp only [roll_command, size, pop, ha', hn', toInt_intCast, hsz, hsz2, hnpos, if_false]
  rw [hcells]
  congr 2
  ring

theorem rolled_int_eq (cells : Int → ℚ) (base n a : Int) (hn : 1 ≤ n)
    (hn2 : 2 * n ≤ 2147483647) (hmax : a + n ≤ 2147483647) :
    rolled_int cells base n a = rolled cells base n a := by
  funext c
  unfold rolled_int rolled
  by_cases hc : base ≤ c ∧ c < base + n
  · rw [if_pos hc, if_pos hc]
    congr 2
    by_cases h0 : a < 0
    · rw [if_pos h0]
      have h1 : 0 ≤ a % n := Int.emod_nonneg _ (by omega)
      have h2 : a % n < n := Int.emod_lt_of_pos _ (by omega)
      rw [wrap_int_eq _ (by omega) (by omega), Int.tmod_eq_emod (by omega) (by omega),
        Int.add_emod, Int.emod_emod_of_dvd _ (dvd_refl n), ← Int.add_emod]
    · rw [if_neg h0, wrap_int_eq _ (by omega) (by omega),
        Int.tmod_eq_emod (by omega) (by omega)]
  · rw [if_neg hc, if_neg hc]

theorem roll_command_eq (s : CharstringInterp) (n a : Int) (hn : 1 ≤ n)
    (ha : s.top 0 = (a : ℚ)) (hn1 : s.top 1 = (n : ℚ)) (hdepth : n ≤ s._sp - 2)
    (hn2 : 2 * n ≤ 2147483647) (hmax : a + n ≤ 2147483647) :
    roll_command s =
      (true, { s with _s := rolled s._s (s._sp - 2 - n) n a, _sp := s._sp - 2 }) := by
  rw [roll_command_int s n a hn ha hn1 hdepth, rolled_int_eq _ _ n a hn hn2 hmax]

/-- Roll on amounts for which no `int` sum overflows: for `n ≥ 1` and an
amount `a` in the range of an `int` with `a + n ≤ INT_MAX`, with `n` and then
`a` on top of at least `n` operands of a stack within its capacity,
`roll_command` succeeds, changes only the cells and the depth of the operand
stack, removes `n` and `a`, leaves every cell below the window of `n` cells as
it was, and rotates the window: `window'[i] = window[(i + (a mod n)) mod n]`,
index `0` being the deepest cell of the window. -/
theorem roll_command_rotates (s : CharstringInterp) (n a : Int) (hn : 1 ≤ n)
    (ha : s.top 0 = (a : ℚ)) (hn1 : s.top 1 = (n : ℚ)) (hdepth : n ≤ s._sp - 2)
    (hcap : s._sp ≤ STACK_SIZE) (_hmin : -2147483648 ≤ a) (hmax : a + n ≤ 2147483647) :
    (roll_command s).1 = true ∧
    (roll_command s).2 = { s with _s := (roll_command s).2._s, _sp := (roll_command s).2._sp } ∧
    (roll_command s).2._sp = s._sp - 2 ∧
    (∀ c, c < s._sp - 2 - n → (roll_command s).2._s c = s._s c) ∧
    (∀ i : Int, 0 ≤ i → i < n →
      (roll_command s).2._s (s._sp - 2 - n + i) = s._s (s._sp - 2 - n + (i + a % n) % n)) := by
  have hn2 : 2 * n ≤ 2147483647 := by
    have h : s._sp ≤ 48 := hcap
    omega
  rw [roll_command_eq s n a hn ha hn1 hdepth hn2 hmax]
  refine ⟨rfl, rfl, rfl, ?_, ?_⟩
  · intro c hc
    simp only [rolled]
    rw [if_neg (by omega)]
  · intro i h0 h1
    simp only [rolled]
    rw [if_pos (by omega)]
    congr 2
    rw [add_sub_cancel_left, Int.add_emod_emod]

theorem C2_input_sp : C2_input._sp = 6 := by
  simp [C2_input, push, create, init, clear, ps_clear, STACK_SIZE]

theorem C2_input_cells : C2_input._s 0 = 1 ∧ C2_input._s 1 = 2 ∧ C2_input._s 2 = 3
    ∧ C2_input._s 3 = 4 ∧ C2_input._s 4 = 3 ∧ C2_input._s 5 = -1 := by
  simp [C2_input, push, create, init, clear, ps_clear, setCell, STACK_SIZE]

/-- Roll on `1 2 3 4` with the count `3` and the amount `-1` leaves `1 4 2 3`. -/
theorem roll_command_rotates_witness :
    (roll_command C2_input).1 = true ∧ (roll_command C2_input).2._sp = 4 ∧
    (roll_command C2_input).2._s 0 = 1 ∧ (roll_command C2_input).2._s 1 = 4 ∧
    (roll_command C2_input).2._s 2 = 2 ∧ (roll_command C2_input).2._s 3 = 3 := by
  have hsp := C2_input_sp
  obtain ⟨c0, c1, c2, c3, c4, c5⟩ := C2_input_cells
  have h := roll_command_rotates C2_input 3 (-1) (by norm_num)
    (by simp [top, hsp, c5]) (by simp [top, hsp, c4]) (by simp [hsp])
    (by simp [hsp, STACK_SIZE]) (by norm_num) (by norm_num)
  obtain ⟨h1, -, h3, h4, h5⟩ := h
  rw [hsp] at h3 h4 h5
  refine ⟨h1, by rw [h3]; norm_num, ?_, ?_, ?_, ?_⟩
  · rw [h4 0 (by norm_num), c0]
  · have := h5 0 (by norm_num) (by norm_num)
    norm_num at this
    rw [this, c3]
  · have := h5 1 (by norm_num) (by norm_num)
    norm_num at this
    rw [this, c1]
  · have := h5 2 (by norm_num) (by norm_num)
    norm_num at this
    rw [this, c2]

/-- Roll and its inverse on amounts for which no `int` sum overflows: for
`n ≥ 1` and an amount `a` with `a + n ≤ INT_MAX` and `-a + n ≤ INT_MAX`, with
`n` and then `a` on top of at least `n` operands of a stack within its
capacity, Roll with `(n, a)` followed by Roll with `(n, -a)` (the operands
pushed again by `number`) succeeds and leaves the window of `n` cells and
every cell below it exactly as they were before the first Roll, at the depth
the first Roll left. -/
theorem roll_inverse_in_range (s : CharstringInterp) (n a : Int) (hn : 1 ≤ n)
    (ha : s.top 0 = (a : ℚ)) (hn1 : s.top 1 = (n : ℚ)) (hdepth : n ≤ s._sp - 2)
    (hcap : s._sp ≤ STACK_SIZE) (hmax : a + n ≤ 2147483647) (hmin : -a + n ≤ 2147483647) :
    (roll_command s).1 = true ∧
    (roll_command (number ((-a : Int) : ℚ) (number (n : ℚ) (roll_command s).2).2).2).1 = true ∧
    (roll_command (number ((-a : Int) : ℚ) (number (n : ℚ) (roll_command s).2).2).2).2._sp
      = s._sp - 2 ∧
    (∀ c, c < s._sp - 2 →
      (roll_command (number ((-a : Int) : ℚ) (number (n : ℚ) (roll_command s).2).2).2).2._s c
        = s._s c) := by
  have hn2 : 2 * n ≤ 2147483647 := by
    have h : s._sp ≤ 48 := hcap
    omega
  rw [roll_command_eq s n a hn ha hn1 hdepth hn2 hmax]
  have hlt1 : s._sp - 2 < STACK_SIZE := by omega
  have hlt2 : s._sp - 2 + 1 < STACK_SIZE := by omega
  have hpush : (number ((-a : Int) : ℚ) (number (n : ℚ)
      { s with _s := rolled s._s (s._sp - 2 - n) n a, _sp := s._sp - 2 }).2).2
      = { s with
          _s := setCell (setCell (rolled s._s (s._sp - 2 - n) n a) (s._sp - 2) n)
                  (s._sp - 2 + 1) ((-a : Int) : ℚ),
          _sp := s._sp - 2 + 1 + 1 } := by
    simp only [number, push, hlt1, hlt2, if_true]
  simp only []
  rw [hpush]
  have e2 := roll_command_eq
    { s with
      _s := setCell (setCell (rolled s._s (s._sp - 2 - n) n a) (s._sp - 2) n)
              (s._sp - 2 + 1) ((-a : Int) : ℚ),
      _sp := s._sp - 2 + 1 + 1 } n (-a) hn
    (by simp only [top]; rw [show s._sp - 2 + 1 + 1 - 0 - 1 = s._sp - 2 + 1 by ring, setCell_same])
    (by
      simp only [top]
      rw [show s._sp - 2 + 1 + 1 - 1 - 1 = s._sp - 2 by ring,
        setCell_other _ _ _ _ (by omega), setCell_same])
    (by simp only []; omega) hn2 hmin
  rw [e2]
  refine ⟨trivial, rfl, by simp only []; ring, ?_⟩
  intro c hc
  simp only []
  have eb : s._sp - 2 + 1 + 1 - 2 - n = s._sp - 2 - n := by ring
  rw [eb]
  unfold rolled
  by_cases hw : s._sp - 2 - n ≤ c ∧ c < s._sp - 2 - n + n
  · rw [if_pos hw]
    have hm0 : 0 ≤ (c - (s._sp - 2 - n) + -a) % n := Int.emod_nonneg _ (by omega)
    have hm1 : (c - (s._sp - 2 - n) + -a) % n < n := Int.emod_lt_of_pos _ (by omega)
    rw [setCell_other _ _ _ _ (by omega), setCell_other _ _ _ _ (by omega),
      if_pos (by omega)]
    congr 1
    rw [add_sub_cancel_left, Int.emod_add_emod,
      show c - (s._sp - 2 - n) + -a + a = c - (s._sp - 2 - n) by ring,
      Int.emod_eq_of_lt (by omega) (by omega)]
    ring
  · rw [if_neg hw, setCell_other _ _ _ _ (by omega), setCell_other _ _ _ _ (by omega),
      if_neg hw]

/-- On `1 2 3 4`, Roll with `(3, -1)` and then with `(3, 1)` leaves the cells
`2` and `4` of the window as they were, at depth `4`. -/
theorem roll_inverse_in_range_witness :
    C2_input._sp = 6 ∧
    (roll_command (number ((-(-1) : Int) : ℚ) (number ((3 : Int) : ℚ) (roll_command C2_input).2).2).2).2._sp = 4 ∧
    (roll_command (number ((-(-1) : Int) : ℚ) (number ((3 : Int) : ℚ) (roll_command C2_input).2).2).2).2._s 1 = 2 ∧
    (roll_command (number ((-(-1) : Int) : ℚ) (number ((3 : Int) : ℚ) (roll_command C2_input).2).2).2).2._s 3 = 4 := by
  have hsp := C2_input_sp
  obtain ⟨c0, c1, c2, c3, c4, c5⟩ := C2_input_cells
  have h := roll_inverse_in_range C2_input 3 (-1) (by norm_num)
    (by simp [top, hsp, c5]) (by simp [top, hsp, c4]) (by simp [hsp]) (by simp [hsp, STACK_SIZE])
    (by norm_num) (by norm_num)
  obtain ⟨-, -, h3, h4⟩ := h
  rw [hsp] at h3 h4
  refine ⟨hsp, by rw [h3]; norm_num, ?_, ?_⟩
  · rw [h4 1 (by norm_num), c1]
  · rw [h4 3 (by norm_num), c3]

/-- C2, the code at the failing input: Roll of the window `30 40 50` (count `3`)
by the amount `2147483647` on the operands `10 20 30 40 50`. The amount is
not negative, so the loop `while (amount < 0)` leaves it, and for `i = 1` and
`i = 2` the `int` sum `i + amount` overflows: with the sum wrapped, the C
remainders are `-2` and `-1`, and the cells copied are those at `base - 2` and
`base - 1`, below the window. Roll returns true and leaves `10 20 40 10 20`
where the rotation by `2147483647 mod 3 = 1` is `10 20 40 50 30`. -/
theorem C2_roll_overflow :
    C2_overflow_input.stack = [10, 20, 30, 40, 50, 3, 2147483647] ∧
    (2147483647 : Int) % 3 = 1 ∧
    wrap_int (1 + 2147483647) = -2147483648 ∧ Int.tmod (wrap_int (1 + 2147483647)) 3 = -2 ∧
    wrap_int (2 + 2147483647) = -2147483647 ∧ Int.tmod (wrap_int (2 + 2147483647)) 3 = -1 ∧
    (roll_command C2_overflow_input).1 = true ∧
    (roll_command C2_overflow_input).2._error = errOK ∧
    (roll_command C2_overflow_input).2.stack = [10, 20, 40, 10, 20] ∧
    (List.range 5).map (rolled C2_overflow_input._s 2 3 2147483647 ∘ Int.ofNat)
      = [10, 20, 40, 50, 30] := by
  refine ⟨?_, ?_, ?_, ?_, ?_, ?_, ?_, ?_, ?_, ?_⟩ <;> decide!

/-- C3, the code at the failing input: on the operands `10 20 30 40 50`, Roll
with `(3, 2147483647)` followed by Roll with `(3, -2147483647)`. The first Roll
copies the cells below the window into it (the `int` sum `i + amount`
overflows, as in C2) and leaves `10 20 40 10 20`; the second one rotates by
`-2147483647 mod 3 = 2` without overflow and leaves `10 20 20 40 10`, not the
window `30 40 50` the two Rolls started from. -/
theorem C3_roll_overflow :
    C2_overflow_input.stack = [10, 20, 30, 40, 50, 3, 2147483647] ∧
    (roll_command C2_overflow_input).1 = true ∧
    (roll_command C2_overflow_input).2.stack = [10, 20, 40, 10, 20] ∧
    (roll_command (number ((-2147483647 : Int) : ℚ)
      (number ((3 : Int) : ℚ) (roll_command C2_overflow_input).2).2).2).1 = true ∧
    (roll_command (number ((-2147483647 : Int) : ℚ)
      (number ((3 : Int) : ℚ) (roll_command C2_overflow_input).2).2).2).2._error = errOK ∧
    (roll_command (number ((-2147483647 : Int) : ℚ)
      (number ((3 : Int) : ℚ) (roll_command C2_overflow_input).2).2).2).2.stack
      = [10, 20, 20, 40, 10] := by
  have e := roll_command_int
    (number ((-2147483647 : Int) : ℚ)
      (number ((3 : Int) : ℚ) (roll_command C2_overflow_input).2).2).2
    3 (-2147483647) (by norm_num) (by decide!) (by decide!) (by decide!)
  refine ⟨by decide!, by decide!, by decide!, ?_, ?_, ?_⟩
  · rw [e]
  · rw [e]
    decide!
  · rw [e]
    decide!

theorem C4_input_sp : C4_input._sp = 4 := by
  simp [C4_input, push, create, init, clear, ps_clear, STACK_SIZE]

theorem C4_input_cells : C4_input._s 0 = 1 ∧ C4_input._s 1 = 2 ∧ C4_input._s 2 = 5
    ∧ C4_input._s 3 = 3 := by
  simp [C4_input, push, create, init, clear, ps_clear, setCell, STACK_SIZE]

theorem ifelse_eq (s : CharstringInterp) (h : 4 ≤ s._sp) :
    arith_command CS.cIfelse s =
      some (true,
        { s with
          _s := if s.top 1 > s.top 0 then setCell s._s (s._sp - 4) (s.top 2) else s._s,
          _sp := s._sp - 3 }) := by
  have h4 : ¬ s._sp < 4 := by omega
  by_cases hc : s.top 1 > s.top 0
  · simp +decide [arith_command, size, pop, set_top, hc, h4]
    rw [show s._sp - 3 - 1 = s._sp - 4 by ring]
  · simp +decide [arith_command, size, pop, hc, h4]

/-- C4 (as amended): on an operand stack of at least four values, Ifelse
succeeds, changes only the cells and the depth of the operand stack, removes
three operands, leaves every cell below the four as it was, and leaves in
place of the four the value that was `top(2)` when `top(1) > top(0)`, and
the value that was `top(3)` when `top(1) <= top(0)`. -/
theorem C4_ifelse (s : CharstringInterp) (h : 4 ≤ s._sp) :
    ∃ s', arith_command CS.cIfelse s = some (true, s') ∧
      s' = { s with _s := s'._s, _sp := s'._sp } ∧
      s'._sp = s._sp - 3 ∧
      (∀ c, c < s._sp - 4 → s'._s c = s._s c) ∧
      (s.top 1 > s.top 0 → s'.top 0 = s.top 2) ∧
      (s.top 1 ≤ s.top 0 → s'.top 0 = s.top 3) := by
  refine ⟨_, ifelse_eq s h, rfl, rfl, ?_, ?_, ?_⟩
  · intro c hc
    simp only []
    split
    · rw [setCell_other _ _ _ _ (by omega)]
    · rfl
  · intro hgt
    simp only [top]
    rw [if_pos (by simpa [top] using hgt)]
    rw [show s._sp - 3 - 0 - 1 = s._sp - 4 by ring, setCell_same]
  · intro hle
    simp only [top]
    rw [if_neg (by simpa [top] using hle)]
    congr 1; ring

/-- C4, witness: on `1 2 5 3`, Ifelse leaves `2` at depth `1`. -/
theorem C4_ifelse_witness :
    ∃ s', arith_command CS.cIfelse C4_input = some (true, s') ∧ s'._sp = 1 ∧ s'.top 0 = 2 := by
  have hsp := C4_input_sp
  obtain ⟨c0, c1, c2, c3⟩ := C4_input_cells
  obtain ⟨s', h1, -, h3, -, h5, -⟩ := C4_ifelse C4_input (by rw [hsp])
  refine ⟨s', h1, by rw [h3, hsp]; norm_num, ?_⟩
  rw [h5 (by norm_num [top, hsp, c2, c3])]
  simp [top, hsp, c1]

/-- C4, counterexample: on the operands `1 2 5 3`, where `top(1) = 5 > top(0) = 3`,
Ifelse leaves `2`, the value that was `top(2)`, and not `1`, the value that
was `top(3)`. -/
theorem C4_ifelse_counterexample :
    C4_input._sp = 4 ∧ C4_input.top 1 > C4_input.top 0 ∧ C4_input.top 3 = 1 ∧
    ∃ s', arith_command CS.cIfelse C4_input = some (true, s') ∧ s'._sp = 1 ∧
      s'.top 0 = 2 ∧ s'.top 0 ≠ C4_input.top 3 := by
  have hsp := C4_input_sp
  obtain ⟨c0, c1, c2, c3⟩ := C4_input_cells
  have hgt : C4_input.top 1 > C4_input.top 0 := by norm_num [top, hsp, c2, c3]
  refine ⟨hsp, hgt, by simp [top, hsp, c0], _, ifelse_eq C4_input (by rw [hsp]), ?_, ?_, ?_⟩
  · simp [hsp]
  · norm_num [top, hsp, setCell, c1, c2, c3]
  · norm_num [top, hsp, setCell, c1, c0, c2, c3]

theorem C5_input_sp : C5_input._sp = 3 := by
  simp [C5_input, push, create, init, clear, ps_clear, STACK_SIZE]

theorem C5_input_cells : C5_input._s 0 = 1 ∧ C5_input._s 1 = 1 ∧ C5_input._s 2 = 1 := by
  simp [C5_input, push, create, init, clear, ps_clear, setCell, STACK_SIZE]

theorem C5_input_weight : C5_input._weight_vector = some [1 / 2, 1 / 2] := by
  simp [C5_input, push, create, init, clear, ps_clear, STACK_SIZE, List.replicate]

/-- C5, counterexample: with the uniform weights `[1/2, 1/2]` and the count
`1` on the two operands `1 1`, Blend leaves `3/2`, not `1`. -/
theorem C5_blend_uniform_counterexample :
    C5_input._weight_vector = some (List.replicate 2 (1 / 2)) ∧
    C5_input._sp = 3 ∧ C5_input._s 0 = 1 ∧ C5_input._s 1 = 1 ∧ C5_input.top 0 = 1 ∧
    (blend_command C5_input).1 = true ∧ (blend_command C5_input).2._sp = 1 ∧
    (blend_command C5_input).2._s 0 = 3 / 2 ∧ (blend_command C5_input).2._s 0 ≠ 1 := by
  have hsp := C5_input_sp
  obtain ⟨c0, c1, c2⟩ := C5_input_cells
  have hw := C5_input_weight
  have heq := blend_command_eq C5_input [1 / 2, 1 / 2] 1 hw (by simp)
    (by simp [top, hsp, c2]) (by rw [hsp]; norm_num) (by simp [hsp])
  have hcell : (blend_command C5_input).2._s 0 = 3 / 2 := by
    rw [heq]
    norm_num [hsp, blend_outer, blend_inner, setCell, c0, c1]
  refine ⟨by simp [hw, List.replicate], hsp, c0, c1, by simp [top, hsp, c2], by rw [heq],
    by rw [heq]; simp [hsp], hcell, by rw [hcell]; norm_num⟩

theorem getD_replicate_lt (m k : Nat) (x : ℚ) (h : k < m) :
    (List.replicate m x).getD k 0 = x := by
  rw [List.getD_eq_getElem?_getD, List.getElem?_replicate, if_pos h]
  rfl

/-- C5 (as amended): with the uniform weight vector `w[k] = 1/m` of length
`m ≥ 1` and the count `n` on top of `n * m` operands all equal to `v`, Blend
succeeds and leaves `n` values all equal to `v + ((m - 1) / m) * v`. -/
theorem C5_blend_uniform (s : CharstringInterp) (m n : Nat) (v : ℚ) (hm : 1 ≤ m)
    (hw : s._weight_vector = some (List.replicate m (1 / (m : ℚ))))
    (hcount : s.top 0 = (n : ℚ))
    (hdepth : (n : Int) * m ≤ s._sp - 1)
    (hv : ∀ c, s._sp - 1 - (n : Int) * m ≤ c → c < s._sp - 1 → s._s c = v) :
    (blend_command s).1 = true ∧
    (blend_command s).2._sp = s._sp - 1 - (n : Int) * m + n ∧
    (∀ j : Nat, j < n →
      (blend_command s).2._s (s._sp - 1 - (n : Int) * m + j) = v + (((m : ℚ) - 1) / m) * v) := by
  have hlen : (List.replicate m (1 / (m : ℚ))).length = m := List.length_replicate _ _
  have hne : List.replicate m (1 / (m : ℚ)) ≠ [] := by
    intro h
    have := congrArg List.length h
    rw [hlen] at this
    simp at this
    omega
  have hnn : (0 : Int) ≤ (n : Int) * m := by positivity
  have hcount' : s.top 0 = (((n : Int)) : ℚ) := by rw [hcount]; simp
  have heq := blend_command_eq s _ (n : Int) hw hne hcount' (by omega) (by rw [hlen]; exact hdepth)
  have hspec := blend_outer_spec (List.replicate m (1 / (m : ℚ))) m (s._sp - 1 - (n : Int) * m) n 0
    (s._sp - 1 - (n : Int) * m + n) s._s (by omega)
  rw [heq]
  simp only [Int.toNat_ofNat, hlen]
  refine ⟨trivial, by ring, ?_⟩
  intro j hj
  have h2 := hspec.2 j hj
  simp only [add_zero] at h2
  rw [h2]
  have hprod : (0 : Int) ≤ (j : Int) * ((m - 1 : Nat) : Int) := by positivity
  have hjm : (j : Int) * ((m - 1 : Nat) : Int) + ((m - 1 : Nat) : Int) ≤ (n : Int) * ((m - 1 : Nat) : Int) := by
    have : (j : Int) + 1 ≤ n := by exact_mod_cast hj
    nlinarith [Int.ofNat_nonneg (m - 1)]
  have hm1 : ((m - 1 : Nat) : Int) = (m : Int) - 1 := by
    rw [Nat.cast_sub hm]; simp
  have hterm : ∀ i ∈ Finset.range (m - 1),
      (List.replicate m (1 / (m : ℚ))).getD (1 + i) 0
          * s._s (s._sp - 1 - (n : Int) * m + n + (j : Int) * ((m - 1 : Nat) : Int) + i)
        = 1 / (m : ℚ) * v := by
    intro i hi
    have hi' : i < m - 1 := Finset.mem_range.mp hi
    have hi2 : (i : Int) < ((m - 1 : Nat) : Int) := by exact_mod_cast hi'
    rw [getD_replicate_lt _ _ _ (by omega), hv _ (by omega) (by
      rw [hm1] at hjm hi2 hprod
      nlinarith)]
  rw [Finset.sum_congr rfl hterm, hv _ (by omega) (by
    have : (j : Int) < n := by exact_mod_cast hj
    have hmpos : (1 : Int) ≤ m := by exact_mod_cast hm
    nlinarith)]
  rw [Finset.sum_const, Finset.card_range, nsmul_eq_mul, Nat.cast_sub hm]
  have hmq : (m : ℚ) ≠ 0 := by
    have : (0 : ℚ) < m := by exact_mod_cast hm
    exact ne_of_gt this
  field_simp

/-- C5, witness: with the weights `[1/2, 1/2]`, the count `1` and the operands
`1 1`, Blend leaves `1 + ((2 - 1) / 2) * 1` at depth `1`. -/
theorem C5_blend_uniform_witness :
    C5_input._sp = 3 ∧ (blend_command C5_input).1 = true ∧
    (blend_command C5_input).2._sp = 1 ∧
    (blend_command C5_input).2._s 0 = 1 + (((2 : Nat) : ℚ) - 1) / ((2 : Nat) : ℚ) * 1 := by
  have hsp := C5_input_sp
  obtain ⟨c0, c1, c2⟩ := C5_input_cells
  have h := C5_blend_uniform C5_input 2 1 1 (by norm_num)
    (by rw [C5_input_weight]; norm_num [List.replicate])
    (by simp [top, hsp, c2]) (by simp [hsp])
    (by
      intro c h1 h2
      rw [hsp] at h1 h2
      norm_num at h1 h2
      have : c = 0 ∨ c = 1 := by omega
      rcases this with rfl | rfl
      · exact c0
      · exact c1)
  obtain ⟨h1, h2, h3⟩ := h
  refine ⟨hsp, h1, by rw [h2, hsp]; norm_num, ?_⟩
  have := h3 0 (by norm_num)
  rw [hsp] at this
  norm_num at this
  rw [this]
  norm_num

theorem C6_input_sp : C6_input._sp = 2 := by
  simp [C6_input, push, create, init, clear, ps_clear, STACK_SIZE]

theorem C6_input_cells : C6_input._s 0 = 7 ∧ C6_input._s 1 = 1 := by
  simp [C6_input, push, create, init, clear, ps_clear, setCell, STACK_SIZE]

theorem C6_input_weight : C6_input._weight_vector = some [1] := by
  simp [C6_input, push, create, init, clear, ps_clear, STACK_SIZE]

theorem blend_outer_one_master (w : List ℚ) (base : Int) :
    ∀ (k : Nat) (j off : Int) (cells : Int → ℚ),
      (blend_outer w 1 base k j off cells).1 = cells := by
  intro k
  induction k with
  | zero => intro j off cells; rfl
  | succ k ih =>
    intro j off cells
    rw [blend_outer]
    simp only [Nat.sub_self, blend_inner]
    exact ih _ _ _

/-- C6 (as amended): when the weight vector has length 1, Blend with a count
`n` on top of at least `n` operands succeeds and removes the count, and
nothing else: every cell of the operand stack, and every other field of the
object, is as before. -/
theorem C6_blend_one_master (s : CharstringInterp) (x : ℚ) (n : Int)
    (hw : s._weight_vector = some [x])
    (hcount : s.top 0 = (n : ℚ))
    (h1 : 1 ≤ s._sp)
    (hdepth : n ≤ s._sp - 1) :
    blend_command s = (true, { s with _sp := s._sp - 1 }) := by
  rw [blend_command_eq s [x] n hw (by simp) hcount h1 (by simpa using hdepth)]
  simp only [List.length_singleton, blend_outer_one_master]
  congr 2
  simp

/-- C6, witness: with the weight vector `[1]` and the count `1` on the operand
`7`, Blend only lowers the depth by one. -/
theorem C6_blend_one_master_witness :
    C6_input._sp = 2 ∧ blend_command C6_input = (true, { C6_input with _sp := C6_input._sp - 1 }) := by
  have hsp := C6_input_sp
  obtain ⟨c0, c1⟩ := C6_input_cells
  exact ⟨hsp, C6_blend_one_master C6_input 1 1 C6_input_weight (by simp [top, hsp, c1])
    (by rw [hsp]; norm_num) (by rw [hsp]; norm_num)⟩

/-- C6, counterexample: with the weight vector `[1]` and the count `1` on top
of the operand `7`, the stack after Blend is not the stack before it: the
count is gone and the depth is `1`, not `2`. -/
theorem C6_blend_one_master_counterexample :
    C6_input._weight_vector = some [1] ∧ C6_input._sp = 2 ∧ C6_input.top 0 = 1 ∧
    (blend_command C6_input).1 = true ∧ (blend_command C6_input).2._sp = 1 ∧
    (blend_command C6_input).2.stack = [7] ∧ C6_input.stack = [7, 1] ∧
    (blend_command C6_input).2.stack ≠ C6_input.stack := by
  have hsp := C6_input_sp
  obtain ⟨c0, c1⟩ := C6_input_cells
  have heq := blend_command_eq C6_input [1] 1 C6_input_weight (by simp)
    (by simp [top, hsp, c1]) (by rw [hsp]; norm_num) (by simp [hsp])
  have hs1 : (blend_command C6_input).2.stack = [7] := by
    rw [heq]
    simp [stack, hsp, blend_outer_one_master, List.range_succ, c0]
  have hs0 : C6_input.stack = [7, 1] := by
    simp [stack, hsp, List.range_succ, c0, c1]
  refine ⟨C6_input_weight, hsp, by simp [top, hsp, c1], by rw [heq], by rw [heq]; simp [hsp],
    hs1, hs0, by rw [hs1, hs0]; simp⟩

theorem C7_input_sp : C7_input._sp = 1 := by
  simp [C7_input, push, create, init, clear, ps_clear, STACK_SIZE]

theorem C7_input_cells : C7_input._s 0 = 5 ∧ C7_input._s (-1) = 0 := by
  simp [C7_input, push, create, init, clear, ps_clear, setCell, STACK_SIZE]

/-- C7, the code at the failing input: Add and Sub test `CHECK_STACK(1)`, so
on every object the value they return is true exactly when the stack holds at
least one operand; on the single operand `5` both return true, where the
opcodes that test `CHECK_STACK(2)` (Div, Mul, And, Or, Eq) return false with
`errUnderflow` and the opcode as error data. What `top() += d` then does on
the emptied stack is the accessor's and is not stated here. -/
theorem C7_add_on_one_operand :
    C7_input.size = 1 ∧
    (∀ s : CharstringInterp,
      (arith_command CS.cAdd s).map Prod.fst = some (decide (1 ≤ s.size))) ∧
    (∀ s : CharstringInterp,
      (arith_command CS.cSub s).map Prod.fst = some (decide (1 ≤ s.size))) ∧
    (arith_command CS.cAdd C7_input).map Prod.fst = some true ∧
    (arith_command CS.cSub C7_input).map Prod.fst = some true ∧
    [CS.cDiv, CS.cMul, CS.cAnd, CS.cOr, CS.cEq].map (fun cmd =>
        (arith_command cmd C7_input).map (fun r => (r.1, r.2._error, r.2._error_data)))
      = [CS.cDiv, CS.cMul, CS.cAnd, CS.cOr, CS.cEq].map (fun cmd =>
        some (false, errUnderflow, cmd)) := by
  have hsp := C7_input_sp
  have key : ∀ (cmd : Int) (s : CharstringInterp), cmd = CS.cAdd ∨ cmd = CS.cSub →
      (arith_command cmd s).map Prod.fst = some (decide (1 ≤ s.size)) := by
    intro cmd s h
    by_cases h1 : s.size < 1
    · have e : decide (1 ≤ s.size) = false := decide_eq_false (by omega)
      rw [e]
      rcases h with h | h <;> subst h <;> simp +decide [arith_command, h1, error]
    · have e : decide (1 ≤ s.size) = true := decide_eq_true (by omega)
      rw [e]
      rcases h with h | h <;> subst h <;> simp +decide [arith_command, h1]
  refine ⟨hsp, fun s => key _ s (Or.inl rfl), fun s => key _ s (Or.inr rfl), ?_, ?_, ?_⟩
  · rw [key _ _ (Or.inl rfl)]
    decide
  · rw [key _ _ (Or.inr rfl)]
    decide
  · simp +decide [arith_command, size, error, hsp]

theorem post_ite {α : Type} (proj : α → CharstringInterp) (P : CharstringInterp → Prop)
    (c : Prop) [Decidable c] (a b : Option α)
    (ha : Post proj P a) (hb : Post proj P b) : Post proj P (if c then a else b) := by
  split <;> assumption

theorem post_none {α : Type} (proj : α → CharstringInterp) (P : CharstringInterp → Prop) :
    Post proj P (none : Option α) := by
  intro r h; cases h

theorem post_some {α : Type} (proj : α → CharstringInterp) (P : CharstringInterp → Prop)
    (x : α) (h : P (proj x)) : Post proj P (some x) := by
  intro r hr; cases hr; exact h

theorem post_map {α β : Type} (proj : β → CharstringInterp) (P : CharstringInterp → Prop)
    (f : α → β) (o : Option α) (h : ∀ x, o = some x → P (proj (f x))) :
    Post proj P (o.map f) := by
  intro r hr
  cases o with
  | none => cases hr
  | some x => cases hr; exact h x rfl

theorem ite_prop {α : Type} (P : α → Prop) (c : Prop) [Decidable c] (a b : α)
    (ha : P a) (hb : P b) : P (if c then a else b) := by
  split <;> assumption

theorem post_mono {α : Type} (proj : α → CharstringInterp) (P Q : CharstringInterp → Prop)
    (o : Option α) (h : Post proj P o) (hPQ : ∀ t, P t → Q t) : Post proj Q o :=
  fun r hr => hPQ _ (h r hr)

/-! ### The subroutine depth is touched by `init` and the subroutine calls only -/

theorem error_depth (e d : Int) (s : CharstringInterp) :
    (error e d s).2._subr_depth = s._subr_depth := rfl

theorem push_depth (d : ℚ) (s : CharstringInterp) :
    (push d s)._subr_depth = s._subr_depth := by
  unfold push; split <;> rfl

theorem ps_push_depth (d : ℚ) (s : CharstringInterp) :
    (ps_push d s)._subr_depth = s._subr_depth := by
  unfold ps_push; split <;> rfl

theorem pop_depth (n : Int) (s : CharstringInterp) :
    (s.pop n).2._subr_depth = s._subr_depth := rfl

theorem ps_pop_depth (s : CharstringInterp) :
    s.ps_pop.2._subr_depth = s._subr_depth := rfl

theorem set_top_depth (i : Int) (v : ℚ) (s : CharstringInterp) :
    (set_top i v s)._subr_depth = s._subr_depth := rfl

theorem clear_depth (s : CharstringInterp) : (clear s)._subr_depth = s._subr_depth := rfl

theorem ps_clear_depth (s : CharstringInterp) : (ps_clear s)._subr_depth = s._subr_depth := rfl

theorem set_done_depth (s : CharstringInterp) : (set_done s)._subr_depth = s._subr_depth := rfl

theorem finish_depth (s : CharstringInterp) : (finish s).2._subr_depth = s._subr_depth := rfl

theorem scratch_write_depth (i : Int) (v : ℚ) (s : CharstringInterp) :
    (scratch_write i v s)._subr_depth = s._subr_depth := rfl

theorem set_vector_depth (r : VecRef) (v : List ℚ) (s : CharstringInterp) :
    (set_vector s r v)._subr_depth = s._subr_depth := by
  cases r <;> rfl

theorem store_loop_depth : ∀ (k : Nat) (offset vectoroff : Int) (v : List ℚ) (s : CharstringInterp),
    (store_loop k offset vectoroff v s).2._subr_depth = s._subr_depth := by
  intro k
  induction k with
  | zero => intros; rfl
  | succ k ih => intro offset vectoroff v s; rw [store_loop, ih]

theorem load_loop_depth (v : List ℚ) : ∀ (k : Nat) (i offset : Int) (s : CharstringInterp),
    (load_loop v k i offset s)._subr_depth = s._subr_depth := by
  intro k
  induction k with
  | zero => intros; rfl
  | succ k ih => intro i offset s; rw [load_loop, ih, scratch_write_depth]

theorem vector_command_depth (cmd : Int) (s : CharstringInterp) :
    (vector_command cmd s).2._subr_depth = s._subr_depth := by
  unfold vector_command
  simp only []
  split_ifs
  all_goals (repeat' split)
  all_goals
    simp only [error_depth, pop_depth, set_top_depth, scratch_write_depth, set_vector_depth,
      store_loop_depth, load_loop_depth]

theorem blend_command_depth (s : CharstringInterp) :
    (blend_command s).2._subr_depth = s._subr_depth := by
  unfold blend_command
  simp only []
  split_ifs
  all_goals (repeat' split)
  all_goals simp only [error_depth, pop_depth]

theorem roll_command_depth (s : CharstringInterp) :
    (roll_command s).2._subr_depth = s._subr_depth := by
  unfold roll_command
  simp only []
  split_ifs
  all_goals simp only [error_depth, pop_depth]

theorem arith_command_depth (cmd : Int) (s : CharstringInterp) :
    Post Prod.snd (fun t => t._subr_depth = s._subr_depth) (arith_command cmd s) := by
  unfold arith_command
  repeat' apply post_ite
  all_goals first | apply post_some | apply post_map
  all_goals
    first
    | (simp only [error_depth, pop_depth, set_top_depth, push_depth, blend_command_depth,
        roll_command_depth, ps_pop_depth]; done)
    | (split <;> simp only [error_depth, pop_depth, set_top_depth, push_depth])
    | (intro x _; simp only [push_depth])

theorem mm_push_loop_depth (base : Int) : ∀ (k : Nat) (s : CharstringInterp),
    (mm_push_loop base k s)._subr_depth = s._subr_depth := by
  intro k
  induction k with
  | zero => intros; rfl
  | succ k ih => intro s; rw [mm_push_loop, ih, ps_push_depth]

theorem mm_command_depth (command on_stack : Int) (s : CharstringInterp) :
    (mm_command command on_stack s).2._subr_depth = s._subr_depth := by
  unfold mm_command
  simp only []
  repeat' split
  all_goals simp only [error_depth, pop_depth, mm_push_loop_depth]

theorem itc_load_loop_depth (weight : List ℚ) (offset : Int) :
    ∀ (k i : Nat) (s : CharstringInterp),
      (itc_load_loop weight offset k i s)._subr_depth = s._subr_depth := by
  intro k
  induction k with
  | zero => intros; rfl
  | succ k ih => intro i s; rw [itc_load_loop, ih, scratch_write_depth]

theorem itc_command_depth (command on_stack : Int) (s : CharstringInterp) :
    (itc_command command on_stack s).2._subr_depth = s._subr_depth := by
  unfold itc_command
  split
  · rfl
  · repeat' apply ite_prop (fun r : Result => r.2._subr_depth = s._subr_depth)
    all_goals
      first
      | (simp only [error_depth, pop_depth, itc_load_loop_depth, scratch_write_depth,
          ps_push_depth]; done)
      | (simp only [pop_depth]; split <;> simp only [ps_push_depth])

theorem call_virtual_depth (a : Act) (dflt : CharstringInterp → CharstringInterp)
    (h : ∀ t, (dflt t)._subr_depth = t._subr_depth) (s : CharstringInterp) :
    (call_virtual a dflt s)._subr_depth = s._subr_depth := by
  unfold call_virtual
  simp only []
  split
  · rw [h]
  · rfl
  · rfl

theorem act_sidebearing_depth (cmd : Int) (p : Point) (s : CharstringInterp) :
    (act_sidebearing cmd p s)._subr_depth = s._subr_depth :=
  call_virtual_depth _ _ (fun _ => rfl) s

theorem act_width_depth (cmd : Int) (p : Point) (s : CharstringInterp) :
    (act_width cmd p s)._subr_depth = s._subr_depth :=
  call_virtual_depth _ _ (fun _ => rfl) s

theorem act_closepath_depth (cmd : Int) (s : CharstringInterp) :
    (act_closepath cmd s)._subr_depth = s._subr_depth :=
  call_virtual_depth _ _ (fun _ => rfl) s

theorem act_hstem_depth (cmd : Int) (y dy : ℚ) (s : CharstringInterp) :
    (act_hstem cmd y dy s)._subr_depth = s._subr_depth :=
  call_virtual_depth _ _ (fun _ => rfl) s

theorem act_vstem_depth (cmd : Int) (x dx : ℚ) (s : CharstringInterp) :
    (act_vstem cmd x dx s)._subr_depth = s._subr_depth :=
  call_virtual_depth _ _ (fun _ => rfl) s

theorem act_hintmask_depth (cmd : Int) (data : List Nat) (nhints : Int) (s : CharstringInterp) :
    (act_hintmask cmd data nhints s)._subr_depth = s._subr_depth :=
  call_virtual_depth _ _ (fun _ => rfl) s

theorem act_default_width_depth (cmd : Int) (s : CharstringInterp) :
    (act_default_width cmd s)._subr_depth = s._subr_depth := by
  apply call_virtual_depth
  intro t
  simp only []
  repeat' split
  all_goals simp only [act_width_depth]

theorem act_nominal_width_delta_depth (cmd : Int) (delta : ℚ) (s : CharstringInterp) :
    (act_nominal_width_delta cmd delta s)._subr_depth = s._subr_depth := by
  apply call_virtual_depth
  intro t
  simp only []
  repeat' split
  all_goals simp only [act_width_depth]

theorem act_curve_depth (cmd : Int) (p0 p1 p2 p3 : Point) (s : CharstringInterp) :
    (act_curve cmd p0 p1 p2 p3 s)._subr_depth = s._subr_depth := by
  unfold act_curve
  apply call_virtual_depth
  intro t
  rfl

theorem act_line_depth (cmd : Int) (p0 p1 : Point) (s : CharstringInterp) :
    (act_line cmd p0 p1 s)._subr_depth = s._subr_depth :=
  call_virtual_depth _ _ (fun _ => act_curve_depth _ _ _ _ _ _) s

theorem act_flex_depth (cmd : Int) (p0 p1 p2 p3_4 p5 p6 p7 : Point) (flex_depth : ℚ)
    (s : CharstringInterp) :
    (act_flex cmd p0 p1 p2 p3_4 p5 p6 p7 flex_depth s)._subr_depth = s._subr_depth :=
  call_virtual_depth _ _ (fun _ => by simp only [act_curve_depth]) s

theorem act_hstem3_depth (cmd : Int) (y0 dy0 y1 dy1 y2 dy2 : ℚ) (s : CharstringInterp) :
    (act_hstem3 cmd y0 dy0 y1 dy1 y2 dy2 s)._subr_depth = s._subr_depth :=
  call_virtual_depth _ _ (fun _ => by simp only [act_hstem_depth]) s

theorem act_vstem3_depth (cmd : Int) (x0 dx0 x1 dx1 x2 dx2 : ℚ) (s : CharstringInterp) :
    (act_vstem3 cmd x0 dx0 x1 dx1 x2 dx2 s)._subr_depth = s._subr_depth :=
  call_virtual_depth _ _ (fun _ => by simp only [act_vstem_depth]) s

theorem act_rmoveto_depth (cmd : Int) (dx dy : ℚ) (s : CharstringInterp) :
    (act_rmoveto cmd dx dy s)._subr_depth = s._subr_depth := rfl

theorem act_rlineto_depth (cmd : Int) (dx dy : ℚ) (s : CharstringInterp) :
    (act_rlineto cmd dx dy s)._subr_depth = s._subr_depth := by
  unfold act_rlineto
  simp only [act_line_depth]

theorem act_rrcurveto_depth (cmd : Int) (dx1 dy1 dx2 dy2 dx3 dy3 : ℚ) (s : CharstringInterp) :
    (act_rrcurveto cmd dx1 dy1 dx2 dy2 dx3 dy3 s)._subr_depth = s._subr_depth := by
  unfold act_rrcurveto
  simp only [act_curve_depth]

theorem act_rrflex_depth (cmd : Int)
    (dx1 dy1 dx2 dy2 dx3 dy3 dx4 dy4 dx5 dy5 dx6 dy6 flex_depth : ℚ) (s : CharstringInterp) :
    (act_rrflex cmd dx1 dy1 dx2 dy2 dx3 dy3 dx4 dy4 dx5 dy5 dx6 dy6 flex_depth s)._subr_depth
      = s._subr_depth := by
  unfold act_rrflex
  simp only [act_flex_depth]

theorem unknown_push_loop_depth : ∀ (k : Nat) (i : Int) (s : CharstringInterp),
    (unknown_push_loop k i s)._subr_depth = s._subr_depth := by
  intro k
  induction k with
  | zero => intros; rfl
  | succ k ih => intro i s; rw [unknown_push_loop, ih, ps_push_depth]

theorem othersubr_unknown_depth (n : Int) (s : CharstringInterp) :
    (othersubr_unknown n s).2._subr_depth = s._subr_depth := by
  unfold othersubr_unknown
  simp only [pop_depth, unknown_push_loop_depth, ps_clear_depth]

theorem callothersubr_command_depth (othersubrnum n : Int) (s : CharstringInterp) :
    (callothersubr_command othersubrnum n s).2._subr_depth = s._subr_depth := by
  unfold callothersubr_command
  repeat' apply ite_prop (fun r : Result => r.2._subr_depth = s._subr_depth)
  all_goals
    simp only [error_depth, pop_depth, ps_push_depth, ps_clear_depth, act_flex_depth,
      othersubr_unknown_depth, mm_command_depth, itc_command_depth]

theorem type2_handle_width_depth (cmd : Int) (have_width : Bool) (s : CharstringInterp) :
    (type2_handle_width cmd have_width s).2._subr_depth = s._subr_depth := by
  unfold type2_handle_width
  split <;> simp only [act_nominal_width_delta_depth, act_default_width_depth]

theorem t2_stem_loop_depth (cmd : Int) (horizontal : Bool) :
    ∀ (k : Nat) (pos : ℚ) (bottom : Int) (s : CharstringInterp),
      (t2_stem_loop cmd horizontal k pos bottom s)._subr_depth = s._subr_depth := by
  intro k
  induction k with
  | zero => intros; rfl
  | succ k ih =>
    intro pos bottom s
    rw [t2_stem_loop]
    split
    · rw [ih]; split <;> simp only [act_hstem_depth, act_vstem_depth]
    · rfl

theorem t2_rlineto_loop_depth (cmd : Int) :
    ∀ (k : Nat) (bottom : Int) (s : CharstringInterp),
      (t2_rlineto_loop cmd k bottom s)._subr_depth = s._subr_depth := by
  intro k
  induction k with
  | zero => intros; rfl
  | succ k ih =>
    intro bottom s
    rw [t2_rlineto_loop]
    split
    · rw [ih, act_rlineto_depth]
    · rfl

theorem t2_hvlineto_loop_depth (cmd : Int) (horizontal : Bool) :
    ∀ (k : Nat) (bottom : Int) (s : CharstringInterp),
      (t2_hvlineto_loop cmd horizontal k bottom s)._subr_depth = s._subr_depth := by
  intro k
  induction k with
  | zero => intros; rfl
  | succ k ih =>
    intro bottom s
    rw [t2_hvlineto_loop]
    simp only []
    repeat' split
    all_goals simp only [ih, act_rlineto_depth]

theorem t2_rrcurveto_loop_depth (cmd : Int) (margin : Int) :
    ∀ (k : Nat) (bottom : Int) (s : CharstringInterp),
      (t2_rrcurveto_loop cmd margin k bottom s).1._subr_depth = s._subr_depth := by
  intro k
  induction k with
  | zero => intros; rfl
  | succ k ih =>
    intro bottom s
    rw [t2_rrcurveto_loop]
    split
    · rw [ih, act_rrcurveto_depth]
    · rfl

theorem t2_rlinecurve_loop_depth (cmd : Int) :
    ∀ (k : Nat) (bottom : Int) (s : CharstringInterp),
      (t2_rlinecurve_loop cmd k bottom s).1._subr_depth = s._subr_depth := by
  intro k
  induction k with
  | zero => intros; rfl
  | succ k ih =>
    intro bottom s
    rw [t2_rlinecurve_loop]
    split
    · rw [ih, act_rlineto_depth]
    · rfl

theorem t2_hhvvcurveto_loop_depth (cmd : Int) (horizontal : Bool) :
    ∀ (k : Nat) (bottom : Int) (s : CharstringInterp),
      (t2_hhvvcurveto_loop cmd horizontal k bottom s)._subr_depth = s._subr_depth := by
  intro k
  induction k with
  | zero => intros; rfl
  | succ k ih =>
    intro bottom s
    rw [t2_hhvvcurveto_loop]
    simp only []
    repeat' split
    all_goals simp only [ih, act_rrcurveto_depth]

theorem t2_hv_curve_depth (cmd : Int) (bottom : Int) (s : CharstringInterp) :
    (t2_hv_curve cmd bottom s)._subr_depth = s._subr_depth := by
  unfold t2_hv_curve
  simp only [act_rrcurveto_depth]

theorem t2_vh_curve_depth (cmd : Int) (bottom : Int) (s : CharstringInterp) :
    (t2_vh_curve cmd bottom s)._subr_depth = s._subr_depth := by
  unfold t2_vh_curve
  simp only [act_rrcurveto_depth]

theorem t2_hvvhcurveto_loop_depth (cmd : Int) (horizontal : Bool) :
    ∀ (k : Nat) (bottom : Int) (s : CharstringInterp),
      (t2_hvvhcurveto_loop cmd horizontal k bottom s)._subr_depth = s._subr_depth := by
  intro k
  induction k with
  | zero => intros; rfl
  | succ k ih =>
    intro bottom s
    rw [t2_hvvhcurveto_loop]
    simp only []
    repeat' split
    all_goals simp only [ih, t2_hv_curve_depth, t2_vh_curve_depth]

theorem check_state_inl_depth (cmd : Int) (s : CharstringInterp) (r : Result)
    (h : check_state cmd s = .inl r) : r.2._subr_depth = s._subr_depth := by
  unfold check_state at h
  split at h
  · cases h; rfl
  · cases h

theorem check_state_inr_depth (cmd : Int) (s t : CharstringInterp)
    (h : check_state cmd s = .inr t) : t._subr_depth = s._subr_depth := by
  unfold check_state at h
  split at h
  · cases h
  · cases h; rfl

theorem post_ite_cases {α : Type} (proj : α → CharstringInterp) (P : CharstringInterp → Prop)
    (c : Prop) [Decidable c] (a b : Option α)
    (ha : c → Post proj P a) (hb : ¬ c → Post proj P b) : Post proj P (if c then a else b) := by
  split
  · exact ha ‹_›
  · exact hb ‹_›

theorem post_bind {α β : Type} (proj : β → CharstringInterp) (P : CharstringInterp → Prop)
    (f : α → Option β) (o : Option α) (h : ∀ x, o = some x → Post proj P (f x)) :
    Post proj P (o.bind f) := by
  intro r hr
  cases o with
  | none => cases hr
  | some x => exact h x rfl r hr

theorem ite_depth (c : Prop) [Decidable c] (a b : CharstringInterp) :
    (if c then a else b)._subr_depth = if c then a._subr_depth else b._subr_depth :=
  apply_ite _ _ _ _

theorem ite_snd {α : Type} (c : Prop) [Decidable c] (a b : α × CharstringInterp) :
    (if c then a else b).2 = if c then a.2 else b.2 :=
  apply_ite _ _ _ _

theorem callsubr_enter_bounded (s : CharstringInterp)
    (cs : Charstring) (t : CharstringInterp) (h : callsubr_enter s = .inr (cs, t)) :
    DepthBounded t := by
  unfold callsubr_enter at h
  simp only [] at h
  split at h
  · cases h
  · split at h
    · cases h
    · split at h
      · cases h
      · rename_i hlt
        cases h
        simp only [DepthBounded, pop_depth, ge_iff_le, not_le] at hlt ⊢
        omega

theorem callgsubr_enter_bounded (s : CharstringInterp)
    (cs : Charstring) (t : CharstringInterp) (h : callgsubr_enter s = .inr (cs, t)) :
    DepthBounded t := by
  unfold callgsubr_enter at h
  simp only [] at h
  split at h
  · cases h
  · split at h
    · cases h
    · split at h
      · cases h
      · rename_i hlt
        cases h
        simp only [DepthBounded, pop_depth, ge_iff_le, not_le] at hlt ⊢
        omega

theorem callsubr_enter_inl_depth (s : CharstringInterp) (r : Result)
    (h : callsubr_enter s = .inl r) : r.2._subr_depth = s._subr_depth := by
  unfold callsubr_enter at h
  simp only [] at h
  split at h
  · cases h; rfl
  · split at h
    · cases h; rfl
    · split at h
      · cases h; rfl
      · cases h

theorem callgsubr_enter_inl_depth (s : CharstringInterp) (r : Result)
    (h : callgsubr_enter s = .inl r) : r.2._subr_depth = s._subr_depth := by
  unfold callgsubr_enter at h
  simp only [] at h
  split at h
  · cases h; rfl
  · split at h
    · cases h; rfl
    · split at h
      · cases h; rfl
      · cases h

theorem subr_leave_depth (s : CharstringInterp) :
    (subr_leave s).2._subr_depth = s._subr_depth - 1 := by
  unfold subr_leave
  simp only []
  split <;> rfl

theorem callsubr_command_bounded (run : Runner) (hrun : RunnerBounded run)
    (s : CharstringInterp) (hs : DepthBounded s) :
    Post Prod.snd DepthBounded (callsubr_command run s) := by
  unfold callsubr_command
  split
  · rename_i r heq
    apply post_some
    simp only [DepthBounded, callsubr_enter_inl_depth s r heq] at hs ⊢
    exact hs
  · rename_i cs t heq
    apply post_map
    intro x hx
    have hx' := hrun _ _ (callsubr_enter_bounded s cs t heq) x hx
    simp only [DepthBounded, id, subr_leave_depth] at hx' ⊢
    omega

theorem callgsubr_command_bounded (run : Runner) (hrun : RunnerBounded run)
    (s : CharstringInterp) (hs : DepthBounded s) :
    Post Prod.snd DepthBounded (callgsubr_command run s) := by
  unfold callgsubr_command
  split
  · rename_i r heq
    apply post_some
    simp only [DepthBounded, callgsubr_enter_inl_depth s r heq] at hs ⊢
    exact hs
  · rename_i cs t heq
    apply post_map
    intro x hx
    have hx' := hrun _ _ (callgsubr_enter_bounded s cs t heq) x hx
    simp only [DepthBounded, id, subr_leave_depth] at hx' ⊢
    omega

theorem init_bounded (s : CharstringInterp) : DepthBounded (init s) := by
  simp [DepthBounded, init]

theorem seac_default_bounded (run : Runner) (hrun : RunnerBounded run)
    (cmd : Int) (asb adx ady : ℚ) (bchar achar : Int) (s : CharstringInterp)
    (hs : DepthBounded s) :
    Post id DepthBounded (seac_default run cmd asb adx ady bchar achar s) := by
  unfold seac_default
  simp only []
  split
  · exact post_some _ _ _ hs
  · with_reducible apply post_ite
    · exact post_some _ _ _ hs
    · split
      · exact post_some _ _ _ hs
      · split
        · exact post_some _ _ _ hs
        · with_reducible apply post_bind
          intro x hx
          have hx' : DepthBounded x := by
            refine hrun _ _ ?_ x hx
            simp [DepthBounded, init, clear, ps_clear]
          with_reducible apply post_ite
          · with_reducible apply post_map
            intro y hy
            have hy' : DepthBounded y := by
              refine hrun _ _ ?_ y hy
              simp [DepthBounded, init, clear, ps_clear]
            exact hy'
          · exact post_some _ _ _ hx'

theorem act_seac_bounded (run : Runner) (hrun : RunnerBounded run)
    (cmd : Int) (asb adx ady : ℚ) (bchar achar : Int) (s : CharstringInterp)
    (hs : DepthBounded s) :
    Post id DepthBounded (act_seac run cmd asb adx ady bchar achar s) := by
  unfold act_seac
  simp only []
  split
  · exact seac_default_bounded run hrun _ _ _ _ _ _ _ hs
  · exact post_some _ _ _ hs
  · exact post_some _ _ _ hs

theorem type1_command_bounded (run : Runner) (hrun : RunnerBounded run)
    (cmd : Int) (s : CharstringInterp) (hs : DepthBounded s) :
    Post Prod.snd DepthBounded (type1_command run cmd s) := by
  unfold type1_command
  repeat' with_reducible apply post_ite
  all_goals
    first
    | exact callsubr_command_bounded run hrun s hs
    | exact post_mono _ _ _ _ (arith_command_depth cmd s)
        (fun t ht => by simp only [DepthBounded] at hs ⊢; rw [ht]; exact hs)
    | (with_reducible apply post_some
       simp only [DepthBounded, error_depth, push_depth, ps_push_depth, pop_depth, ps_pop_depth, set_top_depth,
        clear_depth, ps_clear_depth, set_done_depth, finish_depth, vector_command_depth,
        callothersubr_command_depth, act_sidebearing_depth, act_width_depth, act_closepath_depth,
        act_hstem_depth, act_vstem_depth, act_hstem3_depth, act_vstem3_depth, act_hintmask_depth,
        act_rmoveto_depth, act_rlineto_depth, act_rrcurveto_depth, act_rrflex_depth,
        type2_handle_width_depth, t2_stem_loop_depth, t2_rlineto_loop_depth,
        t2_hvlineto_loop_depth, t2_rrcurveto_loop_depth, t2_rlinecurve_loop_depth,
        t2_hhvvcurveto_loop_depth, t2_hvvhcurveto_loop_depth, ite_depth, ite_snd, ite_self] at hs ⊢
       exact hs)
    | (with_reducible apply post_map
       intro x hx
       exact act_seac_bounded run hrun _ _ _ _ _ _ _ hs x hx)

theorem endchar_seac_bounded (run : Runner) (hrun : RunnerBounded run)
    (cmd : Int) (bottom : Int) (s : CharstringInterp) (hs : DepthBounded s) :
    Post id DepthBounded
      (if bottom + 3 < s.size ∧ s._state = S_INITIAL then
        act_seac run cmd 0 (s.«at» bottom) (s.«at» (bottom + 1)) (toInt (s.«at» (bottom + 2)))
          (toInt (s.«at» (bottom + 3))) s
      else if s._state = S_PATH then some (act_closepath cmd s)
      else some s) := by
  with_reducible apply post_ite
  · exact act_seac_bounded run hrun _ _ _ _ _ _ _ hs
  · with_reducible apply post_ite
    · with_reducible apply post_some
      simp only [DepthBounded, id, act_closepath_depth] at hs ⊢
      exact hs
    · exact post_some _ _ _ hs

theorem type2_command_bounded (run : Runner) (hrun : RunnerBounded run)
    (cmd : Int) (data : Option (List Nat)) (left : Option Int)
    (s : CharstringInterp) (hs : DepthBounded s) :
    Post (fun r : Result × Option Int => r.1.2) DepthBounded
      (type2_command run cmd data left s) := by
  unfold type2_command
  repeat' with_reducible apply post_ite
  all_goals
    first
    | (with_reducible apply post_some
       simp only [DepthBounded, error_depth, push_depth, ps_push_depth, pop_depth, ps_pop_depth, set_top_depth,
        clear_depth, ps_clear_depth, set_done_depth, finish_depth, vector_command_depth,
        callothersubr_command_depth, act_sidebearing_depth, act_width_depth, act_closepath_depth,
        act_hstem_depth, act_vstem_depth, act_hstem3_depth, act_vstem3_depth, act_hintmask_depth,
        act_rmoveto_depth, act_rlineto_depth, act_rrcurveto_depth, act_rrflex_depth,
        type2_handle_width_depth, t2_stem_loop_depth, t2_rlineto_loop_depth,
        t2_hvlineto_loop_depth, t2_rrcurveto_loop_depth, t2_rlinecurve_loop_depth,
        t2_hhvvcurveto_loop_depth, t2_hvvhcurveto_loop_depth, ite_depth, ite_snd, ite_self] at hs ⊢
       exact hs)
    | (with_reducible apply post_map
       intro x hx
       exact callsubr_command_bounded run hrun s hs x hx)
    | (with_reducible apply post_map
       intro x hx
       exact callgsubr_command_bounded run hrun s hs x hx)
    | (with_reducible apply post_map
       intro x hx
       have hd := arith_command_depth cmd s x hx
       simp only [DepthBounded] at hs ⊢
       rw [hd]
       exact hs)
    | (split
       · rename_i r heq
         with_reducible apply post_some
         have hd := check_state_inl_depth _ _ _ heq
         simp only [DepthBounded] at hs ⊢
         rw [hd]
         exact hs
       · rename_i t heq
         with_reducible apply post_some
         have hd := check_state_inr_depth _ _ _ heq
         simp only [DepthBounded, error_depth, push_depth, ps_push_depth, pop_depth, ps_pop_depth, set_top_depth,
        clear_depth, ps_clear_depth, set_done_depth, finish_depth, vector_command_depth,
        callothersubr_command_depth, act_sidebearing_depth, act_width_depth, act_closepath_depth,
        act_hstem_depth, act_vstem_depth, act_hstem3_depth, act_vstem3_depth, act_hintmask_depth,
        act_rmoveto_depth, act_rlineto_depth, act_rrcurveto_depth, act_rrflex_depth,
        type2_handle_width_depth, t2_stem_loop_depth, t2_rlineto_loop_depth,
        t2_hvlineto_loop_depth, t2_rrcurveto_loop_depth, t2_rlinecurve_loop_depth,
        t2_hhvvcurveto_loop_depth, t2_hvvhcurveto_loop_depth, ite_depth, ite_snd, ite_self] at hs ⊢
         rw [hd]
         exact hs)
    | (split
       · rename_i r heq
         with_reducible apply post_some
         have hd := check_state_inl_depth _ _ _ heq
         simp only [DepthBounded] at hs ⊢
         rw [hd]
         exact hs
       · rename_i t heq
         have hd := check_state_inr_depth _ _ _ heq
         with_reducible apply post_ite
         all_goals
           with_reducible apply post_some
           simp only [DepthBounded, error_depth, push_depth, ps_push_depth, pop_depth, ps_pop_depth, set_top_depth,
        clear_depth, ps_clear_depth, set_done_depth, finish_depth, vector_command_depth,
        callothersubr_command_depth, act_sidebearing_depth, act_width_depth, act_closepath_depth,
        act_hstem_depth, act_vstem_depth, act_hstem3_depth, act_vstem3_depth, act_hintmask_depth,
        act_rmoveto_depth, act_rlineto_depth, act_rrcurveto_depth, act_rrflex_depth,
        type2_handle_width_depth, t2_stem_loop_depth, t2_rlineto_loop_depth,
        t2_hvlineto_loop_depth, t2_rrcurveto_loop_depth, t2_rlinecurve_loop_depth,
        t2_hhvvcurveto_loop_depth, t2_hvvhcurveto_loop_depth, ite_depth, ite_snd, ite_self] at hs ⊢
           rw [hd]
           exact hs)
    | (split
       · with_reducible apply post_ite
         all_goals
           with_reducible apply post_some
           simp only [DepthBounded, error_depth, push_depth, ps_push_depth, pop_depth, ps_pop_depth, set_top_depth,
        clear_depth, ps_clear_depth, set_done_depth, finish_depth, vector_command_depth,
        callothersubr_command_depth, act_sidebearing_depth, act_width_depth, act_closepath_depth,
        act_hstem_depth, act_vstem_depth, act_hstem3_depth, act_vstem3_depth, act_hintmask_depth,
        act_rmoveto_depth, act_rlineto_depth, act_rrcurveto_depth, act_rrflex_depth,
        type2_handle_width_depth, t2_stem_loop_depth, t2_rlineto_loop_depth,
        t2_hvlineto_loop_depth, t2_rrcurveto_loop_depth, t2_rlinecurve_loop_depth,
        t2_hhvvcurveto_loop_depth, t2_hvvhcurveto_loop_depth, ite_depth, ite_snd, ite_self] at hs ⊢
           exact hs
       · with_reducible apply post_some
         simp only [DepthBounded, error_depth, push_depth, ps_push_depth, pop_depth, ps_pop_depth, set_top_depth,
        clear_depth, ps_clear_depth, set_done_depth, finish_depth, vector_command_depth,
        callothersubr_command_depth, act_sidebearing_depth, act_width_depth, act_closepath_depth,
        act_hstem_depth, act_vstem_depth, act_hstem3_depth, act_vstem3_depth, act_hintmask_depth,
        act_rmoveto_depth, act_rlineto_depth, act_rrcurveto_depth, act_rrflex_depth,
        type2_handle_width_depth, t2_stem_loop_depth, t2_rlineto_loop_depth,
        t2_hvlineto_loop_depth, t2_rrcurveto_loop_depth, t2_rlinecurve_loop_depth,
        t2_hhvvcurveto_loop_depth, t2_hvvhcurveto_loop_depth, ite_depth, ite_snd, ite_self] at hs ⊢
         exact hs)
    | (with_reducible apply post_map
       intro x hx
       have hx' : DepthBounded x := by
         refine endchar_seac_bounded run hrun cmd _ _ ?_ x hx
         simp only [DepthBounded, error_depth, push_depth, ps_push_depth, pop_depth, ps_pop_depth, set_top_depth,
        clear_depth, ps_clear_depth, set_done_depth, finish_depth, vector_command_depth,
        callothersubr_command_depth, act_sidebearing_depth, act_width_depth, act_closepath_depth,
        act_hstem_depth, act_vstem_depth, act_hstem3_depth, act_vstem3_depth, act_hintmask_depth,
        act_rmoveto_depth, act_rlineto_depth, act_rrcurveto_depth, act_rrflex_depth,
        type2_handle_width_depth, t2_stem_loop_depth, t2_rlineto_loop_depth,
        t2_hvlineto_loop_depth, t2_rrcurveto_loop_depth, t2_rlinecurve_loop_depth,
        t2_hhvvcurveto_loop_depth, t2_hvvhcurveto_loop_depth, ite_depth, ite_snd, ite_self] at hs ⊢
         exact hs
       simp only [DepthBounded, error_depth, push_depth, ps_push_depth, pop_depth, ps_pop_depth, set_top_depth,
        clear_depth, ps_clear_depth, set_done_depth, finish_depth, vector_command_depth,
        callothersubr_command_depth, act_sidebearing_depth, act_width_depth, act_closepath_depth,
        act_hstem_depth, act_vstem_depth, act_hstem3_depth, act_vstem3_depth, act_hintmask_depth,
        act_rmoveto_depth, act_rlineto_depth, act_rrcurveto_depth, act_rrflex_depth,
        type2_handle_width_depth, t2_stem_loop_depth, t2_rlineto_loop_depth,
        t2_hvlineto_loop_depth, t2_rrcurveto_loop_depth, t2_rlinecurve_loop_depth,
        t2_hhvvcurveto_loop_depth, t2_hvvhcurveto_loop_depth, ite_depth, ite_snd, ite_self] at hx' ⊢
       exact hx')

theorem run_type1_bounded (run : Runner) (hrun : RunnerBounded run) :
    ∀ (items : List Item) (s : CharstringInterp), DepthBounded s →
      Post id DepthBounded (run_type1 run items s) := by
  intro items
  induction items with
  | nil => intro s hs; exact post_some _ _ _ hs
  | cons item rest ih =>
    intro s hs
    cases item with
    | number v =>
      rw [run_type1]
      have h1 : DepthBounded (number v s).2 := by
        simp only [DepthBounded, number, push_depth] at hs ⊢
        exact hs
      split
      · exact ih _ h1
      · exact post_some _ _ _ h1
    | command cmd =>
      rw [run_type1]
      split
      · exact post_none _ _
      · rename_i r heq
        have h1 : DepthBounded r.2 := type1_command_bounded run hrun cmd s hs r heq
        split
        · exact ih _ h1
        · exact post_some _ _ _ h1
    | byte b =>
      rw [run_type1]
      exact ih _ hs

theorem run_type2_bounded (run : Runner) (hrun : RunnerBounded run) :
    ∀ (k : Nat) (items : List Item) (s : CharstringInterp), DepthBounded s →
      Post id DepthBounded (run_type2 run k items s) := by
  intro k
  induction k with
  | zero => intro items s hs; exact post_some _ _ _ hs
  | succ k ih =>
    intro items s hs
    cases items with
    | nil => exact post_some _ _ _ hs
    | cons item rest =>
      cases item with
      | number v =>
        rw [run_type2]
        have h1 : DepthBounded (number v s).2 := by
          simp only [DepthBounded, number, push_depth] at hs ⊢
          exact hs
        split
        · exact ih _ _ h1
        · exact post_some _ _ _ h1
      | command cmd =>
        rw [run_type2]
        split
        · exact post_none _ _
        · rename_i r left heq
          have h1 : DepthBounded r.2 := type2_command_bounded run hrun cmd _ _ s hs _ heq
          split
          · exact ih _ _ h1
          · exact post_some _ _ _ h1
      | byte b =>
        rw [run_type2]
        exact ih _ _ hs

theorem run_bounded : ∀ fuel : Nat, RunnerBounded (run fuel) := by
  intro fuel
  induction fuel with
  | zero => intro cs s _; exact post_none _ _
  | succ fuel ih =>
    intro cs s hs
    rw [run]
    split
    · exact run_type2_bounded _ ih _ _ _ hs
    · exact run_type1_bounded _ ih _ _ hs

theorem reachable_bounded (s : CharstringInterp) (h : Reachable s) : DepthBounded s := by
  induction h with
  | init s => exact init_bounded s
  | number v s _ ih =>
    simp only [DepthBounded, number, push_depth] at ih ⊢
    exact ih
  | type1_command fuel cmd s r _ hr ih =>
    exact type1_command_bounded (run fuel) (run_bounded fuel) cmd s ih r hr
  | type2_command fuel cmd data left s r _ hr ih =>
    exact type2_command_bounded (run fuel) (run_bounded fuel) cmd data left s ih r hr
  | callsubr_body s cs t _ he _ => exact callsubr_enter_bounded s cs t he
  | callgsubr_body s cs t _ he _ => exact callgsubr_enter_bounded s cs t he
  | seac_glyph s origin _ _ => simp [DepthBounded, init, clear, ps_clear]

/-- The counter of the subroutine depth: `callsubr` or `callgsubr` naming an
existing subroutine while `_subr_depth >= MAX_SUBR_DEPTH` fails with `errSubrDepth` and the subroutine
number as error data, whatever `Charstring::run` would do (the body is not
run), the object being otherwise as after the pop of the subroutine number,
`_subr_depth` included; and `_subr_depth <= MAX_SUBR_DEPTH` in every state
reachable from `init()`. The counter is not the nesting: `act_seac` resets it
inside a subroutine. -/
theorem subr_depth_counter_bounded :
    (∀ (run : Runner) (s : CharstringInterp) (cs : Charstring),
      1 ≤ s.size → s.get_subr (toInt (s.top 0)) = some cs →
      MAX_SUBR_DEPTH ≤ s._subr_depth →
      callsubr_command run s
        = some (false, { (s.pop 1).2 with
            _error := errSubrDepth, _error_data := toInt (s.top 0) })) ∧
    (∀ (run : Runner) (s : CharstringInterp) (cs : Charstring),
      1 ≤ s.size → s.get_gsubr (toInt (s.top 0)) = some cs →
      MAX_SUBR_DEPTH ≤ s._subr_depth →
      callgsubr_command run s
        = some (false, { (s.pop 1).2 with
            _error := errSubrDepth, _error_data := toInt (s.top 0) })) ∧
    (∀ s : CharstringInterp, Reachable s → s._subr_depth ≤ MAX_SUBR_DEPTH) := by
  refine ⟨?_, ?_, fun s h => reachable_bounded s h⟩
  · intro run s cs hsz hsub hdepth
    have h1 : ¬ s.size < 1 := by omega
    have e1 : (s.pop 1).1 = s.top 0 := by simp [pop, top]
    have e2 : ∀ w, (s.pop 1).2.get_subr w = s.get_subr w := fun w => rfl
    have hd : (s.pop 1).2._subr_depth ≥ MAX_SUBR_DEPTH := hdepth
    have he : callsubr_enter s
        = .inl (false, { (s.pop 1).2 with
            _error := errSubrDepth, _error_data := toInt (s.top 0) }) := by
      unfold callsubr_enter
      simp only []
      rw [if_neg h1, e1, e2, hsub]
      simp only []
      rw [if_pos hd]
      rfl
    simp only [callsubr_command, he]
  · intro run s cs hsz hsub hdepth
    have h1 : ¬ s.size < 1 := by omega
    have e1 : (s.pop 1).1 = s.top 0 := by simp [pop, top]
    have e2 : ∀ w, (s.pop 1).2.get_gsubr w = s.get_gsubr w := fun w => rfl
    have hd : (s.pop 1).2._subr_depth ≥ MAX_SUBR_DEPTH := hdepth
    have he : callgsubr_enter s
        = .inl (false, { (s.pop 1).2 with
            _error := errSubrDepth, _error_data := toInt (s.top 0) }) := by
      unfold callgsubr_enter
      simp only []
      rw [if_neg h1, e1, e2, hsub]
      simp only []
      rw [if_pos hd]
      rfl
    simp only [callgsubr_command, he]

/-- At depth `MAX_SUBR_DEPTH`, `callsubr 3` on a program that has the
subroutine fails with `errSubrDepth` and the error data `3` and leaves the
depth at `MAX_SUBR_DEPTH`; and the depth after `init()` is within the ceiling. -/
theorem subr_depth_counter_bounded_witness :
    (callsubr_command (run 5) C9_input).map
        (fun r => (r.1, r.2._error, r.2._error_data, r.2._subr_depth))
      = some (false, errSubrDepth, 3, MAX_SUBR_DEPTH) ∧
    (init C9_input)._subr_depth ≤ MAX_SUBR_DEPTH := by
  have h := subr_depth_counter_bounded
  refine ⟨?_, h.2.2 _ (Reachable.init _)⟩
  rw [h.1 (run 5) C9_input
    ⟨false, [.number 0, .number 0, .number 0, .number 65, .number 66, .command CS.cSeac]⟩
    (by decide!) (by decide!) (by decide!)]
  decide!

/-- C9, the code at the failing input: the charstring `100 callsubr endchar`
run from `init()` on a program whose subroutines `100`, `101`, `102` call one
another, `102` ending in `seac`, and whose glyphs call the chain of
subroutines `0` to `9`, the last of which holds `7 9 hstem`. `act_seac` runs
the glyphs after `init()`, which sets `_subr_depth` back to `0` while the
three subroutines are still active, so the ten of the chain pass the test
against `MAX_SUBR_DEPTH = 10`: the run ends without an error, both `hstem`
are reported with thirteen subroutines active, and it needs fifteen nested
runs of a charstring (the main one, thirteen subroutines and a glyph), fourteen
not being enough. -/
theorem C9_nesting_exceeds_limit :
    MAX_SUBR_DEPTH = 10 ∧ C9_deep_input._subr_depth = 0 ∧
    (run 14 C9_charstring C9_deep_input).isSome = false ∧
    (run 15 C9_charstring C9_deep_input).map (fun x => (x._error, x._trace))
      = some (errOK, [(errOK, Act.seac CS.cSeac 0 0 0 65 66),
          (errOK, Act.hstem CS.cHstem 7 9), (errOK, Act.hstem CS.cHstem 7 9)]) := by
  refine ⟨?_, ?_, ?_, ?_⟩ <;> decide!

/-- C8, the code at the failing inputs: from a depth within `[0, STACK_SIZE]`,
Blend with the count `-100` and two masters returns true with no error and
leaves the depth `100`, in the Type 1 and in the Type 2 dispatcher; and
callothersubr of the unknown othersubr `5` with the argument count `-60`
returns true with no error and leaves the depth `60`. -/
theorem C8_depth_exceeds_capacity :
    (0 ≤ C8_blend_input._sp ∧ C8_blend_input._sp ≤ STACK_SIZE) ∧
    (type1_command (run 0) CS.cBlend C8_blend_input).map
        (fun r => (r.1, r.2._error, r.2._sp, decide (r.2._sp ≤ STACK_SIZE)))
      = some (true, errOK, 100, false) ∧
    (type2_command (run 0) CS.cBlend none none C8_blend_input).map
        (fun r => (r.1.1, r.1.2._error, r.1.2._sp, decide (r.1.2._sp ≤ STACK_SIZE)))
      = some (true, errOK, 100, false) ∧
    (0 ≤ C8_othersubr_input._sp ∧ C8_othersubr_input._sp ≤ STACK_SIZE) ∧
    (type1_command (run 0) CS.cCallothersubr C8_othersubr_input).map
        (fun r => (r.1, r.2._error, r.2._sp, decide (r.2._sp ≤ STACK_SIZE)))
      = some (true, errOK, 60, false) := by
  refine ⟨⟨?_, ?_⟩, ?_, ?_, ⟨?_, ?_⟩, ?_⟩ <;> decide!

/-- C10, the code at the failing input: `callsubr 0` at depth `0`, the body
of the subroutine being `0 0 0 65 66 seac` and both glyphs `endchar`, returns
with no error and with `_subr_depth = -1`: seac has reset the counter to `0`
through `init()` before the decrement of `callsubr_command`. -/
theorem C10_subr_depth_after_seac :
    C10_input._subr_depth = 0 ∧
    (callsubr_command (run 2) C10_input).map
        (fun r => (r.1, r.2._error, r.2._done, r.2._subr_depth))
      = some (false, errOK, true, -1) := by
  constructor <;> decide!

/-! ### The default seac -/

theorem some_getD_of_isSome {α : Type} (o : Option α) (d : α) (h : o.isSome = true) :
    o = some (o.getD d) := by
  cases o with
  | none => simp at h
  | some v => rfl

/-- C20: the default seac, when the standard encoding is present, both
character codes are in `[0, 256)` and both glyphs resolve, runs the accent
glyph first, on the re-initialised object (`init()`) with
`_seac_origin = (adx + lsb.x - asb, ady + lsb.y)` from the `_lsb` at entry and
in state Seac; when that run ends in `x` with error OK, the base glyph is run
on `x` re-initialised, with `_seac_origin` as at entry and in state Seac, and
`_lsb` is then restored; when it ends in `x` with an error, the result is `x`
with `_lsb` restored, the error kept, whatever a run of the base glyph would
do. -/
theorem C20_default_seac (run : Runner) (cmd : Int) (asb adx ady : ℚ) (bchar achar : Int)
    (s : CharstringInterp) (adobe : Int → String) (acs bcs : Charstring) (x : CharstringInterp)
    (hadobe : s.standard_encoding = some adobe)
    (hrange : 0 ≤ achar ∧ achar < 256 ∧ 0 ≤ bchar ∧ bchar < 256)
    (ha : s.get_glyph (adobe achar) = some acs)
    (hb : s.get_glyph (adobe bchar) = some bcs)
    (hx : run acs
        { { init s with _seac_origin := ⟨adx + s._lsb.x - asb, ady + s._lsb.y⟩ }
          with _state := S_SEAC } = some x) :
    (x._error = errOK →
      seac_default run cmd asb adx ady bchar achar s
        = (run bcs { { init x with _seac_origin := s._seac_origin } with _state := S_SEAC }).map
            fun y => { y with _lsb := s._lsb }) ∧
    (x._error ≠ errOK →
      seac_default run cmd asb adx ady bchar achar s = some { x with _lsb := s._lsb } ∧
      (seac_default run cmd asb adx ady bchar achar s).map (fun y => y._error)
        = some x._error) := by
  have hr : ¬ (achar < 0 ∨ achar ≥ 256 ∨ bchar < 0 ∨ bchar ≥ 256) := by omega
  have e : seac_default run cmd asb adx ady bchar achar s
      = if x._error = errOK then
          (run bcs { { init x with _seac_origin := s._seac_origin } with _state := S_SEAC }).map
            fun y => { y with _lsb := s._lsb }
        else some { x with _lsb := s._lsb } := by
    unfold seac_default
    simp only [hadobe, if_neg hr, ha, hb, hx, Option.some_bind]
  refine ⟨fun h => ?_, fun h => ?_⟩
  · rw [e, if_pos h]
  · rw [e, if_neg h]
    exact ⟨rfl, rfl⟩

/-- C20, witness: on `C20_input`, seac with `asb = 20`, `adx = 100`,
`ady = 200`, the base `e` and the accent `acute` draws the accent from the
origin `(110, 200)` and then the base from the origin `(1000, 0)`, and ends
with error OK and `_lsb` restored; with the accent `bad`, which underflows,
nothing is drawn and the error is kept. -/
theorem C20_default_seac_witness :
    (seac_default (run 1) CS.cSeac 20 100 200 101 194 C20_input).map
        (fun r => (r._error, r._lsb, r._trace.map Prod.snd))
      = some (errOK, ⟨30, 0⟩,
          [Act.line CS.cRlineto ⟨111, 202⟩ ⟨114, 206⟩, Act.closepath CS.cEndchar,
           Act.line CS.cRlineto ⟨1005, 6⟩ ⟨1012, 14⟩, Act.closepath CS.cEndchar]) ∧
    (seac_default (run 1) CS.cSeac 20 100 200 101 0 C20_input).map
        (fun r => (r._error, r._lsb, r._trace.map Prod.snd))
      = some (errUnderflow, ⟨30, 0⟩, []) := by
  have h1 := C20_default_seac (run 1) CS.cSeac 20 100 200 101 194 C20_input
    (fun c => if c = 194 then "acute" else if c = 0 then "bad" else "e")
    C20_acute C20_e (C20_accent_result C20_acute)
    rfl (by decide) (by decide!) (by decide!) (some_getD_of_isSome _ _ (by decide!))
  have h2 := C20_default_seac (run 1) CS.cSeac 20 100 200 101 0 C20_input
    (fun c => if c = 194 then "acute" else if c = 0 then "bad" else "e")
    ⟨false, [.command CS.cHmoveto]⟩ C20_e (C20_accent_result ⟨false, [.command CS.cHmoveto]⟩)
    rfl (by decide) (by decide!) (by decide!) (some_getD_of_isSome _ _ (by decide!))
  refine ⟨?_, ?_⟩
  · rw [h1.1 (by decide!)]
    decide!
  · rw [(h2.2 (by decide!)).1]
    decide!

/-! ### The calls added to the trace; hintmask and cntrmask -/

theorem emits_refl (P : Act → Prop) (s : CharstringInterp) : Emits P s s :=
  ⟨[], by simp, by simp⟩

theorem emits_trans (P : Act → Prop) (s x y : CharstringInterp)
    (h1 : Emits P s x) (h2 : Emits P x y) : Emits P s y := by
  obtain ⟨l1, e1, p1⟩ := h1
  obtain ⟨l2, e2, p2⟩ := h2
  refine ⟨l1 ++ l2, by rw [e2, e1, List.append_assoc], ?_⟩
  intro e he
  rcases List.mem_append.mp he with h | h
  · exact p1 e h
  · exact p2 e h

theorem emits_of_trace (P : Act → Prop) (s x : CharstringInterp) (h : x._trace = s._trace) :
    Emits P s x :=
  ⟨[], by simp [h], by simp⟩

theorem call_virtual_id_trace (a : Act) (s : CharstringInterp) :
    (call_virtual a id s)._trace = s._trace ++ [(s._error, a)] := by
  unfold call_virtual
  simp only []
  split <;> rfl

theorem act_vstem_trace (cmd : Int) (x dx : ℚ) (s : CharstringInterp) :
    (act_vstem cmd x dx s)._trace = s._trace ++ [(s._error, Act.vstem cmd x dx)] :=
  call_virtual_id_trace _ _

theorem t2_stem_loop_emits (cmd : Int) :
    ∀ (k : Nat) (pos : ℚ) (bottom : Int) (s : CharstringInterp),
      Emits (fun a => ∃ x dx, a = Act.vstem cmd x dx) s (t2_stem_loop cmd false k pos bottom s) := by
  intro k
  induction k with
  | zero => intro pos bottom s; exact emits_refl _ _
  | succ k ih =>
    intro pos bottom s
    rw [t2_stem_loop]
    split
    · simp only [Bool.false_eq_true, if_false]
      refine emits_trans _ _ _ _ ?_ (ih _ _ _)
      refine ⟨[_], act_vstem_trace _ _ _ { s with _t2nhints := s._t2nhints + 1 }, ?_⟩
      intro e he
      simp only [List.mem_singleton] at he
      subst he
      exact ⟨_, _, rfl⟩
    · exact emits_refl _ _

theorem emits_mask_state (P : Act → Prop) (s x : CharstringInterp) (h : Emits P s x) :
    Emits P s (if x._state < S_HINTMASK then { x with _state := S_HINTMASK } else x) := by
  split
  · exact emits_trans _ _ _ _ h (emits_of_trace _ _ _ rfl)
  · exact h

theorem hintmask_ready_emits (cmd : Int) (s : CharstringInterp) :
    Emits (fun a => ∃ x dx, a = Act.vstem cmd x dx) s (hintmask_ready cmd s) := by
  have h : Emits (fun a => ∃ x dx, a = Act.vstem cmd x dx) s
      (if s._state = S_HSTEM ∧ s.size ≥ 2 then t2_stem_loop cmd false s.size.toNat 0 0 s
        else s) := by
    split
    · exact t2_stem_loop_emits _ _ _ _ _
    · exact emits_refl _ _
  exact emits_mask_state _ _ _ h

theorem type2_command_mask (run : Runner) (cmd : Int) (data : Option (List Nat))
    (left : Option Int) (s : CharstringInterp)
    (hcmd : cmd = CS.cHintmask ∨ cmd = CS.cCntrmask) :
    type2_command run cmd data left s =
      if (hintmask_ready cmd s)._t2nhints = 0 then
        some (error errHintmask cmd (hintmask_ready cmd s), left)
      else
        match data, left with
        | some data, some left =>
          if (((hintmask_ready cmd s)._t2nhints - 1) >>> 3) + 1 > left then
            some (error errRunoff cmd (hintmask_ready cmd s), some left)
          else
            some (finish (act_hintmask cmd data (hintmask_ready cmd s)._t2nhints
                (hintmask_ready cmd s)),
              some (left - ((((act_hintmask cmd data (hintmask_ready cmd s)._t2nhints
                (hintmask_ready cmd s))._t2nhints - 1) >>> 3) + 1)))
        | _, _ => some (error errInternal cmd (hintmask_ready cmd s), left) := by
  have h1 : ¬ (cmd = CS.cHstem ∨ cmd = CS.cHstemhm) := by
    rcases hcmd with h | h <;> subst h <;> decide
  have h2 : ¬ (cmd = CS.cVstem ∨ cmd = CS.cVstemhm) := by
    rcases hcmd with h | h <;> subst h <;> decide
  unfold type2_command
  simp only []
  rw [if_neg h1, if_neg h2, if_pos hcmd]
  rfl

theorem act_hintmask_t2nhints (cmd : Int) (data : List Nat) (n : Int) (s : CharstringInterp) :
    (act_hintmask cmd data n s)._t2nhints = s._t2nhints := by
  unfold act_hintmask call_virtual
  simp only []
  split <;> rfl

theorem shift_ceil (n : Int) (h : 1 ≤ n) : ((n - 1) >>> 3) + 1 = ⌈(n : ℚ) / 8⌉ := by
  obtain ⟨k, hk⟩ : ∃ k : ℕ, n - 1 = k := ⟨(n - 1).toNat, by omega⟩
  have hs : ((k : Int) >>> (3 : Int)) = ((k >>> 3 : ℕ) : Int) := Int.shiftRight_coe_nat k 3
  have hn : n = (k : Int) + 1 := by omega
  rw [hk, hs, Nat.shiftRight_eq_div_pow]
  symm
  rw [Int.ceil_eq_iff]
  have h1 := Nat.mod_add_div k 8
  have h3 := Nat.mod_lt k (by norm_num : 8 > 0)
  have e : ((2 : ℕ) ^ 3) = 8 := by norm_num
  rw [e, hn]
  have h5 : (k / 8) * 8 < k + 1 := by omega
  have h6 : k + 1 ≤ (k / 8 + 1) * 8 := by omega
  generalize k / 8 = q at h5 h6
  have h7 : ((q * 8 : ℕ) : ℚ) < ((k + 1 : ℕ) : ℚ) := by exact_mod_cast h5
  have h8 : ((k + 1 : ℕ) : ℚ) ≤ (((q + 1) * 8 : ℕ) : ℚ) := by exact_mod_cast h6
  push_cast at h7 h8
  constructor
  · rw [lt_div_iff₀ (by norm_num : (0 : ℚ) < 8)]
    push_cast
    linarith
  · rw [div_le_iff₀ (by norm_num : (0 : ℚ) < 8)]
    push_cast
    linarith

/-- C18: hintmask or cntrmask with non-null `data` and `left`, `n >= 1` being
`_t2nhints` when the mask is read (after the pending vertical stems of the
operator, which only call `act_vstem`; it is the `_t2nhints` at entry when no
operands are pending): the code's `((n - 1) >> 3) + 1` is `ceil(n / 8)`; if
`left >= ceil(n / 8)` the result is that of `act_hintmask(cmd, data, n)`, which
is called once, with `left` decreased by `ceil(n / 8)`; if `left < ceil(n / 8)`
the result is `errRunoff` with `left` unchanged and no call of `act_hintmask`. -/
theorem C18_hintmask_bytes (run : Runner) (cmd : Int) (data : List Nat) (left n : Int)
    (s : CharstringInterp) (hcmd : cmd = CS.cHintmask ∨ cmd = CS.cCntrmask)
    (hn : (hintmask_ready cmd s)._t2nhints = n) (h1 : 1 ≤ n) :
    ((n - 1) >>> 3) + 1 = ⌈(n : ℚ) / 8⌉ ∧
    Emits (fun a => ∃ x dx, a = Act.vstem cmd x dx) s (hintmask_ready cmd s) ∧
    (¬ (s._state = S_HSTEM ∧ s.size ≥ 2) →
      (hintmask_ready cmd s)._t2nhints = s._t2nhints ∧
      (hintmask_ready cmd s)._trace = s._trace) ∧
    (⌈(n : ℚ) / 8⌉ ≤ left →
      type2_command run cmd (some data) (some left) s
        = some (finish (act_hintmask cmd data n (hintmask_ready cmd s)),
            some (left - ⌈(n : ℚ) / 8⌉)) ∧
      (finish (act_hintmask cmd data n (hintmask_ready cmd s))).2._trace
        = (hintmask_ready cmd s)._trace
            ++ [((hintmask_ready cmd s)._error, Act.hintmask cmd data n)]) ∧
    (left < ⌈(n : ℚ) / 8⌉ →
      type2_command run cmd (some data) (some left) s
        = some (error errRunoff cmd (hintmask_ready cmd s), some left) ∧
      (error errRunoff cmd (hintmask_ready cmd s)).2._trace = (hintmask_ready cmd s)._trace) := by
  have hc := shift_ceil n h1
  have hne : ¬ (hintmask_ready cmd s)._t2nhints = 0 := by omega
  have e := type2_command_mask run cmd (some data) (some left) s hcmd
  rw [if_neg hne] at e
  simp only [act_hintmask_t2nhints, hn, hc] at e
  refine ⟨hc, hintmask_ready_emits cmd s, ?_, ?_, ?_⟩
  · intro hp
    unfold hintmask_ready
    simp only [if_neg hp]
    split <;> exact ⟨rfl, rfl⟩
  · intro hl
    rw [e, if_neg (by omega)]
    refine ⟨rfl, ?_⟩
    exact call_virtual_id_trace _ _
  · intro hl
    rw [e, if_pos (by omega)]
    exact ⟨rfl, rfl⟩

/-- C18, witness: in state Hstem with `8` declared hints and the pending
operands `10 20`, hintmask with two bytes left declares the ninth hint, calls
`act_hintmask` with `n = 9` and consumes `ceil(9 / 8) = 2` bytes. -/
theorem C18_hintmask_bytes_witness :
    (type2_command (run 0) CS.cHintmask (some [255, 128]) (some 2) C18_input).map
        (fun r => (r.1.1, r.1.2._error, r.2, r.1.2._trace.map Prod.snd))
      = some (true, errOK, some 0,
          [Act.vstem CS.cHintmask 10 20, Act.hintmask CS.cHintmask [255, 128] 9]) := by
  have h := C18_hintmask_bytes (run 0) CS.cHintmask [255, 128] 2 9 C18_input
    (Or.inl rfl) (by decide!) (by decide)
  have hceil : ⌈((9 : Int) : ℚ) / 8⌉ = 2 := by rw [← h.1]; decide
  rw [(h.2.2.2.1 (by rw [hceil])).1, hceil]
  decide!

/-- C19: hintmask or cntrmask, when `_t2nhints` is `0` after the pending
vertical stems of the operator, fails with `errHintmask`; `*left` is as
before (no mask byte is consumed), and the calls made are calls of
`act_vstem` only, so `act_hintmask` is not called. -/
theorem C19_hintmask_without_hints (run : Runner) (cmd : Int) (data : Option (List Nat))
    (left : Option Int) (s : CharstringInterp)
    (hcmd : cmd = CS.cHintmask ∨ cmd = CS.cCntrmask)
    (h0 : (hintmask_ready cmd s)._t2nhints = 0) :
    type2_command run cmd data left s
      = some (error errHintmask cmd (hintmask_ready cmd s), left) ∧
    (error errHintmask cmd (hintmask_ready cmd s)).1 = false ∧
    (error errHintmask cmd (hintmask_ready cmd s)).2._error = errHintmask ∧
    Emits (fun a => ∃ x dx, a = Act.vstem cmd x dx) s
      (error errHintmask cmd (hintmask_ready cmd s)).2 := by
  refine ⟨?_, rfl, rfl, ?_⟩
  · rw [type2_command_mask run cmd data left s hcmd, if_pos h0]
  · exact emits_trans _ _ _ _ (hintmask_ready_emits cmd s) (emits_of_trace _ _ _ rfl)

/-- C19, witness: hintmask as the first operator after `init()`, with one
byte left, fails with `errHintmask`, calls nothing and leaves the byte. -/
theorem C19_hintmask_without_hints_witness :
    (type2_command (run 0) CS.cHintmask (some [255]) (some 1) recording).map
        (fun r => (r.1.1, r.1.2._error, r.2, r.1.2._trace))
      = some (false, errHintmask, some 1, []) := by
  rw [(C19_hintmask_without_hints (run 0) CS.cHintmask (some [255]) (some 1) recording
    (Or.inl rfl) (by decide!)).1]
  decide!

/-! ### The ordering check of the Type 2 stems -/

theorem error_state (e d : Int) (s : CharstringInterp) :
    (error e d s).2._state = s._state := rfl

theorem push_state (d : ℚ) (s : CharstringInterp) :
    (push d s)._state = s._state := by
  unfold push; split <;> rfl

theorem ps_push_state (d : ℚ) (s : CharstringInterp) :
    (ps_push d s)._state = s._state := by
  unfold ps_push; split <;> rfl

theorem pop_state (n : Int) (s : CharstringInterp) :
    (s.pop n).2._state = s._state := rfl

theorem ps_pop_state (s : CharstringInterp) :
    s.ps_pop.2._state = s._state := rfl

theorem set_top_state (i : Int) (v : ℚ) (s : CharstringInterp) :
    (set_top i v s)._state = s._state := rfl

theorem clear_state (s : CharstringInterp) : (clear s)._state = s._state := rfl

theorem ps_clear_state (s : CharstringInterp) : (ps_clear s)._state = s._state := rfl

theorem set_done_state (s : CharstringInterp) : (set_done s)._state = s._state := rfl

theorem finish_state (s : CharstringInterp) : (finish s).2._state = s._state := rfl

theorem scratch_write_state (i : Int) (v : ℚ) (s : CharstringInterp) :
    (scratch_write i v s)._state = s._state := rfl

theorem set_vector_state (r : VecRef) (v : List ℚ) (s : CharstringInterp) :
    (set_vector s r v)._state = s._state := by
  cases r <;> rfl

theorem store_loop_state : ∀ (k : Nat) (offset vectoroff : Int) (v : List ℚ) (s : CharstringInterp),
    (store_loop k offset vectoroff v s).2._state = s._state := by
  intro k
  induction k with
  | zero => intros; rfl
  | succ k ih => intro offset vectoroff v s; rw [store_loop, ih]

theorem load_loop_state (v : List ℚ) : ∀ (k : Nat) (i offset : Int) (s : CharstringInterp),
    (load_loop v k i offset s)._state = s._state := by
  intro k
  induction k with
  | zero => intros; rfl
  | succ k ih => intro i offset s; rw [load_loop, ih, scratch_write_state]

theorem vector_command_state (cmd : Int) (s : CharstringInterp) :
    (vector_command cmd s).2._state = s._state := by
  unfold vector_command
  simp only []
  split_ifs
  all_goals (repeat' split)
  all_goals
    simp only [error_state, pop_state, set_top_state, scratch_write_state, set_vector_state,
      store_loop_state, load_loop_state]

theorem blend_command_state (s : CharstringInterp) :
    (blend_command s).2._state = s._state := by
  unfold blend_command
  simp only []
  split_ifs
  all_goals (repeat' split)
  all_goals simp only [error_state, pop_state]

theorem roll_command_state (s : CharstringInterp) :
    (roll_command s).2._state = s._state := by
  unfold roll_command
  simp only []
  split_ifs
  all_goals simp only [error_state, pop_state]

theorem arith_command_state (cmd : Int) (s : CharstringInterp) :
    Post Prod.snd (fun t => t._state = s._state) (arith_command cmd s) := by
  unfold arith_command
  repeat' apply post_ite
  all_goals first | apply post_some | apply post_map
  all_goals
    first
    | (simp only [error_state, pop_state, set_top_state, push_state, blend_command_state,
        roll_command_state, ps_pop_state]; done)
    | (split <;> simp only [error_state, pop_state, set_top_state, push_state])
    | (intro x _; simp only [push_state])

theorem mm_push_loop_state (base : Int) : ∀ (k : Nat) (s : CharstringInterp),
    (mm_push_loop base k s)._state = s._state := by
  intro k
  induction k with
  | zero => intros; rfl
  | succ k ih => intro s; rw [mm_push_loop, ih, ps_push_state]

theorem mm_command_state (command on_stack : Int) (s : CharstringInterp) :
    (mm_command command on_stack s).2._state = s._state := by
  unfold mm_command
  simp only []
  repeat' split
  all_goals simp only [error_state, pop_state, mm_push_loop_state]

theorem itc_load_loop_state (weight : List ℚ) (offset : Int) :
    ∀ (k i : Nat) (s : CharstringInterp),
      (itc_load_loop weight offset k i s)._state = s._state := by
  intro k
  induction k with
  | zero => intros; rfl
  | succ k ih => intro i s; rw [itc_load_loop, ih, scratch_write_state]

theorem itc_command_state (command on_stack : Int) (s : CharstringInterp) :
    (itc_command command on_stack s).2._state = s._state := by
  unfold itc_command
  split
  · rfl
  · repeat' apply ite_prop (fun r : Result => r.2._state = s._state)
    all_goals
      first
      | (simp only [error_state, pop_state, itc_load_loop_state, scratch_write_state,
          ps_push_state]; done)
      | (simp only [pop_state]; split <;> simp only [ps_push_state])

theorem call_virtual_state (a : Act) (dflt : CharstringInterp → CharstringInterp)
    (h : ∀ t, (dflt t)._state = t._state) (s : CharstringInterp) :
    (call_virtual a dflt s)._state = s._state := by
  unfold call_virtual
  simp only []
  split
  · rw [h]
  · rfl
  · rfl

theorem act_sidebearing_state (cmd : Int) (p : Point) (s : CharstringInterp) :
    (act_sidebearing cmd p s)._state = s._state :=
  call_virtual_state _ _ (fun _ => rfl) s

theorem act_width_state (cmd : Int) (p : Point) (s : CharstringInterp) :
    (act_width cmd p s)._state = s._state :=
  call_virtual_state _ _ (fun _ => rfl) s

theorem act_closepath_state (cmd : Int) (s : CharstringInterp) :
    (act_closepath cmd s)._state = s._state :=
  call_virtual_state _ _ (fun _ => rfl) s

theorem act_hstem_state (cmd : Int) (y dy : ℚ) (s : CharstringInterp) :
    (act_hstem cmd y dy s)._state = s._state :=
  call_virtual_state _ _ (fun _ => rfl) s

theorem act_vstem_state (cmd : Int) (x dx : ℚ) (s : CharstringInterp) :
    (act_vstem cmd x dx s)._state = s._state :=
  call_virtual_state _ _ (fun _ => rfl) s

theorem act_hintmask_state (cmd : Int) (data : List Nat) (nhints : Int) (s : CharstringInterp) :
    (act_hintmask cmd data nhints s)._state = s._state :=
  call_virtual_state _ _ (fun _ => rfl) s

theorem act_default_width_state (cmd : Int) (s : CharstringInterp) :
    (act_default_width cmd s)._state = s._state := by
  apply call_virtual_state
  intro t
  simp only []
  repeat' split
  all_goals simp only [act_width_state]

theorem act_nominal_width_delta_state (cmd : Int) (delta : ℚ) (s : CharstringInterp) :
    (act_nominal_width_delta cmd delta s)._state = s._state := by
  apply call_virtual_state
  intro t
  simp only []
  repeat' split
  all_goals simp only [act_width_state]

theorem act_curve_state (cmd : Int) (p0 p1 p2 p3 : Point) (s : CharstringInterp) :
    (act_curve cmd p0 p1 p2 p3 s)._state = s._state := by
  unfold act_curve
  apply call_virtual_state
  intro t
  rfl

theorem act_line_state (cmd : Int) (p0 p1 : Point) (s : CharstringInterp) :
    (act_line cmd p0 p1 s)._state = s._state :=
  call_virtual_state _ _ (fun _ => act_curve_state _ _ _ _ _ _) s

theorem act_flex_state (cmd : Int) (p0 p1 p2 p3_4 p5 p6 p7 : Point) (flex_depth : ℚ)
    (s : CharstringInterp) :
    (act_flex cmd p0 p1 p2 p3_4 p5 p6 p7 flex_depth s)._state = s._state :=
  call_virtual_state _ _ (fun _ => by simp only [act_curve_state]) s

theorem act_hstem3_state (cmd : Int) (y0 dy0 y1 dy1 y2 dy2 : ℚ) (s : CharstringInterp) :
    (act_hstem3 cmd y0 dy0 y1 dy1 y2 dy2 s)._state = s._state :=
  call_virtual_state _ _ (fun _ => by simp only [act_hstem_state]) s

theorem act_vstem3_state (cmd : Int) (x0 dx0 x1 dx1 x2 dx2 : ℚ) (s : CharstringInterp) :
    (act_vstem3 cmd x0 dx0 x1 dx1 x2 dx2 s)._state = s._state :=
  call_virtual_state _ _ (fun _ => by simp only [act_vstem_state]) s

theorem act_rmoveto_state (cmd : Int) (dx dy : ℚ) (s : CharstringInterp) :
    (act_rmoveto cmd dx dy s)._state = s._state := rfl

theorem act_rlineto_state (cmd : Int) (dx dy : ℚ) (s : CharstringInterp) :
    (act_rlineto cmd dx dy s)._state = s._state := by
  unfold act_rlineto
  simp only [act_line_state]

theorem act_rrcurveto_state (cmd : Int) (dx1 dy1 dx2 dy2 dx3 dy3 : ℚ) (s : CharstringInterp) :
    (act_rrcurveto cmd dx1 dy1 dx2 dy2 dx3 dy3 s)._state = s._state := by
  unfold act_rrcurveto
  simp only [act_curve_state]

theorem act_rrflex_state (cmd : Int)
    (dx1 dy1 dx2 dy2 dx3 dy3 dx4 dy4 dx5 dy5 dx6 dy6 flex_depth : ℚ) (s : CharstringInterp) :
    (act_rrflex cmd dx1 dy1 dx2 dy2 dx3 dy3 dx4 dy4 dx5 dy5 dx6 dy6 flex_depth s)._state
      = s._state := by
  unfold act_rrflex
  simp only [act_flex_state]

theorem unknown_push_loop_state : ∀ (k : Nat) (i : Int) (s : CharstringInterp),
    (unknown_push_loop k i s)._state = s._state := by
  intro k
  induction k with
  | zero => intros; rfl
  | succ k ih => intro i s; rw [unknown_push_loop, ih, ps_push_state]

theorem othersubr_unknown_state (n : Int) (s : CharstringInterp) :
    (othersubr_unknown n s).2._state = s._state := by
  unfold othersubr_unknown
  simp only [pop_state, unknown_push_loop_state, ps_clear_state]

theorem type2_handle_width_state (cmd : Int) (have_width : Bool) (s : CharstringInterp) :
    (type2_handle_width cmd have_width s).2._state = s._state := by
  unfold type2_handle_width
  split <;> simp only [act_nominal_width_delta_state, act_default_width_state]

theorem t2_stem_loop_state (cmd : Int) (horizontal : Bool) :
    ∀ (k : Nat) (pos : ℚ) (bottom : Int) (s : CharstringInterp),
      (t2_stem_loop cmd horizontal k pos bottom s)._state = s._state := by
  intro k
  induction k with
  | zero => intros; rfl
  | succ k ih =>
    intro pos bottom s
    rw [t2_stem_loop]
    split
    · rw [ih]; split <;> simp only [act_hstem_state, act_vstem_state]
    · rfl

theorem t2_rlineto_loop_state (cmd : Int) :
    ∀ (k : Nat) (bottom : Int) (s : CharstringInterp),
      (t2_rlineto_loop cmd k bottom s)._state = s._state := by
  intro k
  induction k with
  | zero => intros; rfl
  | succ k ih =>
    intro bottom s
    rw [t2_rlineto_loop]
    split
    · rw [ih, act_rlineto_state]
    · rfl

theorem t2_hvlineto_loop_state (cmd : Int) (horizontal : Bool) :
    ∀ (k : Nat) (bottom : Int) (s : CharstringInterp),
      (t2_hvlineto_loop cmd horizontal k bottom s)._state = s._state := by
  intro k
  induction k with
  | zero => intros; rfl
  | succ k ih =>
    intro bottom s
    rw [t2_hvlineto_loop]
    simp only []
    repeat' split
    all_goals simp only [ih, act_rlineto_state]

theorem t2_rrcurveto_loop_state (cmd : Int) (margin : Int) :
    ∀ (k : Nat) (bottom : Int) (s : CharstringInterp),
      (t2_rrcurveto_loop cmd margin k bottom s).1._state = s._state := by
  intro k
  induction k with
  | zero => intros; rfl
  | succ k ih =>
    intro bottom s
    rw [t2_rrcurveto_loop]
    split
    · rw [ih, act_rrcurveto_state]
    · rfl

theorem t2_rlinecurve_loop_state (cmd : Int) :
    ∀ (k : Nat) (bottom : Int) (s : CharstringInterp),
      (t2_rlinecurve_loop cmd k bottom s).1._state = s._state := by
  intro k
  induction k with
  | zero => intros; rfl
  | succ k ih =>
    intro bottom s
    rw [t2_rlinecurve_loop]
    split
    · rw [ih, act_rlineto_state]
    · rfl

theorem t2_hhvvcurveto_loop_state (cmd : Int) (horizontal : Bool) :
    ∀ (k : Nat) (bottom : Int) (s : CharstringInterp),
      (t2_hhvvcurveto_loop cmd horizontal k bottom s)._state = s._state := by
  intro k
  induction k with
  | zero => intros; rfl
  | succ k ih =>
    intro bottom s
    rw [t2_hhvvcurveto_loop]
    simp only []
    repeat' split
    all_goals simp only [ih, act_rrcurveto_state]

theorem t2_hv_curve_state (cmd : Int) (bottom : Int) (s : CharstringInterp) :
    (t2_hv_curve cmd bottom s)._state = s._state := by
  unfold t2_hv_curve
  simp only [act_rrcurveto_state]

theorem t2_vh_curve_state (cmd : Int) (bottom : Int) (s : CharstringInterp) :
    (t2_vh_curve cmd bottom s)._state = s._state := by
  unfold t2_vh_curve
  simp only [act_rrcurveto_state]

theorem t2_hvvhcurveto_loop_state (cmd : Int) (horizontal : Bool) :
    ∀ (k : Nat) (bottom : Int) (s : CharstringInterp),
      (t2_hvvhcurveto_loop cmd horizontal k bottom s)._state = s._state := by
  intro k
  induction k with
  | zero => intros; rfl
  | succ k ih =>
    intro bottom s
    rw [t2_hvvhcurveto_loop]
    simp only []
    repeat' split
    all_goals simp only [ih, t2_hv_curve_state, t2_vh_curve_state]

theorem check_state_inl_state (cmd : Int) (s : CharstringInterp) (r : Result)
    (h : check_state cmd s = .inl r) : r.2._state = s._state := by
  unfold check_state at h
  split at h
  · cases h; rfl
  · cases h

/-! ### The Type 2 drawing opcodes -/

theorem t2_draw_early (run : Runner) (cmd : Int) (data : Option (List Nat))
    (left : Option Int) (s : CharstringInterp) (hcmd : cmd ∈ t2_drawing)
    (hsize : t2_draw_operands cmd ≤ s.size) (hstate : s._state < S_IPATH) :
    type2_command run cmd data left s = some (error errOrdering cmd s, left) := by
  simp only [t2_drawing, List.mem_cons, List.mem_singleton, List.not_mem_nil, or_false] at hcmd
  rcases hcmd with h | h | h | h | h | h | h | h | h | h | h | h | h | h <;> subst h <;>
    (simp +decide [t2_draw_operands] at hsize
     unfold type2_command
     simp +decide [hstate, check_state]
     intro h
     omega)

theorem t2_draw_late (run : Runner) (cmd : Int) (data : Option (List Nat))
    (left : Option Int) (s : CharstringInterp) (hcmd : cmd ∈ t2_drawing)
    (hsize : t2_draw_operands cmd ≤ s.size) (hstate : ¬ s._state < S_IPATH) :
    ∃ r : Result, type2_command run cmd data left s = some (r, left) ∧ r.2._state = S_PATH := by
  simp only [t2_drawing, List.mem_cons, List.mem_singleton, List.not_mem_nil, or_false] at hcmd
  rcases hcmd with h | h | h | h | h | h | h | h | h | h | h | h | h | h <;> subst h <;>
    (simp +decide [t2_draw_operands] at hsize
     have hs : ¬ s.size < _ := not_lt.mpr hsize
     unfold type2_command
     simp +decide only [hs, hstate, check_state, if_false, if_true, false_or, or_false]
     first
     | exact ⟨_, rfl, by
         simp only [finish_state, t2_rlineto_loop_state, t2_hvlineto_loop_state,
         t2_rrcurveto_loop_state, t2_rlinecurve_loop_state, t2_hhvvcurveto_loop_state,
         t2_hvvhcurveto_loop_state, act_rlineto_state, act_rrcurveto_state, act_rrflex_state]
         try (split <;> simp only [finish_state, t2_rlineto_loop_state, t2_hvlineto_loop_state,
         t2_rrcurveto_loop_state, t2_rlinecurve_loop_state, t2_hhvvcurveto_loop_state,
         t2_hvvhcurveto_loop_state, act_rlineto_state, act_rrcurveto_state, act_rrflex_state])⟩
     | (split <;> exact ⟨_, rfl, by simp only [finish_state, t2_rlineto_loop_state, t2_hvlineto_loop_state,
         t2_rrcurveto_loop_state, t2_rlinecurve_loop_state, t2_hhvvcurveto_loop_state,
         t2_hvvhcurveto_loop_state, act_rlineto_state, act_rrcurveto_state, act_rrflex_state]⟩))

/-- C16: for each Type 2 drawing opcode (rlineto, hlineto, vlineto, rrcurveto,
hhcurveto, hvcurveto, vhcurveto, vvcurveto, rcurveline, rlinecurve, flex,
hflex, hflex1, flex1) given at least the operand count of its `CHECK_STACK`:
in a state earlier than IPath the opcode returns false with `errOrdering`, the
object being otherwise as before (no callback is called, the current point is
unchanged); in any other state the opcode returns and leaves the state Path. -/
theorem C16_drawing_state (run : Runner) (cmd : Int) (data : Option (List Nat))
    (left : Option Int) (s : CharstringInterp) (hcmd : cmd ∈ t2_drawing)
    (hsize : t2_draw_operands cmd ≤ s.size) :
    (s._state < S_IPATH →
      type2_command run cmd data left s
        = some ((false, { s with _error := errOrdering, _error_data := cmd }), left) ∧
      Post (fun r => r.1.2)
        (fun x => x._error = errOrdering ∧ x._trace = s._trace ∧ x._cp = s._cp
          ∧ x._state = s._state)
        (type2_command run cmd data left s)) ∧
    (S_IPATH ≤ s._state →
      ∃ r : Result, type2_command run cmd data left s = some (r, left) ∧ r.2._state = S_PATH) := by
  refine ⟨fun h => ?_, fun h => t2_draw_late run cmd data left s hcmd hsize (not_lt.mpr h)⟩
  have e := t2_draw_early run cmd data left s hcmd hsize h
  refine ⟨e, ?_⟩
  intro r hr
  rw [e] at hr
  cases hr
  exact ⟨rfl, rfl, rfl, rfl⟩

/-- C16, witness: rlineto with the operands `10 20` fails with `errOrdering`
in state Initial, with no call and the current point unchanged, and leaves
the state Path when run in state IPath. -/
theorem C16_drawing_state_witness :
    (type2_command (run 0) CS.cRlineto none none C16_early_input).map
        (fun r => (r.1.1, r.1.2._error, r.1.2._trace, r.1.2._cp))
      = some (false, errOrdering, [], ⟨0, 0⟩) ∧
    ∃ r : Result, type2_command (run 0) CS.cRlineto none none C16_late_input = some (r, none)
      ∧ r.2._state = S_PATH := by
  have h1 := C16_drawing_state (run 0) CS.cRlineto none none C16_early_input
    (by decide) (by decide!)
  have h2 := C16_drawing_state (run 0) CS.cRlineto none none C16_late_input
    (by decide) (by decide!)
  refine ⟨?_, h2.2 (by decide!)⟩
  rw [(h1.1 (by decide!)).1]
  decide!

/-! ### The callbacks leave the operand stack and the current point alone -/

theorem error_cells (e d : Int) (s : CharstringInterp) :
    (error e d s).2._s = s._s := rfl

theorem call_virtual_cells (a : Act) (dflt : CharstringInterp → CharstringInterp)
    (h : ∀ t, (dflt t)._s = t._s) (s : CharstringInterp) :
    (call_virtual a dflt s)._s = s._s := by
  unfold call_virtual
  simp only []
  split
  · rw [h]
  · rfl
  · rfl

theorem act_sidebearing_cells (cmd : Int) (p : Point) (s : CharstringInterp) :
    (act_sidebearing cmd p s)._s = s._s :=
  call_virtual_cells _ _ (fun _ => rfl) s

theorem act_width_cells (cmd : Int) (p : Point) (s : CharstringInterp) :
    (act_width cmd p s)._s = s._s :=
  call_virtual_cells _ _ (fun _ => rfl) s

theorem act_hstem_cells (cmd : Int) (y dy : ℚ) (s : CharstringInterp) :
    (act_hstem cmd y dy s)._s = s._s :=
  call_virtual_cells _ _ (fun _ => rfl) s

theorem act_vstem_cells (cmd : Int) (x dx : ℚ) (s : CharstringInterp) :
    (act_vstem cmd x dx s)._s = s._s :=
  call_virtual_cells _ _ (fun _ => rfl) s

theorem act_hintmask_cells (cmd : Int) (data : List Nat) (nhints : Int) (s : CharstringInterp) :
    (act_hintmask cmd data nhints s)._s = s._s :=
  call_virtual_cells _ _ (fun _ => rfl) s

theorem act_default_width_cells (cmd : Int) (s : CharstringInterp) :
    (act_default_width cmd s)._s = s._s := by
  apply call_virtual_cells
  intro t
  simp only []
  repeat' split
  all_goals simp only [act_width_cells]

theorem act_nominal_width_delta_cells (cmd : Int) (delta : ℚ) (s : CharstringInterp) :
    (act_nominal_width_delta cmd delta s)._s = s._s := by
  apply call_virtual_cells
  intro t
  simp only []
  repeat' split
  all_goals simp only [act_width_cells]

theorem act_curve_cells (cmd : Int) (p0 p1 p2 p3 : Point) (s : CharstringInterp) :
    (act_curve cmd p0 p1 p2 p3 s)._s = s._s := by
  unfold act_curve
  apply call_virtual_cells
  intro t
  rfl

theorem act_line_cells (cmd : Int) (p0 p1 : Point) (s : CharstringInterp) :
    (act_line cmd p0 p1 s)._s = s._s :=
  call_virtual_cells _ _ (fun _ => act_curve_cells _ _ _ _ _ _) s

theorem act_flex_cells (cmd : Int) (p0 p1 p2 p3_4 p5 p6 p7 : Point) (flex_depth : ℚ)
    (s : CharstringInterp) :
    (act_flex cmd p0 p1 p2 p3_4 p5 p6 p7 flex_depth s)._s = s._s :=
  call_virtual_cells _ _ (fun _ => by simp only [act_curve_cells]) s

theorem act_hstem3_cells (cmd : Int) (y0 dy0 y1 dy1 y2 dy2 : ℚ) (s : CharstringInterp) :
    (act_hstem3 cmd y0 dy0 y1 dy1 y2 dy2 s)._s = s._s :=
  call_virtual_cells _ _ (fun _ => by simp only [act_hstem_cells]) s

theorem act_vstem3_cells (cmd : Int) (x0 dx0 x1 dx1 x2 dx2 : ℚ) (s : CharstringInterp) :
    (act_vstem3 cmd x0 dx0 x1 dx1 x2 dx2 s)._s = s._s :=
  call_virtual_cells _ _ (fun _ => by simp only [act_vstem_cells]) s

theorem act_rmoveto_cells (cmd : Int) (dx dy : ℚ) (s : CharstringInterp) :
    (act_rmoveto cmd dx dy s)._s = s._s := rfl

theorem act_rlineto_cells (cmd : Int) (dx dy : ℚ) (s : CharstringInterp) :
    (act_rlineto cmd dx dy s)._s = s._s := by
  unfold act_rlineto
  simp only [act_line_cells]

theorem act_rrcurveto_cells (cmd : Int) (dx1 dy1 dx2 dy2 dx3 dy3 : ℚ) (s : CharstringInterp) :
    (act_rrcurveto cmd dx1 dy1 dx2 dy2 dx3 dy3 s)._s = s._s := by
  unfold act_rrcurveto
  simp only [act_curve_cells]

theorem act_rrflex_cells (cmd : Int)
    (dx1 dy1 dx2 dy2 dx3 dy3 dx4 dy4 dx5 dy5 dx6 dy6 flex_depth : ℚ) (s : CharstringInterp) :
    (act_rrflex cmd dx1 dy1 dx2 dy2 dx3 dy3 dx4 dy4 dx5 dy5 dx6 dy6 flex_depth s)._s
      = s._s := by
  unfold act_rrflex
  simp only [act_flex_cells]

theorem type2_handle_width_cells (cmd : Int) (have_width : Bool) (s : CharstringInterp) :
    (type2_handle_width cmd have_width s).2._s = s._s := by
  unfold type2_handle_width
  split <;> simp only [act_nominal_width_delta_cells, act_default_width_cells]

theorem error_sp (e d : Int) (s : CharstringInterp) :
    (error e d s).2._sp = s._sp := rfl

theorem call_virtual_sp (a : Act) (dflt : CharstringInterp → CharstringInterp)
    (h : ∀ t, (dflt t)._sp = t._sp) (s : CharstringInterp) :
    (call_virtual a dflt s)._sp = s._sp := by
  unfold call_virtual
  simp only []
  split
  · rw [h]
  · rfl
  · rfl

theorem act_sidebearing_sp (cmd : Int) (p : Point) (s : CharstringInterp) :
    (act_sidebearing cmd p s)._sp = s._sp :=
  call_virtual_sp _ _ (fun _ => rfl) s

theorem act_width_sp (cmd : Int) (p : Point) (s : CharstringInterp) :
    (act_width cmd p s)._sp = s._sp :=
  call_virtual_sp _ _ (fun _ => rfl) s

theorem act_closepath_sp (cmd : Int) (s : CharstringInterp) :
    (act_closepath cmd s)._sp = s._sp :=
  call_virtual_sp _ _ (fun _ => rfl) s

theorem act_hstem_sp (cmd : Int) (y dy : ℚ) (s : CharstringInterp) :
    (act_hstem cmd y dy s)._sp = s._sp :=
  call_virtual_sp _ _ (fun _ => rfl) s

theorem act_vstem_sp (cmd : Int) (x dx : ℚ) (s : CharstringInterp) :
    (act_vstem cmd x dx s)._sp = s._sp :=
  call_virtual_sp _ _ (fun _ => rfl) s

theorem act_hintmask_sp (cmd : Int) (data : List Nat) (nhints : Int) (s : CharstringInterp) :
    (act_hintmask cmd data nhints s)._sp = s._sp :=
  call_virtual_sp _ _ (fun _ => rfl) s

theorem act_default_width_sp (cmd : Int) (s : CharstringInterp) :
    (act_default_width cmd s)._sp = s._sp := by
  apply call_virtual_sp
  intro t
  simp only []
  repeat' split
  all_goals simp only [act_width_sp]

theorem act_nominal_width_delta_sp (cmd : Int) (delta : ℚ) (s : CharstringInterp) :
    (act_nominal_width_delta cmd delta s)._sp = s._sp := by
  apply call_virtual_sp
  intro t
  simp only []
  repeat' split
  all_goals simp only [act_width_sp]

theorem act_curve_sp (cmd : Int) (p0 p1 p2 p3 : Point) (s : CharstringInterp) :
    (act_curve cmd p0 p1 p2 p3 s)._sp = s._sp := by
  unfold act_curve
  apply call_virtual_sp
  intro t
  rfl

theorem act_line_sp (cmd : Int) (p0 p1 : Point) (s : CharstringInterp) :
    (act_line cmd p0 p1 s)._sp = s._sp :=
  call_virtual_sp _ _ (fun _ => act_curve_sp _ _ _ _ _ _) s

theorem act_flex_sp (cmd : Int) (p0 p1 p2 p3_4 p5 p6 p7 : Point) (flex_depth : ℚ)
    (s : CharstringInterp) :
    (act_flex cmd p0 p1 p2 p3_4 p5 p6 p7 flex_depth s)._sp = s._sp :=
  call_virtual_sp _ _ (fun _ => by simp only [act_curve_sp]) s

theorem act_hstem3_sp (cmd : Int) (y0 dy0 y1 dy1 y2 dy2 : ℚ) (s : CharstringInterp) :
    (act_hstem3 cmd y0 dy0 y1 dy1 y2 dy2 s)._sp = s._sp :=
  call_virtual_sp _ _ (fun _ => by simp only [act_hstem_sp]) s

theorem act_vstem3_sp (cmd : Int) (x0 dx0 x1 dx1 x2 dx2 : ℚ) (s : CharstringInterp) :
    (act_vstem3 cmd x0 dx0 x1 dx1 x2 dx2 s)._sp = s._sp :=
  call_virtual_sp _ _ (fun _ => by simp only [act_vstem_sp]) s

theorem act_rmoveto_sp (cmd : Int) (dx dy : ℚ) (s : CharstringInterp) :
    (act_rmoveto cmd dx dy s)._sp = s._sp := rfl

theorem act_rlineto_sp (cmd : Int) (dx dy : ℚ) (s : CharstringInterp) :
    (act_rlineto cmd dx dy s)._sp = s._sp := by
  unfold act_rlineto
  simp only [act_line_sp]

theorem act_rrcurveto_sp (cmd : Int) (dx1 dy1 dx2 dy2 dx3 dy3 : ℚ) (s : CharstringInterp) :
    (act_rrcurveto cmd dx1 dy1 dx2 dy2 dx3 dy3 s)._sp = s._sp := by
  unfold act_rrcurveto
  simp only [act_curve_sp]

theorem act_rrflex_sp (cmd : Int)
    (dx1 dy1 dx2 dy2 dx3 dy3 dx4 dy4 dx5 dy5 dx6 dy6 flex_depth : ℚ) (s : CharstringInterp) :
    (act_rrflex cmd dx1 dy1 dx2 dy2 dx3 dy3 dx4 dy4 dx5 dy5 dx6 dy6 flex_depth s)._sp
      = s._sp := by
  unfold act_rrflex
  simp only [act_flex_sp]

theorem type2_handle_width_sp (cmd : Int) (have_width : Bool) (s : CharstringInterp) :
    (type2_handle_width cmd have_width s).2._sp = s._sp := by
  unfold type2_handle_width
  split <;> simp only [act_nominal_width_delta_sp, act_default_width_sp]

theorem error_cp (e d : Int) (s : CharstringInterp) :
    (error e d s).2._cp = s._cp := rfl

theorem call_virtual_cp (a : Act) (dflt : CharstringInterp → CharstringInterp)
    (h : ∀ t, (dflt t)._cp = t._cp) (s : CharstringInterp) :
    (call_virtual a dflt s)._cp = s._cp := by
  unfold call_virtual
  simp only []
  split
  · rw [h]
  · rfl
  · rfl

theorem act_sidebearing_cp (cmd : Int) (p : Point) (s : CharstringInterp) :
    (act_sidebearing cmd p s)._cp = s._cp :=
  call_virtual_cp _ _ (fun _ => rfl) s

theorem act_width_cp (cmd : Int) (p : Point) (s : CharstringInterp) :
    (act_width cmd p s)._cp = s._cp :=
  call_virtual_cp _ _ (fun _ => rfl) s

theorem act_hstem_cp (cmd : Int) (y dy : ℚ) (s : CharstringInterp) :
    (act_hstem cmd y dy s)._cp = s._cp :=
  call_virtual_cp _ _ (fun _ => rfl) s

theorem act_vstem_cp (cmd : Int) (x dx : ℚ) (s : CharstringInterp) :
    (act_vstem cmd x dx s)._cp = s._cp :=
  call_virtual_cp _ _ (fun _ => rfl) s

theorem act_hintmask_cp (cmd : Int) (data : List Nat) (nhints : Int) (s : CharstringInterp) :
    (act_hintmask cmd data nhints s)._cp = s._cp :=
  call_virtual_cp _ _ (fun _ => rfl) s

theorem act_default_width_cp (cmd : Int) (s : CharstringInterp) :
    (act_default_width cmd s)._cp = s._cp := by
  apply call_virtual_cp
  intro t
  simp only []
  repeat' split
  all_goals simp only [act_width_cp]

theorem act_nominal_width_delta_cp (cmd : Int) (delta : ℚ) (s : CharstringInterp) :
    (act_nominal_width_delta cmd delta s)._cp = s._cp := by
  apply call_virtual_cp
  intro t
  simp only []
  repeat' split
  all_goals simp only [act_width_cp]

theorem act_curve_cp (cmd : Int) (p0 p1 p2 p3 : Point) (s : CharstringInterp) :
    (act_curve cmd p0 p1 p2 p3 s)._cp = s._cp := by
  unfold act_curve
  apply call_virtual_cp
  intro t
  rfl

theorem act_line_cp (cmd : Int) (p0 p1 : Point) (s : CharstringInterp) :
    (act_line cmd p0 p1 s)._cp = s._cp :=
  call_virtual_cp _ _ (fun _ => act_curve_cp _ _ _ _ _ _) s

theorem act_flex_cp (cmd : Int) (p0 p1 p2 p3_4 p5 p6 p7 : Point) (flex_depth : ℚ)
    (s : CharstringInterp) :
    (act_flex cmd p0 p1 p2 p3_4 p5 p6 p7 flex_depth s)._cp = s._cp :=
  call_virtual_cp _ _ (fun _ => by simp only [act_curve_cp]) s

theorem act_hstem3_cp (cmd : Int) (y0 dy0 y1 dy1 y2 dy2 : ℚ) (s : CharstringInterp) :
    (act_hstem3 cmd y0 dy0 y1 dy1 y2 dy2 s)._cp = s._cp :=
  call_virtual_cp _ _ (fun _ => by simp only [act_hstem_cp]) s

theorem act_vstem3_cp (cmd : Int) (x0 dx0 x1 dx1 x2 dx2 : ℚ) (s : CharstringInterp) :
    (act_vstem3 cmd x0 dx0 x1 dx1 x2 dx2 s)._cp = s._cp :=
  call_virtual_cp _ _ (fun _ => by simp only [act_vstem_cp]) s

theorem type2_handle_width_cp (cmd : Int) (have_width : Bool) (s : CharstringInterp) :
    (type2_handle_width cmd have_width s).2._cp = s._cp := by
  unfold type2_handle_width
  split <;> simp only [act_nominal_width_delta_cp, act_default_width_cp]

/-! ### The movetos -/

theorem type1_command_moveto (run : Runner) (cmd : Int) (s : CharstringInterp)
    (hcmd : cmd = CS.cRmoveto ∨ cmd = CS.cHmoveto ∨ cmd = CS.cVmoveto) :
    type1_command run cmd s =
      if s.size < moveto_operands cmd then some (error errUnderflow cmd s) else
      some (finish (act_rmoveto cmd
        (moveto_dx cmd 0
          { (if s._state = S_PATH then act_closepath cmd s else s) with _state := S_IPATH })
        (moveto_dy cmd 0
          { (if s._state = S_PATH then act_closepath cmd s else s) with _state := S_IPATH })
        { (if s._state = S_PATH then act_closepath cmd s else s) with _state := S_IPATH })) := by
  rcases hcmd with h | h | h <;> subst h <;> rfl

theorem call_virtual_emits (P : Act → Prop) (a : Act)
    (dflt : CharstringInterp → CharstringInterp) (ha : P a)
    (h : ∀ t, Emits P t (dflt t)) (s : CharstringInterp) :
    Emits P s (call_virtual a dflt s) := by
  have e : Emits P s { s with _trace := s._trace ++ [(s._error, a)] } := by
    refine ⟨[(s._error, a)], rfl, ?_⟩
    intro x hx
    simp only [List.mem_singleton] at hx
    subst hx
    exact ha
  unfold call_virtual
  simp only []
  split
  · exact emits_trans _ _ _ _ e (h _)
  · exact e
  · exact emits_trans _ _ _ _ e (emits_of_trace _ _ _ rfl)

theorem type2_command_hstem (run : Runner) (cmd : Int) (data : Option (List Nat))
    (left : Option Int) (s : CharstringInterp)
    (hcmd : cmd = CS.cHstem ∨ cmd = CS.cHstemhm) (r : Int × CharstringInterp)
    (hr : r = if s._state = S_INITIAL then
        type2_handle_width cmd (decide (Int.tmod s.size 2 = 1)) s else (0, s)) :
    type2_command run cmd data left s =
      if s.size < 2 then some (error errUnderflow cmd s, left) else
      if r.2._state > S_HSTEM then some (error errOrdering cmd r.2, left) else
      some (finish (t2_stem_loop cmd true r.2.size.toNat 0 r.1
        { r.2 with _state := S_HSTEM }), left) := by
  subst hr
  rcases hcmd with h | h <;> subst h <;> rfl

theorem type2_command_vstem (run : Runner) (cmd : Int) (data : Option (List Nat))
    (left : Option Int) (s : CharstringInterp)
    (hcmd : cmd = CS.cVstem ∨ cmd = CS.cVstemhm) (r : Int × CharstringInterp)
    (hr : r = if s._state = S_INITIAL then
        type2_handle_width cmd (decide (Int.tmod s.size 2 = 1)) s else (0, s)) :
    type2_command run cmd data left s =
      if s.size < 2 then some (error errUnderflow cmd s, left) else
      if r.2._state > S_VSTEM then some (error errOrdering cmd r.2, left) else
      some (finish (t2_stem_loop cmd false r.2.size.toNat 0 r.1
        { r.2 with _state := S_VSTEM }), left) := by
  subst hr
  rcases hcmd with h | h <;> subst h <;> rfl

theorem type2_command_endchar (run : Runner) (data : Option (List Nat))
    (left : Option Int) (s : CharstringInterp) (r : Int × CharstringInterp)
    (hr : r = if s._state = S_INITIAL then
        type2_handle_width CS.cEndchar (decide (s.size > 0) && decide (s.size ≠ 4)) s
      else (0, s)) :
    type2_command run CS.cEndchar data left s =
      (if r.1 + 3 < r.2.size ∧ r.2._state = S_INITIAL then
        act_seac run CS.cEndchar 0 (r.2.«at» r.1) (r.2.«at» (r.1 + 1))
          (toInt (r.2.«at» (r.1 + 2))) (toInt (r.2.«at» (r.1 + 3))) r.2
      else if r.2._state = S_PATH then some (act_closepath CS.cEndchar r.2)
      else some r.2).map
        fun x => ((false, clear (set_done x)), left) := by
  subst hr
  rfl

theorem call_virtual_trace_cons (P : Act → Prop) (a : Act)
    (dflt : CharstringInterp → CharstringInterp)
    (h : ∀ t, Emits P t (dflt t)) (s : CharstringInterp) :
    ∃ l : List (Int × Act), (call_virtual a dflt s)._trace = s._trace ++ (s._error, a) :: l
      ∧ ∀ e ∈ l, P e.2 := by
  unfold call_virtual
  simp only []
  split
  · obtain ⟨l, hl, hp⟩ := h { s with _trace := s._trace ++ [(s._error, a)] }
    refine ⟨l, ?_, hp⟩
    rw [hl]
    simp
  · exact ⟨[], rfl, by simp⟩
  · exact ⟨[], rfl, by simp⟩

theorem type1_command_hsbw (run : Runner) (s s1 s2 : CharstringInterp)
    (h1 : s1 = { s with _cp := s._seac_origin.shifted (s.«at» 0) 0,
                        _lsb := s._seac_origin.shifted (s.«at» 0) 0 })
    (h2 : s2 = act_sidebearing CS.cHsbw s1._lsb s1) :
    type1_command run CS.cHsbw s =
      if s.size < 2 then some (error errUnderflow CS.cHsbw s) else
      if s._state > S_SEAC then some (error errOrdering CS.cHsbw s) else
      some (finish
        { (if s._state = S_INITIAL then act_width CS.cHsbw ⟨s2.«at» 1, 0⟩ s2 else s1)
          with _state := S_SBW }) := by
  subst h1 h2
  rfl

theorem type1_command_sbw (run : Runner) (s s1 s2 : CharstringInterp)
    (h1 : s1 = { s with _cp := s._seac_origin.shifted (s.«at» 0) (s.«at» 1),
                        _lsb := s._seac_origin.shifted (s.«at» 0) (s.«at» 1) })
    (h2 : s2 = act_sidebearing CS.cSbw s1._lsb s1) :
    type1_command run CS.cSbw s =
      if s.size < 4 then some (error errUnderflow CS.cSbw s) else
      if s._state > S_SEAC then some (error errOrdering CS.cSbw s) else
      some (finish
        { (if s._state = S_INITIAL then act_width CS.cSbw ⟨s2.«at» 2, s2.«at» 3⟩ s2 else s1)
          with _state := S_SBW }) := by
  subst h1 h2
  rfl

theorem type1_command_rlineto (run : Runner) (s : CharstringInterp) :
    type1_command run CS.cRlineto s =
      if s.size < 2 then some (error errUnderflow CS.cRlineto s) else
      some (finish (act_rlineto CS.cRlineto (s.«at» 0) (s.«at» 1)
        { s with _state := S_PATH })) := rfl

theorem type1_command_endchar (run : Runner) (s : CharstringInterp) :
    type1_command run CS.cEndchar s =
      some (false, set_done (if s._state = S_PATH then act_closepath CS.cEndchar s else s)) :=
  rfl

/-- C13: for all numbers `a w dx e lx ly`, every object whose callbacks are
all overridden by recording methods that report no error, and every bound
`fuel + 1` on the nesting, the Type 1 charstring
`a w hsbw dx e hmoveto lx ly rlineto endchar` run from `init()` returns and adds
to the trace exactly `sidebearing((a, 0))`, `width((w, 0))`,
`line((a + dx, 0), (a + dx + lx, ly))` and `closepath`, in that order and with
error OK at each call; it ends done with error OK; and the run of
`a w hsbw dx e hmoveto` from `init()` ends with the current point `(a + dx, 0)`. -/
theorem C13_hsbw_scenario (a w dx e lx ly : ℚ) (s0 : CharstringInterp) (fuel : Nat)
    (hsink : s0.sink = fun _ => some none) :
    (∃ x, run (fuel + 1) (C13_charstring a w dx e lx ly) (init s0) = some x ∧
      x._trace = s0._trace ++
        [(errOK, Act.sidebearing CS.cHsbw ⟨a, 0⟩), (errOK, Act.width CS.cHsbw ⟨w, 0⟩),
         (errOK, Act.line CS.cRlineto ⟨a + dx, 0⟩ ⟨a + dx + lx, ly⟩),
         (errOK, Act.closepath CS.cEndchar)] ∧
      x._done = true ∧ x._error = errOK) ∧
    (∃ y, run (fuel + 1) (C13_start a w dx e) (init s0) = some y ∧
      y._cp = ⟨a + dx, 0⟩ ∧ y._trace = s0._trace ++
        [(errOK, Act.sidebearing CS.cHsbw ⟨a, 0⟩), (errOK, Act.width CS.cHsbw ⟨w, 0⟩)]) := by
  constructor
  · simp +decide [run, C13_charstring, run_type1, number, push, init, clear, ps_clear,
      type1_command_hsbw _ _ _ _ rfl rfl,
      type1_command_moveto _ CS.cHmoveto _ (Or.inr (Or.inl rfl)),
      type1_command_rlineto, type1_command_endchar, size, «at», STACK_SIZE, finish,
      act_sidebearing, act_width, act_closepath, act_rmoveto, act_rlineto, act_line,
      call_virtual, hsink, moveto_operands, moveto_dx, moveto_dy, set_done, setCell,
      Point.shifted]
  · simp +decide [run, C13_start, run_type1, number, push, init, clear, ps_clear,
      type1_command_hsbw _ _ _ _ rfl rfl,
      type1_command_moveto _ CS.cHmoveto _ (Or.inr (Or.inl rfl)),
      size, «at», STACK_SIZE, finish,
      act_sidebearing, act_width, act_closepath, act_rmoveto,
      call_virtual, hsink, moveto_operands, moveto_dx, moveto_dy, setCell,
      Point.shifted]

/-- C13, witness: `100 200 hsbw 50 0 hmoveto 10 20 rlineto endchar` on the
recording object gives `sidebearing((100, 0))`, `width((200, 0))`,
`line((150, 0), (160, 20))`, `closepath`, and ends done with error OK. -/
theorem C13_hsbw_scenario_witness :
    (run 1 (C13_charstring 100 200 50 0 10 20) (init recording)).map
        (fun x => (x._error, x._done, x._trace.map Prod.snd))
      = some (errOK, true,
          [Act.sidebearing CS.cHsbw ⟨100, 0⟩, Act.width CS.cHsbw ⟨200, 0⟩,
           Act.line CS.cRlineto ⟨150, 0⟩ ⟨160, 20⟩, Act.closepath CS.cEndchar]) := by
  obtain ⟨x, hx, ht, hd, he⟩ := (C13_hsbw_scenario 100 200 50 0 10 20 recording 0 rfl).1
  have hr : recording._trace = [] := rfl
  rw [hx]
  simp only [Option.map_some', ht, hd, he, hr, List.nil_append, List.map]
  norm_num

/-! ### `_done` is touched by `set_done` and `init` only -/

theorem error_done (e d : Int) (s : CharstringInterp) :
    (error e d s).2._done = s._done := rfl

theorem push_done (d : ℚ) (s : CharstringInterp) :
    (push d s)._done = s._done := by
  unfold push; split <;> rfl

theorem ps_push_done (d : ℚ) (s : CharstringInterp) :
    (ps_push d s)._done = s._done := by
  unfold ps_push; split <;> rfl

theorem pop_done (n : Int) (s : CharstringInterp) :
    (s.pop n).2._done = s._done := rfl

theorem ps_pop_done (s : CharstringInterp) :
    s.ps_pop.2._done = s._done := rfl

theorem set_top_done (i : Int) (v : ℚ) (s : CharstringInterp) :
    (set_top i v s)._done = s._done := rfl

theorem clear_done (s : CharstringInterp) : (clear s)._done = s._done := rfl

theorem ps_clear_done (s : CharstringInterp) : (ps_clear s)._done = s._done := rfl

theorem finish_done (s : CharstringInterp) : (finish s).2._done = s._done := rfl

theorem scratch_write_done (i : Int) (v : ℚ) (s : CharstringInterp) :
    (scratch_write i v s)._done = s._done := rfl

theorem set_vector_done (r : VecRef) (v : List ℚ) (s : CharstringInterp) :
    (set_vector s r v)._done = s._done := by
  cases r <;> rfl

theorem store_loop_done : ∀ (k : Nat) (offset vectoroff : Int) (v : List ℚ) (s : CharstringInterp),
    (store_loop k offset vectoroff v s).2._done = s._done := by
  intro k
  induction k with
  | zero => intros; rfl
  | succ k ih => intro offset vectoroff v s; rw [store_loop, ih]

theorem load_loop_done (v : List ℚ) : ∀ (k : Nat) (i offset : Int) (s : CharstringInterp),
    (load_loop v k i offset s)._done = s._done := by
  intro k
  induction k with
  | zero => intros; rfl
  | succ k ih => intro i offset s; rw [load_loop, ih, scratch_write_done]

theorem vector_command_done (cmd : Int) (s : CharstringInterp) :
    (vector_command cmd s).2._done = s._done := by
  unfold vector_command
  simp only []
  split_ifs
  all_goals (repeat' split)
  all_goals
    simp only [error_done, pop_done, set_top_done, scratch_write_done, set_vector_done,
      store_loop_done, load_loop_done]

theorem blend_command_done (s : CharstringInterp) :
    (blend_command s).2._done = s._done := by
  unfold blend_command
  simp only []
  split_ifs
  all_goals (repeat' split)
  all_goals simp only [error_done, pop_done]

theorem roll_command_done (s : CharstringInterp) :
    (roll_command s).2._done = s._done := by
  unfold roll_command
  simp only []
  split_ifs
  all_goals simp only [error_done, pop_done]

theorem arith_command_done (cmd : Int) (s : CharstringInterp) :
    Post Prod.snd (fun t => t._done = s._done) (arith_command cmd s) := by
  unfold arith_command
  repeat' apply post_ite
  all_goals first | apply post_some | apply post_map
  all_goals
    first
    | (simp only [error_done, pop_done, set_top_done, push_done, blend_command_done,
        roll_command_done, ps_pop_done]; done)
    | (split <;> simp only [error_done, pop_done, set_top_done, push_done])
    | (intro x _; simp only [push_done])

theorem mm_push_loop_done (base : Int) : ∀ (k : Nat) (s : CharstringInterp),
    (mm_push_loop base k s)._done = s._done := by
  intro k
  induction k with
  | zero => intros; rfl
  | succ k ih => intro s; rw [mm_push_loop, ih, ps_push_done]

theorem mm_command_done (command on_stack : Int) (s : CharstringInterp) :
    (mm_command command on_stack s).2._done = s._done := by
  unfold mm_command
  simp only []
  repeat' split
  all_goals simp only [error_done, pop_done, mm_push_loop_done]

theorem itc_load_loop_done (weight : List ℚ) (offset : Int) :
    ∀ (k i : Nat) (s : CharstringInterp),
      (itc_load_loop weight offset k i s)._done = s._done := by
  intro k
  induction k with
  | zero => intros; rfl
  | succ k ih => intro i s; rw [itc_load_loop, ih, scratch_write_done]

theorem itc_command_done (command on_stack : Int) (s : CharstringInterp) :
    (itc_command command on_stack s).2._done = s._done := by
  unfold itc_command
  split
  · rfl
  · repeat' apply ite_prop (fun r : Result => r.2._done = s._done)
    all_goals
      first
      | (simp only [error_done, pop_done, itc_load_loop_done, scratch_write_done,
          ps_push_done]; done)
      | (simp only [pop_done]; split <;> simp only [ps_push_done])

theorem call_virtual_done (a : Act) (dflt : CharstringInterp → CharstringInterp)
    (h : ∀ t, (dflt t)._done = t._done) (s : CharstringInterp) :
    (call_virtual a dflt s)._done = s._done := by
  unfold call_virtual
  simp only []
  split
  · rw [h]
  · rfl
  · rfl

theorem act_sidebearing_done (cmd : Int) (p : Point) (s : CharstringInterp) :
    (act_sidebearing cmd p s)._done = s._done :=
  call_virtual_done _ _ (fun _ => rfl) s

theorem act_width_done (cmd : Int) (p : Point) (s : CharstringInterp) :
    (act_width cmd p s)._done = s._done :=
  call_virtual_done _ _ (fun _ => rfl) s

theorem act_closepath_done (cmd : Int) (s : CharstringInterp) :
    (act_closepath cmd s)._done = s._done :=
  call_virtual_done _ _ (fun _ => rfl) s

theorem act_hstem_done (cmd : Int) (y dy : ℚ) (s : CharstringInterp) :
    (act_hstem cmd y dy s)._done = s._done :=
  call_virtual_done _ _ (fun _ => rfl) s

theorem act_vstem_done (cmd : Int) (x dx : ℚ) (s : CharstringInterp) :
    (act_vstem cmd x dx s)._done = s._done :=
  call_virtual_done _ _ (fun _ => rfl) s

theorem act_hintmask_done (cmd : Int) (data : List Nat) (nhints : Int) (s : CharstringInterp) :
    (act_hintmask cmd data nhints s)._done = s._done :=
  call_virtual_done _ _ (fun _ => rfl) s

theorem act_default_width_done (cmd : Int) (s : CharstringInterp) :
    (act_default_width cmd s)._done = s._done := by
  apply call_virtual_done
  intro t
  simp only []
  repeat' split
  all_goals simp only [act_width_done]

theorem act_nominal_width_delta_done (cmd : Int) (delta : ℚ) (s : CharstringInterp) :
    (act_nominal_width_delta cmd delta s)._done = s._done := by
  apply call_virtual_done
  intro t
  simp only []
  repeat' split
  all_goals simp only [act_width_done]

theorem act_curve_done (cmd : Int) (p0 p1 p2 p3 : Point) (s : CharstringInterp) :
    (act_curve cmd p0 p1 p2 p3 s)._done = s._done := by
  unfold act_curve
  apply call_virtual_done
  intro t
  rfl

theorem act_line_done (cmd : Int) (p0 p1 : Point) (s : CharstringInterp) :
    (act_line cmd p0 p1 s)._done = s._done :=
  call_virtual_done _ _ (fun _ => act_curve_done _ _ _ _ _ _) s

theorem act_flex_done (cmd : Int) (p0 p1 p2 p3_4 p5 p6 p7 : Point) (flex_depth : ℚ)
    (s : CharstringInterp) :
    (act_flex cmd p0 p1 p2 p3_4 p5 p6 p7 flex_depth s)._done = s._done :=
  call_virtual_done _ _ (fun _ => by simp only [act_curve_done]) s

theorem act_hstem3_done (cmd : Int) (y0 dy0 y1 dy1 y2 dy2 : ℚ) (s : CharstringInterp) :
    (act_hstem3 cmd y0 dy0 y1 dy1 y2 dy2 s)._done = s._done :=
  call_virtual_done _ _ (fun _ => by simp only [act_hstem_done]) s

theorem act_vstem3_done (cmd : Int) (x0 dx0 x1 dx1 x2 dx2 : ℚ) (s : CharstringInterp) :
    (act_vstem3 cmd x0 dx0 x1 dx1 x2 dx2 s)._done = s._done :=
  call_virtual_done _ _ (fun _ => by simp only [act_vstem_done]) s

theorem act_rmoveto_done (cmd : Int) (dx dy : ℚ) (s : CharstringInterp) :
    (act_rmoveto cmd dx dy s)._done = s._done := rfl

theorem act_rlineto_done (cmd : Int) (dx dy : ℚ) (s : CharstringInterp) :
    (act_rlineto cmd dx dy s)._done = s._done := by
  unfold act_rlineto
  simp only [act_line_done]

theorem act_rrcurveto_done (cmd : Int) (dx1 dy1 dx2 dy2 dx3 dy3 : ℚ) (s : CharstringInterp) :
    (act_rrcurveto cmd dx1 dy1 dx2 dy2 dx3 dy3 s)._done = s._done := by
  unfold act_rrcurveto
  simp only [act_curve_done]

theorem act_rrflex_done (cmd : Int)
    (dx1 dy1 dx2 dy2 dx3 dy3 dx4 dy4 dx5 dy5 dx6 dy6 flex_depth : ℚ) (s : CharstringInterp) :
    (act_rrflex cmd dx1 dy1 dx2 dy2 dx3 dy3 dx4 dy4 dx5 dy5 dx6 dy6 flex_depth s)._done
      = s._done := by
  unfold act_rrflex
  simp only [act_flex_done]

theorem unknown_push_loop_done : ∀ (k : Nat) (i : Int) (s : CharstringInterp),
    (unknown_push_loop k i s)._done = s._done := by
  intro k
  induction k with
  | zero => intros; rfl
  | succ k ih => intro i s; rw [unknown_push_loop, ih, ps_push_done]

theorem othersubr_unknown_done (n : Int) (s : CharstringInterp) :
    (othersubr_unknown n s).2._done = s._done := by
  unfold othersubr_unknown
  simp only [pop_done, unknown_push_loop_done, ps_clear_done]

theorem callothersubr_command_done (othersubrnum n : Int) (s : CharstringInterp) :
    (callothersubr_command othersubrnum n s).2._done = s._done := by
  unfold callothersubr_command
  repeat' apply ite_prop (fun r : Result => r.2._done = s._done)
  all_goals
    simp only [error_done, pop_done, ps_push_done, ps_clear_done, act_flex_done,
      othersubr_unknown_done, mm_command_done, itc_command_done]

theorem type2_handle_width_done (cmd : Int) (have_width : Bool) (s : CharstringInterp) :
    (type2_handle_width cmd have_width s).2._done = s._done := by
  unfold type2_handle_width
  split <;> simp only [act_nominal_width_delta_done, act_default_width_done]

theorem t2_stem_loop_done (cmd : Int) (horizontal : Bool) :
    ∀ (k : Nat) (pos : ℚ) (bottom : Int) (s : CharstringInterp),
      (t2_stem_loop cmd horizontal k pos bottom s)._done = s._done := by
  intro k
  induction k with
  | zero => intros; rfl
  | succ k ih =>
    intro pos bottom s
    rw [t2_stem_loop]
    split
    · rw [ih]; split <;> simp only [act_hstem_done, act_vstem_done]
    · rfl

theorem t2_rlineto_loop_done (cmd : Int) :
    ∀ (k : Nat) (bottom : Int) (s : CharstringInterp),
      (t2_rlineto_loop cmd k bottom s)._done = s._done := by
  intro k
  induction k with
  | zero => intros; rfl
  | succ k ih =>
    intro bottom s
    rw [t2_rlineto_loop]
    split
    · rw [ih, act_rlineto_done]
    · rfl

theorem t2_hvlineto_loop_done (cmd : Int) (horizontal : Bool) :
    ∀ (k : Nat) (bottom : Int) (s : CharstringInterp),
      (t2_hvlineto_loop cmd horizontal k bottom s)._done = s._done := by
  intro k
  induction k with
  | zero => intros; rfl
  | succ k ih =>
    intro bottom s
    rw [t2_hvlineto_loop]
    simp only []
    repeat' split
    all_goals simp only [ih, act_rlineto_done]

theorem t2_rrcurveto_loop_done (cmd : Int) (margin : Int) :
    ∀ (k : Nat) (bottom : Int) (s : CharstringInterp),
      (t2_rrcurveto_loop cmd margin k bottom s).1._done = s._done := by
  intro k
  induction k with
  | zero => intros; rfl
  | succ k ih =>
    intro bottom s
    rw [t2_rrcurveto_loop]
    split
    · rw [ih, act_rrcurveto_done]
    · rfl

theorem t2_rlinecurve_loop_done (cmd : Int) :
    ∀ (k : Nat) (bottom : Int) (s : CharstringInterp),
      (t2_rlinecurve_loop cmd k bottom s).1._done = s._done := by
  intro k
  induction k with
  | zero => intros; rfl
  | succ k ih =>
    intro bottom s
    rw [t2_rlinecurve_loop]
    split
    · rw [ih, act_rlineto_done]
    · rfl

theorem t2_hhvvcurveto_loop_done (cmd : Int) (horizontal : Bool) :
    ∀ (k : Nat) (bottom : Int) (s : CharstringInterp),
      (t2_hhvvcurveto_loop cmd horizontal k bottom s)._done = s._done := by
  intro k
  induction k with
  | zero => intros; rfl
  | succ k ih =>
    intro bottom s
    rw [t2_hhvvcurveto_loop]
    simp only []
    repeat' split
    all_goals simp only [ih, act_rrcurveto_done]

theorem t2_hv_curve_done (cmd : Int) (bottom : Int) (s : CharstringInterp) :
    (t2_hv_curve cmd bottom s)._done = s._done := by
  unfold t2_hv_curve
  simp only [act_rrcurveto_done]

theorem t2_vh_curve_done (cmd : Int) (bottom : Int) (s : CharstringInterp) :
    (t2_vh_curve cmd bottom s)._done = s._done := by
  unfold t2_vh_curve
  simp only [act_rrcurveto_done]

theorem t2_hvvhcurveto_loop_done (cmd : Int) (horizontal : Bool) :
    ∀ (k : Nat) (bottom : Int) (s : CharstringInterp),
      (t2_hvvhcurveto_loop cmd horizontal k bottom s)._done = s._done := by
  intro k
  induction k with
  | zero => intros; rfl
  | succ k ih =>
    intro bottom s
    rw [t2_hvvhcurveto_loop]
    simp only []
    repeat' split
    all_goals simp only [ih, t2_hv_curve_done, t2_vh_curve_done]

theorem check_state_inl_done (cmd : Int) (s : CharstringInterp) (r : Result)
    (h : check_state cmd s = .inl r) : r.2._done = s._done := by
  unfold check_state at h
  split at h
  · cases h; rfl
  · cases h

theorem check_state_inr_done (cmd : Int) (s t : CharstringInterp)
    (h : check_state cmd s = .inr t) : t._done = s._done := by
  unfold check_state at h
  split at h
  · cases h
  · cases h; rfl

/-! ### The calls of `act_sidebearing` come from `act_sidebearing` only -/

theorem sbcount_append (l1 l2 : List (Int × Act)) :
    sbcount (l1 ++ l2) = sbcount l1 + sbcount l2 := by
  simp [sbcount]

theorem error_sb (e d : Int) (s : CharstringInterp) :
    sbcount (error e d s).2._trace = sbcount s._trace := rfl

theorem push_sb (d : ℚ) (s : CharstringInterp) :
    sbcount (push d s)._trace = sbcount s._trace := by
  unfold push; split <;> rfl

theorem ps_push_sb (d : ℚ) (s : CharstringInterp) :
    sbcount (ps_push d s)._trace = sbcount s._trace := by
  unfold ps_push; split <;> rfl

theorem pop_sb (n : Int) (s : CharstringInterp) :
    sbcount (s.pop n).2._trace = sbcount s._trace := rfl

theorem ps_pop_sb (s : CharstringInterp) :
    sbcount s.ps_pop.2._trace = sbcount s._trace := rfl

theorem set_top_sb (i : Int) (v : ℚ) (s : CharstringInterp) :
    sbcount (set_top i v s)._trace = sbcount s._trace := rfl

theorem clear_sb (s : CharstringInterp) : sbcount (clear s)._trace = sbcount s._trace := rfl

theorem ps_clear_sb (s : CharstringInterp) : sbcount (ps_clear s)._trace = sbcount s._trace := rfl

theorem set_done_sb (s : CharstringInterp) : sbcount (set_done s)._trace = sbcount s._trace := rfl

theorem finish_sb (s : CharstringInterp) : sbcount (finish s).2._trace = sbcount s._trace := rfl

theorem scratch_write_sb (i : Int) (v : ℚ) (s : CharstringInterp) :
    sbcount (scratch_write i v s)._trace = sbcount s._trace := rfl

theorem set_vector_sb (r : VecRef) (v : List ℚ) (s : CharstringInterp) :
    sbcount (set_vector s r v)._trace = sbcount s._trace := by
  cases r <;> rfl

theorem store_loop_sb : ∀ (k : Nat) (offset vectoroff : Int) (v : List ℚ) (s : CharstringInterp),
    sbcount (store_loop k offset vectoroff v s).2._trace = sbcount s._trace := by
  intro k
  induction k with
  | zero => intros; rfl
  | succ k ih => intro offset vectoroff v s; rw [store_loop, ih]

theorem load_loop_sb (v : List ℚ) : ∀ (k : Nat) (i offset : Int) (s : CharstringInterp),
    sbcount (load_loop v k i offset s)._trace = sbcount s._trace := by
  intro k
  induction k with
  | zero => intros; rfl
  | succ k ih => intro i offset s; rw [load_loop, ih, scratch_write_sb]

theorem vector_command_sb (cmd : Int) (s : CharstringInterp) :
    sbcount (vector_command cmd s).2._trace = sbcount s._trace := by
  unfold vector_command
  simp only []
  split_ifs
  all_goals (repeat' split)
  all_goals
    simp only [error_sb, pop_sb, set_top_sb, scratch_write_sb, set_vector_sb,
      store_loop_sb, load_loop_sb]

theorem blend_command_sb (s : CharstringInterp) :
    sbcount (blend_command s).2._trace = sbcount s._trace := by
  unfold blend_command
  simp only []
  split_ifs
  all_goals (repeat' split)
  all_goals simp only [error_sb, pop_sb]

theorem roll_command_sb (s : CharstringInterp) :
    sbcount (roll_command s).2._trace = sbcount s._trace := by
  unfold roll_command
  simp only []
  split_ifs
  all_goals simp only [error_sb, pop_sb]

theorem arith_command_sb (cmd : Int) (s : CharstringInterp) :
    Post Prod.snd (fun t => sbcount t._trace = sbcount s._trace) (arith_command cmd s) := by
  unfold arith_command
  repeat' apply post_ite
  all_goals first | apply post_some | apply post_map
  all_goals
    first
    | (simp only [error_sb, pop_sb, set_top_sb, push_sb, blend_command_sb,
        roll_command_sb, ps_pop_sb]; done)
    | (split <;> simp only [error_sb, pop_sb, set_top_sb, push_sb])
    | (intro x _; simp only [push_sb])

theorem mm_push_loop_sb (base : Int) : ∀ (k : Nat) (s : CharstringInterp),
    sbcount (mm_push_loop base k s)._trace = sbcount s._trace := by
  intro k
  induction k with
  | zero => intros; rfl
  | succ k ih => intro s; rw [mm_push_loop, ih, ps_push_sb]

theorem mm_command_sb (command on_stack : Int) (s : CharstringInterp) :
    sbcount (mm_command command on_stack s).2._trace = sbcount s._trace := by
  unfold mm_command
  simp only []
  repeat' split
  all_goals simp only [error_sb, pop_sb, mm_push_loop_sb]

theorem itc_load_loop_sb (weight : List ℚ) (offset : Int) :
    ∀ (k i : Nat) (s : CharstringInterp),
      sbcount (itc_load_loop weight offset k i s)._trace = sbcount s._trace := by
  intro k
  induction k with
  | zero => intros; rfl
  | succ k ih => intro i s; rw [itc_load_loop, ih, scratch_write_sb]

theorem itc_command_sb (command on_stack : Int) (s : CharstringInterp) :
    sbcount (itc_command command on_stack s).2._trace = sbcount s._trace := by
  unfold itc_command
  split
  · rfl
  · repeat' apply ite_prop (fun r : Result => sbcount r.2._trace = sbcount s._trace)
    all_goals
      first
      | (simp only [error_sb, pop_sb, itc_load_loop_sb, scratch_write_sb,
          ps_push_sb]; done)
      | (simp only [pop_sb]; split <;> simp only [ps_push_sb])

theorem call_virtual_sb (a : Act) (dflt : CharstringInterp → CharstringInterp)
    (ha : is_sidebearing a = false)
    (h : ∀ t, sbcount (dflt t)._trace = sbcount t._trace) (s : CharstringInterp) :
    sbcount (call_virtual a dflt s)._trace = sbcount s._trace := by
  have e : sbcount (s._trace ++ [(s._error, a)]) = sbcount s._trace := by
    simp [sbcount, ha]
  unfold call_virtual
  simp only []
  split
  · rw [h]; exact e
  · exact e
  · exact e

theorem act_width_sb (cmd : Int) (p : Point) (s : CharstringInterp) :
    sbcount (act_width cmd p s)._trace = sbcount s._trace :=
  call_virtual_sb _ _ (by rfl) (fun _ => rfl) s

theorem act_closepath_sb (cmd : Int) (s : CharstringInterp) :
    sbcount (act_closepath cmd s)._trace = sbcount s._trace :=
  call_virtual_sb _ _ (by rfl) (fun _ => rfl) s

theorem act_hstem_sb (cmd : Int) (y dy : ℚ) (s : CharstringInterp) :
    sbcount (act_hstem cmd y dy s)._trace = sbcount s._trace :=
  call_virtual_sb _ _ (by rfl) (fun _ => rfl) s

theorem act_vstem_sb (cmd : Int) (x dx : ℚ) (s : CharstringInterp) :
    sbcount (act_vstem cmd x dx s)._trace = sbcount s._trace :=
  call_virtual_sb _ _ (by rfl) (fun _ => rfl) s

theorem act_hintmask_sb (cmd : Int) (data : List Nat) (nhints : Int) (s : CharstringInterp) :
    sbcount (act_hintmask cmd data nhints s)._trace = sbcount s._trace :=
  call_virtual_sb _ _ (by rfl) (fun _ => rfl) s

theorem act_default_width_sb (cmd : Int) (s : CharstringInterp) :
    sbcount (act_default_width cmd s)._trace = sbcount s._trace := by
  refine call_virtual_sb _ _ (by rfl) ?_ _
  intro t
  simp only []
  repeat' split
  all_goals simp only [act_width_sb]

theorem act_nominal_width_delta_sb (cmd : Int) (delta : ℚ) (s : CharstringInterp) :
    sbcount (act_nominal_width_delta cmd delta s)._trace = sbcount s._trace := by
  refine call_virtual_sb _ _ (by rfl) ?_ _
  intro t
  simp only []
  repeat' split
  all_goals simp only [act_width_sb]

theorem act_curve_sb (cmd : Int) (p0 p1 p2 p3 : Point) (s : CharstringInterp) :
    sbcount (act_curve cmd p0 p1 p2 p3 s)._trace = sbcount s._trace := by
  unfold act_curve
  refine call_virtual_sb _ _ (by rfl) ?_ _
  intro t
  rfl

theorem act_line_sb (cmd : Int) (p0 p1 : Point) (s : CharstringInterp) :
    sbcount (act_line cmd p0 p1 s)._trace = sbcount s._trace :=
  call_virtual_sb _ _ (by rfl) (fun _ => act_curve_sb _ _ _ _ _ _) s

theorem act_flex_sb (cmd : Int) (p0 p1 p2 p3_4 p5 p6 p7 : Point) (flex_depth : ℚ)
    (s : CharstringInterp) :
    sbcount (act_flex cmd p0 p1 p2 p3_4 p5 p6 p7 flex_depth s)._trace = sbcount s._trace :=
  call_virtual_sb _ _ (by rfl) (fun _ => by simp only [act_curve_sb]) s

theorem act_hstem3_sb (cmd : Int) (y0 dy0 y1 dy1 y2 dy2 : ℚ) (s : CharstringInterp) :
    sbcount (act_hstem3 cmd y0 dy0 y1 dy1 y2 dy2 s)._trace = sbcount s._trace :=
  call_virtual_sb _ _ (by rfl) (fun _ => by simp only [act_hstem_sb]) s

theorem act_vstem3_sb (cmd : Int) (x0 dx0 x1 dx1 x2 dx2 : ℚ) (s : CharstringInterp) :
    sbcount (act_vstem3 cmd x0 dx0 x1 dx1 x2 dx2 s)._trace = sbcount s._trace :=
  call_virtual_sb _ _ (by rfl) (fun _ => by simp only [act_vstem_sb]) s

theorem act_rmoveto_sb (cmd : Int) (dx dy : ℚ) (s : CharstringInterp) :
    sbcount (act_rmoveto cmd dx dy s)._trace = sbcount s._trace := rfl

theorem act_rlineto_sb (cmd : Int) (dx dy : ℚ) (s : CharstringInterp) :
    sbcount (act_rlineto cmd dx dy s)._trace = sbcount s._trace := by
  unfold act_rlineto
  simp only [act_line_sb]

theorem act_rrcurveto_sb (cmd : Int) (dx1 dy1 dx2 dy2 dx3 dy3 : ℚ) (s : CharstringInterp) :
    sbcount (act_rrcurveto cmd dx1 dy1 dx2 dy2 dx3 dy3 s)._trace = sbcount s._trace := by
  unfold act_rrcurveto
  simp only [act_curve_sb]

theorem act_rrflex_sb (cmd : Int)
    (dx1 dy1 dx2 dy2 dx3 dy3 dx4 dy4 dx5 dy5 dx6 dy6 flex_depth : ℚ) (s : CharstringInterp) :
    sbcount (act_rrflex cmd dx1 dy1 dx2 dy2 dx3 dy3 dx4 dy4 dx5 dy5 dx6 dy6 flex_depth s)._trace
      = sbcount s._trace := by
  unfold act_rrflex
  simp only [act_flex_sb]

theorem unknown_push_loop_sb : ∀ (k : Nat) (i : Int) (s : CharstringInterp),
    sbcount (unknown_push_loop k i s)._trace = sbcount s._trace := by
  intro k
  induction k with
  | zero => intros; rfl
  | succ k ih => intro i s; rw [unknown_push_loop, ih, ps_push_sb]

theorem othersubr_unknown_sb (n : Int) (s : CharstringInterp) :
    sbcount (othersubr_unknown n s).2._trace = sbcount s._trace := by
  unfold othersubr_unknown
  simp only [pop_sb, unknown_push_loop_sb, ps_clear_sb]

theorem callothersubr_command_sb (othersubrnum n : Int) (s : CharstringInterp) :
    sbcount (callothersubr_command othersubrnum n s).2._trace = sbcount s._trace := by
  unfold callothersubr_command
  repeat' apply ite_prop (fun r : Result => sbcount r.2._trace = sbcount s._trace)
  all_goals
    simp only [error_sb, pop_sb, ps_push_sb, ps_clear_sb, act_flex_sb,
      othersubr_unknown_sb, mm_command_sb, itc_command_sb]

theorem type2_handle_width_sb (cmd : Int) (have_width : Bool) (s : CharstringInterp) :
    sbcount (type2_handle_width cmd have_width s).2._trace = sbcount s._trace := by
  unfold type2_handle_width
  split <;> simp only [act_nominal_width_delta_sb, act_default_width_sb]

theorem t2_stem_loop_sb (cmd : Int) (horizontal : Bool) :
    ∀ (k : Nat) (pos : ℚ) (bottom : Int) (s : CharstringInterp),
      sbcount (t2_stem_loop cmd horizontal k pos bottom s)._trace = sbcount s._trace := by
  intro k
  induction k with
  | zero => intros; rfl
  | succ k ih =>
    intro pos bottom s
    rw [t2_stem_loop]
    split
    · rw [ih]; split <;> simp only [act_hstem_sb, act_vstem_sb]
    · rfl

theorem t2_rlineto_loop_sb (cmd : Int) :
    ∀ (k : Nat) (bottom : Int) (s : CharstringInterp),
      sbcount (t2_rlineto_loop cmd k bottom s)._trace = sbcount s._trace := by
  intro k
  induction k with
  | zero => intros; rfl
  | succ k ih =>
    intro bottom s
    rw [t2_rlineto_loop]
    split
    · rw [ih, act_rlineto_sb]
    · rfl

theorem t2_hvlineto_loop_sb (cmd : Int) (horizontal : Bool) :
    ∀ (k : Nat) (bottom : Int) (s : CharstringInterp),
      sbcount (t2_hvlineto_loop cmd horizontal k bottom s)._trace = sbcount s._trace := by
  intro k
  induction k with
  | zero => intros; rfl
  | succ k ih =>
    intro bottom s
    rw [t2_hvlineto_loop]
    simp only []
    repeat' split
    all_goals simp only [ih, act_rlineto_sb]

theorem t2_rrcurveto_loop_sb (cmd : Int) (margin : Int) :
    ∀ (k : Nat) (bottom : Int) (s : CharstringInterp),
      sbcount (t2_rrcurveto_loop cmd margin k bottom s).1._trace = sbcount s._trace := by
  intro k
  induction k with
  | zero => intros; rfl
  | succ k ih =>
    intro bottom s
    rw [t2_rrcurveto_loop]
    split
    · rw [ih, act_rrcurveto_sb]
    · rfl

theorem t2_rlinecurve_loop_sb (cmd : Int) :
    ∀ (k : Nat) (bottom : Int) (s : CharstringInterp),
      sbcount (t2_rlinecurve_loop cmd k bottom s).1._trace = sbcount s._trace := by
  intro k
  induction k with
  | zero => intros; rfl
  | succ k ih =>
    intro bottom s
    rw [t2_rlinecurve_loop]
    split
    · rw [ih, act_rlineto_sb]
    · rfl

theorem t2_hhvvcurveto_loop_sb (cmd : Int) (horizontal : Bool) :
    ∀ (k : Nat) (bottom : Int) (s : CharstringInterp),
      sbcount (t2_hhvvcurveto_loop cmd horizontal k bottom s)._trace = sbcount s._trace := by
  intro k
  induction k with
  | zero => intros; rfl
  | succ k ih =>
    intro bottom s
    rw [t2_hhvvcurveto_loop]
    simp only []
    repeat' split
    all_goals simp only [ih, act_rrcurveto_sb]

theorem t2_hv_curve_sb (cmd : Int) (bottom : Int) (s : CharstringInterp) :
    sbcount (t2_hv_curve cmd bottom s)._trace = sbcount s._trace := by
  unfold t2_hv_curve
  simp only [act_rrcurveto_sb]

theorem t2_vh_curve_sb (cmd : Int) (bottom : Int) (s : CharstringInterp) :
    sbcount (t2_vh_curve cmd bottom s)._trace = sbcount s._trace := by
  unfold t2_vh_curve
  simp only [act_rrcurveto_sb]

theorem t2_hvvhcurveto_loop_sb (cmd : Int) (horizontal : Bool) :
    ∀ (k : Nat) (bottom : Int) (s : CharstringInterp),
      sbcount (t2_hvvhcurveto_loop cmd horizontal k bottom s)._trace = sbcount s._trace := by
  intro k
  induction k with
  | zero => intros; rfl
  | succ k ih =>
    intro bottom s
    rw [t2_hvvhcurveto_loop]
    simp only []
    repeat' split
    all_goals simp only [ih, t2_hv_curve_sb, t2_vh_curve_sb]

theorem check_state_inl_sb (cmd : Int) (s : CharstringInterp) (r : Result)
    (h : check_state cmd s = .inl r) : sbcount r.2._trace = sbcount s._trace := by
  unfold check_state at h
  split at h
  · cases h; rfl
  · cases h

theorem check_state_inr_sb (cmd : Int) (s t : CharstringInterp)
    (h : check_state cmd s = .inr t) : sbcount t._trace = sbcount s._trace := by
  unfold check_state at h
  split at h
  · cases h
  · cases h; rfl

/-! ### The opcodes that keep `_done`, the sidebearing calls and stay out of Initial -/

theorem neutral_refl (s : CharstringInterp) : Neutral s s := ⟨rfl, rfl, id⟩

theorem neutral_trans (s x y : CharstringInterp) (h1 : Neutral s x) (h2 : Neutral x y) :
    Neutral s y :=
  ⟨h2.1.trans h1.1, h2.2.1.trans h1.2.1, fun h => h1.2.2 (h2.2.2 h)⟩

theorem ite_done (c : Prop) [Decidable c] (a b : CharstringInterp) :
    (if c then a else b)._done = if c then a._done else b._done :=
  apply_ite _ _ _ _

theorem ite_state (c : Prop) [Decidable c] (a b : CharstringInterp) :
    (if c then a else b)._state = if c then a._state else b._state :=
  apply_ite _ _ _ _

theorem ite_sb (c : Prop) [Decidable c] (a b : CharstringInterp) :
    sbcount (if c then a else b)._trace = if c then sbcount a._trace else sbcount b._trace :=
  apply_ite (fun t : CharstringInterp => sbcount t._trace) _ _ _

theorem callothersubr_command_initial (othersubrnum n : Int) (s : CharstringInterp) :
    (callothersubr_command othersubrnum n s).2._state = S_INITIAL → s._state = S_INITIAL := by
  unfold callothersubr_command
  repeat' apply ite_prop (fun r : Result => r.2._state = S_INITIAL → s._state = S_INITIAL)
  all_goals
    simp only [error_state, pop_state, ps_push_state, ps_clear_state, act_flex_state,
      othersubr_unknown_state, mm_command_state, itc_command_state]
  all_goals first | exact id | (intro h; exact absurd h (by decide))

theorem type1_command_neutral (run : Runner) (cmd : Int) (s : CharstringInterp)
    (hcmd : cmd ≠ CS.cHsbw ∧ cmd ≠ CS.cSbw ∧ cmd ≠ CS.cSeac ∧ cmd ≠ CS.cCallsubr
      ∧ cmd ≠ CS.cEndchar) :
    Post Prod.snd (Neutral s) (type1_command run cmd s) := by
  obtain ⟨h1, h2, h3, h4, h5⟩ := hcmd
  unfold type1_command
  repeat' (with_reducible refine post_ite_cases _ _ _ _ _ (fun _ => ?_) (fun _ => ?_))
  all_goals
    first
    | contradiction
    | (intro r hr
       exact ⟨arith_command_done cmd s r hr, arith_command_sb cmd s r hr,
         fun h => by rw [arith_command_state cmd s r hr] at h; exact h⟩)
    | (with_reducible apply post_some
       refine ⟨?_, ?_, ?_⟩
       · first
         | rfl
         | simp only [error_done, pop_done, finish_done, vector_command_done,
           callothersubr_command_done, act_closepath_done, act_hstem_done, act_vstem_done,
             act_hstem3_done, act_vstem3_done, act_rmoveto_done, act_rlineto_done,
             act_rrcurveto_done, ite_done, ite_self]
       · first
         | rfl
         | simp only [error_sb, pop_sb, finish_sb, vector_command_sb,
           callothersubr_command_sb, act_closepath_sb, act_hstem_sb, act_vstem_sb,
             act_hstem3_sb, act_vstem3_sb, act_rmoveto_sb, act_rlineto_sb,
             act_rrcurveto_sb, ite_sb, ite_self]
       · first
         | exact id
         | (intro h; have h' := callothersubr_command_initial _ _ _ h; exact h')
         | (simp only [error_state, pop_state, finish_state, vector_command_state,
              act_closepath_state, act_hstem_state, act_vstem_state,
              act_hstem3_state, act_vstem3_state, act_rmoveto_state, act_rlineto_state,
              act_rrcurveto_state, ite_state, ite_self]
            first | exact id | (intro h; exact absurd h (by decide))))

theorem check_state_inl_eq (cmd : Int) (s : CharstringInterp) (r : Result)
    (h : check_state cmd s = .inl r) : r = error errOrdering cmd s := by
  unfold check_state at h
  split at h
  · cases h; rfl
  · cases h

theorem check_state_inr_eq (cmd : Int) (s t : CharstringInterp)
    (h : check_state cmd s = .inr t) : t = { s with _state := S_PATH } := by
  unfold check_state at h
  split at h
  · cases h
  · cases h; rfl

theorem mask_state_ne (t : CharstringInterp) :
    (if t._state < S_HINTMASK then { t with _state := S_HINTMASK } else t)._state
      ≠ S_INITIAL := by
  split
  · show S_HINTMASK ≠ S_INITIAL
    decide
  · rename_i h
    intro h0
    apply h
    rw [h0]
    decide

theorem hintmask_ready_neutral (cmd : Int) (s : CharstringInterp) :
    Neutral s (hintmask_ready cmd s) := by
  unfold hintmask_ready
  simp only []
  refine ⟨?_, ?_, ?_⟩
  · simp only [ite_done, t2_stem_loop_done, ite_self]
  · simp only [ite_sb, t2_stem_loop_sb, ite_self]
  · intro h
    exact absurd h (mask_state_ne _)

theorem type2_command_neutral (run : Runner) (cmd : Int) (data : Option (List Nat))
    (left : Option Int) (s : CharstringInterp)
    (hcmd : cmd ≠ CS.cCallsubr ∧ cmd ≠ CS.cCallgsubr ∧ cmd ≠ CS.cEndchar) :
    Post (fun r : Result × Option Int => r.1.2) (Neutral s)
      (type2_command run cmd data left s) := by
  obtain ⟨h1, h2, h3⟩ := hcmd
  by_cases hm : cmd = CS.cHintmask ∨ cmd = CS.cCntrmask
  · have hr := hintmask_ready_neutral cmd s
    rw [type2_command_mask run cmd data left s hm]
    with_reducible refine post_ite_cases _ _ _ _ _ (fun _ => ?_) (fun _ => ?_)
    · with_reducible apply post_some
      exact neutral_trans _ _ _ hr ⟨rfl, rfl, id⟩
    · split
      · with_reducible refine post_ite_cases _ _ _ _ _ (fun _ => ?_) (fun _ => ?_)
        · with_reducible apply post_some
          exact neutral_trans _ _ _ hr ⟨rfl, rfl, id⟩
        · with_reducible apply post_some
          refine neutral_trans _ _ _ hr ⟨?_, ?_, ?_⟩
          · simp only [finish_done, act_hintmask_done]
          · simp only [finish_sb, act_hintmask_sb]
          · simp only [finish_state, act_hintmask_state]
            exact id
      · with_reducible apply post_some
        exact neutral_trans _ _ _ hr ⟨rfl, rfl, id⟩
  unfold type2_command
  repeat' (with_reducible refine post_ite_cases _ _ _ _ _ (fun _ => ?_) (fun _ => ?_))
  all_goals
    first
    | contradiction
    | (with_reducible apply post_map
       intro r hr
       exact ⟨arith_command_done cmd s r hr, arith_command_sb cmd s r hr,
         fun h => by rw [arith_command_state cmd s r hr] at h; exact h⟩)
    | (with_reducible apply post_some
       refine ⟨?_, ?_, ?_⟩
       · first
         | rfl
         | simp only [error_done, pop_done, finish_done, vector_command_done, act_closepath_done,
             act_hintmask_done, act_rmoveto_done, act_rlineto_done, act_rrcurveto_done,
             act_rrflex_done, type2_handle_width_done, t2_stem_loop_done,
             t2_rlineto_loop_done, t2_hvlineto_loop_done, t2_rrcurveto_loop_done,
             t2_rlinecurve_loop_done, t2_hhvvcurveto_loop_done, t2_hvvhcurveto_loop_done,
             ite_done, ite_snd, ite_self]
       · first
         | rfl
         | simp only [error_sb, pop_sb, finish_sb, vector_command_sb, act_closepath_sb,
             act_hintmask_sb, act_rmoveto_sb, act_rlineto_sb, act_rrcurveto_sb,
             act_rrflex_sb, type2_handle_width_sb, t2_stem_loop_sb, t2_rlineto_loop_sb,
             t2_hvlineto_loop_sb, t2_rrcurveto_loop_sb, t2_rlinecurve_loop_sb,
             t2_hhvvcurveto_loop_sb, t2_hvvhcurveto_loop_sb, ite_sb, ite_snd, ite_self]
       · first
         | exact id
         | (simp only [error_state, pop_state, finish_state, vector_command_state,
              act_closepath_state, act_hintmask_state, act_rmoveto_state, act_rlineto_state,
              act_rrcurveto_state, act_rrflex_state, type2_handle_width_state,
              t2_stem_loop_state, t2_rlineto_loop_state, t2_hvlineto_loop_state,
              t2_rrcurveto_loop_state, t2_rlinecurve_loop_state, t2_hhvvcurveto_loop_state,
              t2_hvvhcurveto_loop_state, ite_state, ite_snd, ite_self]
            first | exact id | (intro h; exact absurd h (by decide))))
    | (split
       · rename_i r heq
         with_reducible apply post_some
         rw [check_state_inl_eq _ _ _ heq]
         exact ⟨rfl, rfl, id⟩
       · rename_i t heq
         rw [check_state_inr_eq _ _ _ heq]
         with_reducible apply post_some
         refine ⟨?_, ?_, ?_⟩
         · first
           | rfl
           | simp only [error_done, pop_done, finish_done, vector_command_done, act_closepath_done,
               act_hintmask_done, act_rmoveto_done, act_rlineto_done, act_rrcurveto_done,
               act_rrflex_done, type2_handle_width_done, t2_stem_loop_done,
               t2_rlineto_loop_done, t2_hvlineto_loop_done, t2_rrcurveto_loop_done,
               t2_rlinecurve_loop_done, t2_hhvvcurveto_loop_done, t2_hvvhcurveto_loop_done,
               ite_done, ite_snd, ite_self]
         · first
           | rfl
           | simp only [error_sb, pop_sb, finish_sb, vector_command_sb, act_closepath_sb,
               act_hintmask_sb, act_rmoveto_sb, act_rlineto_sb, act_rrcurveto_sb,
               act_rrflex_sb, type2_handle_width_sb, t2_stem_loop_sb, t2_rlineto_loop_sb,
               t2_hvlineto_loop_sb, t2_rrcurveto_loop_sb, t2_rlinecurve_loop_sb,
               t2_hhvvcurveto_loop_sb, t2_hvvhcurveto_loop_sb, ite_sb, ite_snd, ite_self]
         · first
           | exact id
           | (simp only [error_state, pop_state, finish_state, vector_command_state,
                act_closepath_state, act_hintmask_state, act_rmoveto_state,
                act_rlineto_state, act_rrcurveto_state, act_rrflex_state,
                type2_handle_width_state, t2_stem_loop_state, t2_rlineto_loop_state,
                t2_hvlineto_loop_state, t2_rrcurveto_loop_state, t2_rlinecurve_loop_state,
                t2_hhvvcurveto_loop_state, t2_hvvhcurveto_loop_state, ite_state, ite_snd,
                ite_self]
              first | exact id | (intro h; exact absurd h (by decide))))
    | (split
       · rename_i r heq
         with_reducible apply post_some
         rw [check_state_inl_eq _ _ _ heq]
         exact ⟨rfl, rfl, id⟩
       · rename_i t heq
         rw [check_state_inr_eq _ _ _ heq]
         with_reducible refine post_ite_cases _ _ _ _ _ (fun _ => ?_) (fun _ => ?_)
         all_goals
           with_reducible apply post_some
           refine ⟨?_, ?_, ?_⟩
           · first
             | rfl
             | simp only [error_done, pop_done, finish_done, vector_command_done, act_closepath_done,
                 act_hintmask_done, act_rmoveto_done, act_rlineto_done, act_rrcurveto_done,
                 act_rrflex_done, type2_handle_width_done, t2_stem_loop_done,
                 t2_rlineto_loop_done, t2_hvlineto_loop_done, t2_rrcurveto_loop_done,
                 t2_rlinecurve_loop_done, t2_hhvvcurveto_loop_done,
                 t2_hvvhcurveto_loop_done, ite_done, ite_snd, ite_self]
           · first
             | rfl
             | simp only [error_sb, pop_sb, finish_sb, vector_command_sb, act_closepath_sb,
                 act_hintmask_sb, act_rmoveto_sb, act_rlineto_sb, act_rrcurveto_sb,
                 act_rrflex_sb, type2_handle_width_sb, t2_stem_loop_sb, t2_rlineto_loop_sb,
                 t2_hvlineto_loop_sb, t2_rrcurveto_loop_sb, t2_rlinecurve_loop_sb,
                 t2_hhvvcurveto_loop_sb, t2_hvvhcurveto_loop_sb, ite_sb, ite_snd, ite_self]
           · first
             | exact id
             | (simp only [error_state, pop_state, finish_state, vector_command_state,
                  act_closepath_state, act_hintmask_state, act_rmoveto_state,
                  act_rlineto_state, act_rrcurveto_state, act_rrflex_state,
                  type2_handle_width_state, t2_stem_loop_state, t2_rlineto_loop_state,
                  t2_hvlineto_loop_state, t2_rrcurveto_loop_state, t2_rlinecurve_loop_state,
                  t2_hhvvcurveto_loop_state, t2_hvvhcurveto_loop_state, ite_state, ite_snd,
                  ite_self]
                first | exact id | (intro h; exact absurd h (by decide))))

/-! ### hsbw and sbw -/

theorem error_lsb (e d : Int) (s : CharstringInterp) :
    (error e d s).2._lsb = s._lsb := rfl

theorem clear_lsb (s : CharstringInterp) : (clear s)._lsb = s._lsb := rfl

theorem finish_lsb (s : CharstringInterp) : (finish s).2._lsb = s._lsb := rfl

theorem call_virtual_lsb (a : Act) (dflt : CharstringInterp → CharstringInterp)
    (h : ∀ t, (dflt t)._lsb = t._lsb) (s : CharstringInterp) :
    (call_virtual a dflt s)._lsb = s._lsb := by
  unfold call_virtual
  simp only []
  split
  · rw [h]
  · rfl
  · rfl

theorem act_sidebearing_lsb (cmd : Int) (p : Point) (s : CharstringInterp) :
    (act_sidebearing cmd p s)._lsb = s._lsb :=
  call_virtual_lsb _ _ (fun _ => rfl) s

theorem act_width_lsb (cmd : Int) (p : Point) (s : CharstringInterp) :
    (act_width cmd p s)._lsb = s._lsb :=
  call_virtual_lsb _ _ (fun _ => rfl) s

theorem act_closepath_lsb (cmd : Int) (s : CharstringInterp) :
    (act_closepath cmd s)._lsb = s._lsb :=
  call_virtual_lsb _ _ (fun _ => rfl) s

theorem act_width_sidebearing_trace (cmd : Int) (p q : Point) (s : CharstringInterp) :
    (act_width cmd q (act_sidebearing cmd p s))._trace
      = s._trace ++ [(s._error, Act.sidebearing cmd p),
          ((act_sidebearing cmd p s)._error, Act.width cmd q)] := by
  rw [act_width, call_virtual_id_trace]
  have h : (act_sidebearing cmd p s)._trace = s._trace ++ [(s._error, Act.sidebearing cmd p)] :=
    call_virtual_id_trace _ _
  rw [h]
  simp

theorem type1_command_sbw_initial (run : Runner) (cmd : Int) (s : CharstringInterp)
    (hcmd : cmd = CS.cHsbw ∨ cmd = CS.cSbw) (hsize : sbw_operands cmd ≤ s.size)
    (hstate : s._state = S_INITIAL) :
    ∃ r : Result, type1_command run cmd s = some r ∧
      (∃ e, r.2._trace = s._trace ++
        [(s._error, Act.sidebearing cmd (sbw_point cmd s)),
         (e, Act.width cmd (sbw_width cmd s))]) ∧
      r.2._lsb = sbw_point cmd s ∧ r.2._cp = sbw_point cmd s ∧ r.2._state = S_SBW := by
  have hst : ¬ s._state > S_SEAC := by rw [hstate]; decide
  rcases hcmd with h | h <;> subst h
  · have hs : ¬ s.size < 2 := not_lt.mpr hsize
    rw [type1_command_hsbw run s _ _ rfl rfl, if_neg hs, if_neg hst, if_pos hstate]
    refine ⟨_, rfl, ⟨_, by
      show (act_width _ _ (act_sidebearing _ _ _))._trace = _
      rw [act_width_sidebearing_trace]
      simp only [«at», act_sidebearing_cells, sbw_point, sbw_width, if_true]
      rfl⟩, ?_, ?_, rfl⟩
    · simp only [finish_lsb, act_width_lsb, act_sidebearing_lsb, sbw_point, if_true]
    · simp only [finish, clear, act_width_cp, act_sidebearing_cp, sbw_point, if_true]
  · have hs : ¬ s.size < 4 := not_lt.mpr hsize
    rw [type1_command_sbw run s _ _ rfl rfl, if_neg hs, if_neg hst, if_pos hstate]
    refine ⟨_, rfl, ⟨_, by
      show (act_width _ _ (act_sidebearing _ _ _))._trace = _
      rw [act_width_sidebearing_trace]
      simp +decide only [«at», act_sidebearing_cells, sbw_point, sbw_width, if_false]
      rfl⟩, ?_, ?_, rfl⟩
    · simp +decide only [finish_lsb, act_width_lsb, act_sidebearing_lsb, sbw_point, if_false]
    · simp +decide only [finish, clear, act_width_cp, act_sidebearing_cp, sbw_point, if_false]

theorem type1_command_sbw_seac (run : Runner) (cmd : Int) (s : CharstringInterp)
    (hcmd : cmd = CS.cHsbw ∨ cmd = CS.cSbw) (hsize : sbw_operands cmd ≤ s.size)
    (hle : s._state ≤ S_SEAC) (hne : s._state ≠ S_INITIAL) :
    ∃ r : Result, type1_command run cmd s = some r ∧ r.2._trace = s._trace ∧
      r.2._lsb = sbw_point cmd s ∧ r.2._cp = sbw_point cmd s ∧ r.2._state = S_SBW := by
  have hst : ¬ s._state > S_SEAC := not_lt.mpr hle
  rcases hcmd with h | h <;> subst h
  · have hs : ¬ s.size < 2 := not_lt.mpr hsize
    rw [type1_command_hsbw run s _ _ rfl rfl, if_neg hs, if_neg hst, if_neg hne]
    exact ⟨_, rfl, rfl, rfl, rfl, rfl⟩
  · have hs : ¬ s.size < 4 := not_lt.mpr hsize
    rw [type1_command_sbw run s _ _ rfl rfl, if_neg hs, if_neg hst, if_neg hne]
    exact ⟨_, rfl, rfl, rfl, rfl, rfl⟩

theorem type1_command_sbw_late (run : Runner) (cmd : Int) (s : CharstringInterp)
    (hcmd : cmd = CS.cHsbw ∨ cmd = CS.cSbw) (hsize : sbw_operands cmd ≤ s.size)
    (hgt : s._state > S_SEAC) :
    type1_command run cmd s = some (error errOrdering cmd s) := by
  rcases hcmd with h | h <;> subst h
  · have hs : ¬ s.size < 2 := not_lt.mpr hsize
    rw [type1_command_hsbw run s _ _ rfl rfl, if_neg hs, if_pos hgt]
  · have hs : ¬ s.size < 4 := not_lt.mpr hsize
    rw [type1_command_sbw run s _ _ rfl rfl, if_neg hs, if_pos hgt]

theorem type1_command_sbw_short (run : Runner) (cmd : Int) (s : CharstringInterp)
    (hcmd : cmd = CS.cHsbw ∨ cmd = CS.cSbw) (hsize : s.size < sbw_operands cmd) :
    type1_command run cmd s = some (error errUnderflow cmd s) := by
  rcases hcmd with h | h <;> subst h
  · have hs : s.size < 2 := hsize
    rw [type1_command_hsbw run s _ _ rfl rfl, if_pos hs]
  · have hs : s.size < 4 := hsize
    rw [type1_command_sbw run s _ _ rfl rfl, if_pos hs]

/-! ### At most one sidebearing per glyph -/

theorem sbinv_refl (s : CharstringInterp) : SBInv s s := ⟨le_refl _, le_refl _⟩

theorem sbinv_trans (s x y : CharstringInterp) (h1 : SBInv s x) (h2 : SBInv x y) :
    SBInv s y :=
  ⟨h1.1.trans h2.1, h2.2.trans h1.2⟩

theorem sbinv_of_neutral (s x : CharstringInterp) (h : Neutral s x) : SBInv s x := by
  obtain ⟨_, h2, h3⟩ := h
  refine ⟨by rw [h2], ?_⟩
  rw [h2]
  unfold initial_ind
  by_cases hx : x._state = S_INITIAL
  · rw [if_pos hx, if_pos (h3 hx)]
  · rw [if_neg hx]
    split <;> omega

theorem sbinv_of_count (s x : CharstringInterp) (h : sbcount x._trace = sbcount s._trace)
    (hx : x._state ≠ S_INITIAL) : SBInv s x := by
  refine ⟨by rw [h], ?_⟩
  rw [h]
  unfold initial_ind
  rw [if_neg hx]
  split <;> omega

theorem callsubr_enter_inl_neutral (s : CharstringInterp) (r : Result)
    (h : callsubr_enter s = .inl r) : Neutral s r.2 := by
  unfold callsubr_enter at h
  simp only [] at h
  split at h
  · cases h; exact ⟨rfl, rfl, id⟩
  · split at h
    · cases h; exact ⟨rfl, rfl, id⟩
    · split at h
      · cases h; exact ⟨rfl, rfl, id⟩
      · cases h

theorem callsubr_enter_inr_neutral (s : CharstringInterp) (cs : Charstring)
    (t : CharstringInterp) (h : callsubr_enter s = .inr (cs, t)) : Neutral s t := by
  unfold callsubr_enter at h
  simp only [] at h
  split at h
  · cases h
  · split at h
    · cases h
    · split at h
      · cases h
      · cases h; exact ⟨rfl, rfl, id⟩

theorem callgsubr_enter_inl_neutral (s : CharstringInterp) (r : Result)
    (h : callgsubr_enter s = .inl r) : Neutral s r.2 := by
  unfold callgsubr_enter at h
  simp only [] at h
  split at h
  · cases h; exact ⟨rfl, rfl, id⟩
  · split at h
    · cases h; exact ⟨rfl, rfl, id⟩
    · split at h
      · cases h; exact ⟨rfl, rfl, id⟩
      · cases h

theorem callgsubr_enter_inr_neutral (s : CharstringInterp) (cs : Charstring)
    (t : CharstringInterp) (h : callgsubr_enter s = .inr (cs, t)) : Neutral s t := by
  unfold callgsubr_enter at h
  simp only [] at h
  split at h
  · cases h
  · split at h
    · cases h
    · split at h
      · cases h
      · cases h; exact ⟨rfl, rfl, id⟩

theorem subr_leave_neutral (s : CharstringInterp) : Neutral s (subr_leave s).2 := by
  unfold subr_leave
  simp only []
  split <;> exact ⟨rfl, rfl, id⟩

theorem callsubr_command_sb (run : Runner) (hrun : RunnerSB run) (s : CharstringInterp) :
    Post Prod.snd (SBInv s) (callsubr_command run s) := by
  unfold callsubr_command
  split
  · rename_i r heq
    apply post_some
    exact sbinv_of_neutral _ _ (callsubr_enter_inl_neutral s r heq)
  · rename_i cs t heq
    apply post_map
    intro x hx
    exact sbinv_trans _ _ _ (sbinv_of_neutral _ _ (callsubr_enter_inr_neutral s cs t heq))
      (sbinv_trans _ _ _ (hrun _ _ _ hx) (sbinv_of_neutral _ _ (subr_leave_neutral x)))

theorem callgsubr_command_sb (run : Runner) (hrun : RunnerSB run) (s : CharstringInterp) :
    Post Prod.snd (SBInv s) (callgsubr_command run s) := by
  unfold callgsubr_command
  split
  · rename_i r heq
    apply post_some
    exact sbinv_of_neutral _ _ (callgsubr_enter_inl_neutral s r heq)
  · rename_i cs t heq
    apply post_map
    intro x hx
    exact sbinv_trans _ _ _ (sbinv_of_neutral _ _ (callgsubr_enter_inr_neutral s cs t heq))
      (sbinv_trans _ _ _ (hrun _ _ _ hx) (sbinv_of_neutral _ _ (subr_leave_neutral x)))

theorem sbinv_count_eq (s x : CharstringInterp) (h : SBInv s x)
    (hs : s._state ≠ S_INITIAL) : sbcount x._trace = sbcount s._trace := by
  have h1 := h.1
  have h2 := h.2
  unfold initial_ind at h2
  rw [if_neg hs] at h2
  omega

theorem seac_entry_sb (s : CharstringInterp) (origin : Point) :
    SBInv s { { init s with _seac_origin := origin } with _state := S_SEAC } :=
  sbinv_of_count _ _ rfl (show S_SEAC ≠ S_INITIAL by decide)

theorem seac_default_sb (run : Runner) (hrun : RunnerSB run)
    (cmd : Int) (asb adx ady : ℚ) (bchar achar : Int) (s : CharstringInterp) :
    Post id
      (fun y => SBInv s y ∧ sbcount y._trace = sbcount s._trace)
      (seac_default run cmd asb adx ady bchar achar s) := by
  have herr : ∀ e d, SBInv s (error e d s).2 ∧
      sbcount (error e d s).2._trace = sbcount s._trace :=
    fun e d => ⟨sbinv_of_neutral _ _ ⟨rfl, rfl, id⟩, rfl⟩
  have hse : (S_SEAC : Int) ≠ S_INITIAL := by decide
  unfold seac_default
  simp only []
  split
  · exact post_some _ _ _ (herr _ _)
  · with_reducible apply post_ite
    · exact post_some _ _ _ (herr _ _)
    · split
      · exact post_some _ _ _ (herr _ _)
      · split
        · exact post_some _ _ _ (herr _ _)
        · with_reducible apply post_bind
          intro x hx
          have hx1 := hrun _ _ _ hx
          have hx2 : SBInv s x := sbinv_trans _ _ _ (seac_entry_sb s _) hx1
          have hcx : sbcount x._trace = sbcount s._trace := by
            have h := sbinv_count_eq _ _ hx1 hse
            exact h
          with_reducible apply post_ite
          · with_reducible apply post_map
            intro y hy
            have hy1 := hrun _ _ _ hy
            have hy2 : SBInv x y := sbinv_trans _ _ _ (seac_entry_sb x _) hy1
            have hcy : sbcount y._trace = sbcount x._trace := by
              have h := sbinv_count_eq _ _ hy1 hse
              exact h
            refine ⟨sbinv_trans _ _ _ hx2 (sbinv_trans _ _ _ hy2
              (sbinv_of_neutral _ _ ⟨rfl, rfl, id⟩)), ?_⟩
            exact hcy.trans hcx
          · with_reducible apply post_some
            exact ⟨sbinv_trans _ _ _ hx2 (sbinv_of_neutral _ _ ⟨rfl, rfl, id⟩), hcx⟩

theorem act_seac_sb (run : Runner) (hrun : RunnerSB run)
    (cmd : Int) (asb adx ady : ℚ) (bchar achar : Int) (s : CharstringInterp) :
    Post id
      (fun y => SBInv s y ∧ sbcount y._trace = sbcount s._trace)
      (act_seac run cmd asb adx ady bchar achar s) := by
  have e : Neutral s
      { s with _trace := s._trace ++ [(s._error, Act.seac cmd asb adx ady bchar achar)] } := by
    refine ⟨rfl, ?_, id⟩
    simp [sbcount, is_sidebearing]
  unfold act_seac
  simp only []
  split
  · intro y hy
    obtain ⟨h1, h2⟩ := seac_default_sb run hrun _ _ _ _ _ _ _ y hy
    exact ⟨sbinv_trans _ _ _ (sbinv_of_neutral _ _ e) h1, h2.trans e.2.1⟩
  · exact post_some _ _ _ ⟨sbinv_of_neutral _ _ e, e.2.1⟩
  · exact post_some _ _ _ ⟨sbinv_of_neutral _ _ e, e.2.1⟩

theorem sbinv_of_eq (s x : CharstringInterp) (hc : sbcount x._trace = sbcount s._trace)
    (hs : x._state = s._state) : SBInv s x := by
  refine ⟨by rw [hc], ?_⟩
  unfold initial_ind
  rw [hc, hs]

theorem type1_command_seac (run : Runner) (s : CharstringInterp) :
    type1_command run CS.cSeac s =
      if s.size < 5 then some (error errUnderflow CS.cSeac s) else
      if s._state > S_SBW then some (error errOrdering CS.cSeac s) else
      (act_seac run CS.cSeac (s.«at» 0) (s.«at» 1) (s.«at» 2) (toInt (s.«at» 3))
        (toInt (s.«at» 4)) s).map fun x => (false, clear x) := rfl

theorem type1_command_callsubr (run : Runner) (s : CharstringInterp) :
    type1_command run CS.cCallsubr s = callsubr_command run s := rfl

theorem type2_command_callsubr (run : Runner) (data : Option (List Nat))
    (left : Option Int) (s : CharstringInterp) :
    type2_command run CS.cCallsubr data left s
      = (callsubr_command run s).map fun r => (r, left) := rfl

theorem type2_command_callgsubr (run : Runner) (data : Option (List Nat))
    (left : Option Int) (s : CharstringInterp) :
    type2_command run CS.cCallgsubr data left s
      = (callgsubr_command run s).map fun r => (r, left) := rfl

theorem type1_command_sb (run : Runner) (hrun : RunnerSB run) (cmd : Int)
    (s : CharstringInterp) : Post Prod.snd (SBInv s) (type1_command run cmd s) := by
  by_cases hsbw : cmd = CS.cHsbw ∨ cmd = CS.cSbw
  · intro r hr
    by_cases hsz : s.size < sbw_operands cmd
    · rw [type1_command_sbw_short run cmd s hsbw hsz] at hr
      cases hr
      exact sbinv_of_neutral _ _ ⟨rfl, rfl, id⟩
    · have hsz' : sbw_operands cmd ≤ s.size := not_lt.mp hsz
      by_cases hgt : s._state > S_SEAC
      · rw [type1_command_sbw_late run cmd s hsbw hsz' hgt] at hr
        cases hr
        exact sbinv_of_neutral _ _ ⟨rfl, rfl, id⟩
      · by_cases hini : s._state = S_INITIAL
        · obtain ⟨r', hr', ⟨e, htr⟩, _, _, hst⟩ :=
            type1_command_sbw_initial run cmd s hsbw hsz' hini
          rw [hr'] at hr
          cases hr
          have hc : sbcount r.2._trace = sbcount s._trace + 1 := by
            rw [htr]
            simp [sbcount, is_sidebearing]
          refine ⟨by omega, ?_⟩
          unfold initial_ind
          rw [if_pos hini, if_neg (by rw [hst]; decide), hc]
        · obtain ⟨r', hr', htr, _, _, hst⟩ :=
            type1_command_sbw_seac run cmd s hsbw hsz' (not_lt.mp hgt) hini
          rw [hr'] at hr
          cases hr
          exact sbinv_of_count _ _ (by rw [htr]) (by rw [hst]; decide)
  · by_cases hseac : cmd = CS.cSeac
    · subst hseac
      rw [type1_command_seac]
      with_reducible apply post_ite
      · exact post_some _ _ _ (sbinv_of_neutral _ _ ⟨rfl, rfl, id⟩)
      · with_reducible apply post_ite
        · exact post_some _ _ _ (sbinv_of_neutral _ _ ⟨rfl, rfl, id⟩)
        · with_reducible apply post_map
          intro x hx
          exact sbinv_trans _ _ _ (act_seac_sb run hrun _ _ _ _ _ _ _ x hx).1
            (sbinv_of_neutral _ _ ⟨rfl, rfl, id⟩)
    · by_cases hcall : cmd = CS.cCallsubr
      · subst hcall
        rw [type1_command_callsubr]
        exact callsubr_command_sb run hrun s
      · by_cases hend : cmd = CS.cEndchar
        · subst hend
          rw [type1_command_endchar]
          with_reducible apply post_some
          refine sbinv_of_eq _ _ ?_ ?_
          · simp only [set_done_sb, ite_sb, act_closepath_sb, ite_self]
          · simp only [set_done_state, ite_state, act_closepath_state, ite_self]
        · push_neg at hsbw
          exact post_mono _ _ _ _
            (type1_command_neutral run cmd s ⟨hsbw.1, hsbw.2, hseac, hcall, hend⟩)
            (fun x hx => sbinv_of_neutral _ _ hx)

theorem type2_command_sb (run : Runner) (hrun : RunnerSB run) (cmd : Int)
    (data : Option (List Nat)) (left : Option Int) (s : CharstringInterp) :
    Post (fun r : Result × Option Int => r.1.2) (SBInv s)
      (type2_command run cmd data left s) := by
  by_cases hcall : cmd = CS.cCallsubr
  · subst hcall
    rw [type2_command_callsubr]
    with_reducible apply post_map
    intro x hx
    exact callsubr_command_sb run hrun s x hx
  · by_cases hgcall : cmd = CS.cCallgsubr
    · subst hgcall
      rw [type2_command_callgsubr]
      with_reducible apply post_map
      intro x hx
      exact callgsubr_command_sb run hrun s x hx
    · by_cases hend : cmd = CS.cEndchar
      · subst hend
        obtain ⟨r, hr⟩ : ∃ r : Int × CharstringInterp, r = if s._state = S_INITIAL then
            type2_handle_width CS.cEndchar (decide (s.size > 0) && decide (s.size ≠ 4)) s
          else (0, s) := ⟨_, rfl⟩
        rw [type2_command_endchar run data left s r hr]
        have hw : SBInv s r.2 := by
          rw [hr]
          refine sbinv_of_eq _ _ ?_ ?_
          · simp only [ite_snd, ite_sb, type2_handle_width_sb, ite_self]
          · simp only [ite_snd, ite_state, type2_handle_width_state, ite_self]
        with_reducible apply post_map
        intro x hx
        have hx' : Post id (SBInv s)
            (if r.1 + 3 < r.2.size ∧ r.2._state = S_INITIAL then
              act_seac run CS.cEndchar 0 (r.2.«at» r.1) (r.2.«at» (r.1 + 1))
                (toInt (r.2.«at» (r.1 + 2))) (toInt (r.2.«at» (r.1 + 3))) r.2
            else if r.2._state = S_PATH then some (act_closepath CS.cEndchar r.2)
            else some r.2) := by
          with_reducible apply post_ite
          · exact fun y hy => sbinv_trans _ _ _ hw (act_seac_sb run hrun _ _ _ _ _ _ _ y hy).1
          · with_reducible apply post_ite
            · exact post_some _ _ _ (sbinv_trans _ _ _ hw
                (sbinv_of_eq _ _ (act_closepath_sb _ _) (act_closepath_state _ _)))
            · exact post_some _ _ _ hw
        exact sbinv_trans _ _ _ (hx' x hx) (sbinv_of_eq _ _ rfl rfl)
      · exact post_mono _ _ _ _
          (type2_command_neutral run cmd data left s ⟨hcall, hgcall, hend⟩)
          (fun x hx => sbinv_of_neutral _ _ hx)

theorem run_type1_sb (run : Runner) (hrun : RunnerSB run) :
    ∀ (items : List Item) (s : CharstringInterp),
      Post id (SBInv s) (run_type1 run items s) := by
  intro items
  induction items with
  | nil => intro s; exact post_some _ _ _ (sbinv_refl s)
  | cons item rest ih =>
    intro s
    cases item with
    | number v =>
      rw [run_type1]
      have h1 : SBInv s (number v s).2 := by
        refine sbinv_of_eq _ _ ?_ ?_
        · simp only [number, push_sb]
        · simp only [number, push_state]
      split
      · exact post_mono _ _ _ _ (ih _) (fun t ht => sbinv_trans _ _ _ h1 ht)
      · exact post_some _ _ _ h1
    | command cmd =>
      rw [run_type1]
      split
      · exact post_none _ _
      · rename_i r heq
        have h1 : SBInv s r.2 := type1_command_sb run hrun cmd s r heq
        split
        · exact post_mono _ _ _ _ (ih _) (fun t ht => sbinv_trans _ _ _ h1 ht)
        · exact post_some _ _ _ h1
    | byte b =>
      rw [run_type1]
      exact ih _

theorem run_type2_sb (run : Runner) (hrun : RunnerSB run) :
    ∀ (k : Nat) (items : List Item) (s : CharstringInterp),
      Post id (SBInv s) (run_type2 run k items s) := by
  intro k
  induction k with
  | zero => intro items s; exact post_some _ _ _ (sbinv_refl s)
  | succ k ih =>
    intro items s
    cases items with
    | nil => exact post_some _ _ _ (sbinv_refl s)
    | cons item rest =>
      cases item with
      | number v =>
        rw [run_type2]
        have h1 : SBInv s (number v s).2 := by
          refine sbinv_of_eq _ _ ?_ ?_
          · simp only [number, push_sb]
          · simp only [number, push_state]
        split
        · exact post_mono _ _ _ _ (ih _ _) (fun t ht => sbinv_trans _ _ _ h1 ht)
        · exact post_some _ _ _ h1
      | command cmd =>
        rw [run_type2]
        split
        · exact post_none _ _
        · rename_i r left heq
          have h1 : SBInv s r.2 := type2_command_sb run hrun cmd _ _ s _ heq
          split
          · exact post_mono _ _ _ _ (ih _ _) (fun t ht => sbinv_trans _ _ _ h1 ht)
          · exact post_some _ _ _ h1
      | byte b =>
        rw [run_type2]
        exact ih _ _

theorem run_sb : ∀ fuel : Nat, RunnerSB (run fuel) := by
  intro fuel
  induction fuel with
  | zero => intro cs s x hx; cases hx
  | succ fuel ih =>
    intro cs s x hx
    rw [run] at hx
    split at hx
    · exact run_type2_sb _ ih _ _ _ x hx
    · exact run_type1_sb _ ih _ _ x hx

/-- C12: Type 1 hsbw and sbw given at least the operand count of their
`CHECK_STACK` (2 and 4): in state Initial the opcode returns, adds to the trace
exactly `sidebearing(p)` and then `width(q)`, `p` being `_seac_origin` shifted
by the sidebearing operands and `q` the width operands; in state Seac it
returns and adds nothing; in both cases `_lsb = _cp = p` and the state is Sbw
afterwards; in a state later than Seac the result is `errOrdering`, the object
being otherwise as before (nothing is added, `_lsb` is unchanged). Hence, for
every run of a charstring by `run`: no call of `act_sidebearing` is lost and at
most one is added, only from state Initial (`SBInv`); a run from `init()`
adds at most one; a run from any state other than Initial adds none; and
`act_seac`, with the runs of both glyphs, adds none. -/
theorem C12_sidebearing_once (runner : Runner) (cmd : Int) (s : CharstringInterp)
    (hcmd : cmd = CS.cHsbw ∨ cmd = CS.cSbw) (hsize : sbw_operands cmd ≤ s.size) :
    (s._state = S_INITIAL →
      ∃ r : Result, type1_command runner cmd s = some r ∧
        (∃ e, r.2._trace = s._trace ++
          [(s._error, Act.sidebearing cmd (sbw_point cmd s)),
           (e, Act.width cmd (sbw_width cmd s))]) ∧
        r.2._lsb = sbw_point cmd s ∧ r.2._cp = sbw_point cmd s ∧ r.2._state = S_SBW) ∧
    (s._state = S_SEAC →
      ∃ r : Result, type1_command runner cmd s = some r ∧ r.2._trace = s._trace ∧
        r.2._lsb = sbw_point cmd s ∧ r.2._cp = sbw_point cmd s ∧ r.2._state = S_SBW) ∧
    (s._state > S_SEAC →
      type1_command runner cmd s
        = some (false, { s with _error := errOrdering, _error_data := cmd })) ∧
    (∀ (fuel : Nat) (cs : Charstring) (t x : CharstringInterp),
      run fuel cs t = some x → SBInv t x) ∧
    (∀ (fuel : Nat) (cs : Charstring) (s0 x : CharstringInterp),
      run fuel cs (init s0) = some x →
        sbcount s0._trace ≤ sbcount x._trace ∧ sbcount x._trace ≤ sbcount s0._trace + 1) ∧
    (∀ (fuel : Nat) (cs : Charstring) (t x : CharstringInterp),
      t._state ≠ S_INITIAL → run fuel cs t = some x →
        sbcount x._trace = sbcount t._trace) ∧
    (∀ (fuel : Nat) (c : Int) (asb adx ady : ℚ) (bchar achar : Int) (t y : CharstringInterp),
      act_seac (run fuel) c asb adx ady bchar achar t = some y →
        sbcount y._trace = sbcount t._trace) := by
  refine ⟨fun h => type1_command_sbw_initial runner cmd s hcmd hsize h,
    fun h => type1_command_sbw_seac runner cmd s hcmd hsize (le_of_eq h) (by rw [h]; decide),
    fun h => type1_command_sbw_late runner cmd s hcmd hsize h,
    fun fuel cs t x hx => run_sb fuel cs t x hx, ?_, ?_, ?_⟩
  · intro fuel cs s0 x hx
    have h := run_sb fuel cs _ x hx
    have h1 : sbcount (init s0)._trace = sbcount s0._trace := rfl
    have h2 := h.1
    have h3 := h.2
    have h4 : initial_ind (init s0) = 1 := rfl
    rw [h1] at h2 h3
    rw [h4] at h3
    exact ⟨h2, by omega⟩
  · intro fuel cs t x ht hx
    exact sbinv_count_eq _ _ (run_sb fuel cs t x hx) ht
  · intro fuel c asb adx ady bchar achar t y hy
    exact (act_seac_sb (run fuel) (run_sb fuel) _ _ _ _ _ _ _ y hy).2

/-- C12, witness: `100 200 hsbw` after `init()` records `sidebearing((100, 0))`
and `width((200, 0))` and leaves `_lsb = _cp = (100, 0)` in state Sbw; and the
charstring `30 500 hsbw 20 100 200 101 194 seac`, whose two component glyphs
both start with hsbw, records one sidebearing, that of the outer glyph. -/
theorem C12_sidebearing_once_witness :
    (type1_command (run 0) CS.cHsbw C12_input).map
        (fun r => (r.1, r.2._lsb, r.2._cp, r.2._state, r.2._trace.map Prod.snd))
      = some (true, ⟨100, 0⟩, ⟨100, 0⟩, S_SBW,
          [Act.sidebearing CS.cHsbw ⟨100, 0⟩, Act.width CS.cHsbw ⟨200, 0⟩]) ∧
    (run 2 C12_seac_charstring (init C20_input)).map
        (fun x => (x._error, sbcount x._trace, x._trace.map Prod.snd))
      = some (errOK, 1,
          [Act.sidebearing CS.cHsbw ⟨30, 0⟩, Act.width CS.cHsbw ⟨500, 0⟩,
           Act.seac CS.cSeac 20 100 200 101 194,
           Act.line CS.cRlineto ⟨111, 202⟩ ⟨114, 206⟩, Act.closepath CS.cEndchar,
           Act.line CS.cRlineto ⟨5, 6⟩ ⟨12, 14⟩, Act.closepath CS.cEndchar]) := by
  obtain ⟨r, hr, ⟨e, ht⟩, hl, hc, hs⟩ :=
    (C12_sidebearing_once (run 0) CS.cHsbw C12_input (Or.inl rfl) (by decide!)).1
      (by decide!)
  refine ⟨?_, by decide!⟩
  rw [hr]
  have h1 : r.1 = true := by
    have := hr
    rw [show type1_command (run 0) CS.cHsbw C12_input
      = some ((type1_command (run 0) CS.cHsbw C12_input).getD (false, C12_input)) from
      some_getD_of_isSome _ _ (by decide!)] at this
    cases this
    decide!
  have hp : sbw_point CS.cHsbw C12_input = ⟨100, 0⟩ := by decide!
  have hw : sbw_width CS.cHsbw C12_input = ⟨200, 0⟩ := by decide!
  have hr0 : C12_input._trace = [] := rfl
  simp only [Option.map_some', h1, hl, hc, hs, ht, hp, hw, hr0, List.nil_append, List.map]

/-! ### endchar across subroutine frames -/

theorem subr_leave_done (x : CharstringInterp) (h : x._done = true) :
    (subr_leave x).1 = false ∧ (subr_leave x).2._done = true := by
  unfold subr_leave
  simp only []
  split
  · exact ⟨rfl, h⟩
  · refine ⟨?_, h⟩
    simp [done, h]

theorem subr_leave_continue (x : CharstringInterp) (he : x._error = errOK)
    (h : x._done = false) : (subr_leave x).1 = true := by
  unfold subr_leave
  simp only []
  rw [if_neg (by simp [he])]
  simp [done, h]

theorem run_body (fuel : Nat) (cs : Charstring) (t : CharstringInterp) :
    run (fuel + 1) cs t =
      if cs.type2 then run_type2 (run fuel) cs.items.length cs.items t
      else run_type1 (run fuel) cs.items t := by
  rw [run]

theorem ends_run (fuel : Nat) (type2 : Bool) (k : Nat) (items : List Item)
    (s x : CharstringInterp) (h : Ends fuel type2 k items s x) :
    (if type2 then run_type2 (run fuel) k items s else run_type1 (run fuel) items s) = some x
      ∧ x._done = true := by
  induction h with
  | endchar1 fuel k rest s r hr =>
    have e := type1_command_endchar (run fuel) s
    rw [hr] at e
    cases e
    refine ⟨?_, rfl⟩
    simp only [Bool.false_eq_true, if_false]
    rw [run_type1, hr]
    rfl
  | callsubr1 fuel k rest s sub t x he _ ih =>
    obtain ⟨ih1, ih2⟩ := ih
    have hb : run (fuel + 1) sub t = some x := by
      rw [run_body]
      exact ih1
    have hc : type1_command (run (fuel + 1)) CS.cCallsubr s = some (subr_leave x) := by
      rw [type1_command_callsubr, callsubr_command, he]
      simp only [hb, Option.map_some']
    have hl := subr_leave_done x ih2
    refine ⟨?_, hl.2⟩
    simp only [Bool.false_eq_true, if_false]
    rw [run_type1, hc]
    simp only [hl.1, Bool.false_eq_true, if_false]
  | number1 fuel k v rest s x _ ih =>
    refine ⟨?_, ih.2⟩
    have ih1 := ih.1
    simp only [Bool.false_eq_true, if_false] at ih1 ⊢
    rw [run_type1]
    simp only [number, if_true] at ih1 ⊢
    exact ih1
  | command1 fuel k cmd rest s x r hr hr1 _ ih =>
    refine ⟨?_, ih.2⟩
    have ih1 := ih.1
    simp only [Bool.false_eq_true, if_false] at ih1 ⊢
    rw [run_type1, hr]
    simp only [hr1, if_true]
    exact ih1
  | byte1 fuel k b rest s x _ ih =>
    refine ⟨?_, ih.2⟩
    have ih1 := ih.1
    simp only [Bool.false_eq_true, if_false] at ih1 ⊢
    rw [run_type1]
    exact ih1
  | endchar2 fuel k rest s r hr =>
    have e := type2_command_endchar (run fuel)
      (some ((rest.takeWhile Item.is_byte).map Item.byte_value))
      (some (rest.length : Int)) s _ rfl
    rw [hr] at e
    have hd : r.1.1 = false ∧ r.1.2._done = true := by
      obtain ⟨y, _, hy⟩ := Option.map_eq_some'.mp e.symm
      rw [← hy]
      exact ⟨rfl, rfl⟩
    refine ⟨?_, hd.2⟩
    simp only [if_true]
    rw [run_type2, hr]
    simp only [hd.1, Bool.false_eq_true, if_false]
  | callsubr2 fuel k rest s sub t x he _ ih =>
    obtain ⟨ih1, ih2⟩ := ih
    have hb : run (fuel + 1) sub t = some x := by
      rw [run_body]
      exact ih1
    have hl := subr_leave_done x ih2
    refine ⟨?_, hl.2⟩
    simp only [if_true]
    rw [run_type2, type2_command_callsubr, callsubr_command, he]
    simp only [hb, Option.map_some', hl.1, Bool.false_eq_true, if_false]
  | callgsubr2 fuel k rest s sub t x he _ ih =>
    obtain ⟨ih1, ih2⟩ := ih
    have hb : run (fuel + 1) sub t = some x := by
      rw [run_body]
      exact ih1
    have hl := subr_leave_done x ih2
    refine ⟨?_, hl.2⟩
    simp only [if_true]
    rw [run_type2, type2_command_callgsubr, callgsubr_command, he]
    simp only [hb, Option.map_some', hl.1, Bool.false_eq_true, if_false]
  | number2 fuel k v rest s x _ ih =>
    refine ⟨?_, ih.2⟩
    have ih1 := ih.1
    simp only [if_true] at ih1 ⊢
    rw [run_type2]
    simp only [number, if_true] at ih1 ⊢
    exact ih1
  | command2 fuel k cmd rest s x r left hr hr1 _ ih =>
    refine ⟨?_, ih.2⟩
    have ih1 := ih.1
    simp only [if_true] at ih1 ⊢
    rw [run_type2, hr]
    simp only [hr1, if_true]
    exact ih1
  | byte2 fuel k b rest s x _ ih =>
    refine ⟨?_, ih.2⟩
    have ih1 := ih.1
    simp only [if_true] at ih1 ⊢
    rw [run_type2]
    exact ih1

theorem type1_command_keeps_done (runner : Runner) (cmd : Int) (s : CharstringInterp)
    (h1 : cmd ≠ CS.cSeac) (h2 : cmd ≠ CS.cCallsubr) (h3 : cmd ≠ CS.cEndchar) :
    Post Prod.snd (fun x => x._done = s._done) (type1_command runner cmd s) := by
  by_cases hh : cmd = CS.cHsbw
  · subst hh
    rw [type1_command_hsbw runner s _ _ rfl rfl]
    repeat' with_reducible apply post_ite
    all_goals
      with_reducible apply post_some
      simp only [error_done, finish_done, ite_done, act_width_done, act_sidebearing_done,
        ite_self]
  · by_cases hs : cmd = CS.cSbw
    · subst hs
      rw [type1_command_sbw runner s _ _ rfl rfl]
      repeat' with_reducible apply post_ite
      all_goals
        with_reducible apply post_some
        simp only [error_done, finish_done, ite_done, act_width_done, act_sidebearing_done,
          ite_self]
    · exact post_mono _ _ _ _ (type1_command_neutral runner cmd s ⟨hh, hs, h1, h2, h3⟩)
        (fun x hx => hx.1)

/-- C11: endchar raises `_done` and returns false, in both dialects; for every
runner, a callsubr or callgsubr whose body is run to `x` returns the result of
`_subr_depth--; if (_error != errOK) return false; return !done();` on `x`,
which is false with `_done` still set when `x` has `_done` set, and true when
`x` has error OK and `_done` not set; hence (`Ends`) when the event loop of a
body stops because endchar was executed, by the body or by a subroutine it
calls at any depth, the loop returns with `_done` set and the call of the body
returns false with `_done` set, at every level; and `_done` is raised by
nothing else in a body: every opcode other than endchar, the subroutine calls
and Type 1 seac (which runs other glyphs) keeps the flag, like every number. -/
theorem C11_endchar_sticky :
    (∀ (runner : Runner) (s : CharstringInterp),
      ∃ x, type1_command runner CS.cEndchar s = some (false, x) ∧ x._done = true) ∧
    (∀ (runner : Runner) (data : Option (List Nat)) (left : Option Int)
      (s : CharstringInterp) (r : Result × Option Int),
      type2_command runner CS.cEndchar data left s = some r →
        r.1.1 = false ∧ r.1.2._done = true) ∧
    (∀ (runner : Runner) (s : CharstringInterp) (sub : Charstring) (t x : CharstringInterp),
      callsubr_enter s = .inr (sub, t) → runner sub t = some x →
        callsubr_command runner s = some (subr_leave x) ∧
        (x._done = true → (subr_leave x).1 = false ∧ (subr_leave x).2._done = true) ∧
        (x._error = errOK → x._done = false → (subr_leave x).1 = true)) ∧
    (∀ (runner : Runner) (s : CharstringInterp) (sub : Charstring) (t x : CharstringInterp),
      callgsubr_enter s = .inr (sub, t) → runner sub t = some x →
        callgsubr_command runner s = some (subr_leave x) ∧
        (x._done = true → (subr_leave x).1 = false ∧ (subr_leave x).2._done = true) ∧
        (x._error = errOK → x._done = false → (subr_leave x).1 = true)) ∧
    (∀ (fuel : Nat) (type2 : Bool) (k : Nat) (items : List Item) (s x : CharstringInterp),
      Ends fuel type2 k items s x →
        (if type2 then run_type2 (run fuel) k items s else run_type1 (run fuel) items s)
          = some x ∧ x._done = true) ∧
    (∀ (fuel : Nat) (s : CharstringInterp) (sub : Charstring) (t x : CharstringInterp),
      (callsubr_enter s = .inr (sub, t) →
        Ends fuel sub.type2 sub.items.length sub.items t x →
        callsubr_command (run (fuel + 1)) s = some (subr_leave x) ∧
          (subr_leave x).1 = false ∧ (subr_leave x).2._done = true) ∧
      (callgsubr_enter s = .inr (sub, t) →
        Ends fuel sub.type2 sub.items.length sub.items t x →
        callgsubr_command (run (fuel + 1)) s = some (subr_leave x) ∧
          (subr_leave x).1 = false ∧ (subr_leave x).2._done = true)) ∧
    (∀ (runner : Runner) (cmd : Int) (s : CharstringInterp) (r : Result),
      cmd ≠ CS.cSeac → cmd ≠ CS.cCallsubr → cmd ≠ CS.cEndchar →
      type1_command runner cmd s = some r → r.2._done = s._done) ∧
    (∀ (runner : Runner) (cmd : Int) (data : Option (List Nat)) (left : Option Int)
      (s : CharstringInterp) (r : Result × Option Int),
      cmd ≠ CS.cCallsubr → cmd ≠ CS.cCallgsubr → cmd ≠ CS.cEndchar →
      type2_command runner cmd data left s = some r → r.1.2._done = s._done) ∧
    (∀ (v : ℚ) (s : CharstringInterp), (number v s).2._done = s._done) := by
  refine ⟨?_, ?_, ?_, ?_, ?_, ?_, ?_, ?_, ?_⟩
  · intro runner s
    exact ⟨_, type1_command_endchar runner s, rfl⟩
  · intro runner data left s r hr
    rw [type2_command_endchar runner data left s _ rfl] at hr
    obtain ⟨y, _, hy⟩ := Option.map_eq_some'.mp hr
    rw [← hy]
    exact ⟨rfl, rfl⟩
  · intro runner s sub t x he hx
    refine ⟨?_, subr_leave_done x, subr_leave_continue x⟩
    rw [callsubr_command, he]
    simp only [hx, Option.map_some']
  · intro runner s sub t x he hx
    refine ⟨?_, subr_leave_done x, subr_leave_continue x⟩
    rw [callgsubr_command, he]
    simp only [hx, Option.map_some']
  · intro fuel type2 k items s x h
    exact ends_run fuel type2 k items s x h
  · intro fuel s sub t x
    constructor
    · intro he h
      obtain ⟨h1, h2⟩ := ends_run _ _ _ _ _ _ h
      have hb : run (fuel + 1) sub t = some x := by rw [run_body]; exact h1
      refine ⟨?_, subr_leave_done x h2⟩
      rw [callsubr_command, he]
      simp only [hb, Option.map_some']
    · intro he h
      obtain ⟨h1, h2⟩ := ends_run _ _ _ _ _ _ h
      have hb : run (fuel + 1) sub t = some x := by rw [run_body]; exact h1
      refine ⟨?_, subr_leave_done x h2⟩
      rw [callgsubr_command, he]
      simp only [hb, Option.map_some']
  · intro runner cmd s r h1 h2 h3 hr
    exact type1_command_keeps_done runner cmd s h1 h2 h3 r hr
  · intro runner cmd data left s r h1 h2 h3 hr
    exact (type2_command_neutral runner cmd data left s ⟨h1, h2, h3⟩ r hr).1
  · intro v s
    simp only [number, push_done]

/-- C11, witness: on `C11_program`, `callsubr 0`, whose body calls the
subroutine `1`, which executes endchar, returns false with `_done` set and
error OK, and the `9 9 rlineto` that follows the inner call is not executed
(nothing is recorded); the event loop of the body stops because endchar was
executed (`Ends`); and `callsubr 2`, whose body is `5 6 rmoveto return`,
returns true with `_done` not set. -/
theorem C11_endchar_sticky_witness :
    (callsubr_command (run 2) C11_input).map
        (fun r => (r.1, r.2._done, r.2._error, r.2._trace))
      = some (false, true, errOK, []) ∧
    (∃ x, Ends 1 false 5
      [.number 1, .command CS.cCallsubr, .number 9, .number 9, .command CS.cRlineto]
      (C11_entry C11_input) x) ∧
    (callsubr_command (run 2) C11_return_input).map
        (fun r => (r.1, r.2._done, r.2._error, r.2._cp))
      = some (true, false, errOK, ⟨5, 6⟩) := by
  have h := C11_endchar_sticky
  have hE : Ends 1 false 5
      [.number 1, .command CS.cCallsubr, .number 9, .number 9, .command CS.cRlineto]
      (C11_entry C11_input)
      (subr_leave (set_done (C11_entry (number 1 (C11_entry C11_input)).2))).2 :=
    Ends.number1 _ _ _ _ _ _
      (Ends.callsubr1 0 5 _ _ ⟨false, [.command CS.cEndchar]⟩
        (C11_entry (number 1 (C11_entry C11_input)).2) _ rfl
        (Ends.endchar1 0 1 [] _ (false, set_done _) rfl))
  have h1 := (h.2.2.2.2.2.1 1 C11_input
    ⟨false, [.number 1, .command CS.cCallsubr, .number 9, .number 9, .command CS.cRlineto]⟩
    (C11_entry C11_input) _).1 rfl hE
  have h2 := h.2.2.1 (run 2) C11_return_input
    ⟨false, [.number 5, .number 6, .command CS.cRmoveto, .command CS.cReturn]⟩
    (C11_entry C11_return_input)
    ((run 2 ⟨false, [.number 5, .number 6, .command CS.cRmoveto, .command CS.cReturn]⟩
      (C11_entry C11_return_input)).getD C11_return_input)
    rfl (some_getD_of_isSome _ _ (by decide!))
  refine ⟨?_, ⟨_, hE⟩, ?_⟩
  · rw [h1.1]
    decide!
  · rw [h2.1]
    decide!

/-! ### Handlers that return true with an error latched; opcode 15 -/

/-- C24, the code at the failing input: `number(v)` returns true on every
object; on every object whose operand stack is full it latches `errOverflow`
and returns true, as on the object after `init()` and `STACK_SIZE` events
`number(0)`, which has error OK; on that object the opcode dup, through
`type1_command` or `type2_command`, also latches `errOverflow` and returns
true. -/
theorem C24_number_returns_true :
    (∀ (v : ℚ) (s : CharstringInterp), (number v s).1 = true) ∧
    (∀ (v : ℚ) (s : CharstringInterp), STACK_SIZE ≤ s.size →
      number v s = (true, { s with _error := errOverflow, _error_data := 0 })) ∧
    C24_input._error = errOK ∧ C24_input.size = STACK_SIZE ∧
    (number 7 C24_input).1 = true ∧ (number 7 C24_input).2._error = errOverflow ∧
    (type1_command (run 0) CS.cDup C24_input).map (fun r => (r.1, r.2._error))
      = some (true, errOverflow) ∧
    (type2_command (run 0) CS.cDup none none C24_input).map (fun r => (r.1.1, r.1.2._error))
      = some (true, errOverflow) := by
  refine ⟨fun _ _ => rfl, ?_, ?_, ?_, rfl, ?_, ?_, ?_⟩
  · intro v s h
    have h' : ¬ s._sp < STACK_SIZE := not_lt.mpr h
    simp only [number, push, if_neg h']
    rfl
  all_goals decide!

/-- C29, the code at the failing input: opcode 15 run through `type1_command` or
`type2_command` fails with `errUnimplemented` on every object and leaves the
operand stack as it is: neither dispatcher hands the opcode to
`arith_command`, whose `case 15` would remove two operands and return true. -/
theorem C29_opcode_15_unimplemented :
    (∀ (run : Runner) (s : CharstringInterp),
      type1_command run 15 s = some (false, { s with _error := errUnimplemented, _error_data := 15 })) ∧
    (∀ (run : Runner) (data : Option (List Nat)) (left : Option Int) (s : CharstringInterp),
      type2_command run 15 data left s
        = some ((false, { s with _error := errUnimplemented, _error_data := 15 }), left)) ∧
    C29_input.size = 2 ∧ C29_input._error = errOK ∧
    (type1_command (run 0) 15 C29_input).map (fun r => (r.1, r.2._error, r.2.size))
      = some (false, errUnimplemented, 2) ∧
    (type2_command (run 0) 15 none none C29_input).map (fun r => (r.1.1, r.1.2._error, r.1.2.size))
      = some (false, errUnimplemented, 2) ∧
    (arith_command 15 C29_input).map (fun r => (r.1, r.2._error, r.2.size))
      = some (true, errOK, 0) := by
  refine ⟨fun _ _ => rfl, fun _ _ _ _ => rfl, ?_, ?_, ?_, ?_, ?_⟩ <;> decide!

/-! ### Callbacks invoked while an error is latched -/

/-- C22, counterexample: callbacks are invoked while an error is latched, by
the later iterations of one opcode. With the default
callbacks, the repeating rlineto of `0 0 rmoveto 1 2 3 4 rlineto` run from
`init()` calls `act_line` and `act_curve` for its second line with
`errUnimplemented` latched by the first; the flex of
`0 0 rmoveto 1 .. 12 50 flex` calls `act_curve` for its second curve with the
error of the first latched; and with an overriding `act_line` that reports
`errInternal`, the second `act_line` of the rlineto is called with that error
latched. -/
theorem C22_callback_after_error :
    (run 1 C22_charstring (create none none)).map (fun x => x._trace)
      = some [(errOK, Act.default_width CS.cRmoveto),
          (errOK, Act.line CS.cRlineto ⟨0, 0⟩ ⟨1, 2⟩),
          (errOK, Act.curve CS.cRlineto ⟨0, 0⟩ ⟨0, 0⟩ ⟨1, 2⟩ ⟨1, 2⟩),
          (errUnimplemented, Act.line CS.cRlineto ⟨1, 2⟩ ⟨4, 6⟩),
          (errUnimplemented, Act.curve CS.cRlineto ⟨1, 2⟩ ⟨1, 2⟩ ⟨4, 6⟩ ⟨4, 6⟩)] ∧
    (run 1 C22_flex_charstring (create none none)).map (fun x => x._trace)
      = some [(errOK, Act.default_width CS.cRmoveto),
          (errOK, Act.flex CS.cFlex ⟨0, 0⟩ ⟨1, 2⟩ ⟨4, 6⟩ ⟨9, 12⟩ ⟨16, 20⟩ ⟨25, 30⟩ ⟨36, 42⟩ 50),
          (errOK, Act.curve CS.cFlex ⟨0, 0⟩ ⟨1, 2⟩ ⟨4, 6⟩ ⟨9, 12⟩),
          (errUnimplemented, Act.curve CS.cFlex ⟨9, 12⟩ ⟨16, 20⟩ ⟨25, 30⟩ ⟨36, 42⟩)] ∧
    (run 1 C22_charstring C22_failing_sink).map (fun x => x._trace)
      = some [(errOK, Act.default_width CS.cRmoveto),
          (errOK, Act.line CS.cRlineto ⟨0, 0⟩ ⟨1, 2⟩),
          (errInternal, Act.line CS.cRlineto ⟨1, 2⟩ ⟨4, 6⟩)] := by
  refine ⟨?_, ?_, ?_⟩ <;> decide!

/-! ### The implementations of the callbacks in the source -/

theorem call_virtual_default (a : Act) (dflt : CharstringInterp → CharstringInterp)
    (s : CharstringInterp) (h : s.sink a = none) :
    call_virtual a dflt s = dflt { s with _trace := s._trace ++ [(s._error, a)] } := by
  simp only [call_virtual, h]

theorem act_curve_default (cmd : Int) (p0 p1 p2 p3 : Point) (s : CharstringInterp)
    (h : s.sink (Act.curve cmd p0 p1 p2 p3) = none) :
    act_curve cmd p0 p1 p2 p3 s
      = { s with _error := errUnimplemented, _error_data := cmd,
                 _trace := s._trace ++ [(s._error, Act.curve cmd p0 p1 p2 p3)] } := by
  rw [act_curve, call_virtual_default _ _ _ h]
  rfl

theorem act_line_default (cmd : Int) (p0 p1 : Point) (s : CharstringInterp)
    (h : s.sink = fun _ => none) :
    act_line cmd p0 p1 s
      = { s with _error := errUnimplemented, _error_data := cmd,
                 _trace := s._trace ++ [(s._error, Act.line cmd p0 p1),
                   (s._error, Act.curve cmd p0 p0 p1 p1)] } := by
  rw [act_line, call_virtual_default _ _ _ (by rw [h]), act_curve_default _ _ _ _ _ _ (by simp only [h])]
  simp

/-- C23, amended: with no callback overridden, the implementations of
`act_sidebearing`, `act_width`, `act_closepath`, `act_hstem`, `act_vstem` and
`act_hintmask` in the source change no data member (the call is recorded in
the ghost trace only); the implementation of `act_curve` sets `_error` to
`errUnimplemented` and `_error_data` to the opcode and changes nothing else;
hence every drawing opcode of `type1_command` with enough operands returns
false with `errUnimplemented` latched. -/
theorem C23_default_callbacks (s : CharstringInterp) (hsink : s.sink = fun _ => none)
    (cmd : Int) (p p0 p1 p2 p3 : Point) (a b : ℚ) (data : List Nat) (nhints : Int) :
    act_sidebearing cmd p s
      = { s with _trace := s._trace ++ [(s._error, Act.sidebearing cmd p)] } ∧
    act_width cmd p s = { s with _trace := s._trace ++ [(s._error, Act.width cmd p)] } ∧
    act_closepath cmd s = { s with _trace := s._trace ++ [(s._error, Act.closepath cmd)] } ∧
    act_hstem cmd a b s = { s with _trace := s._trace ++ [(s._error, Act.hstem cmd a b)] } ∧
    act_vstem cmd a b s = { s with _trace := s._trace ++ [(s._error, Act.vstem cmd a b)] } ∧
    act_hintmask cmd data nhints s
      = { s with _trace := s._trace ++ [(s._error, Act.hintmask cmd data nhints)] } ∧
    act_curve cmd p0 p1 p2 p3 s
      = { s with _error := errUnimplemented, _error_data := cmd,
                 _trace := s._trace ++ [(s._error, Act.curve cmd p0 p1 p2 p3)] } ∧
    (∀ run : Runner, cmd ∈ t1_drawing → t1_draw_operands cmd ≤ s.size →
      ∃ x, type1_command run cmd s = some (false, x) ∧ x._error = errUnimplemented
        ∧ x._error_data = cmd) := by
  have hd : ∀ a : Act, s.sink a = none := fun a => by rw [hsink]
  refine ⟨call_virtual_default _ _ _ (hd _), call_virtual_default _ _ _ (hd _),
    call_virtual_default _ _ _ (hd _), call_virtual_default _ _ _ (hd _),
    call_virtual_default _ _ _ (hd _), call_virtual_default _ _ _ (hd _),
    act_curve_default _ _ _ _ _ _ (hd _), ?_⟩
  intro run hcmd hsize
  simp only [t1_drawing, List.mem_cons, List.mem_singleton, List.not_mem_nil, or_false] at hcmd
  rcases hcmd with rfl | rfl | rfl | rfl | rfl | rfl
  · have hs : ¬ s.size < 1 := not_lt.mpr hsize
    have e : type1_command run CS.cHlineto s = (if s.size < 1 then some (error errUnderflow CS.cHlineto s) else
      some (finish (act_rlineto CS.cHlineto (s.«at» 0) 0 { s with _state := S_PATH }))) := rfl
    rw [e, if_neg hs, act_rlineto, act_line_default]
    · exact ⟨_, rfl, rfl, rfl⟩
    · exact hsink
  · have hs : ¬ s.size < 4 := not_lt.mpr hsize
    have e : type1_command run CS.cHvcurveto s = (if s.size < 4 then some (error errUnderflow CS.cHvcurveto s) else
      some (finish (act_rrcurveto CS.cHvcurveto (s.«at» 0) 0 (s.«at» 1) (s.«at» 2) 0 (s.«at» 3)
        { s with _state := S_PATH }))) := rfl
    rw [e, if_neg hs, act_rrcurveto, act_curve_default]
    · exact ⟨_, rfl, rfl, rfl⟩
    · exact hd _
  · have hs : ¬ s.size < 2 := not_lt.mpr hsize
    have e : type1_command run CS.cRlineto s = (if s.size < 2 then some (error errUnderflow CS.cRlineto s) else
      some (finish (act_rlineto CS.cRlineto (s.«at» 0) (s.«at» 1) { s with _state := S_PATH }))) := rfl
    rw [e, if_neg hs, act_rlineto, act_line_default]
    · exact ⟨_, rfl, rfl, rfl⟩
    · exact hsink
  · have hs : ¬ s.size < 6 := not_lt.mpr hsize
    have e : type1_command run CS.cRrcurveto s = (if s.size < 6 then some (error errUnderflow CS.cRrcurveto s) else
      some (finish (act_rrcurveto CS.cRrcurveto (s.«at» 0) (s.«at» 1) (s.«at» 2) (s.«at» 3)
        (s.«at» 4) (s.«at» 5) { s with _state := S_PATH }))) := rfl
    rw [e, if_neg hs, act_rrcurveto, act_curve_default]
    · exact ⟨_, rfl, rfl, rfl⟩
    · exact hd _
  · have hs : ¬ s.size < 4 := not_lt.mpr hsize
    have e : type1_command run CS.cVhcurveto s = (if s.size < 4 then some (error errUnderflow CS.cVhcurveto s) else
      some (finish (act_rrcurveto CS.cVhcurveto 0 (s.«at» 0) (s.«at» 1) (s.«at» 2) (s.«at» 3) 0
        { s with _state := S_PATH }))) := rfl
    rw [e, if_neg hs, act_rrcurveto, act_curve_default]
    · exact ⟨_, rfl, rfl, rfl⟩
    · exact hd _
  · have hs : ¬ s.size < 1 := not_lt.mpr hsize
    have e : type1_command run CS.cVlineto s = (if s.size < 1 then some (error errUnderflow CS.cVlineto s) else
      some (finish (act_rlineto CS.cVlineto 0 (s.«at» 0) { s with _state := S_PATH }))) := rfl
    rw [e, if_neg hs, act_rlineto, act_line_default]
    · exact ⟨_, rfl, rfl, rfl⟩
    · exact hsink

/-- C23, witness: with the default callbacks, Type 1 rlineto on the operands
`10 20` after `init()` returns false with `errUnimplemented`. -/
theorem C23_default_callbacks_witness :
    ∃ x, type1_command (run 0) CS.cRlineto (push 20 (push 10 (create none none))) = some (false, x)
      ∧ x._error = errUnimplemented ∧ x._error_data = CS.cRlineto :=
  (C23_default_callbacks (push 20 (push 10 (create none none))) rfl CS.cRlineto
    ⟨0, 0⟩ ⟨0, 0⟩ ⟨0, 0⟩ ⟨0, 0⟩ ⟨0, 0⟩ 0 0 [] 0).2.2.2.2.2.2.2 (run 0) (by decide) (by decide!)

/-- C23, counterexample: on the object after `init()`, which has error OK and no
callback overridden, `act_curve` latches `errUnimplemented`; and the Type 1
charstring `100 200 hsbw 50 0 hmoveto 10 20 rlineto endchar` run on it stops at
rlineto with `errUnimplemented`, before endchar. -/
theorem C23_curve_counterexample :
    (create none none)._error = errOK ∧
    (act_curve CS.cRrcurveto ⟨0, 0⟩ ⟨1, 1⟩ ⟨2, 2⟩ ⟨3, 3⟩ (create none none))._error
      = errUnimplemented ∧
    (run 1 (C13_charstring 100 200 50 0 10 20) (create none none)).map
        (fun x => (x._error, x._error_data, x._done, x._trace.map Prod.snd))
      = some (errUnimplemented, CS.cRlineto, false,
          [Act.sidebearing CS.cHsbw ⟨100, 0⟩, Act.width CS.cHsbw ⟨200, 0⟩,
           Act.line CS.cRlineto ⟨150, 0⟩ ⟨160, 20⟩,
           Act.curve CS.cRlineto ⟨150, 0⟩ ⟨150, 0⟩ ⟨160, 20⟩ ⟨160, 20⟩]) := by
  refine ⟨?_, ?_, ?_⟩ <;> decide!

/-! ### The terminating opcodes of Type 1 -/

theorem seac_default_base (run : Runner) (cmd : Int) (asb adx ady : ℚ) (bchar achar : Int)
    (s y : CharstringInterp)
    (h : seac_default run cmd asb adx ady bchar achar s = some y) (he : y._error = errOK) :
    ∃ (bcs : Charstring) (t x : CharstringInterp),
      run bcs t = some x ∧ t._done = false ∧ t._state = S_SEAC ∧ y._done = x._done := by
  unfold seac_default at h
  split at h
  · cases h; exact absurd he (show (errInternal : Int) ≠ errOK by decide)
  · split at h
    · cases h; exact absurd he (show (errGlyph : Int) ≠ errOK by decide)
    · split at h
      · cases h; exact absurd he (show (errGlyph : Int) ≠ errOK by decide)
      · split at h
        · cases h; exact absurd he (show (errGlyph : Int) ≠ errOK by decide)
        · rename_i bcs _
          obtain ⟨u, hu, hy⟩ := Option.bind_eq_some.mp h
          split at hy
          · obtain ⟨x, hx, hxy⟩ := Option.map_eq_some'.mp hy
            exact ⟨bcs, _, x, hx, rfl, rfl, by rw [← hxy]⟩
          · rename_i hne
            cases hy
            exact absurd he hne

/-- C21, amended: `type1_command` returns false for endchar, for return and for
seac; after endchar `done()` is true; return leaves the object, and so
`done()`, as it is; seac does not set `done()` itself: when `act_seac` is
overridden `done()` is as before, and when the implementation of the source
ran and left error OK, `done()` is the flag left by the run of the base glyph,
which starts with the flag clear. -/
theorem C21_terminating_opcodes (run : Runner) (s : CharstringInterp) :
    (∃ x, type1_command run CS.cEndchar s = some (false, x) ∧ x.done = true) ∧
    type1_command run CS.cReturn s = some (false, s) ∧
    (∀ r, type1_command run CS.cSeac s = some r → r.1 = false) ∧
    (∀ o, s.sink (seac_call s) = some o → 5 ≤ s.size → s._state ≤ S_SBW →
      ∃ x, type1_command run CS.cSeac s = some (false, x) ∧ x.done = s.done) ∧
    (∀ r, s.sink (seac_call s) = none → type1_command run CS.cSeac s = some r →
      r.2._error = errOK →
      ∃ (bcs : Charstring) (t x : CharstringInterp),
        run bcs t = some x ∧ t.done = false ∧ t._state = S_SEAC ∧ r.2.done = x.done) := by
  refine ⟨⟨_, rfl, rfl⟩, rfl, ?_, ?_, ?_⟩
  · intro r hr
    rw [type1_command_seac] at hr
    split at hr
    · cases hr; rfl
    · split at hr
      · cases hr; rfl
      · obtain ⟨x, _, hx⟩ := Option.map_eq_some'.mp hr
        rw [← hx]
  · intro o ho hsize hstate
    rw [type1_command_seac, if_neg (not_lt.mpr hsize), if_neg (not_lt.mpr hstate)]
    have ho' : s.sink (Act.seac CS.cSeac (s.«at» 0) (s.«at» 1) (s.«at» 2) (toInt (s.«at» 3))
        (toInt (s.«at» 4))) = some o := ho
    rcases o with _ | ⟨err, error_data⟩
    · simp only [act_seac, ho']
      exact ⟨_, rfl, rfl⟩
    · simp only [act_seac, ho']
      exact ⟨_, rfl, rfl⟩
  · intro r hnone hr he
    have hnone' : s.sink (Act.seac CS.cSeac (s.«at» 0) (s.«at» 1) (s.«at» 2) (toInt (s.«at» 3))
        (toInt (s.«at» 4))) = none := hnone
    rw [type1_command_seac] at hr
    split at hr
    · cases hr; exact absurd he (show (errUnderflow : Int) ≠ errOK by decide)
    · split at hr
      · cases hr; exact absurd he (show (errOrdering : Int) ≠ errOK by decide)
      · obtain ⟨y, hy, hyr⟩ := Option.map_eq_some'.mp hr
        simp only [act_seac, hnone'] at hy
        have he' : y._error = errOK := by rw [← hyr] at he; exact he
        obtain ⟨bcs, t, x, hx, ht, hst, hd⟩ := seac_default_base _ _ _ _ _ _ _ _ _ hy he'
        refine ⟨bcs, t, x, hx, ht, hst, ?_⟩
        rw [← hyr]
        exact hd

/-- C21, witness: after `init()`, endchar returns false with `done()` true; and
the seac of `30 500 hsbw 20 100 200 101 194 seac` on `C20_program`, whose
glyphs end by endchar, returns false with error OK and `done()` true. -/
theorem C21_terminating_opcodes_witness :
    (type1_command (run 1) CS.cEndchar (create none none)).map (fun r => (r.1, r.2.done))
      = some (false, true) ∧
    (type1_command (run 1) CS.cSeac (C21_before_seac C20_input)).map
        (fun r => (r.1, r.2._error, r.2.done))
      = some (false, errOK, true) := by
  have h := C21_terminating_opcodes (run 1) (create none none)
  obtain ⟨x, hx, hd⟩ := h.1
  refine ⟨by rw [hx]; simp [hd], ?_⟩
  decide!

/-- C21, counterexample: after `init()`, at subroutine depth 0, return gives
false with `done()` false; the seac of `30 500 hsbw 20 100 200 101 194 seac`
with an overriding `act_seac` that reports no error gives false with error OK
and `done()` false; and so does the seac of the source on a program whose
glyphs are `0 0 hsbw 5 6 rmoveto`, without endchar. -/
theorem C21_return_counterexample :
    (create none none)._subr_depth = 0 ∧
    (type1_command (run 1) CS.cReturn (create none none)).map (fun r => (r.1, r.2._error, r.2.done))
      = some (false, errOK, false) ∧
    (type1_command (run 1) CS.cSeac (C21_before_seac recording)).map
        (fun r => (r.1, r.2._error, r.2.done, r.2._trace.map Prod.snd))
      = some (false, errOK, false,
          [Act.sidebearing CS.cHsbw ⟨30, 0⟩, Act.width CS.cHsbw ⟨500, 0⟩,
           Act.seac CS.cSeac 20 100 200 101 194]) ∧
    (type1_command (run 1) CS.cSeac
        (C21_before_seac { create (some C21_program) none with
          standard_encoding := some (fun _ => "A") })).map
        (fun r => (r.1, r.2._error, r.2.done))
      = some (false, errOK, false) := by
  refine ⟨rfl, ?_, ?_, ?_⟩ <;> decide!

/-! ### The multiple master othersubrs -/

theorem mm_push_loop_spec (base : Int) :
    ∀ (n : Nat) (s : CharstringInterp), 0 ≤ s._ps_sp → s._ps_sp + n ≤ PS_STACK_SIZE →
      mm_push_loop base n s
        = { s with _ps_sp := s._ps_sp + n, _ps_s := (mm_push_loop base n s)._ps_s } ∧
      (∀ c, c < s._ps_sp → (mm_push_loop base n s)._ps_s c = s._ps_s c) ∧
      (∀ i : Nat, i < n →
        (mm_push_loop base n s)._ps_s (s._ps_sp + i) = s._s (base + ((n : Int) - 1 - i))) := by
  intro n
  induction n with
  | zero =>
    intro s _ _
    exact ⟨by simp [mm_push_loop], fun c _ => rfl, fun i hi => absurd hi (Nat.not_lt_zero i)⟩
  | succ n ih =>
    intro s h0 hroom
    have hlt : s._ps_sp < PS_STACK_SIZE := by push_cast at hroom; omega
    have hp : ps_push (s.«at» (base + n)) s
        = { s with _ps_s := setCell s._ps_s s._ps_sp (s._s (base + n)), _ps_sp := s._ps_sp + 1 } := by
      simp only [ps_push, if_pos hlt, «at»]
    obtain ⟨ih1, ih2, ih3⟩ := ih (ps_push (s.«at» (base + n)) s)
      (by rw [hp]; show 0 ≤ s._ps_sp + 1; omega)
      (by rw [hp]; show s._ps_sp + 1 + (n : Int) ≤ PS_STACK_SIZE; push_cast at hroom; omega)
    rw [mm_push_loop]
    refine ⟨?_, ?_, ?_⟩
    · rw [ih1, hp]
      simp only [CharstringInterp.mk.injEq, true_and, and_true]
      push_cast
      ring
    · intro c hc
      rw [ih2 c (by rw [hp]; show c < s._ps_sp + 1; omega), hp]
      exact setCell_other _ _ _ _ (by omega)
    · intro i hi
      rcases Nat.eq_zero_or_pos i with h0' | hpos
      · subst h0'
        rw [Nat.cast_zero, add_zero, ih2 _ (by rw [hp]; show s._ps_sp < s._ps_sp + 1; omega), hp]
        show setCell s._ps_s s._ps_sp (s._s (base + n)) s._ps_sp = _
        rw [setCell_same]
        congr 1
        push_cast
        ring
      · obtain ⟨u, rfl⟩ : ∃ u, i = u + 1 := ⟨i - 1, by omega⟩
        have h3 := ih3 u (by omega)
        rw [hp] at h3 ⊢
        have e : s._ps_sp + ((u + 1 : Nat) : Int) = s._ps_sp + 1 + (u : Int) := by
          push_cast; ring
        rw [e]
        refine h3.trans ?_
        show s._s _ = s._s _
        congr 1
        push_cast
        ring

theorem mm_command_eq (command on_stack : Int) (s : CharstringInterp) (w : List ℚ)
    (hw : s._weight_vector = some w) (hcmd : command ∈ mm_commands)
    (hon : on_stack = mm_nargs command * w.length) (hsize : on_stack ≤ s.size) :
    mm_command command on_stack s =
      (true, ((mm_push_loop (s.size - on_stack) (mm_nargs command).toNat
        { s with _s := (blend_outer w w.length (s.size - on_stack) (mm_nargs command).toNat 0
            (s.size - on_stack + mm_nargs command) s._s).1 }).pop on_stack).2) := by
  have hsz : ¬ s.size < mm_nargs command * w.length := by rw [← hon]; exact not_lt.mpr hsize
  simp only [mm_commands, List.mem_cons, List.mem_singleton, List.not_mem_nil, or_false] at hcmd
  rcases hcmd with rfl | rfl | rfl | rfl | rfl <;>
    simp only [mm_command, weight_vector, hw] <;>
    exact (if_neg (by
      intro h
      rcases h with h | h
      · exact hsz h
      · exact h hon)).trans rfl

theorem mm_nargs_nonneg (command : Int) : 0 ≤ mm_nargs command := by
  unfold mm_nargs
  split_ifs <;> decide

theorem mm_blend_cell (w : List ℚ) (nargs on_stack : Int) (s : CharstringInterp) (j : Nat)
    (hn : 0 ≤ nargs) (hj : (j : Int) < nargs) (hm : 1 ≤ w.length) :
    (blend_outer w w.length (s.size - on_stack) nargs.toNat 0
        (s.size - on_stack + nargs) s._s).1 (s.size - on_stack + j)
      = mm_result w nargs on_stack s j := by
  have hspec := (blend_outer_spec w w.length (s.size - on_stack) nargs.toNat 0
    (s.size - on_stack + nargs) s._s (by rw [Int.toNat_of_nonneg hn]; omega)).2 j (by omega)
  simp only [add_zero] at hspec
  rw [hspec, mm_result, Finset.sum_Ico_eq_sum_range]
  simp only [«at»]
  congr 1
  apply Finset.sum_congr rfl
  intro i _
  congr 2
  push_cast [Nat.cast_sub hm]
  ring

theorem mm_command_result (command on_stack : Int) (s : CharstringInterp) (w : List ℚ)
    (hw : s._weight_vector = some w) (hcmd : command ∈ mm_commands)
    (hm : 1 ≤ w.length) (hon : on_stack = mm_nargs command * w.length)
    (hsize : on_stack ≤ s.size) (hps : 0 ≤ s.ps_size)
    (hroom : s.ps_size + mm_nargs command ≤ PS_STACK_SIZE) :
    ∃ x, mm_command command on_stack s = (true, x) ∧ x._error = s._error
      ∧ x._trace = s._trace
      ∧ x._sp = s._sp - on_stack ∧ (∀ c, c < s._sp - on_stack → x._s c = s._s c)
      ∧ x._ps_sp = s._ps_sp + mm_nargs command
      ∧ (∀ c, c < s._ps_sp → x._ps_s c = s._ps_s c)
      ∧ (∀ j : Nat, (j : Int) < mm_nargs command →
          x._s (s._sp - on_stack + j) = mm_result w (mm_nargs command) on_stack s j)
      ∧ (∀ j : Nat, (j : Int) < mm_nargs command →
          x._ps_s (s._ps_sp + (mm_nargs command - 1 - j))
            = mm_result w (mm_nargs command) on_stack s j) := by
  have hn := mm_nargs_nonneg command
  obtain ⟨h1, h2, h3⟩ := mm_push_loop_spec (s.size - on_stack) (mm_nargs command).toNat
    { s with _s := (blend_outer w w.length (s.size - on_stack) (mm_nargs command).toNat 0
        (s.size - on_stack + mm_nargs command) s._s).1 } hps
    (by rw [Int.toNat_of_nonneg hn]; exact hroom)
  have hlow := (blend_outer_spec w w.length (s.size - on_stack) (mm_nargs command).toNat 0
    (s.size - on_stack + mm_nargs command) s._s
    (by rw [Int.toNat_of_nonneg hn]; omega)).1
  refine ⟨_, mm_command_eq command on_stack s w hw hcmd hon hsize, ?_, ?_, ?_, ?_, ?_, ?_, ?_, ?_⟩
  · show (mm_push_loop _ _ _)._error = _
    rw [h1]
  · show (mm_push_loop _ _ _)._trace = _
    rw [h1]
  · show (mm_push_loop _ _ _)._sp - on_stack = _
    rw [h1]
  · intro c hc
    show (mm_push_loop _ _ _)._s c = _
    rw [h1]
    exact hlow c (Or.inl (by simp only [size, add_zero]; exact hc))
  · show (mm_push_loop _ _ _)._ps_sp = _
    rw [h1]
    show s._ps_sp + ((mm_nargs command).toNat : Int) = _
    rw [Int.toNat_of_nonneg hn]
  · intro c hc
    show (mm_push_loop _ _ _)._ps_s c = _
    exact h2 c hc
  · intro j hj
    show (mm_push_loop _ _ _)._s _ = _
    rw [h1]
    exact mm_blend_cell w (mm_nargs command) on_stack s j hn hj hm
  · intro j hj
    show (mm_push_loop _ _ _)._ps_s _ = _
    have h := h3 ((mm_nargs command).toNat - 1 - j) (by omega)
    have e : (((mm_nargs command).toNat - 1 - j : Nat) : Int) = mm_nargs command - 1 - j := by
      omega
    rw [e, Int.toNat_of_nonneg hn] at h
    refine h.trans ?_
    rw [← mm_blend_cell w (mm_nargs command) on_stack s j hn hj hm]
    show (blend_outer _ _ _ _ _ _ _).1 _ = (blend_outer _ _ _ _ _ _ _).1 _
    refine congrArg _ ?_
    show s.size - on_stack + _ = s.size - on_stack + _
    omega

/-- C25, amended: for every weight vector `w` of length `m ≥ 1` and every multiple
master othersubr (`nargs` in 1, 2, 3, 4, 6) called with exactly `nargs * m`
operands, the PostScript stack having room for `nargs` values, `mm_command`
returns true and its `j`-th result, pushed on the PostScript stack at the
position `nargs - 1 - j` from the old top, is the `j`-th of the first `nargs`
operands, unweighted, plus the sum over the masters `k = 1 .. m - 1` of `w[k]`
times the operand at offset `nargs + j * (m - 1) + (k - 1)`; `w[0]` is not
used. -/
theorem C25_mm_weighted_sum (command on_stack : Int) (s : CharstringInterp) (w : List ℚ)
    (hw : s.weight_vector = some w) (hcmd : command ∈ mm_commands)
    (hm : 1 ≤ w.length) (hon : on_stack = mm_nargs command * w.length)
    (hsize : on_stack ≤ s.size) (hps : 0 ≤ s.ps_size)
    (hroom : s.ps_size + mm_nargs command ≤ PS_STACK_SIZE) :
    mm_nargs command ∈ [1, 2, 3, 4, 6] ∧
    ∃ x, mm_command command on_stack s = (true, x) ∧
      x.ps_size = s.ps_size + mm_nargs command ∧
      ∀ j : Nat, (j : Int) < mm_nargs command →
        x.ps_at (s.ps_size + (mm_nargs command - 1 - j))
          = s.«at» (s.size - on_stack + j)
            + ∑ k in Finset.Ico 1 w.length,
                w.getD k 0
                  * s.«at» (s.size - on_stack
                      + (mm_nargs command + j * (w.length - 1) + (k - 1))) := by
  refine ⟨?_, ?_⟩
  · simp only [mm_commands, List.mem_cons, List.mem_singleton, List.not_mem_nil, or_false] at hcmd
    rcases hcmd with rfl | rfl | rfl | rfl | rfl <;> decide
  · obtain ⟨x, hx, _, _, _, _, hpsp, _, _, hres⟩ :=
      mm_command_result command on_stack s w hw hcmd hm hon hsize hps hroom
    exact ⟨x, hx, hpsp, hres⟩

/-- C25, witness: with the weights `[1/4, 3/4]`, othersubr 15 (two arguments) on
the operands `10 20 1 3` pushes `20 + 3/4 * 3 = 89/4` and then
`10 + 3/4 * 1 = 43/4` on the PostScript stack. -/
theorem C25_mm_weighted_sum_witness :
    ∃ x, mm_command CS.othcMM2 4 C26_input = (true, x) ∧
      x.ps_size = C26_input.ps_size + mm_nargs CS.othcMM2 ∧
      (∀ j : Nat, (j : Int) < mm_nargs CS.othcMM2 →
        x.ps_at (C26_input.ps_size + (mm_nargs CS.othcMM2 - 1 - j))
          = C26_input.«at» (C26_input.size - 4 + j)
            + ∑ k in Finset.Ico 1 ([1 / 4, 3 / 4] : List ℚ).length,
                ([1 / 4, 3 / 4] : List ℚ).getD k 0
                  * C26_input.«at» (C26_input.size - 4
                      + (mm_nargs CS.othcMM2
                          + j * ((([1 / 4, 3 / 4] : List ℚ).length : Int) - 1) + (k - 1)))) ∧
      x.ps_stack = [89 / 4, 43 / 4] := by
  obtain ⟨x, hx, h1, h2⟩ := (C25_mm_weighted_sum CS.othcMM2 4 C26_input [1 / 4, 3 / 4]
    (by decide!) (by decide) (by decide) (by decide) (by decide!) (by decide!) (by decide!)).2
  refine ⟨x, hx, h1, h2, ?_⟩
  have hx' : x = (mm_command CS.othcMM2 4 C26_input).2 := by rw [hx]
  rw [hx']
  decide!

/-- C25, counterexample: with the weights `[1/2, 1/2]`, othersubr 14 (one
argument) on the operands `1 1` gives `3/2`, where the sum of `w[k]` times the
operand of master `k` over `k = 0, 1` is `1`. -/
theorem C25_mm_counterexample :
    C25_input.weight_vector = some [1 / 2, 1 / 2] ∧ C25_input.stack = [1, 1] ∧
    (mm_command CS.othcMM1 2 C25_input).1 = true ∧
    (mm_command CS.othcMM1 2 C25_input).2.ps_stack = [3 / 2] ∧
    (∑ k in Finset.range 2, ([1 / 2, 1 / 2] : List ℚ).getD k 0 * C25_input.«at» k) = 1 := by
  refine ⟨by decide!, by decide!, by decide!, by decide!, ?_⟩
  decide!

theorem act_curve_emits (P : Act → Prop) (cmd : Int) (p0 p1 p2 p3 : Point)
    (h : P (Act.curve cmd p0 p1 p2 p3)) (t : CharstringInterp) :
    Emits P t (act_curve cmd p0 p1 p2 p3 t) := by
  unfold act_curve
  exact call_virtual_emits P _ _ h (fun u => emits_of_trace P u (error errUnimplemented cmd u).2 rfl) t

theorem act_flex_trace (cmd : Int) (p0 p1 p2 p3_4 p5 p6 p7 : Point) (flex_depth : ℚ)
    (s : CharstringInterp) :
    ∃ l : List (Int × Act),
      (act_flex cmd p0 p1 p2 p3_4 p5 p6 p7 flex_depth s)._trace
        = s._trace ++ (s._error, Act.flex cmd p0 p1 p2 p3_4 p5 p6 p7 flex_depth) :: l
      ∧ ∀ e ∈ l, is_flex e.2 = false :=
  call_virtual_trace_cons (fun a => is_flex a = false) _ _
    (fun u => emits_trans _ _ _ _
      (act_curve_emits (fun a => is_flex a = false) _ _ _ _ _ rfl u)
      (act_curve_emits (fun a => is_flex a = false) _ _ _ _ _ rfl _)) s

theorem ps_push_two (x : CharstringInterp) :
    ps_push ((ps_push ((ps_clear x).top 0) (ps_clear x)).top 1)
        (ps_push ((ps_clear x).top 0) (ps_clear x))
      = { x with _ps_s := setCell (setCell x._ps_s 0 (x.top 0)) 1 (x.top 1), _ps_sp := 2 } := rfl

theorem callothersubr_flexend (s : CharstringInterp) (x : CharstringInterp)
    (hx : x = act_flex CS.cCallothersubr ⟨s.ps_at 0, s.ps_at 1⟩
      ⟨s.ps_at 4, s.ps_at 5⟩ ⟨s.ps_at 6, s.ps_at 7⟩
      ⟨s.ps_at 8, s.ps_at 9⟩ ⟨s.ps_at 10, s.ps_at 11⟩
      ⟨s.ps_at 12, s.ps_at 13⟩ ⟨s.ps_at 14, s.ps_at 15⟩ (s.top 2) s) :
    callothersubr_command CS.othcFlexend 3 s =
      if ¬ s._flex ∨ s.ps_size ≠ 16 then error errFlex 0 s else
      (true, ({ (ps_push ((ps_push ((ps_clear x).top 0) (ps_clear x)).top 1)
          (ps_push ((ps_clear x).top 0) (ps_clear x)))
        with _flex := false, _state := S_PATH }.pop 3).2) := by
  subst hx
  rfl

theorem type1_command_callothersubr (run : Runner) (s : CharstringInterp)
    (othersubrnum n : Int) (hsize : 2 ≤ s.size)
    (h0 : s.top 0 = (othersubrnum : ℚ)) (h1 : s.top 1 = (n : ℚ))
    (hnum : 0 ≤ othersubrnum) (hn : n ≤ s.size - 2) :
    type1_command run CS.cCallothersubr s
      = some (callothersubr_command othersubrnum n (s.pop 2).2) := by
  have e : type1_command run CS.cCallothersubr s =
      (if s.size < 2 then some (error errUnderflow CS.cCallothersubr s) else
        if toInt (s.top 0) < 0 ∨ (s.pop 2).2.size < toInt (s.top 1) then
          some (error errOthersubr CS.cCallothersubr (s.pop 2).2)
        else some (callothersubr_command (toInt (s.top 0)) (toInt (s.top 1)) (s.pop 2).2)) := rfl
  rw [e, h0, h1, toInt_intCast, toInt_intCast, if_neg (not_lt.mpr hsize), if_neg]
  intro h
  rcases h with h | h
  · omega
  · have h' : s._sp - 2 < n := h
    have hn' : n ≤ s._sp - 2 := hn
    omega

/-- C27: the Flexend othersubr (othersubr 0 called with the 3 arguments
`depth x y`, so that `top(2) = depth`, `top(1) = x`, `top(0) = y`). When the
flex latch is set and the PostScript stack holds exactly 16 values it returns
true; it calls `act_flex` once, with the points made of the PostScript pairs
0, 2, 3, 4, 5, 6, 7 and the flex depth `depth`, any further call recorded being
made by that callback and not a call of `act_flex`; afterwards the PostScript
stack holds two entries, `y` at the bottom and `x` on top, the latch is clear,
the state is Path, and the operand depth is lower by 3, the cells being as
they were. When the latch is not set or the PostScript stack does not hold
exactly 16 values it returns false with `errFlex` and changes nothing else.
`type1_command` reaches the othersubr on the operands `depth x y 3 0` with
the two topmost removed. -/
theorem C27_flexend (s : CharstringInterp) :
    (s._flex = true → s.ps_size = 16 →
      ∃ x, callothersubr_command CS.othcFlexend 3 s = (true, x) ∧
        (∃ l : List (Int × Act),
          x._trace = s._trace ++
            (s._error, Act.flex CS.cCallothersubr ⟨s.ps_at 0, s.ps_at 1⟩
              ⟨s.ps_at 4, s.ps_at 5⟩ ⟨s.ps_at 6, s.ps_at 7⟩
              ⟨s.ps_at 8, s.ps_at 9⟩ ⟨s.ps_at 10, s.ps_at 11⟩
              ⟨s.ps_at 12, s.ps_at 13⟩ ⟨s.ps_at 14, s.ps_at 15⟩ (s.top 2)) :: l
          ∧ ∀ e ∈ l, is_flex e.2 = false) ∧
        x.ps_size = 2 ∧ x.ps_at 0 = s.top 0 ∧ x.ps_at 1 = s.top 1 ∧
        x._flex = false ∧ x._state = S_PATH ∧
        x.size = s.size - 3 ∧ x._s = s._s) ∧
    (s._flex = false ∨ s.ps_size ≠ 16 →
      callothersubr_command CS.othcFlexend 3 s
        = (false, { s with _error := errFlex, _error_data := 0 })) ∧
    (∀ (run : Runner) (t : CharstringInterp), 5 ≤ t.size → t.top 0 = 0 → t.top 1 = 3 →
      (t.pop 2).2 = s →
      type1_command run CS.cCallothersubr t
        = some (callothersubr_command CS.othcFlexend 3 s)) := by
  refine ⟨?_, ?_, ?_⟩
  · intro hflex hps
    obtain ⟨x, hx⟩ : ∃ x, x = act_flex CS.cCallothersubr ⟨s.ps_at 0, s.ps_at 1⟩
      ⟨s.ps_at 4, s.ps_at 5⟩ ⟨s.ps_at 6, s.ps_at 7⟩
      ⟨s.ps_at 8, s.ps_at 9⟩ ⟨s.ps_at 10, s.ps_at 11⟩
      ⟨s.ps_at 12, s.ps_at 13⟩ ⟨s.ps_at 14, s.ps_at 15⟩ (s.top 2) s := ⟨_, rfl⟩
    have hcells : x._s = s._s := by rw [hx]; exact act_flex_cells _ _ _ _ _ _ _ _ _ _
    have hsp : x._sp = s._sp := by rw [hx]; exact act_flex_sp _ _ _ _ _ _ _ _ _ _
    have htr := act_flex_trace CS.cCallothersubr ⟨s.ps_at 0, s.ps_at 1⟩
      ⟨s.ps_at 4, s.ps_at 5⟩ ⟨s.ps_at 6, s.ps_at 7⟩
      ⟨s.ps_at 8, s.ps_at 9⟩ ⟨s.ps_at 10, s.ps_at 11⟩
      ⟨s.ps_at 12, s.ps_at 13⟩ ⟨s.ps_at 14, s.ps_at 15⟩ (s.top 2) s
    rw [← hx] at htr
    have hc : ¬ (¬ s._flex = true ∨ s.ps_size ≠ 16) := by
      intro h
      rcases h with h | h
      · exact h hflex
      · exact h hps
    rw [callothersubr_flexend s x hx, if_neg hc, ps_push_two]
    refine ⟨_, rfl, htr, rfl, ?_, ?_, rfl, rfl, ?_, hcells⟩
    · show setCell (setCell x._ps_s 0 (x.top 0)) 1 (x.top 1) 0 = _
      rw [setCell_other _ _ _ _ (by decide), setCell_same]
      simp only [top, hcells, hsp]
    · show setCell (setCell x._ps_s 0 (x.top 0)) 1 (x.top 1) 1 = _
      rw [setCell_same]
      simp only [top, hcells, hsp]
    · show x._sp - 3 = s._sp - 3
      rw [hsp]
  · intro h
    have hc : ¬ s._flex = true ∨ s.ps_size ≠ 16 := by
      rcases h with h | h
      · left; rw [h]; decide
      · right; exact h
    rw [callothersubr_flexend s _ rfl, if_pos hc]
    rfl
  · intro run t hsize h0 h1 ht
    rw [← ht]
    have hsz : 5 ≤ t._sp := hsize
    exact type1_command_callothersubr run t CS.othcFlexend 3 (by show 2 ≤ t._sp; omega)
      (by rw [h0]; norm_num) (by rw [h1]; norm_num) (by decide) (by show 3 ≤ t._sp - 2; omega)

/-- C27, witness: the Type 1 flex sequence from `init()`, ending with the
operands `50 77 88`: Flexend calls `act_flex` with the pairs 0, 2, 3, 4, 5, 6, 7 of
the 16 PostScript values and the depth `50`, and leaves the PostScript stack
`88 77`, no operand, the latch clear and the state Path; with the latch clear
it fails with `errFlex`. -/
theorem C27_flexend_witness :
    C27_input.ps_stack
      = [110, 20, 111, 21, 113, 21, 116, 22, 120, 22, 125, 21, 131, 21, 138, 20] ∧
    C27_input.stack = [50, 77, 88] ∧
    (∃ x, callothersubr_command CS.othcFlexend 3 C27_input = (true, x) ∧
      x._trace.map Prod.snd
        = [Act.sidebearing CS.cHsbw ⟨100, 0⟩, Act.width CS.cHsbw ⟨0, 0⟩,
           Act.flex CS.cCallothersubr ⟨110, 20⟩ ⟨113, 21⟩ ⟨116, 22⟩ ⟨120, 22⟩ ⟨125, 21⟩
             ⟨131, 21⟩ ⟨138, 20⟩ 50] ∧
      x.ps_stack = [88, 77] ∧ x.stack = [] ∧ x._flex = false ∧ x._state = S_PATH) ∧
    callothersubr_command CS.othcFlexend 3 { C27_input with _flex := false }
      = (false, { { C27_input with _flex := false } with _error := errFlex, _error_data := 0 }) := by
  have h := (C27_flexend { C27_input with _flex := false }).2.1 (Or.inl rfl)
  obtain ⟨x, hx, _⟩ := (C27_flexend C27_input).1 (by decide!) (by decide!)
  have hx' : x = (callothersubr_command CS.othcFlexend 3 C27_input).2 := by rw [hx]
  subst hx'
  refine ⟨?_, ?_, ⟨_, hx, ?_, ?_, ?_, ?_, ?_⟩, h⟩ <;> decide!

/-! ### flex1 -/

theorem act_rrflex_trace (cmd : Int)
    (dx1 dy1 dx2 dy2 dx3 dy3 dx4 dy4 dx5 dy5 dx6 dy6 flex_depth : ℚ) (s : CharstringInterp) :
    (act_rrflex cmd dx1 dy1 dx2 dy2 dx3 dy3 dx4 dy4 dx5 dy5 dx6 dy6 flex_depth s)._cp
      = (((((s._cp.shifted dx1 dy1).shifted dx2 dy2).shifted dx3 dy3).shifted dx4 dy4).shifted
          dx5 dy5).shifted dx6 dy6 ∧
    ∃ l : List (Int × Act),
      (act_rrflex cmd dx1 dy1 dx2 dy2 dx3 dy3 dx4 dy4 dx5 dy5 dx6 dy6 flex_depth s)._trace
        = s._trace ++ (s._error, Act.flex cmd s._cp (s._cp.shifted dx1 dy1)
            ((s._cp.shifted dx1 dy1).shifted dx2 dy2)
            (((s._cp.shifted dx1 dy1).shifted dx2 dy2).shifted dx3 dy3)
            ((((s._cp.shifted dx1 dy1).shifted dx2 dy2).shifted dx3 dy3).shifted dx4 dy4)
            (((((s._cp.shifted dx1 dy1).shifted dx2 dy2).shifted dx3 dy3).shifted dx4 dy4).shifted
              dx5 dy5)
            ((((((s._cp.shifted dx1 dy1).shifted dx2 dy2).shifted dx3 dy3).shifted dx4 dy4).shifted
              dx5 dy5).shifted dx6 dy6) flex_depth) :: l
      ∧ ∀ e ∈ l, is_flex e.2 = false := by
  refine ⟨?_, ?_⟩
  · rw [act_rrflex, act_flex_cp]
  · rw [act_rrflex]
    exact act_flex_trace _ _ _ _ _ _ _ _ _ _

theorem type2_command_flex1 (run : Runner) (data : Option (List Nat)) (left : Option Int)
    (s t : CharstringInterp) (ht : t = { s with _state := S_PATH }) :
    type2_command run CS.cFlex1 data left s =
      if s.size < 11 then some (error errUnderflow CS.cFlex1 s, left) else
      if s._state < S_IPATH then some (error errOrdering CS.cFlex1 s, left) else
      if |flex1_dx t| > |flex1_dy t| then
        some (finish (act_rrflex CS.cFlex1
          (t.«at» 0) (t.«at» 1) (t.«at» 2) (t.«at» 3) (t.«at» 4) (t.«at» 5)
          (t.«at» 6) (t.«at» 7) (t.«at» 8) (t.«at» 9) (t.«at» 10) (-flex1_dy t) 50 t), left)
      else
        some (finish (act_rrflex CS.cFlex1
          (t.«at» 0) (t.«at» 1) (t.«at» 2) (t.«at» 3) (t.«at» 4) (t.«at» 5)
          (t.«at» 6) (t.«at» 7) (t.«at» 8) (t.«at» 9) (-flex1_dx t) (t.«at» 10) 50 t), left) := by
  subst ht
  have e : type2_command run CS.cFlex1 data left s =
      (if s.size < 11 then some (error errUnderflow CS.cFlex1 s, left) else
        match check_state CS.cFlex1 s with
        | .inl r => some (r, left)
        | .inr s =>
          if |flex1_dx s| > |flex1_dy s| then
            some (finish (act_rrflex CS.cFlex1
              (s.«at» 0) (s.«at» 1) (s.«at» 2) (s.«at» 3) (s.«at» 4) (s.«at» 5)
              (s.«at» 6) (s.«at» 7) (s.«at» 8) (s.«at» 9) (s.«at» 10) (-flex1_dy s) 50 s), left)
          else
            some (finish (act_rrflex CS.cFlex1
              (s.«at» 0) (s.«at» 1) (s.«at» 2) (s.«at» 3) (s.«at» 4) (s.«at» 5)
              (s.«at» 6) (s.«at» 7) (s.«at» 8) (s.«at» 9) (-flex1_dx s) (s.«at» 10) 50 s),
              left)) := rfl
  rw [e]
  by_cases h1 : s.size < 11
  · rw [if_pos h1, if_pos h1]
  · rw [if_neg h1, if_neg h1]
    by_cases h2 : s._state < S_IPATH
    · rw [if_pos h2]
      simp only [check_state, if_pos h2]
    · rw [if_neg h2]
      simp only [check_state, if_neg h2]

theorem flex1_end_exact (rnd : ℚ → ℚ) (cp : Point) (a : Int → ℚ)
    (h : ∀ q ∈ flex1_sums cp a, rnd q = q) :
    flex1_end rnd cp a
      = if |a 0 + a 2 + a 4 + a 6 + a 8| > |a 1 + a 3 + a 5 + a 7 + a 9| then
          ⟨cp.x + (a 0 + a 2 + a 4 + a 6 + a 8) + a 10, cp.y⟩
        else ⟨cp.x, cp.y + (a 1 + a 3 + a 5 + a 7 + a 9) + a 10⟩ := by
  simp only [flex1_sums, List.forall_mem_cons, List.not_mem_nil, false_imp_iff,
    implies_true, and_true, List.mem_cons, List.mem_singleton, forall_eq_or_imp, forall_eq] at h
  obtain ⟨h1, h2, h3, h4, h5, h6, h7, h8, h9, h10, h11, h12, h13, h14, h15, h16, h17, h18,
    h19, h20, h21, h22⟩ := h
  simp only [flex1_end, rounded_shift, rounded_add, h1, h2, h3, h4, h5, h6, h7, h8, h9, h10,
    h11, h12, h13, h14, h15, h16, h17, h18, h19, h20, h21, h22]
  split
  · rw [Point.mk.injEq]
    constructor <;> ring
  · rw [Point.mk.injEq]
    constructor <;> ring

theorem flex1_end_id (s : CharstringInterp) :
    flex1_end id s._cp s.«at» = path_point s._cp (flex1_deltas s ++ [flex1_last s]) := by
  simp only [flex1_end, rounded_shift, rounded_add, id, path_point, flex1_deltas, flex1_last,
    flex1_dx, flex1_dy, List.cons_append, List.nil_append, List.foldl_cons, List.foldl_nil,
    Point.shifted]
  split <;> rfl

/-- C28, amended: Type 2 flex1 with at least 11 operands in a state from IPath
on returns, and calls `act_flex` once (any further call recorded being made by
that callback and not a call of `act_flex`): its seven points are the current
point and the points reached from it by the five deltas `(at(0), at(1))`, ...,
`(at(8), at(9))` in order and then by the sixth delta, and its flex depth is
50. With `dx = at(0) + at(2) + at(4) + at(6) + at(8)` and
`dy = at(1) + at(3) + at(5) + at(7) + at(9)`: if `|dx| > |dy|` the sixth delta
is `(at(10), -dy)`, otherwise it is `(-dx, at(10))`. The end point, which is
the current point afterwards, is the point reached by adding the six deltas to
the start one after the other (`flex1_end` with exact sums is that point); when
none of the additions of the flex rounds, it is
`(start.x + dx + at(10), start.y)` in the first case and
`(start.x, start.y + dy + at(10))` in the second. The state afterwards is Path
and the operand stack is cleared. -/
theorem C28_flex1 (run : Runner) (data : Option (List Nat)) (left : Option Int)
    (s : CharstringInterp) (hsize : 11 ≤ s.size) (hstate : S_IPATH ≤ s._state) :
    ∃ (r : Result) (l : List (Int × Act)),
      type2_command run CS.cFlex1 data left s = some (r, left) ∧
      r.2._trace = s._trace ++
        (s._error, Act.flex CS.cFlex1 s._cp
          (path_point s._cp ((flex1_deltas s).take 1))
          (path_point s._cp ((flex1_deltas s).take 2))
          (path_point s._cp ((flex1_deltas s).take 3))
          (path_point s._cp ((flex1_deltas s).take 4))
          (path_point s._cp (flex1_deltas s))
          (path_point s._cp (flex1_deltas s ++ [flex1_last s])) 50) :: l ∧
      (∀ e ∈ l, is_flex e.2 = false) ∧
      r.2._cp = path_point s._cp (flex1_deltas s ++ [flex1_last s]) ∧
      r.2._state = S_PATH ∧ r.2.size = 0 ∧ r.1 = decide (r.2._error ≥ 0) ∧
      (|flex1_dx s| > |flex1_dy s| → flex1_last s = (s.«at» 10, -flex1_dy s)) ∧
      (¬ |flex1_dx s| > |flex1_dy s| → flex1_last s = (-flex1_dx s, s.«at» 10)) ∧
      flex1_end id s._cp s.«at» = path_point s._cp (flex1_deltas s ++ [flex1_last s]) ∧
      (∀ rnd : ℚ → ℚ, (∀ q ∈ flex1_sums s._cp s.«at», rnd q = q) →
        flex1_end rnd s._cp s.«at»
          = if |flex1_dx s| > |flex1_dy s| then
              ⟨s._cp.x + flex1_dx s + s.«at» 10, s._cp.y⟩
            else ⟨s._cp.x, s._cp.y + flex1_dy s + s.«at» 10⟩) := by
  have hend1 : |flex1_dx s| > |flex1_dy s| → flex1_last s = (s.«at» 10, -flex1_dy s) :=
    fun h => if_pos h
  have hend2 : ¬ |flex1_dx s| > |flex1_dy s| → flex1_last s = (-flex1_dx s, s.«at» 10) :=
    fun h => if_neg h
  have hid := flex1_end_id s
  have hexact : ∀ rnd : ℚ → ℚ, (∀ q ∈ flex1_sums s._cp s.«at», rnd q = q) →
      flex1_end rnd s._cp s.«at»
        = if |flex1_dx s| > |flex1_dy s| then
            ⟨s._cp.x + flex1_dx s + s.«at» 10, s._cp.y⟩
          else ⟨s._cp.x, s._cp.y + flex1_dy s + s.«at» 10⟩ :=
    fun rnd h => flex1_end_exact rnd s._cp s.«at» h
  rw [type2_command_flex1 run data left s _ rfl, if_neg (not_lt.mpr hsize),
    if_neg (not_lt.mpr hstate)]
  by_cases h : |flex1_dx s| > |flex1_dy s|
  · have h' : |flex1_dx { s with _state := S_PATH }| > |flex1_dy { s with _state := S_PATH }| := h
    rw [if_pos h']
    obtain ⟨hcp, l, htr, hl⟩ := act_rrflex_trace CS.cFlex1
      (s.«at» 0) (s.«at» 1) (s.«at» 2) (s.«at» 3) (s.«at» 4) (s.«at» 5)
      (s.«at» 6) (s.«at» 7) (s.«at» 8) (s.«at» 9) (s.«at» 10) (-flex1_dy s) 50
      { s with _state := S_PATH }
    have e : flex1_last s = (s.«at» 10, -flex1_dy s) := if_pos h
    refine ⟨_, l, rfl, ?_, hl, ?_, ?_, rfl, rfl, hend1, hend2, hid, hexact⟩
    · rw [e]; exact htr
    · rw [e]; exact hcp
    · simp only [finish_state, act_rrflex_state]
  · have h' : ¬ |flex1_dx { s with _state := S_PATH }| > |flex1_dy { s with _state := S_PATH }| := h
    rw [if_neg h']
    obtain ⟨hcp, l, htr, hl⟩ := act_rrflex_trace CS.cFlex1
      (s.«at» 0) (s.«at» 1) (s.«at» 2) (s.«at» 3) (s.«at» 4) (s.«at» 5)
      (s.«at» 6) (s.«at» 7) (s.«at» 8) (s.«at» 9) (-flex1_dx s) (s.«at» 10) 50
      { s with _state := S_PATH }
    have e : flex1_last s = (-flex1_dx s, s.«at» 10) := if_neg h
    refine ⟨_, l, rfl, ?_, hl, ?_, ?_, rfl, rfl, hend1, hend2, hid, hexact⟩
    · rw [e]; exact htr
    · rw [e]; exact hcp
    · simp only [finish_state, act_rrflex_state]

/-- C28, amended, witness: from the point `(100, 200)`, flex1 on the operands
`10 1 20 2 30 3 40 -4 50 5 7` (`dx = 150`, `dy = 7`) ends at `(257, 200)`, and on the
operands `1 10 2 20 3 30 -4 40 5 50 7` (`dx = 7`, `dy = 150`) at `(100, 357)`;
on these whole numbers no `double` addition rounds, and the end points in
`double` arithmetic are the same. -/
theorem C28_flex1_witness :
    (type2_command (run 0) CS.cFlex1 none none C28_wide_input).map
        (fun r => (r.1.1, r.1.2._cp, r.1.2._state, r.1.2._trace.map Prod.snd))
      = some (true, ⟨257, 200⟩, S_PATH,
          [Act.flex CS.cFlex1 ⟨100, 200⟩ ⟨110, 201⟩ ⟨130, 203⟩ ⟨160, 206⟩ ⟨200, 202⟩ ⟨250, 207⟩
            ⟨257, 200⟩ 50]) ∧
    (type2_command (run 0) CS.cFlex1 none none C28_tall_input).map
        (fun r => (r.1.1, r.1.2._cp, r.1.2._state, r.1.2._trace.map Prod.snd))
      = some (true, ⟨100, 357⟩, S_PATH,
          [Act.flex CS.cFlex1 ⟨100, 200⟩ ⟨101, 210⟩ ⟨103, 230⟩ ⟨106, 260⟩ ⟨102, 300⟩ ⟨107, 350⟩
            ⟨100, 357⟩ 50]) ∧
    (∀ q ∈ flex1_sums C28_wide_input._cp C28_wide_input.«at», round_double q = q) ∧
    flex1_end round_double C28_wide_input._cp C28_wide_input.«at» = ⟨257, 200⟩ ∧
    (∀ q ∈ flex1_sums C28_tall_input._cp C28_tall_input.«at», round_double q = q) ∧
    flex1_end round_double C28_tall_input._cp C28_tall_input.«at» = ⟨100, 357⟩ := by
  obtain ⟨r, l, hr, _, _, _, _, _, _, _, _, _, hexact⟩ :=
    C28_flex1 (run 0) none none C28_wide_input (by decide!) (by decide!)
  obtain ⟨_, _, _, _, _, _, _, _, _, _, _, _, hexact2⟩ :=
    C28_flex1 (run 0) none none C28_tall_input (by decide!) (by decide!)
  have hw : ∀ q ∈ flex1_sums C28_wide_input._cp C28_wide_input.«at», round_double q = q := by
    decide!
  have ht : ∀ q ∈ flex1_sums C28_tall_input._cp C28_tall_input.«at», round_double q = q := by
    decide!
  refine ⟨by decide!, by decide!, hw, (hexact round_double hw).trans (by decide!),
    ht, (hexact2 round_double ht).trans (by decide!)⟩

/-- C28, counterexample: in `double` arithmetic, flex1 on the operands
`10 1 10 1 10 1 10 1 10 1 7` (`dx = 50`, `dy = 5`, so the sixth delta is
`(7, -5)`) from the point `(0, 0.1)`, `0.1` being the `double` nearest to
`1/10`, ends at `y = 0.1 + 1 + 1 + 1 + 1 + 1 - 5`, each sum rounded, which is
`56294995342131 / 2^49` and not the `y` of the start,
`3602879701896397 / 2^55`: the end point is not
`(start.x + dx + at(10), start.y)`. -/
theorem C28_rounding_counterexample :
    round_double (1 / 10) = 3602879701896397 / 36028797018963968 ∧
    (∀ i ∈ List.range 11, round_double (C28_operands i) = C28_operands i) ∧
    |C28_operands 0 + C28_operands 2 + C28_operands 4 + C28_operands 6 + C28_operands 8|
      > |C28_operands 1 + C28_operands 3 + C28_operands 5 + C28_operands 7 + C28_operands 9| ∧
    flex1_end round_double ⟨0, round_double (1 / 10)⟩ C28_operands
      = ⟨57, 56294995342131 / 562949953421312⟩ ∧
    flex1_end round_double ⟨0, round_double (1 / 10)⟩ C28_operands
      ≠ ⟨0 + (C28_operands 0 + C28_operands 2 + C28_operands 4 + C28_operands 6
            + C28_operands 8) + C28_operands 10, round_double (1 / 10)⟩ ∧
    flex1_end id ⟨0, round_double (1 / 10)⟩ C28_operands = ⟨57, round_double (1 / 10)⟩ := by
  refine ⟨?_, ?_, ?_, ?_, ?_, ?_⟩ <;> decide!

/-! ### The calls of `act_seac` come from `act_seac` only -/

theorem seaccount_append (l1 l2 : List (Int × Act)) :
    seaccount (l1 ++ l2) = seaccount l1 + seaccount l2 := by
  simp [seaccount]

theorem error_sc (e d : Int) (s : CharstringInterp) :
    seaccount (error e d s).2._trace = seaccount s._trace := rfl

theorem push_sc (d : ℚ) (s : CharstringInterp) :
    seaccount (push d s)._trace = seaccount s._trace := by
  unfold push; split <;> rfl

theorem ps_push_sc (d : ℚ) (s : CharstringInterp) :
    seaccount (ps_push d s)._trace = seaccount s._trace := by
  unfold ps_push; split <;> rfl

theorem pop_sc (n : Int) (s : CharstringInterp) :
    seaccount (s.pop n).2._trace = seaccount s._trace := rfl

theorem ps_pop_sc (s : CharstringInterp) :
    seaccount s.ps_pop.2._trace = seaccount s._trace := rfl

theorem set_top_sc (i : Int) (v : ℚ) (s : CharstringInterp) :
    seaccount (set_top i v s)._trace = seaccount s._trace := rfl

theorem clear_sc (s : CharstringInterp) : seaccount (clear s)._trace = seaccount s._trace := rfl

theorem ps_clear_sc (s : CharstringInterp) : seaccount (ps_clear s)._trace = seaccount s._trace := rfl

theorem set_done_sc (s : CharstringInterp) : seaccount (set_done s)._trace = seaccount s._trace := rfl

theorem finish_sc (s : CharstringInterp) : seaccount (finish s).2._trace = seaccount s._trace := rfl

theorem scratch_write_sc (i : Int) (v : ℚ) (s : CharstringInterp) :
    seaccount (scratch_write i v s)._trace = seaccount s._trace := rfl

theorem set_vector_sc (r : VecRef) (v : List ℚ) (s : CharstringInterp) :
    seaccount (set_vector s r v)._trace = seaccount s._trace := by
  cases r <;> rfl

theorem store_loop_sc : ∀ (k : Nat) (offset vectoroff : Int) (v : List ℚ) (s : CharstringInterp),
    seaccount (store_loop k offset vectoroff v s).2._trace = seaccount s._trace := by
  intro k
  induction k with
  | zero => intros; rfl
  | succ k ih => intro offset vectoroff v s; rw [store_loop, ih]

theorem load_loop_sc (v : List ℚ) : ∀ (k : Nat) (i offset : Int) (s : CharstringInterp),
    seaccount (load_loop v k i offset s)._trace = seaccount s._trace := by
  intro k
  induction k with
  | zero => intros; rfl
  | succ k ih => intro i offset s; rw [load_loop, ih, scratch_write_sc]

theorem vector_command_sc (cmd : Int) (s : CharstringInterp) :
    seaccount (vector_command cmd s).2._trace = seaccount s._trace := by
  unfold vector_command
  simp only []
  split_ifs
  all_goals (repeat' split)
  all_goals
    simp only [error_sc, pop_sc, set_top_sc, scratch_write_sc, set_vector_sc,
      store_loop_sc, load_loop_sc]

theorem blend_command_sc (s : CharstringInterp) :
    seaccount (blend_command s).2._trace = seaccount s._trace := by
  unfold blend_command
  simp only []
  split_ifs
  all_goals (repeat' split)
  all_goals simp only [error_sc, pop_sc]

theorem roll_command_sc (s : CharstringInterp) :
    seaccount (roll_command s).2._trace = seaccount s._trace := by
  unfold roll_command
  simp only []
  split_ifs
  all_goals simp only [error_sc, pop_sc]

theorem arith_command_sc (cmd : Int) (s : CharstringInterp) :
    Post Prod.snd (fun t => seaccount t._trace = seaccount s._trace) (arith_command cmd s) := by
  unfold arith_command
  repeat' apply post_ite
  all_goals first | apply post_some | apply post_map
  all_goals
    first
    | (simp only [error_sc, pop_sc, set_top_sc, push_sc, blend_command_sc,
        roll_command_sc, ps_pop_sc]; done)
    | (split <;> simp only [error_sc, pop_sc, set_top_sc, push_sc])
    | (intro x _; simp only [push_sc])

theorem mm_push_loop_sc (base : Int) : ∀ (k : Nat) (s : CharstringInterp),
    seaccount (mm_push_loop base k s)._trace = seaccount s._trace := by
  intro k
  induction k with
  | zero => intros; rfl
  | succ k ih => intro s; rw [mm_push_loop, ih, ps_push_sc]

theorem mm_command_sc (command on_stack : Int) (s : CharstringInterp) :
    seaccount (mm_command command on_stack s).2._trace = seaccount s._trace := by
  unfold mm_command
  simp only []
  repeat' split
  all_goals simp only [error_sc, pop_sc, mm_push_loop_sc]

theorem itc_load_loop_sc (weight : List ℚ) (offset : Int) :
    ∀ (k i : Nat) (s : CharstringInterp),
      seaccount (itc_load_loop weight offset k i s)._trace = seaccount s._trace := by
  intro k
  induction k with
  | zero => intros; rfl
  | succ k ih => intro i s; rw [itc_load_loop, ih, scratch_write_sc]

theorem itc_command_sc (command on_stack : Int) (s : CharstringInterp) :
    seaccount (itc_command command on_stack s).2._trace = seaccount s._trace := by
  unfold itc_command
  split
  · rfl
  · repeat' apply ite_prop (fun r : Result => seaccount r.2._trace = seaccount s._trace)
    all_goals
      first
      | (simp only [error_sc, pop_sc, itc_load_loop_sc, scratch_write_sc,
          ps_push_sc]; done)
      | (simp only [pop_sc]; split <;> simp only [ps_push_sc])

theorem call_virtual_sc (a : Act) (dflt : CharstringInterp → CharstringInterp)
    (ha : is_seac a = false)
    (h : ∀ t, seaccount (dflt t)._trace = seaccount t._trace) (s : CharstringInterp) :
    seaccount (call_virtual a dflt s)._trace = seaccount s._trace := by
  have e : seaccount (s._trace ++ [(s._error, a)]) = seaccount s._trace := by
    simp [seaccount, ha]
  unfold call_virtual
  simp only []
  split
  · rw [h]; exact e
  · exact e
  · exact e

theorem act_sidebearing_sc (cmd : Int) (p : Point) (s : CharstringInterp) :
    seaccount (act_sidebearing cmd p s)._trace = seaccount s._trace :=
  call_virtual_sc _ _ (by rfl) (fun _ => rfl) s

theorem act_width_sc (cmd : Int) (p : Point) (s : CharstringInterp) :
    seaccount (act_width cmd p s)._trace = seaccount s._trace :=
  call_virtual_sc _ _ (by rfl) (fun _ => rfl) s

theorem act_closepath_sc (cmd : Int) (s : CharstringInterp) :
    seaccount (act_closepath cmd s)._trace = seaccount s._trace :=
  call_virtual_sc _ _ (by rfl) (fun _ => rfl) s

theorem act_hstem_sc (cmd : Int) (y dy : ℚ) (s : CharstringInterp) :
    seaccount (act_hstem cmd y dy s)._trace = seaccount s._trace :=
  call_virtual_sc _ _ (by rfl) (fun _ => rfl) s

theorem act_vstem_sc (cmd : Int) (x dx : ℚ) (s : CharstringInterp) :
    seaccount (act_vstem cmd x dx s)._trace = seaccount s._trace :=
  call_virtual_sc _ _ (by rfl) (fun _ => rfl) s

theorem act_hintmask_sc (cmd : Int) (data : List Nat) (nhints : Int) (s : CharstringInterp) :
    seaccount (act_hintmask cmd data nhints s)._trace = seaccount s._trace :=
  call_virtual_sc _ _ (by rfl) (fun _ => rfl) s

theorem act_default_width_sc (cmd : Int) (s : CharstringInterp) :
    seaccount (act_default_width cmd s)._trace = seaccount s._trace := by
  refine call_virtual_sc _ _ (by rfl) ?_ _
  intro t
  simp only []
  repeat' split
  all_goals simp only [act_width_sc]

theorem act_nominal_width_delta_sc (cmd : Int) (delta : ℚ) (s : CharstringInterp) :
    seaccount (act_nominal_width_delta cmd delta s)._trace = seaccount s._trace := by
  refine call_virtual_sc _ _ (by rfl) ?_ _
  intro t
  simp only []
  repeat' split
  all_goals simp only [act_width_sc]

theorem act_curve_sc (cmd : Int) (p0 p1 p2 p3 : Point) (s : CharstringInterp) :
    seaccount (act_curve cmd p0 p1 p2 p3 s)._trace = seaccount s._trace := by
  unfold act_curve
  refine call_virtual_sc _ _ (by rfl) ?_ _
  intro t
  rfl

theorem act_line_sc (cmd : Int) (p0 p1 : Point) (s : CharstringInterp) :
    seaccount (act_line cmd p0 p1 s)._trace = seaccount s._trace :=
  call_virtual_sc _ _ (by rfl) (fun _ => act_curve_sc _ _ _ _ _ _) s

theorem act_flex_sc (cmd : Int) (p0 p1 p2 p3_4 p5 p6 p7 : Point) (flex_depth : ℚ)
    (s : CharstringInterp) :
    seaccount (act_flex cmd p0 p1 p2 p3_4 p5 p6 p7 flex_depth s)._trace = seaccount s._trace :=
  call_virtual_sc _ _ (by rfl) (fun _ => by simp only [act_curve_sc]) s

theorem act_hstem3_sc (cmd : Int) (y0 dy0 y1 dy1 y2 dy2 : ℚ) (s : CharstringInterp) :
    seaccount (act_hstem3 cmd y0 dy0 y1 dy1 y2 dy2 s)._trace = seaccount s._trace :=
  call_virtual_sc _ _ (by rfl) (fun _ => by simp only [act_hstem_sc]) s

theorem act_vstem3_sc (cmd : Int) (x0 dx0 x1 dx1 x2 dx2 : ℚ) (s : CharstringInterp) :
    seaccount (act_vstem3 cmd x0 dx0 x1 dx1 x2 dx2 s)._trace = seaccount s._trace :=
  call_virtual_sc _ _ (by rfl) (fun _ => by simp only [act_vstem_sc]) s

theorem act_rmoveto_sc (cmd : Int) (dx dy : ℚ) (s : CharstringInterp) :
    seaccount (act_rmoveto cmd dx dy s)._trace = seaccount s._trace := rfl

theorem act_rlineto_sc (cmd : Int) (dx dy : ℚ) (s : CharstringInterp) :
    seaccount (act_rlineto cmd dx dy s)._trace = seaccount s._trace := by
  unfold act_rlineto
  simp only [act_line_sc]

theorem act_rrcurveto_sc (cmd : Int) (dx1 dy1 dx2 dy2 dx3 dy3 : ℚ) (s : CharstringInterp) :
    seaccount (act_rrcurveto cmd dx1 dy1 dx2 dy2 dx3 dy3 s)._trace = seaccount s._trace := by
  unfold act_rrcurveto
  simp only [act_curve_sc]

theorem act_rrflex_sc (cmd : Int)
    (dx1 dy1 dx2 dy2 dx3 dy3 dx4 dy4 dx5 dy5 dx6 dy6 flex_depth : ℚ) (s : CharstringInterp) :
    seaccount (act_rrflex cmd dx1 dy1 dx2 dy2 dx3 dy3 dx4 dy4 dx5 dy5 dx6 dy6 flex_depth s)._trace
      = seaccount s._trace := by
  unfold act_rrflex
  simp only [act_flex_sc]

theorem unknown_push_loop_sc : ∀ (k : Nat) (i : Int) (s : CharstringInterp),
    seaccount (unknown_push_loop k i s)._trace = seaccount s._trace := by
  intro k
  induction k with
  | zero => intros; rfl
  | succ k ih => intro i s; rw [unknown_push_loop, ih, ps_push_sc]

theorem othersubr_unknown_sc (n : Int) (s : CharstringInterp) :
    seaccount (othersubr_unknown n s).2._trace = seaccount s._trace := by
  unfold othersubr_unknown
  simp only [pop_sc, unknown_push_loop_sc, ps_clear_sc]

theorem callothersubr_command_sc (othersubrnum n : Int) (s : CharstringInterp) :
    seaccount (callothersubr_command othersubrnum n s).2._trace = seaccount s._trace := by
  unfold callothersubr_command
  repeat' apply ite_prop (fun r : Result => seaccount r.2._trace = seaccount s._trace)
  all_goals
    simp only [error_sc, pop_sc, ps_push_sc, ps_clear_sc, act_flex_sc,
      othersubr_unknown_sc, mm_command_sc, itc_command_sc]

theorem type2_handle_width_sc (cmd : Int) (have_width : Bool) (s : CharstringInterp) :
    seaccount (type2_handle_width cmd have_width s).2._trace = seaccount s._trace := by
  unfold type2_handle_width
  split <;> simp only [act_nominal_width_delta_sc, act_default_width_sc]

theorem t2_stem_loop_sc (cmd : Int) (horizontal : Bool) :
    ∀ (k : Nat) (pos : ℚ) (bottom : Int) (s : CharstringInterp),
      seaccount (t2_stem_loop cmd horizontal k pos bottom s)._trace = seaccount s._trace := by
  intro k
  induction k with
  | zero => intros; rfl
  | succ k ih =>
    intro pos bottom s
    rw [t2_stem_loop]
    split
    · rw [ih]; split <;> simp only [act_hstem_sc, act_vstem_sc]
    · rfl

theorem t2_rlineto_loop_sc (cmd : Int) :
    ∀ (k : Nat) (bottom : Int) (s : CharstringInterp),
      seaccount (t2_rlineto_loop cmd k bottom s)._trace = seaccount s._trace := by
  intro k
  induction k with
  | zero => intros; rfl
  | succ k ih =>
    intro bottom s
    rw [t2_rlineto_loop]
    split
    · rw [ih, act_rlineto_sc]
    · rfl

theorem t2_hvlineto_loop_sc (cmd : Int) (horizontal : Bool) :
    ∀ (k : Nat) (bottom : Int) (s : CharstringInterp),
      seaccount (t2_hvlineto_loop cmd horizontal k bottom s)._trace = seaccount s._trace := by
  intro k
  induction k with
  | zero => intros; rfl
  | succ k ih =>
    intro bottom s
    rw [t2_hvlineto_loop]
    simp only []
    repeat' split
    all_goals simp only [ih, act_rlineto_sc]

theorem t2_rrcurveto_loop_sc (cmd : Int) (margin : Int) :
    ∀ (k : Nat) (bottom : Int) (s : CharstringInterp),
      seaccount (t2_rrcurveto_loop cmd margin k bottom s).1._trace = seaccount s._trace := by
  intro k
  induction k with
  | zero => intros; rfl
  | succ k ih =>
    intro bottom s
    rw [t2_rrcurveto_loop]
    split
    · rw [ih, act_rrcurveto_sc]
    · rfl

theorem t2_rlinecurve_loop_sc (cmd : Int) :
    ∀ (k : Nat) (bottom : Int) (s : CharstringInterp),
      seaccount (t2_rlinecurve_loop cmd k bottom s).1._trace = seaccount s._trace := by
  intro k
  induction k with
  | zero => intros; rfl
  | succ k ih =>
    intro bottom s
    rw [t2_rlinecurve_loop]
    split
    · rw [ih, act_rlineto_sc]
    · rfl

theorem t2_hhvvcurveto_loop_sc (cmd : Int) (horizontal : Bool) :
    ∀ (k : Nat) (bottom : Int) (s : CharstringInterp),
      seaccount (t2_hhvvcurveto_loop cmd horizontal k bottom s)._trace = seaccount s._trace := by
  intro k
  induction k with
  | zero => intros; rfl
  | succ k ih =>
    intro bottom s
    rw [t2_hhvvcurveto_loop]
    simp only []
    repeat' split
    all_goals simp only [ih, act_rrcurveto_sc]

theorem t2_hv_curve_sc (cmd : Int) (bottom : Int) (s : CharstringInterp) :
    seaccount (t2_hv_curve cmd bottom s)._trace = seaccount s._trace := by
  unfold t2_hv_curve
  simp only [act_rrcurveto_sc]

theorem t2_vh_curve_sc (cmd : Int) (bottom : Int) (s : CharstringInterp) :
    seaccount (t2_vh_curve cmd bottom s)._trace = seaccount s._trace := by
  unfold t2_vh_curve
  simp only [act_rrcurveto_sc]

theorem t2_hvvhcurveto_loop_sc (cmd : Int) (horizontal : Bool) :
    ∀ (k : Nat) (bottom : Int) (s : CharstringInterp),
      seaccount (t2_hvvhcurveto_loop cmd horizontal k bottom s)._trace = seaccount s._trace := by
  intro k
  induction k with
  | zero => intros; rfl
  | succ k ih =>
    intro bottom s
    rw [t2_hvvhcurveto_loop]
    simp only []
    repeat' split
    all_goals simp only [ih, t2_hv_curve_sc, t2_vh_curve_sc]

theorem check_state_inl_sc (cmd : Int) (s : CharstringInterp) (r : Result)
    (h : check_state cmd s = .inl r) : seaccount r.2._trace = seaccount s._trace := by
  unfold check_state at h
  split at h
  · cases h; rfl
  · cases h

theorem check_state_inr_sc (cmd : Int) (s t : CharstringInterp)
    (h : check_state cmd s = .inr t) : seaccount t._trace = seaccount s._trace := by
  unfold check_state at h
  split at h
  · cases h
  · cases h; rfl

/-! ### The ordering state outside seac -/

theorem ite_sc (c : Prop) [Decidable c] (a b : CharstringInterp) :
    seaccount (if c then a else b)._trace
      = if c then seaccount a._trace else seaccount b._trace :=
  apply_ite (fun t : CharstringInterp => seaccount t._trace) _ _ _

theorem forward_refl (s : CharstringInterp) : Forward s s := ⟨rfl, Or.inl (le_refl _)⟩

theorem state_step_trans (a b c : Int) (h1 : a ≤ b ∨ S_IPATH ≤ b) (h2 : b ≤ c ∨ S_IPATH ≤ c) :
    a ≤ c ∨ S_IPATH ≤ c := by
  rcases h2 with h2 | h2
  · rcases h1 with h1 | h1
    · exact Or.inl (le_trans h1 h2)
    · exact Or.inr (le_trans h1 h2)
  · exact Or.inr h2

theorem forward_trans (s x y : CharstringInterp) (h1 : Forward s x) (h2 : Forward x y) :
    Forward s y :=
  ⟨h2.1.trans h1.1, state_step_trans _ _ _ h1.2 h2.2⟩

theorem seacinv_refl (s : CharstringInterp) : SeacInv s s :=
  ⟨le_refl _, fun _ => Or.inl (le_refl _)⟩

theorem seacinv_trans (s x y : CharstringInterp) (h1 : SeacInv s x) (h2 : SeacInv x y) :
    SeacInv s y := by
  refine ⟨le_trans h1.1 h2.1, fun h => ?_⟩
  have hx : seaccount x._trace = seaccount s._trace := by
    have a := h1.1
    have b := h2.1
    omega
  have hy : seaccount y._trace = seaccount x._trace := by omega
  exact state_step_trans _ _ _ (h1.2 hx) (h2.2 hy)

theorem seacinv_of_forward (s x : CharstringInterp) (h : Forward s x) : SeacInv s x :=
  ⟨le_of_eq h.1.symm, fun _ => h.2⟩

theorem seacinv_of_lt (s x : CharstringInterp)
    (h : seaccount s._trace < seaccount x._trace) : SeacInv s x :=
  ⟨le_of_lt h, fun e => absurd e (ne_of_gt h)⟩

theorem callothersubr_command_step (othersubrnum n : Int) (s : CharstringInterp) :
    s._state ≤ (callothersubr_command othersubrnum n s).2._state
      ∨ S_IPATH ≤ (callothersubr_command othersubrnum n s).2._state := by
  unfold callothersubr_command
  repeat' apply ite_prop (fun r : Result => s._state ≤ r.2._state ∨ S_IPATH ≤ r.2._state)
  all_goals
    first
    | exact Or.inl (le_refl _)
    | exact Or.inr (le_refl _)
    | exact Or.inr (show (S_IPATH : Int) ≤ S_PATH by decide)
    | (simp only [error_state, pop_state, ps_push_state, ps_clear_state, act_flex_state,
         othersubr_unknown_state, mm_command_state, itc_command_state]
       first
       | exact Or.inl (le_refl _)
       | exact Or.inr (le_refl _)
       | exact Or.inr (show (S_IPATH : Int) ≤ S_PATH by decide))

theorem type1_command_forward (run : Runner) (cmd : Int) (s : CharstringInterp)
    (hcmd : cmd ≠ CS.cHsbw ∧ cmd ≠ CS.cSbw ∧ cmd ≠ CS.cSeac ∧ cmd ≠ CS.cCallsubr) :
    Post Prod.snd (Forward s) (type1_command run cmd s) := by
  obtain ⟨h1, h2, h3, h4⟩ := hcmd
  unfold type1_command
  repeat' (with_reducible refine post_ite_cases _ _ _ _ _ (fun _ => ?_) (fun _ => ?_))
  all_goals
    first
    | contradiction
    | (intro r hr
       exact ⟨arith_command_sc cmd s r hr,
         Or.inl (le_of_eq (arith_command_state cmd s r hr).symm)⟩)
    | (with_reducible apply post_some
       refine ⟨?_, ?_⟩
       · first
         | rfl
         | simp only [error_sc, pop_sc, finish_sc, set_done_sc, vector_command_sc,
             callothersubr_command_sc, act_closepath_sc, act_hstem_sc, act_vstem_sc,
             act_hstem3_sc, act_vstem3_sc, act_rmoveto_sc, act_rlineto_sc, act_rrcurveto_sc,
             ite_sc, ite_self]
       · first
         | exact Or.inl (le_refl _)
         | exact Or.inr (le_refl _)
         | exact Or.inr (show (S_IPATH : Int) ≤ S_PATH by decide)
         | exact callothersubr_command_step _ _ (s.pop 2).2
         | (simp only [error_state, pop_state, finish_state, set_done_state, vector_command_state,
              act_closepath_state, act_hstem_state, act_vstem_state, act_hstem3_state,
              act_vstem3_state, act_rmoveto_state, act_rlineto_state, act_rrcurveto_state,
              ite_state, ite_self]
            first | exact Or.inl (le_refl _) | exact Or.inr (le_refl _) | exact Or.inr (show (S_IPATH : Int) ≤ S_PATH by decide)))

theorem type1_command_sbw_forward (run : Runner) (cmd : Int) (s : CharstringInterp)
    (hcmd : cmd = CS.cHsbw ∨ cmd = CS.cSbw) :
    Post Prod.snd (Forward s) (type1_command run cmd s) := by
  intro r hr
  by_cases hsz : s.size < sbw_operands cmd
  · rw [type1_command_sbw_short run cmd s hcmd hsz] at hr
    cases hr
    exact forward_refl s
  · have hsz' : sbw_operands cmd ≤ s.size := not_lt.mp hsz
    by_cases hgt : s._state > S_SEAC
    · rw [type1_command_sbw_late run cmd s hcmd hsz' hgt] at hr
      cases hr
      exact forward_refl s
    · have hle : s._state ≤ S_SEAC := not_lt.mp hgt
      have hup : s._state ≤ S_SBW := le_trans hle (by decide)
      by_cases hini : s._state = S_INITIAL
      · obtain ⟨r', hr', ⟨e, htr⟩, _, _, hst⟩ :=
          type1_command_sbw_initial run cmd s hcmd hsz' hini
        rw [hr'] at hr
        cases hr
        refine ⟨?_, Or.inl (by rw [hst]; exact hup)⟩
        rw [htr]
        simp [seaccount, is_seac]
      · obtain ⟨r', hr', htr, _, _, hst⟩ :=
          type1_command_sbw_seac run cmd s hcmd hsz' hle hini
        rw [hr'] at hr
        cases hr
        exact ⟨by rw [htr], Or.inl (by rw [hst]; exact hup)⟩

theorem mask_state_step (t : CharstringInterp) :
    t._state ≤ (if t._state < S_HINTMASK then { t with _state := S_HINTMASK } else t)._state := by
  split
  · rename_i h
    exact le_of_lt h
  · exact le_refl _

theorem hintmask_ready_forward (cmd : Int) (s : CharstringInterp) :
    Forward s (hintmask_ready cmd s) := by
  unfold hintmask_ready
  simp only []
  refine ⟨?_, Or.inl ?_⟩
  · simp only [ite_sc, t2_stem_loop_sc, ite_self]
  · refine le_trans (le_of_eq ?_) (mask_state_step _)
    simp only [ite_state, t2_stem_loop_state, ite_self]

theorem type2_command_stem_forward (run : Runner) (cmd : Int) (data : Option (List Nat))
    (left : Option Int) (s : CharstringInterp)
    (hcmd : (cmd = CS.cHstem ∨ cmd = CS.cHstemhm) ∨ (cmd = CS.cVstem ∨ cmd = CS.cVstemhm)) :
    Post (fun r : Result × Option Int => r.1.2) (Forward s)
      (type2_command run cmd data left s) := by
  obtain ⟨r, hr⟩ : ∃ r : Int × CharstringInterp, r = if s._state = S_INITIAL then
      type2_handle_width cmd (decide (Int.tmod s.size 2 = 1)) s else (0, s) := ⟨_, rfl⟩
  have hw : Forward s r.2 := by
    rw [hr]
    refine ⟨?_, Or.inl (le_of_eq ?_)⟩
    · simp only [ite_snd, ite_sc, type2_handle_width_sc, ite_self]
    · simp only [ite_snd, ite_state, type2_handle_width_state, ite_self]
  have herr : ∀ e d, Forward s (error e d r.2).2 := fun e d => hw
  rcases hcmd with hcmd | hcmd
  · rw [type2_command_hstem run cmd data left s hcmd r hr]
    with_reducible refine post_ite_cases _ _ _ _ _ (fun _ => ?_) (fun _ => ?_)
    · exact post_some _ _ _ (forward_refl s)
    · with_reducible refine post_ite_cases _ _ _ _ _ (fun _ => ?_) (fun hgt => ?_)
      · exact post_some _ _ _ (herr _ _)
      · with_reducible apply post_some
        refine forward_trans _ _ _ hw ⟨?_, Or.inl ?_⟩
        · simp only [finish_sc, t2_stem_loop_sc]
        · simp only [finish_state, t2_stem_loop_state]
          exact not_lt.mp hgt
  · rw [type2_command_vstem run cmd data left s hcmd r hr]
    with_reducible refine post_ite_cases _ _ _ _ _ (fun _ => ?_) (fun _ => ?_)
    · exact post_some _ _ _ (forward_refl s)
    · with_reducible refine post_ite_cases _ _ _ _ _ (fun _ => ?_) (fun hgt => ?_)
      · exact post_some _ _ _ (herr _ _)
      · with_reducible apply post_some
        refine forward_trans _ _ _ hw ⟨?_, Or.inl ?_⟩
        · simp only [finish_sc, t2_stem_loop_sc]
        · simp only [finish_state, t2_stem_loop_state]
          exact not_lt.mp hgt

theorem type2_command_forward (run : Runner) (cmd : Int) (data : Option (List Nat))
    (left : Option Int) (s : CharstringInterp)
    (hcmd : cmd ≠ CS.cCallsubr ∧ cmd ≠ CS.cCallgsubr ∧ cmd ≠ CS.cEndchar) :
    Post (fun r : Result × Option Int => r.1.2) (Forward s)
      (type2_command run cmd data left s) := by
  obtain ⟨h1, h2, h3⟩ := hcmd
  by_cases hh : cmd = CS.cHstem ∨ cmd = CS.cHstemhm
  · exact type2_command_stem_forward run cmd data left s (Or.inl hh)
  by_cases hv : cmd = CS.cVstem ∨ cmd = CS.cVstemhm
  · exact type2_command_stem_forward run cmd data left s (Or.inr hv)
  by_cases hm : cmd = CS.cHintmask ∨ cmd = CS.cCntrmask
  · have hr := hintmask_ready_forward cmd s
    rw [type2_command_mask run cmd data left s hm]
    with_reducible refine post_ite_cases _ _ _ _ _ (fun _ => ?_) (fun _ => ?_)
    · with_reducible apply post_some
      exact hr
    · split
      · with_reducible refine post_ite_cases _ _ _ _ _ (fun _ => ?_) (fun _ => ?_)
        · with_reducible apply post_some
          exact hr
        · with_reducible apply post_some
          refine forward_trans _ _ _ hr ⟨?_, Or.inl (le_of_eq ?_)⟩
          · simp only [finish_sc, act_hintmask_sc]
          · simp only [finish_state, act_hintmask_state]
      · with_reducible apply post_some
        exact hr
  unfold type2_command
  repeat' (with_reducible refine post_ite_cases _ _ _ _ _ (fun _ => ?_) (fun _ => ?_))
  all_goals
    first
    | contradiction
    | (with_reducible apply post_map
       intro r hr
       exact ⟨arith_command_sc cmd s r hr,
         Or.inl (le_of_eq (arith_command_state cmd s r hr).symm)⟩)
    | (with_reducible apply post_some
       refine ⟨?_, ?_⟩
       · first
         | rfl
         | simp only [error_sc, pop_sc, finish_sc, vector_command_sc, act_closepath_sc,
             act_hintmask_sc, act_rmoveto_sc, act_rlineto_sc, act_rrcurveto_sc,
             act_rrflex_sc, type2_handle_width_sc, t2_stem_loop_sc, t2_rlineto_loop_sc,
             t2_hvlineto_loop_sc, t2_rrcurveto_loop_sc, t2_rlinecurve_loop_sc,
             t2_hhvvcurveto_loop_sc, t2_hvvhcurveto_loop_sc, ite_sc, ite_snd, ite_self]
       · first
         | exact Or.inl (le_refl _)
         | exact Or.inr (le_refl _)
         | exact Or.inr (show (S_IPATH : Int) ≤ S_PATH by decide)
         | (simp only [error_state, pop_state, finish_state, vector_command_state,
              act_closepath_state, act_hintmask_state, act_rmoveto_state, act_rlineto_state,
              act_rrcurveto_state, act_rrflex_state, type2_handle_width_state,
              t2_stem_loop_state, t2_rlineto_loop_state, t2_hvlineto_loop_state,
              t2_rrcurveto_loop_state, t2_rlinecurve_loop_state, t2_hhvvcurveto_loop_state,
              t2_hvvhcurveto_loop_state, ite_state, ite_snd, ite_self]
            first | exact Or.inl (le_refl _) | exact Or.inr (le_refl _) | exact Or.inr (show (S_IPATH : Int) ≤ S_PATH by decide)))
    | (split
       · rename_i r heq
         with_reducible apply post_some
         rw [check_state_inl_eq _ _ _ heq]
         exact forward_refl s
       · rename_i t heq
         rw [check_state_inr_eq _ _ _ heq]
         with_reducible apply post_some
         refine ⟨?_, ?_⟩
         · first
           | rfl
           | simp only [error_sc, pop_sc, finish_sc, vector_command_sc, act_closepath_sc,
               act_hintmask_sc, act_rmoveto_sc, act_rlineto_sc, act_rrcurveto_sc,
               act_rrflex_sc, type2_handle_width_sc, t2_stem_loop_sc, t2_rlineto_loop_sc,
               t2_hvlineto_loop_sc, t2_rrcurveto_loop_sc, t2_rlinecurve_loop_sc,
               t2_hhvvcurveto_loop_sc, t2_hvvhcurveto_loop_sc, ite_sc, ite_snd, ite_self]
         · first
           | exact Or.inl (le_refl _)
           | exact Or.inr (le_refl _)
           | exact Or.inr (show (S_IPATH : Int) ≤ S_PATH by decide)
           | (simp only [error_state, pop_state, finish_state, vector_command_state,
                act_closepath_state, act_hintmask_state, act_rmoveto_state,
                act_rlineto_state, act_rrcurveto_state, act_rrflex_state,
                type2_handle_width_state, t2_stem_loop_state, t2_rlineto_loop_state,
                t2_hvlineto_loop_state, t2_rrcurveto_loop_state, t2_rlinecurve_loop_state,
                t2_hhvvcurveto_loop_state, t2_hvvhcurveto_loop_state, ite_state, ite_snd,
                ite_self]
              first | exact Or.inl (le_refl _) | exact Or.inr (le_refl _) | exact Or.inr (show (S_IPATH : Int) ≤ S_PATH by decide)))
    | (split
       · rename_i r heq
         with_reducible apply post_some
         rw [check_state_inl_eq _ _ _ heq]
         exact forward_refl s
       · rename_i t heq
         rw [check_state_inr_eq _ _ _ heq]
         with_reducible refine post_ite_cases _ _ _ _ _ (fun _ => ?_) (fun _ => ?_)
         all_goals
           with_reducible apply post_some
           refine ⟨?_, ?_⟩
           · first
             | rfl
             | simp only [error_sc, pop_sc, finish_sc, vector_command_sc, act_closepath_sc,
                 act_hintmask_sc, act_rmoveto_sc, act_rlineto_sc, act_rrcurveto_sc,
                 act_rrflex_sc, type2_handle_width_sc, t2_stem_loop_sc, t2_rlineto_loop_sc,
                 t2_hvlineto_loop_sc, t2_rrcurveto_loop_sc, t2_rlinecurve_loop_sc,
                 t2_hhvvcurveto_loop_sc, t2_hvvhcurveto_loop_sc, ite_sc, ite_snd, ite_self]
           · first
             | exact Or.inl (le_refl _)
             | exact Or.inr (le_refl _)
             | exact Or.inr (show (S_IPATH : Int) ≤ S_PATH by decide)
             | (simp only [error_state, pop_state, finish_state, vector_command_state,
                  act_closepath_state, act_hintmask_state, act_rmoveto_state,
                  act_rlineto_state, act_rrcurveto_state, act_rrflex_state,
                  type2_handle_width_state, t2_stem_loop_state, t2_rlineto_loop_state,
                  t2_hvlineto_loop_state, t2_rrcurveto_loop_state, t2_rlinecurve_loop_state,
                  t2_hhvvcurveto_loop_state, t2_hvvhcurveto_loop_state, ite_state, ite_snd,
                  ite_self]
                first | exact Or.inl (le_refl _) | exact Or.inr (le_refl _) | exact Or.inr (show (S_IPATH : Int) ≤ S_PATH by decide)))

theorem callsubr_enter_inl_forward (s : CharstringInterp) (r : Result)
    (h : callsubr_enter s = .inl r) : Forward s r.2 := by
  unfold callsubr_enter at h
  simp only [] at h
  split at h
  · cases h; exact forward_refl s
  · split at h
    · cases h; exact forward_refl s
    · split at h
      · cases h; exact forward_refl s
      · cases h

theorem callsubr_enter_inr_forward (s : CharstringInterp) (cs : Charstring)
    (t : CharstringInterp) (h : callsubr_enter s = .inr (cs, t)) : Forward s t := by
  unfold callsubr_enter at h
  simp only [] at h
  split at h
  · cases h
  · split at h
    · cases h
    · split at h
      · cases h
      · cases h; exact forward_refl s

theorem callgsubr_enter_inl_forward (s : CharstringInterp) (r : Result)
    (h : callgsubr_enter s = .inl r) : Forward s r.2 := by
  unfold callgsubr_enter at h
  simp only [] at h
  split at h
  · cases h; exact forward_refl s
  · split at h
    · cases h; exact forward_refl s
    · split at h
      · cases h; exact forward_refl s
      · cases h

theorem callgsubr_enter_inr_forward (s : CharstringInterp) (cs : Charstring)
    (t : CharstringInterp) (h : callgsubr_enter s = .inr (cs, t)) : Forward s t := by
  unfold callgsubr_enter at h
  simp only [] at h
  split at h
  · cases h
  · split at h
    · cases h
    · split at h
      · cases h
      · cases h; exact forward_refl s

theorem subr_leave_forward (s : CharstringInterp) : Forward s (subr_leave s).2 := by
  unfold subr_leave
  simp only []
  split <;> exact forward_refl s

theorem callsubr_command_seac (run : Runner) (hrun : RunnerSeac run) (s : CharstringInterp) :
    Post Prod.snd (SeacInv s) (callsubr_command run s) := by
  unfold callsubr_command
  split
  · rename_i r heq
    apply post_some
    exact seacinv_of_forward _ _ (callsubr_enter_inl_forward s r heq)
  · rename_i cs t heq
    apply post_map
    intro x hx
    exact seacinv_trans _ _ _ (seacinv_of_forward _ _ (callsubr_enter_inr_forward s cs t heq))
      (seacinv_trans _ _ _ (hrun _ _ _ hx) (seacinv_of_forward _ _ (subr_leave_forward x)))

theorem callgsubr_command_seac (run : Runner) (hrun : RunnerSeac run) (s : CharstringInterp) :
    Post Prod.snd (SeacInv s) (callgsubr_command run s) := by
  unfold callgsubr_command
  split
  · rename_i r heq
    apply post_some
    exact seacinv_of_forward _ _ (callgsubr_enter_inl_forward s r heq)
  · rename_i cs t heq
    apply post_map
    intro x hx
    exact seacinv_trans _ _ _ (seacinv_of_forward _ _ (callgsubr_enter_inr_forward s cs t heq))
      (seacinv_trans _ _ _ (hrun _ _ _ hx) (seacinv_of_forward _ _ (subr_leave_forward x)))

theorem seac_default_count (run : Runner) (hrun : RunnerSeac run)
    (cmd : Int) (asb adx ady : ℚ) (bchar achar : Int) (s : CharstringInterp) :
    Post id (fun y => seaccount s._trace ≤ seaccount y._trace)
      (seac_default run cmd asb adx ady bchar achar s) := by
  have herr : ∀ e d, seaccount s._trace ≤ seaccount (error e d s).2._trace :=
    fun e d => le_refl _
  unfold seac_default
  simp only []
  split
  · exact post_some _ _ _ (herr _ _)
  · with_reducible apply post_ite
    · exact post_some _ _ _ (herr _ _)
    · split
      · exact post_some _ _ _ (herr _ _)
      · split
        · exact post_some _ _ _ (herr _ _)
        · with_reducible apply post_bind
          intro x hx
          have hx1 : seaccount s._trace ≤ seaccount x._trace := (hrun _ _ _ hx).1
          with_reducible apply post_ite
          · with_reducible apply post_map
            intro y hy
            have hy1 : seaccount x._trace ≤ seaccount y._trace := (hrun _ _ _ hy).1
            exact le_trans hx1 hy1
          · with_reducible apply post_some
            exact hx1

theorem act_seac_count (run : Runner) (hrun : RunnerSeac run)
    (cmd : Int) (asb adx ady : ℚ) (bchar achar : Int) (s : CharstringInterp) :
    Post id (fun y => seaccount s._trace < seaccount y._trace)
      (act_seac run cmd asb adx ady bchar achar s) := by
  have e : seaccount (s._trace ++ [(s._error, Act.seac cmd asb adx ady bchar achar)])
      = seaccount s._trace + 1 := by
    simp [seaccount, is_seac]
  have e' : seaccount s._trace
      < seaccount (s._trace ++ [(s._error, Act.seac cmd asb adx ady bchar achar)]) := by
    rw [e]
    exact Nat.lt_succ_self _
  unfold act_seac
  simp only []
  split
  · intro y hy
    have h : seaccount (s._trace ++ [(s._error, Act.seac cmd asb adx ady bchar achar)])
        ≤ seaccount y._trace := seac_default_count run hrun _ _ _ _ _ _ _ y hy
    exact lt_of_lt_of_le e' h
  · exact post_some _ _ _ e'
  · exact post_some _ _ _ e'

theorem type1_command_seacinv (run : Runner) (hrun : RunnerSeac run) (cmd : Int)
    (s : CharstringInterp) : Post Prod.snd (SeacInv s) (type1_command run cmd s) := by
  by_cases hsbw : cmd = CS.cHsbw ∨ cmd = CS.cSbw
  · exact post_mono _ _ _ _ (type1_command_sbw_forward run cmd s hsbw)
      (fun x hx => seacinv_of_forward _ _ hx)
  · by_cases hseac : cmd = CS.cSeac
    · subst hseac
      rw [type1_command_seac]
      with_reducible apply post_ite
      · exact post_some _ _ _ (seacinv_refl s)
      · with_reducible apply post_ite
        · exact post_some _ _ _ (seacinv_refl s)
        · with_reducible apply post_map
          intro x hx
          exact seacinv_of_lt _ _ (act_seac_count run hrun _ _ _ _ _ _ _ x hx)
    · by_cases hcall : cmd = CS.cCallsubr
      · subst hcall
        rw [type1_command_callsubr]
        exact callsubr_command_seac run hrun s
      · push_neg at hsbw
        exact post_mono _ _ _ _
          (type1_command_forward run cmd s ⟨hsbw.1, hsbw.2, hseac, hcall⟩)
          (fun x hx => seacinv_of_forward _ _ hx)

theorem type2_command_seacinv (run : Runner) (hrun : RunnerSeac run) (cmd : Int)
    (data : Option (List Nat)) (left : Option Int) (s : CharstringInterp) :
    Post (fun r : Result × Option Int => r.1.2) (SeacInv s)
      (type2_command run cmd data left s) := by
  by_cases hcall : cmd = CS.cCallsubr
  · subst hcall
    rw [type2_command_callsubr]
    with_reducible apply post_map
    intro x hx
    exact callsubr_command_seac run hrun s x hx
  · by_cases hgcall : cmd = CS.cCallgsubr
    · subst hgcall
      rw [type2_command_callgsubr]
      with_reducible apply post_map
      intro x hx
      exact callgsubr_command_seac run hrun s x hx
    · by_cases hend : cmd = CS.cEndchar
      · subst hend
        obtain ⟨r, hr⟩ : ∃ r : Int × CharstringInterp, r = if s._state = S_INITIAL then
            type2_handle_width CS.cEndchar (decide (s.size > 0) && decide (s.size ≠ 4)) s
          else (0, s) := ⟨_, rfl⟩
        rw [type2_command_endchar run data left s r hr]
        have hw : Forward s r.2 := by
          rw [hr]
          refine ⟨?_, Or.inl (le_of_eq ?_)⟩
          · simp only [ite_snd, ite_sc, type2_handle_width_sc, ite_self]
          · simp only [ite_snd, ite_state, type2_handle_width_state, ite_self]
        with_reducible apply post_map
        intro x hx
        have hx' : Post id (SeacInv s)
            (if r.1 + 3 < r.2.size ∧ r.2._state = S_INITIAL then
              act_seac run CS.cEndchar 0 (r.2.«at» r.1) (r.2.«at» (r.1 + 1))
                (toInt (r.2.«at» (r.1 + 2))) (toInt (r.2.«at» (r.1 + 3))) r.2
            else if r.2._state = S_PATH then some (act_closepath CS.cEndchar r.2)
            else some r.2) := by
          with_reducible apply post_ite
          · exact fun y hy => seacinv_trans _ _ _ (seacinv_of_forward _ _ hw)
              (seacinv_of_lt _ _ (act_seac_count run hrun _ _ _ _ _ _ _ y hy))
          · with_reducible apply post_ite
            · exact post_some _ _ _ (seacinv_of_forward _ _ (forward_trans _ _ _ hw
                ⟨act_closepath_sc _ _, Or.inl (le_of_eq (act_closepath_state _ _).symm)⟩))
            · exact post_some _ _ _ (seacinv_of_forward _ _ hw)
        exact seacinv_trans _ _ _ (hx' x hx) (seacinv_of_forward _ _ (forward_refl _))
      · exact post_mono _ _ _ _
          (type2_command_forward run cmd data left s ⟨hcall, hgcall, hend⟩)
          (fun x hx => seacinv_of_forward _ _ hx)

theorem run_type1_seac (run : Runner) (hrun : RunnerSeac run) :
    ∀ (items : List Item) (s : CharstringInterp),
      Post id (SeacInv s) (run_type1 run items s) := by
  intro items
  induction items with
  | nil => intro s; exact post_some _ _ _ (seacinv_refl s)
  | cons item rest ih =>
    intro s
    cases item with
    | number v =>
      rw [run_type1]
      have h1 : SeacInv s (number v s).2 := by
        refine seacinv_of_forward _ _ ⟨?_, Or.inl (le_of_eq ?_)⟩
        · simp only [number, push_sc]
        · simp only [number, push_state]
      split
      · exact post_mono _ _ _ _ (ih _) (fun t ht => seacinv_trans _ _ _ h1 ht)
      · exact post_some _ _ _ h1
    | command cmd =>
      rw [run_type1]
      split
      · exact post_none _ _
      · rename_i r heq
        have h1 : SeacInv s r.2 := type1_command_seacinv run hrun cmd s r heq
        split
        · exact post_mono _ _ _ _ (ih _) (fun t ht => seacinv_trans _ _ _ h1 ht)
        · exact post_some _ _ _ h1
    | byte b =>
      rw [run_type1]
      exact ih _

theorem run_type2_seac (run : Runner) (hrun : RunnerSeac run) :
    ∀ (k : Nat) (items : List Item) (s : CharstringInterp),
      Post id (SeacInv s) (run_type2 run k items s) := by
  intro k
  induction k with
  | zero => intro items s; exact post_some _ _ _ (seacinv_refl s)
  | succ k ih =>
    intro items s
    cases items with
    | nil => exact post_some _ _ _ (seacinv_refl s)
    | cons item rest =>
      cases item with
      | number v =>
        rw [run_type2]
        have h1 : SeacInv s (number v s).2 := by
          refine seacinv_of_forward _ _ ⟨?_, Or.inl (le_of_eq ?_)⟩
          · simp only [number, push_sc]
          · simp only [number, push_state]
        split
        · exact post_mono _ _ _ _ (ih _ _) (fun t ht => seacinv_trans _ _ _ h1 ht)
        · exact post_some _ _ _ h1
      | command cmd =>
        rw [run_type2]
        split
        · exact post_none _ _
        · rename_i r left heq
          have h1 : SeacInv s r.2 := type2_command_seacinv run hrun cmd _ _ s _ heq
          split
          · exact post_mono _ _ _ _ (ih _ _) (fun t ht => seacinv_trans _ _ _ h1 ht)
          · exact post_some _ _ _ h1
      | byte b =>
        rw [run_type2]
        exact ih _ _

theorem run_seac : ∀ fuel : Nat, RunnerSeac (run fuel) := by
  intro fuel
  induction fuel with
  | zero => intro cs s x hx; cases hx
  | succ fuel ih =>
    intro cs s x hx
    rw [run] at hx
    split at hx
    · exact run_type2_seac _ ih _ _ _ x hx
    · exact run_type1_seac _ ih _ _ x hx

theorem state_step_valid (a b : Int) (ha : a ≤ S_PATH) (h : a ≤ b ∨ S_IPATH ≤ b) :
    a ≤ b ∨ (a = S_PATH ∧ b = S_IPATH) := by
  rcases h with h | h
  · exact Or.inl h
  · by_cases hab : a ≤ b
    · exact Or.inl hab
    · right
      have h1 : (S_IPATH : Int) = 6 := rfl
      have h2 : (S_PATH : Int) = 7 := rfl
      rw [h1] at h ⊢
      rw [h2] at ha ⊢
      omega

/-- C30, amended: the ordering state, outside seac, moves backwards only from
Path to
IPath. For every Type 1 or Type 2 opcode executed in one of the eight states
(the nested bodies being run by `run fuel`), and for every run of a
charstring, if no call of `act_seac` is made, the state afterwards is not
earlier than the state before in the order
Initial < Seac < Sbw < Hstem < Vstem < Hintmask < IPath < Path, or the state
before is Path and the state afterwards is IPath. -/
theorem C30_state_forward :
    (∀ (fuel : Nat) (cmd : Int) (s : CharstringInterp) (r : Result),
      s._state ≤ S_PATH → type1_command (run fuel) cmd s = some r →
      seaccount r.2._trace = seaccount s._trace →
        s._state ≤ r.2._state ∨ (s._state = S_PATH ∧ r.2._state = S_IPATH)) ∧
    (∀ (fuel : Nat) (cmd : Int) (data : Option (List Nat)) (left : Option Int)
      (s : CharstringInterp) (r : Result × Option Int),
      s._state ≤ S_PATH → type2_command (run fuel) cmd data left s = some r →
      seaccount r.1.2._trace = seaccount s._trace →
        s._state ≤ r.1.2._state ∨ (s._state = S_PATH ∧ r.1.2._state = S_IPATH)) ∧
    (∀ (fuel : Nat) (cs : Charstring) (s x : CharstringInterp),
      s._state ≤ S_PATH → run fuel cs s = some x →
      seaccount x._trace = seaccount s._trace →
        s._state ≤ x._state ∨ (s._state = S_PATH ∧ x._state = S_IPATH)) ∧
    (∀ (fuel : Nat) (cs : Charstring) (s x : CharstringInterp),
      run fuel cs s = some x → seaccount s._trace ≤ seaccount x._trace) := by
  refine ⟨?_, ?_, ?_, ?_⟩
  · intro fuel cmd s r hs hr hc
    exact state_step_valid _ _ hs
      ((type1_command_seacinv (run fuel) (run_seac fuel) cmd s r hr).2 hc)
  · intro fuel cmd data left s r hs hr hc
    exact state_step_valid _ _ hs
      ((type2_command_seacinv (run fuel) (run_seac fuel) cmd data left s r hr).2 hc)
  · intro fuel cs s x hs hx hc
    exact state_step_valid _ _ hs ((run_seac fuel cs s x hx).2 hc)
  · intro fuel cs s x hx
    exact (run_seac fuel cs s x hx).1

/-- C30, witness: Type 1 rmoveto in state Path, and the run of
`100 200 hsbw 50 0 hmoveto 10 20 rlineto endchar` from `init()`. -/
theorem C30_state_forward_witness :
    (C17_input._state ≤ (((type1_command (run 0) CS.cRmoveto C17_input).getD
        (false, C17_input)).2)._state
      ∨ (C17_input._state = S_PATH ∧
        (((type1_command (run 0) CS.cRmoveto C17_input).getD
          (false, C17_input)).2)._state = S_IPATH)) ∧
    ((init recording)._state ≤ ((run 1 (C13_charstring 100 200 50 0 10 20)
        (init recording)).getD recording)._state
      ∨ ((init recording)._state = S_PATH ∧
        ((run 1 (C13_charstring 100 200 50 0 10 20) (init recording)).getD recording)._state
          = S_IPATH)) :=
  ⟨C30_state_forward.1 0 CS.cRmoveto C17_input _ (by decide!)
      (some_getD_of_isSome _ _ (by decide!)) (by decide!),
    C30_state_forward.2.2.1 1 (C13_charstring 100 200 50 0 10 20) (init recording) _
      (by decide!) (some_getD_of_isSome _ _ (by decide!)) (by decide!)⟩

/-- C30, counterexample: in state Path, with no seac invoked, Type 1 hmoveto,
Type 1 closepath and Type 2 rmoveto each end in state IPath, which is earlier
than Path. -/
theorem C30_moveto_counterexample :
    C17_input._state = S_PATH ∧ S_IPATH < S_PATH ∧
    (type1_command (run 0) CS.cHmoveto C17_input).map
        (fun r => (r.1, r.2._error, r.2._state, r.2._trace.map Prod.snd))
      = some (true, errOK, S_IPATH, [Act.closepath CS.cHmoveto]) ∧
    (type1_command (run 0) CS.cClosepath C17_input).map
        (fun r => (r.1, r.2._error, r.2._state, r.2._trace.map Prod.snd))
      = some (true, errOK, S_IPATH, [Act.closepath CS.cClosepath]) ∧
    (type2_command (run 0) CS.cRmoveto none none C17_input).map
        (fun r => (r.1.1, r.1.2._error, r.1.2._state, r.1.2._trace.map Prod.snd))
      = some (true, errOK, S_IPATH, [Act.closepath CS.cRmoveto]) := by
  refine ⟨?_, ?_, ?_, ?_, ?_⟩ <;> decide!

/-! ### The ITC othersubrs -/

theorem itc_load_loop_ps (weight : List ℚ) (offset : Int) (k i : Nat) (s : CharstringInterp) :
    (itc_load_loop weight offset k i s)._ps_sp = s._ps_sp ∧
    (itc_load_loop weight offset k i s)._ps_s = s._ps_s ∧
    (itc_load_loop weight offset k i s)._error = s._error := by
  induction k generalizing i s with
  | zero => exact ⟨rfl, rfl, rfl⟩
  | succ k ih =>
    have h := ih (i + 1) (scratch_write (offset + i) (weight.getD i 0) s)
    exact h

theorem itc_command_push (command : Int) (s : CharstringInterp) (w : List ℚ)
    (hc : command ∈ itc_pushing) (hw : s.weight_vector = some w)
    (hps : s._ps_sp < PS_STACK_SIZE) :
    (itc_command command (itc_nargs command) s).1 = true ∧
    (itc_command command (itc_nargs command) s).2._error = s._error ∧
    (itc_command command (itc_nargs command) s).2._ps_sp = s._ps_sp + 1 ∧
    (itc_command command (itc_nargs command) s).2._ps_s
      = setCell s._ps_s s._ps_sp (itc_value command s) ∧
    (itc_command command (itc_nargs command) s).2._sp = s._sp - itc_nargs command := by
  simp only [itc_pushing, List.mem_cons, List.mem_singleton, List.not_mem_nil, or_false] at hc
  rcases hc with h | h | h | h | h | h <;> subst h
  all_goals simp only [itc_command, hw]
  all_goals try (simp only [ps_push, if_pos hps]; exact ⟨rfl, rfl, rfl, rfl, rfl⟩)
  have e : itc_nargs CS.othcITC_ifelse = 4 := rfl
  have e0 : (CS.othcITC_ifelse = CS.othcITC_load) = False := by decide
  by_cases hle : s.«at» (s.size - 4 + 2) ≤ s.«at» (s.size - 4 + 3)
  · have hv : itc_value CS.othcITC_ifelse s = s.«at» (s.size - 4) := by
      simp [itc_value, e, hle]
    rw [hv]
    simp [e, hle, ps_push, if_pos hps]
    exact ⟨rfl, rfl, rfl, rfl⟩
  · have hv : itc_value CS.othcITC_ifelse s = s.«at» (s.size - 4 + 1) := by
      simp only [itc_value, e, if_neg hle]
      rfl
    rw [hv]
    simp [e, hle, ps_push, if_pos hps]
    exact ⟨rfl, rfl, rfl, rfl⟩

theorem itc_command_store (command : Int) (s : CharstringInterp) (w : List ℚ)
    (hc : command = CS.othcITC_load ∨ command = CS.othcITC_put)
    (hw : s.weight_vector = some w) :
    (itc_command command (itc_nargs command) s).1 = true ∧
    (itc_command command (itc_nargs command) s).2._error = s._error ∧
    (itc_command command (itc_nargs command) s).2._ps_sp = s._ps_sp ∧
    (itc_command command (itc_nargs command) s).2._ps_s = s._ps_s := by
  rcases hc with h | h <;> subst h
  · simp only [itc_command, hw]
    have h := itc_load_loop_ps w (toInt (s.«at» (s.size - 1))) w.length 0 s
    exact ⟨rfl, h.2.2, h.1, h.2.1⟩
  · simp only [itc_command, hw]
    exact ⟨rfl, rfl, rfl, rfl⟩

/-- C31, the code at the failing input: ITC random has no case in
`itc_command`. With a weight vector present, `itc_command` on
`othcITC_random` fails with `errOthersubr` for every argument count and every
object, and so does `callothersubr_command`, which routes the number there;
the Type 1 charstring `5 1 28 callothersubr` run from `init()` with the weight
vector `[1]` ends with `errOthersubr` and an empty PostScript stack, where
`2 3 2 20 callothersubr` (ITC add) ends without error with `5` on it. On the
operands `7 2 3 4` the eight numbers with a case return true, called with
their own argument count: get, add, sub, mul, div and ifelse with one value on
the PostScript stack, load and put with none (they write the scratch
vector). -/
theorem C31_itc_random_fails :
    (∀ (on_stack : Int) (s : CharstringInterp) (w : List ℚ),
      itc_command CS.othcITC_random on_stack { s with _weight_vector := some w }
        = (false, { s with _weight_vector := some w, _error := errOthersubr,
                           _error_data := CS.othcITC_random })) ∧
    (∀ (n : Int) (s : CharstringInterp) (w : List ℚ),
      callothersubr_command CS.othcITC_random n { s with _weight_vector := some w }
        = (false, { s with _weight_vector := some w, _error := errOthersubr,
                           _error_data := CS.othcITC_random })) ∧
    (run 1 (C31_charstring true) (create none (some [1]))).map
        (fun x => (x._error, x._error_data, x.ps_stack))
      = some (errOthersubr, CS.othcITC_random, []) ∧
    (run 1 (C31_charstring false) (create none (some [1]))).map
        (fun x => (x._error, x.stack, x.ps_stack))
      = some (errOK, [], [5]) ∧
    C31_input.stack = [7, 2, 3, 4] ∧
    [CS.othcITC_load, CS.othcITC_put, CS.othcITC_get, CS.othcITC_add, CS.othcITC_sub,
      CS.othcITC_mul, CS.othcITC_div, CS.othcITC_ifelse, CS.othcITC_random].map
        (fun c => ((itc_command c (itc_nargs c) C31_input).1,
          (itc_command c (itc_nargs c) C31_input).2._error,
          (itc_command c (itc_nargs c) C31_input).2.ps_stack))
      = [(true, errOK, []), (true, errOK, []), (true, errOK, [0]), (true, errOK, [7]),
         (true, errOK, [-1]), (true, errOK, [12]), (true, errOK, [3 / 4]), (true, errOK, [7]),
         (false, errOthersubr, [])] := by
  refine ⟨fun _ _ _ => rfl, fun _ _ _ => rfl, ?_, ?_, ?_, ?_⟩ <;> decide!

/-! ### The stems declared by the Type 2 stem loop -/

theorem call_virtual_id_t2nhints (a : Act) (s : CharstringInterp) :
    (call_virtual a id s)._t2nhints = s._t2nhints := by
  unfold call_virtual
  simp only []
  split <;> rfl

theorem stem_position_congr (s t : CharstringInterp) (h : t._s = s._s) (bottom : Int) (i : Nat) :
    stem_position t bottom i = stem_position s bottom i := by
  unfold stem_position «at»
  rw [h]

theorem stem_position_succ (s : CharstringInterp) (bottom : Int) (i : Nat) :
    stem_position s bottom (i + 1)
      = (s.«at» bottom + s.«at» (bottom + 1)) + stem_position s (bottom + 2) i := by
  unfold stem_position
  rw [Finset.sum_range_succ']
  have e1 : ∀ j : Nat, bottom + 2 * ((j + 1 : Nat) : Int) = bottom + 2 + 2 * (j : Int) := by
    intro j; push_cast; ring
  simp only [e1, Nat.cast_zero, mul_zero, add_zero]
  ring

theorem t2_stem_loop_calls (cmd : Int) (horizontal : Bool) :
    ∀ (k n : Nat) (pos : ℚ) (bottom : Int) (s : CharstringInterp),
      k ≤ n → bottom + 2 * k ≤ s.size → s.size < bottom + 2 * k + 2 →
      (t2_stem_loop cmd horizontal n pos bottom s).calls
        = s.calls ++ (List.range k).map (fun i =>
            if horizontal then
              Act.hstem cmd (pos + stem_position s bottom i) (s.«at» (bottom + 2 * i + 1))
            else Act.vstem cmd (pos + stem_position s bottom i) (s.«at» (bottom + 2 * i + 1))) ∧
      (t2_stem_loop cmd horizontal n pos bottom s)._t2nhints = s._t2nhints + k ∧
      (t2_stem_loop cmd horizontal n pos bottom s)._s = s._s ∧
      (t2_stem_loop cmd horizontal n pos bottom s)._sp = s._sp := by
  intro k
  induction k with
  | zero =>
    intro n pos bottom s _ _ h2
    have hc : ¬ bottom + 1 < s.size := by
      simp only [Nat.cast_zero, mul_zero, add_zero] at h2
      omega
    cases n with
    | zero => simp [t2_stem_loop, calls]
    | succ n =>
      rw [t2_stem_loop, if_neg hc]
      simp [calls]
  | succ k ih =>
    intro n pos bottom s hn h1 h2
    cases n with
    | zero => omega
    | succ n =>
      have hc : bottom + 1 < s.size := by
        push_cast at h1
        omega
      rw [t2_stem_loop, if_pos hc]
      simp only []
      have key : ∀ (s1 : CharstringInterp) (a : Act) (q : ℚ), s1._s = s._s → s1._sp = s._sp →
          s1.calls = s.calls ++ [a] → s1._t2nhints = s._t2nhints + 1 →
          a = (if horizontal then Act.hstem cmd (pos + s.«at» bottom) (s.«at» (bottom + 1))
            else Act.vstem cmd (pos + s.«at» bottom) (s.«at» (bottom + 1))) →
          q = pos + (s.«at» bottom + s.«at» (bottom + 1)) →
          (t2_stem_loop cmd horizontal n q (bottom + 2) s1).calls
            = s.calls ++ (List.range (k + 1)).map (fun i =>
              if horizontal then
                Act.hstem cmd (pos + stem_position s bottom i) (s.«at» (bottom + 2 * i + 1))
              else Act.vstem cmd (pos + stem_position s bottom i) (s.«at» (bottom + 2 * i + 1))) ∧
          (t2_stem_loop cmd horizontal n q (bottom + 2) s1)._t2nhints
            = s._t2nhints + ((k + 1 : Nat) : Int) ∧
          (t2_stem_loop cmd horizontal n q (bottom + 2) s1)._s = s._s ∧
          (t2_stem_loop cmd horizontal n q (bottom + 2) s1)._sp = s._sp := by
        intro s1 a q hs hsp hcalls hn1 ha hq
        subst hq
        have hsz : s1.size = s.size := hsp
        have h := ih n (pos + (s.«at» bottom + s.«at» (bottom + 1))) (bottom + 2) s1
          (by omega) (by rw [hsz]; push_cast at h1; omega) (by rw [hsz]; push_cast at h2; omega)
        obtain ⟨h1', h2', h3', h4'⟩ := h
        refine ⟨?_, ?_, h3'.trans hs, h4'.trans hsp⟩
        · rw [h1', hcalls, List.range_succ_eq_map, List.map_cons, List.map_map,
            List.append_assoc, List.singleton_append, ha]
          congr 2
          · have e0 : stem_position s bottom 0 = s.«at» bottom := by
              simp [stem_position]
            rw [e0]
            simp
          · refine List.map_congr_left ?_
            intro i _
            simp only [Function.comp]
            have e1 : stem_position s bottom (i + 1)
                = (s.«at» bottom + s.«at» (bottom + 1)) + stem_position s1 (bottom + 2) i := by
              rw [stem_position_succ, stem_position_congr s s1 hs]
            have e2 : s1.«at» (bottom + 2 + 2 * (i : Int) + 1)
                = s.«at» (bottom + 2 * ((i + 1 : Nat) : Int) + 1) := by
              unfold «at»
              rw [hs]
              congr 1
              push_cast
              ring
            rw [e1, e2, Nat.succ_eq_add_one, add_assoc]
        · rw [h2', hn1]
          push_cast
          ring
      cases horizontal with
      | true =>
        simp only [↓reduceIte] at key ⊢
        exact key (act_hstem cmd (pos + s.«at» bottom) (s.«at» (bottom + 1))
            { s with _t2nhints := s._t2nhints + 1 })
          (Act.hstem cmd (pos + s.«at» bottom) (s.«at» (bottom + 1)))
          _ (act_hstem_cells _ _ _ _) (act_hstem_sp _ _ _ _)
          (by unfold calls act_hstem; rw [call_virtual_id_trace]; simp)
          (call_virtual_id_t2nhints _ _) rfl (by unfold «at»; rw [act_hstem_cells])
      | false =>
        simp only [Bool.false_eq_true, ↓reduceIte] at key ⊢
        exact key (act_vstem cmd (pos + s.«at» bottom) (s.«at» (bottom + 1))
            { s with _t2nhints := s._t2nhints + 1 })
          (Act.vstem cmd (pos + s.«at» bottom) (s.«at» (bottom + 1)))
          _ (act_vstem_cells _ _ _ _) (act_vstem_sp _ _ _ _)
          (by unfold calls act_vstem; rw [call_virtual_id_trace]; simp)
          (call_virtual_id_t2nhints _ _) rfl (by unfold «at»; rw [act_vstem_cells])

theorem t2_stem_loop_stems (cmd : Int) (horizontal : Bool) (bottom : Int)
    (s : CharstringInterp) (hb : 0 ≤ bottom) (hs : bottom ≤ s.size) :
    (t2_stem_loop cmd horizontal s.size.toNat 0 bottom s).calls
        = s.calls ++ stem_calls cmd horizontal s bottom ((s.size - bottom) / 2).toNat ∧
      (t2_stem_loop cmd horizontal s.size.toNat 0 bottom s)._t2nhints
        = s._t2nhints + (s.size - bottom) / 2 ∧
      (t2_stem_loop cmd horizontal s.size.toNat 0 bottom s)._s = s._s ∧
      (t2_stem_loop cmd horizontal s.size.toNat 0 bottom s)._sp = s._sp := by
  have hk : (((s.size - bottom) / 2).toNat : Int) = (s.size - bottom) / 2 :=
    Int.toNat_of_nonneg (by omega)
  have h := t2_stem_loop_calls cmd horizontal ((s.size - bottom) / 2).toNat s.size.toNat 0
    bottom s (by omega) (by omega) (by omega)
  obtain ⟨h1, h2, h3, h4⟩ := h
  refine ⟨?_, by rw [h2, hk], h3, h4⟩
  rw [h1]
  unfold stem_calls
  simp only [zero_add]

/-! ### Pending vertical stems at a mask -/

theorem hintmask_ready_stems (cmd : Int) (s : CharstringInterp) :
    (s._state = S_HSTEM ∧ 2 ≤ s.size →
      (hintmask_ready cmd s).calls = s.calls ++ stem_calls cmd false s 0 (s.size / 2).toNat ∧
      (hintmask_ready cmd s)._t2nhints = s._t2nhints + s.size / 2) ∧
    (¬ (s._state = S_HSTEM ∧ 2 ≤ s.size) →
      (hintmask_ready cmd s).calls = s.calls ∧
      (hintmask_ready cmd s)._t2nhints = s._t2nhints) := by
  constructor
  · intro h
    have hc : s._state = S_HSTEM ∧ s.size ≥ 2 := h
    have h0 := t2_stem_loop_stems cmd false 0 s (le_refl 0) (by omega)
    simp only [sub_zero] at h0
    have hst : (t2_stem_loop cmd false s.size.toNat 0 0 s)._state < S_HINTMASK := by
      rw [t2_stem_loop_state, h.1]
      decide
    unfold hintmask_ready
    simp only [if_pos hc, if_pos hst]
    exact ⟨h0.1, h0.2.1⟩
  · intro h
    have hc : ¬ (s._state = S_HSTEM ∧ s.size ≥ 2) := h
    unfold hintmask_ready
    simp only [if_neg hc]
    split <;> exact ⟨rfl, rfl⟩

/-- C32: a hintmask or cntrmask executed in state Hstem with `s ≥ 2` operands
first declares `floor(s/2)` vertical stems from the operand pairs, stem `i`
at the position `a_i` plus the sum of `a_j + b_j` over `j < i` and with the
width `b_i`, and raises `_t2nhints` by `floor(s/2)`; in every other state, or
with fewer than two operands, it declares no stem and leaves `_t2nhints` as
it is. The mask length is computed afterwards, on the object `y` reached
then: the command fails with `errHintmask` if `y._t2nhints` is zero, with
`errRunoff` if `((y._t2nhints - 1) >> 3) + 1` bytes are not left, and
otherwise calls `act_hintmask` with `y._t2nhints`; the command makes no other
call and does not change `_t2nhints` again. -/
theorem C32_pending_vstems (run : Runner) (cmd : Int) (data : Option (List Nat))
    (left : Option Int) (s : CharstringInterp)
    (hcmd : cmd = CS.cHintmask ∨ cmd = CS.cCntrmask) :
    ∃ y : CharstringInterp,
      (s._state = S_HSTEM ∧ 2 ≤ s.size →
        y.calls = s.calls ++ stem_calls cmd false s 0 (s.size / 2).toNat ∧
        y._t2nhints = s._t2nhints + s.size / 2) ∧
      (¬ (s._state = S_HSTEM ∧ 2 ≤ s.size) →
        y.calls = s.calls ∧ y._t2nhints = s._t2nhints) ∧
      type2_command run cmd data left s =
        (if y._t2nhints = 0 then some (error errHintmask cmd y, left)
        else
          match data, left with
          | some data, some left =>
            if ((y._t2nhints - 1) >>> 3) + 1 > left then
              some (error errRunoff cmd y, some left)
            else
              some (finish (act_hintmask cmd data y._t2nhints y),
                some (left - ((((act_hintmask cmd data y._t2nhints y)._t2nhints - 1) >>> 3) + 1)))
          | _, _ => some (error errInternal cmd y, left)) ∧
      ∃ r : Result × Option Int, type2_command run cmd data left s = some r ∧
        r.1.2._t2nhints = y._t2nhints ∧
        (r.1.2.calls = y.calls ∨
          ∃ d, r.1.2.calls = y.calls ++ [Act.hintmask cmd d y._t2nhints]) := by
  have hm := type2_command_mask run cmd data left s hcmd
  have hs := hintmask_ready_stems cmd s
  refine ⟨hintmask_ready cmd s, hs.1, hs.2, hm, ?_⟩
  rw [hm]
  by_cases h0 : (hintmask_ready cmd s)._t2nhints = 0
  · rw [if_pos h0]
    exact ⟨_, rfl, rfl, Or.inl rfl⟩
  · rw [if_neg h0]
    cases data with
    | none => exact ⟨_, rfl, rfl, Or.inl rfl⟩
    | some d =>
      cases left with
      | none => exact ⟨_, rfl, rfl, Or.inl rfl⟩
      | some l =>
        simp only []
        by_cases hl : (((hintmask_ready cmd s)._t2nhints - 1) >>> 3) + 1 > l
        · rw [if_pos hl]
          exact ⟨_, rfl, rfl, Or.inl rfl⟩
        · rw [if_neg hl]
          refine ⟨_, rfl, ?_, Or.inr ⟨d, ?_⟩⟩
          · exact act_hintmask_t2nhints _ _ _ _
          · show (act_hintmask cmd d _ _)._trace.map Prod.snd = _
            unfold act_hintmask
            rw [call_virtual_id_trace]
            simp [calls]

/-- C32, witness: the statement at a hintmask with two mask bytes on the
recording object in state Hstem with `8` declared hints and the operands
`10 20 5 7 99`, where the pending stems are `vstem 10 20` and `vstem 35 7`
and the mask is read for `10` hints. -/
theorem C32_pending_vstems_witness :
    (CS.cHintmask = CS.cHintmask ∨ CS.cHintmask = CS.cCntrmask) ∧
    (∃ y : CharstringInterp,
      (C32_input._state = S_HSTEM ∧ 2 ≤ C32_input.size →
        y.calls = C32_input.calls
          ++ stem_calls CS.cHintmask false C32_input 0 (C32_input.size / 2).toNat ∧
        y._t2nhints = C32_input._t2nhints + C32_input.size / 2) ∧
      (¬ (C32_input._state = S_HSTEM ∧ 2 ≤ C32_input.size) →
        y.calls = C32_input.calls ∧ y._t2nhints = C32_input._t2nhints) ∧
      type2_command (run 0) CS.cHintmask (some [192, 64]) (some 2) C32_input =
        (if y._t2nhints = 0 then some (error errHintmask CS.cHintmask y, some 2)
        else
          match some [192, 64], some (2 : Int) with
          | some data, some left =>
            if ((y._t2nhints - 1) >>> 3) + 1 > left then
              some (error errRunoff CS.cHintmask y, some left)
            else
              some (finish (act_hintmask CS.cHintmask data y._t2nhints y),
                some (left - ((((act_hintmask CS.cHintmask data y._t2nhints y)._t2nhints - 1)
                  >>> 3) + 1)))
          | _, _ => some (error errInternal CS.cHintmask y, some 2)) ∧
      ∃ r : Result × Option Int,
        type2_command (run 0) CS.cHintmask (some [192, 64]) (some 2) C32_input = some r ∧
        r.1.2._t2nhints = y._t2nhints ∧
        (r.1.2.calls = y.calls ∨
          ∃ d, r.1.2.calls = y.calls ++ [Act.hintmask CS.cHintmask d y._t2nhints])) ∧
    C32_input._state = S_HSTEM ∧ C32_input.stack = [10, 20, 5, 7, 99] ∧
    stem_calls CS.cHintmask false C32_input 0 (C32_input.size / 2).toNat
      = [Act.vstem CS.cHintmask 10 20, Act.vstem CS.cHintmask 35 7] ∧
    (type2_command (run 0) CS.cHintmask (some [192, 64]) (some 2) C32_input).map
        (fun r => (r.1.1, r.1.2._t2nhints, r.1.2.calls, r.2))
      = some (true, 10, [Act.vstem CS.cHintmask 10 20, Act.vstem CS.cHintmask 35 7,
          Act.hintmask CS.cHintmask [192, 64] 10], some 0) :=
  ⟨Or.inl rfl,
    C32_pending_vstems (run 0) CS.cHintmask (some [192, 64]) (some 2) C32_input (Or.inl rfl),
    by decide!, by decide!, by decide!, by decide!⟩

/-! ### The stems declared by the Type 2 stem opcodes -/

theorem stem_calls_congr (cmd : Int) (horizontal : Bool) (s t : CharstringInterp)
    (h : t._s = s._s) (bottom : Int) (k : Nat) :
    stem_calls cmd horizontal t bottom k = stem_calls cmd horizontal s bottom k := by
  unfold stem_calls
  refine List.map_congr_left ?_
  intro i _
  have e : ∀ j, t.«at» j = s.«at» j := fun j => by unfold «at»; rw [h]
  simp only [stem_position_congr s t h, e]

theorem call_virtual_t2nhints (a : Act) (dflt : CharstringInterp → CharstringInterp)
    (h : ∀ t, (dflt t)._t2nhints = t._t2nhints) (s : CharstringInterp) :
    (call_virtual a dflt s)._t2nhints = s._t2nhints := by
  unfold call_virtual
  simp only []
  split
  · rw [h]
  · rfl
  · rfl

theorem type2_handle_width_t2nhints (cmd : Int) (have_width : Bool) (s : CharstringInterp) :
    (type2_handle_width cmd have_width s).2._t2nhints = s._t2nhints := by
  have hw : ∀ (p : Point) (t : CharstringInterp),
      (act_width cmd p t)._t2nhints = t._t2nhints := fun p t =>
    call_virtual_t2nhints _ _ (fun _ => rfl) t
  unfold type2_handle_width
  split
  · show (act_nominal_width_delta cmd (s.«at» 0) s)._t2nhints = _
    unfold act_nominal_width_delta
    refine call_virtual_t2nhints _ _ (fun t => ?_) s
    simp only []
    repeat' split
    all_goals first | exact hw _ _ | rfl
  · show (act_default_width cmd s)._t2nhints = _
    unfold act_default_width
    refine call_virtual_t2nhints _ _ (fun t => ?_) s
    simp only []
    repeat' split
    all_goals first | exact hw _ _ | rfl

theorem type2_handle_width_no_stem (cmd : Int) (have_width : Bool) (s : CharstringInterp) :
    Emits (fun a => is_stem a = false) s (type2_handle_width cmd have_width s).2 := by
  have hw : ∀ (p : Point) (t : CharstringInterp),
      Emits (fun a => is_stem a = false) t (act_width cmd p t) := fun p t =>
    call_virtual_emits (fun a => is_stem a = false) (Act.width cmd p) id rfl
      (fun u => emits_refl _ u) t
  unfold type2_handle_width
  split
  · show Emits _ s (act_nominal_width_delta cmd (s.«at» 0) s)
    unfold act_nominal_width_delta
    refine call_virtual_emits (fun a => is_stem a = false) _ _ (by rfl) (fun t => ?_) s
    simp only []
    repeat' split
    all_goals first | exact hw _ _ | exact emits_refl _ _
  · show Emits _ s (act_default_width cmd s)
    unfold act_default_width
    refine call_virtual_emits (fun a => is_stem a = false) _ _ (by rfl) (fun t => ?_) s
    simp only []
    repeat' split
    all_goals first | exact hw _ _ | exact emits_refl _ _

theorem stem_width_step (cmd : Int) (s : CharstringInterp)
    (r : Int × CharstringInterp)
    (hr : r = if s._state = S_INITIAL then
        type2_handle_width cmd (decide (Int.tmod s.size 2 = 1)) s else (0, s)) :
    r.1 = stem_bottom s ∧ 0 ≤ r.1 ∧ r.1 ≤ 1 ∧ r.2._s = s._s ∧ r.2._sp = s._sp ∧
    r.2._state = s._state ∧ r.2._t2nhints = s._t2nhints ∧
    Emits (fun a => is_stem a = false) s r.2 := by
  subst hr
  by_cases h0 : s._state = S_INITIAL
  · rw [if_pos h0]
    refine ⟨?_, ?_, ?_, type2_handle_width_cells _ _ _, type2_handle_width_sp _ _ _,
      type2_handle_width_state _ _ _, type2_handle_width_t2nhints _ _ _,
      type2_handle_width_no_stem _ _ _⟩
    all_goals
      unfold type2_handle_width
      try unfold stem_bottom
      by_cases h1 : Int.tmod s.size 2 = 1 <;> simp [h0, h1]
  · rw [if_neg h0]
    refine ⟨?_, le_refl _, (show (0 : Int) ≤ 1 by decide), rfl, rfl, rfl, rfl, emits_refl _ _⟩
    unfold stem_bottom
    simp [h0]

theorem stem_command_stems (run : Runner) (cmd : Int) (data : Option (List Nat))
    (left : Option Int) (s : CharstringInterp) (horizontal : Bool) (phase : Int)
    (heq : ∀ r : Int × CharstringInterp,
      r = (if s._state = S_INITIAL then
        type2_handle_width cmd (decide (Int.tmod s.size 2 = 1)) s else (0, s)) →
      type2_command run cmd data left s =
        if s.size < 2 then some (error errUnderflow cmd s, left) else
        if r.2._state > phase then some (error errOrdering cmd r.2, left) else
        some (finish (t2_stem_loop cmd horizontal r.2.size.toNat 0 r.1
          { r.2 with _state := phase }), left))
    (hsize : 2 ≤ s.size) (hstate : s._state ≤ phase) :
    ∃ (x : CharstringInterp) (l : List Act),
      type2_command run cmd data left s = some ((decide (x._error ≥ 0), x), left) ∧
      x.calls = s.calls ++ l
        ++ stem_calls cmd horizontal s (stem_bottom s) ((s.size - stem_bottom s) / 2).toNat ∧
      (∀ a ∈ l, is_stem a = false) ∧
      x._t2nhints = s._t2nhints + (s.size - stem_bottom s) / 2 ∧
      x.size = 0 ∧ x._state = phase := by
  have hw := stem_width_step cmd s _ rfl
  have e := heq _ rfl
  generalize (if s._state = S_INITIAL then
        type2_handle_width cmd (decide (Int.tmod s.size 2 = 1)) s else (0, s)) = r at hw e
  obtain ⟨hb, hb0, hb1, hcells, hsp, hst, hn, l, hl, hP⟩ := hw
  have hsz : r.2.size = s.size := hsp
  rw [if_neg (by omega), if_neg (by rw [hst]; omega)] at e
  have h := t2_stem_loop_stems cmd horizontal r.1 { r.2 with _state := phase } hb0
    (by show r.1 ≤ r.2._sp; rw [hsp]; unfold size at hsize; omega)
  have hsz2 : ({ r.2 with _state := phase } : CharstringInterp).size = s.size := hsp
  rw [hsz2] at h
  rw [hsz] at e
  obtain ⟨h1, h2, h3, h4⟩ := h
  refine ⟨_, l.map Prod.snd, e, ?_, ?_, ?_, rfl, ?_⟩
  · show (t2_stem_loop cmd horizontal s.size.toNat 0 r.1 { r.2 with _state := phase }).calls = _
    rw [h1, stem_calls_congr cmd horizontal s { r.2 with _state := phase } hcells, hb]
    congr 1
    show r.2._trace.map Prod.snd = _
    rw [hl]
    simp [calls]
  · intro a ha
    obtain ⟨p, hp, rfl⟩ := List.mem_map.mp ha
    exact hP p hp
  · show (t2_stem_loop cmd horizontal s.size.toNat 0 r.1 { r.2 with _state := phase })._t2nhints = _
    rw [h2, ← hb]
    show r.2._t2nhints + _ = _
    rw [hn]
  · show (t2_stem_loop cmd horizontal s.size.toNat 0 r.1 { r.2 with _state := phase })._state = _
    rw [t2_stem_loop_state]

/-- C33, amended: Type 2 stem positions are cumulative. An hstem or hstemhm
(resp. vstem or vstemhm) executed with at least two operands in a state not
later than its own phase (Hstem, resp. Vstem) takes the width first if there is one (in state Initial
with an odd operand count; the calls `l` made for it are no stem calls) and
then, for the `k` operand pairs `(a_0, b_0), ..., (a_{k-1}, b_{k-1})` that
follow, makes exactly the `k` calls `act_hstem` (resp. `act_vstem`), the
`i`-th with the position `a_i` plus the sum of `a_j + b_j` over `j < i` and
with the width `b_i`; it raises `_t2nhints` by `k`, leaves the operand stack
empty and the state at its phase, and returns whether no error is latched. -/
theorem C33_stem_positions (run : Runner) (cmd : Int) (data : Option (List Nat))
    (left : Option Int) (s : CharstringInterp)
    (hcmd : cmd = CS.cHstem ∨ cmd = CS.cHstemhm ∨ cmd = CS.cVstem ∨ cmd = CS.cVstemhm)
    (hsize : 2 ≤ s.size) (hstate : s._state ≤ stem_phase cmd) :
    ∃ (x : CharstringInterp) (l : List Act),
      type2_command run cmd data left s = some ((decide (x._error ≥ 0), x), left) ∧
      x.calls = s.calls ++ l
        ++ stem_calls cmd (decide (cmd = CS.cHstem ∨ cmd = CS.cHstemhm)) s (stem_bottom s)
            ((s.size - stem_bottom s) / 2).toNat ∧
      (∀ a ∈ l, is_stem a = false) ∧
      (stem_calls cmd (decide (cmd = CS.cHstem ∨ cmd = CS.cHstemhm)) s (stem_bottom s)
        ((s.size - stem_bottom s) / 2).toNat).length = ((s.size - stem_bottom s) / 2).toNat ∧
      x._t2nhints = s._t2nhints + (s.size - stem_bottom s) / 2 ∧
      x.size = 0 ∧ x._state = stem_phase cmd := by
  have hlen : ∀ h : Bool, (stem_calls cmd h s (stem_bottom s)
      ((s.size - stem_bottom s) / 2).toNat).length = ((s.size - stem_bottom s) / 2).toNat := by
    intro h
    simp [stem_calls]
  have hh : (cmd = CS.cHstem ∨ cmd = CS.cHstemhm) →
      decide (cmd = CS.cHstem ∨ cmd = CS.cHstemhm) = true ∧ stem_phase cmd = S_HSTEM := by
    intro h
    exact ⟨decide_eq_true h, if_pos h⟩
  have hv : (cmd = CS.cVstem ∨ cmd = CS.cVstemhm) →
      decide (cmd = CS.cHstem ∨ cmd = CS.cHstemhm) = false ∧ stem_phase cmd = S_VSTEM := by
    intro h
    have hn : ¬ (cmd = CS.cHstem ∨ cmd = CS.cHstemhm) := by
      rcases h with h | h <;> subst h <;> decide
    exact ⟨decide_eq_false hn, if_neg hn⟩
  by_cases h : cmd = CS.cHstem ∨ cmd = CS.cHstemhm
  · obtain ⟨e1, e2⟩ := hh h
    rw [e2] at hstate
    obtain ⟨x, l, h1, h2, h3, h4, h5, h6⟩ := stem_command_stems run cmd data left s true S_HSTEM
      (fun r hr => type2_command_hstem run cmd data left s h r hr) hsize hstate
    rw [e1, e2]
    exact ⟨x, l, h1, h2, h3, hlen true, h4, h5, h6⟩
  · have h' : cmd = CS.cVstem ∨ cmd = CS.cVstemhm := by
      rcases hcmd with c | c | c | c
      · exact absurd (Or.inl c) h
      · exact absurd (Or.inr c) h
      · exact Or.inl c
      · exact Or.inr c
    obtain ⟨e1, e2⟩ := hv h'
    rw [e2] at hstate
    obtain ⟨x, l, h1, h2, h3, h4, h5, h6⟩ := stem_command_stems run cmd data left s false S_VSTEM
      (fun r hr => type2_command_vstem run cmd data left s h' r hr) hsize hstate
    rw [e1, e2]
    exact ⟨x, l, h1, h2, h3, hlen false, h4, h5, h6⟩

/-- C33, witness: the statement at `250 10 20 5 7 hstem` on the recording
object after `init()`, where the width `250` is taken first and the two stems
are `hstem 10 20` and `hstem 35 7`. -/
theorem C33_stem_positions_witness :
    (CS.cHstem = CS.cHstem ∨ CS.cHstem = CS.cHstemhm ∨ CS.cHstem = CS.cVstem
      ∨ CS.cHstem = CS.cVstemhm) ∧
    2 ≤ C33_input.size ∧ C33_input._state ≤ stem_phase CS.cHstem ∧
    (∃ (x : CharstringInterp) (l : List Act),
      type2_command (run 0) CS.cHstem none none C33_input
        = some ((decide (x._error ≥ 0), x), none) ∧
      x.calls = C33_input.calls ++ l
        ++ stem_calls CS.cHstem (decide (CS.cHstem = CS.cHstem ∨ CS.cHstem = CS.cHstemhm))
            C33_input (stem_bottom C33_input)
            ((C33_input.size - stem_bottom C33_input) / 2).toNat ∧
      (∀ a ∈ l, is_stem a = false) ∧
      (stem_calls CS.cHstem (decide (CS.cHstem = CS.cHstem ∨ CS.cHstem = CS.cHstemhm))
        C33_input (stem_bottom C33_input)
        ((C33_input.size - stem_bottom C33_input) / 2).toNat).length
          = ((C33_input.size - stem_bottom C33_input) / 2).toNat ∧
      x._t2nhints = C33_input._t2nhints + (C33_input.size - stem_bottom C33_input) / 2 ∧
      x.size = 0 ∧ x._state = stem_phase CS.cHstem) ∧
    C33_input.stack = [250, 10, 20, 5, 7] ∧
    stem_calls CS.cHstem true C33_input (stem_bottom C33_input)
        ((C33_input.size - stem_bottom C33_input) / 2).toNat
      = [Act.hstem CS.cHstem 10 20, Act.hstem CS.cHstem 35 7] ∧
    (type2_command (run 0) CS.cHstem none none C33_input).map
        (fun r => (r.1.1, r.1.2._t2nhints, r.1.2.calls, r.1.2.size))
      = some (true, 2, [Act.nominal_width_delta CS.cHstem 250, Act.hstem CS.cHstem 10 20,
          Act.hstem CS.cHstem 35 7], 0) :=
  ⟨Or.inl rfl, by decide, by decide,
    C33_stem_positions (run 0) CS.cHstem none none C33_input (Or.inl rfl) (by decide)
      (by decide),
    by decide!, by decide!, by decide!⟩

/-- C33, counterexample: `10 20 hstem` executed in state Path (on the recording
object with one declared hint) fails with `errOrdering`: no `act_hstem` is
called, `_t2nhints` stays `1` and the two operands stay on the stack, where
the claim has one call `hstem 10 20`, `_t2nhints = 2` and an empty stack. -/
theorem C33_late_stem_counterexample :
    C15_stem_input._state = S_PATH ∧ C15_stem_input.stack = [10, 20] ∧
    (type2_command (run 0) CS.cHstem none none C15_stem_input).map
        (fun r => (r.1.1, r.1.2._error, r.1.2.calls, r.1.2._t2nhints, r.1.2.stack))
      = some (false, errOrdering, [], 1, [10, 20]) ∧
    ¬ (∃ (x : CharstringInterp) (l : List Act),
      type2_command (run 0) CS.cHstem none none C15_stem_input
        = some ((decide (x._error ≥ 0), x), none) ∧
      x.calls = C15_stem_input.calls ++ l ++ [Act.hstem CS.cHstem 10 20] ∧
      (∀ a ∈ l, is_stem a = false) ∧
      x._t2nhints = C15_stem_input._t2nhints + 1 ∧ x.size = 0) := by
  refine ⟨by decide!, by decide!, by decide!, ?_⟩
  rintro ⟨x, l, h1, _, _, _, h5⟩
  have e : (type2_command (run 0) CS.cHstem none none C15_stem_input).map
      (fun r => r.1.2.size) = some 2 := by decide!
  rw [h1] at e
  simp only [Option.map_some', Option.some.injEq] at e
  omega

/-! ### Segments chained through the current point -/

theorem chained_append (l1 l2 : List Act) :
    ∀ p : Point, chained p (l1 ++ l2) = (chained p l1).bind (fun q => chained q l2) := by
  induction l1 with
  | nil => intro p; rfl
  | cons a l ih =>
    intro p
    simp only [List.cons_append, chained]
    cases h : seg_ends a with
    | none => rfl
    | some e =>
      obtain ⟨p0, p1⟩ := e
      simp only []
      by_cases hp : p0 = p
      · simp only [if_pos hp]
        exact ih p1
      · simp only [if_neg hp, Option.none_bind]

theorem block_calls_append (l1 l2 : List (Act × List Act)) :
    block_calls (l1 ++ l2) = block_calls l1 ++ block_calls l2 := by
  induction l1 with
  | nil => rfl
  | cons b l ih =>
    show b.1 :: (b.2 ++ block_calls (l ++ l2)) = b.1 :: (b.2 ++ block_calls l) ++ block_calls l2
    rw [ih]
    simp

theorem chain_of_same (s x : CharstringInterp) (hc : x.calls = s.calls) (hp : x._cp = s._cp) :
    Chain s x :=
  ⟨[], by simp [block_calls, hc], by simp [chained, hp], by simp⟩

theorem chain_refl (s : CharstringInterp) : Chain s s := chain_of_same s s rfl rfl

theorem chain_trans (s y x : CharstringInterp) (h1 : Chain s y) (h2 : Chain y x) :
    Chain s x := by
  obtain ⟨b1, c1, e1, n1⟩ := h1
  obtain ⟨b2, c2, e2, n2⟩ := h2
  refine ⟨b1 ++ b2, ?_, ?_, ?_⟩
  · rw [c2, c1, block_calls_append, List.append_assoc]
  · rw [List.map_append, chained_append, e1]
    exact e2
  · intro b hb
    rcases List.mem_append.mp hb with h | h
    · exact n1 b h
    · exact n2 b h

theorem chain_of_seg (s x : CharstringInterp) (h : Seg s x) : Chain s x := by
  obtain ⟨a, rest, hc, he, hr⟩ := h
  refine ⟨[(a, rest)], ?_, ?_, ?_⟩
  · simp [block_calls, hc]
  · simp [chained, he]
  · intro b hb
    simp only [List.mem_singleton] at hb
    subst hb
    rcases hr with h | h
    · exact Or.inl h
    · exact Or.inr ⟨_, _, he, h⟩

theorem chain_left (s y x : CharstringInterp) (hc : y.calls = s.calls) (hp : y._cp = s._cp)
    (h : Chain y x) : Chain s x :=
  chain_trans s y x (chain_of_same s y hc hp) h

theorem chain_right (s y x : CharstringInterp) (h : Chain s y) (hc : x.calls = y.calls)
    (hp : x._cp = y._cp) : Chain s x :=
  chain_trans s y x h (chain_of_same y x hc hp)

theorem call_virtual_block (a : Act) (dflt : CharstringInterp → CharstringInterp)
    (rest : List Act) (h : ∀ t, (dflt t).calls = t.calls ++ rest) (s : CharstringInterp) :
    ∃ r, (call_virtual a dflt s).calls = s.calls ++ a :: r ∧ (r = [] ∨ r = rest) := by
  unfold call_virtual
  simp only []
  split
  · refine ⟨rest, ?_, Or.inr rfl⟩
    rw [h]
    simp [calls]
  · exact ⟨[], by simp [calls], Or.inl rfl⟩
  · exact ⟨[], by simp [calls, error], Or.inl rfl⟩

theorem act_curve_calls (cmd : Int) (p0 p1 p2 p3 : Point) (s : CharstringInterp) :
    (act_curve cmd p0 p1 p2 p3 s).calls = s.calls ++ [Act.curve cmd p0 p1 p2 p3] := by
  unfold act_curve
  obtain ⟨r, h, hr⟩ := call_virtual_block (Act.curve cmd p0 p1 p2 p3)
    (fun s => (error errUnimplemented cmd s).2) [] (fun t => by simp [calls, error]) s
  rcases hr with e | e <;> subst e <;> exact h

theorem act_line_calls (cmd : Int) (p0 p1 : Point) (s : CharstringInterp) :
    ∃ r, (act_line cmd p0 p1 s).calls = s.calls ++ Act.line cmd p0 p1 :: r ∧
      (r = [] ∨ r = [Act.curve cmd p0 p0 p1 p1]) := by
  unfold act_line
  exact call_virtual_block _ _ _ (fun t => act_curve_calls cmd p0 p0 p1 p1 t) s

theorem act_flex_calls (cmd : Int) (p0 p1 p2 p3_4 p5 p6 p7 : Point) (flex_depth : ℚ)
    (s : CharstringInterp) :
    ∃ r, (act_flex cmd p0 p1 p2 p3_4 p5 p6 p7 flex_depth s).calls
        = s.calls ++ Act.flex cmd p0 p1 p2 p3_4 p5 p6 p7 flex_depth :: r ∧
      (r = [] ∨ r = [Act.curve cmd p0 p1 p2 p3_4, Act.curve cmd p3_4 p5 p6 p7]) := by
  unfold act_flex
  refine call_virtual_block _ _ _ (fun t => ?_) s
  simp only [act_curve_calls, List.append_assoc, List.singleton_append]

theorem act_rlineto_seg (cmd : Int) (dx dy : ℚ) (s : CharstringInterp) :
    Seg s (act_rlineto cmd dx dy s) ∧
    (act_rlineto cmd dx dy s)._cp = s._cp.shifted dx dy := by
  have hcp : (act_rlineto cmd dx dy s)._cp = s._cp.shifted dx dy := by
    unfold act_rlineto
    simp only [act_line_cp]
  refine ⟨?_, hcp⟩
  obtain ⟨r, h, hr⟩ := act_line_calls cmd s._cp (s._cp.shifted dx dy)
    { s with _cp := s._cp.shifted dx dy }
  refine ⟨_, r, h, by rw [hcp]; rfl, ?_⟩
  rcases hr with e | e
  · exact Or.inl e
  · refine Or.inr ?_
    rw [e, hcp]
    simp [chained, seg_ends]

theorem act_rrcurveto_seg (cmd : Int) (dx1 dy1 dx2 dy2 dx3 dy3 : ℚ) (s : CharstringInterp) :
    Seg s (act_rrcurveto cmd dx1 dy1 dx2 dy2 dx3 dy3 s) ∧
    (act_rrcurveto cmd dx1 dy1 dx2 dy2 dx3 dy3 s)._cp
      = ((s._cp.shifted dx1 dy1).shifted dx2 dy2).shifted dx3 dy3 := by
  have hcp : (act_rrcurveto cmd dx1 dy1 dx2 dy2 dx3 dy3 s)._cp
      = ((s._cp.shifted dx1 dy1).shifted dx2 dy2).shifted dx3 dy3 := by
    unfold act_rrcurveto
    simp only [act_curve_cp]
  refine ⟨?_, hcp⟩
  refine ⟨_, [], act_curve_calls cmd _ _ _ _ _, by rw [hcp]; rfl, Or.inl rfl⟩

theorem act_rrflex_seg (cmd : Int)
    (dx1 dy1 dx2 dy2 dx3 dy3 dx4 dy4 dx5 dy5 dx6 dy6 flex_depth : ℚ) (s : CharstringInterp) :
    Seg s (act_rrflex cmd dx1 dy1 dx2 dy2 dx3 dy3 dx4 dy4 dx5 dy5 dx6 dy6 flex_depth s) ∧
    (act_rrflex cmd dx1 dy1 dx2 dy2 dx3 dy3 dx4 dy4 dx5 dy5 dx6 dy6 flex_depth s)._cp
      = (((((s._cp.shifted dx1 dy1).shifted dx2 dy2).shifted dx3 dy3).shifted dx4 dy4).shifted
          dx5 dy5).shifted dx6 dy6 := by
  have hcp := (act_rrflex_trace cmd dx1 dy1 dx2 dy2 dx3 dy3 dx4 dy4 dx5 dy5 dx6 dy6
    flex_depth s).1
  refine ⟨?_, hcp⟩
  obtain ⟨r, h, hr⟩ := act_flex_calls cmd s._cp (s._cp.shifted dx1 dy1)
    ((s._cp.shifted dx1 dy1).shifted dx2 dy2)
    (((s._cp.shifted dx1 dy1).shifted dx2 dy2).shifted dx3 dy3)
    ((((s._cp.shifted dx1 dy1).shifted dx2 dy2).shifted dx3 dy3).shifted dx4 dy4)
    (((((s._cp.shifted dx1 dy1).shifted dx2 dy2).shifted dx3 dy3).shifted dx4 dy4).shifted
      dx5 dy5)
    ((((((s._cp.shifted dx1 dy1).shifted dx2 dy2).shifted dx3 dy3).shifted dx4 dy4).shifted
      dx5 dy5).shifted dx6 dy6) flex_depth
    { s with _cp := (((((s._cp.shifted dx1 dy1).shifted dx2 dy2).shifted dx3 dy3).shifted
      dx4 dy4).shifted dx5 dy5).shifted dx6 dy6 }
  refine ⟨_, r, h, by rw [hcp]; rfl, ?_⟩
  rcases hr with e | e
  · exact Or.inl e
  · refine Or.inr ?_
    rw [e, hcp]
    simp [chained, seg_ends]

theorem chain_rl (cmd : Int) (dx dy : ℚ) (s y : CharstringInterp) (h : Chain s y) :
    Chain s (act_rlineto cmd dx dy y) :=
  chain_trans s y _ h (chain_of_seg _ _ (act_rlineto_seg cmd dx dy y).1)

theorem chain_rc (cmd : Int) (dx1 dy1 dx2 dy2 dx3 dy3 : ℚ) (s y : CharstringInterp)
    (h : Chain s y) : Chain s (act_rrcurveto cmd dx1 dy1 dx2 dy2 dx3 dy3 y) :=
  chain_trans s y _ h (chain_of_seg _ _ (act_rrcurveto_seg cmd dx1 dy1 dx2 dy2 dx3 dy3 y).1)

theorem chain_rf (cmd : Int)
    (dx1 dy1 dx2 dy2 dx3 dy3 dx4 dy4 dx5 dy5 dx6 dy6 flex_depth : ℚ) (s y : CharstringInterp)
    (h : Chain s y) :
    Chain s (act_rrflex cmd dx1 dy1 dx2 dy2 dx3 dy3 dx4 dy4 dx5 dy5 dx6 dy6 flex_depth y) :=
  chain_trans s y _ h (chain_of_seg _ _
    (act_rrflex_seg cmd dx1 dy1 dx2 dy2 dx3 dy3 dx4 dy4 dx5 dy5 dx6 dy6 flex_depth y).1)

theorem chain_hv (cmd : Int) (bottom : Int) (s y : CharstringInterp) (h : Chain s y) :
    Chain s (t2_hv_curve cmd bottom y) := by
  unfold t2_hv_curve
  exact chain_rc _ _ _ _ _ _ _ _ _ h

theorem chain_vh (cmd : Int) (bottom : Int) (s y : CharstringInterp) (h : Chain s y) :
    Chain s (t2_vh_curve cmd bottom y) := by
  unfold t2_vh_curve
  exact chain_rc _ _ _ _ _ _ _ _ _ h

theorem chain_finish (s y : CharstringInterp) (h : Chain s y) : Chain s (finish y).2 :=
  chain_right s y _ h rfl rfl

theorem chain_state (s : CharstringInterp) (st : Int) : Chain s { s with _state := st } :=
  chain_of_same _ _ rfl rfl

theorem t2_rlineto_loop_chain (cmd : Int) :
    ∀ (k : Nat) (bottom : Int) (s y : CharstringInterp), Chain s y →
      Chain s (t2_rlineto_loop cmd k bottom y) := by
  intro k
  induction k with
  | zero => intro bottom s y h; exact h
  | succ k ih =>
    intro bottom s y h
    rw [t2_rlineto_loop]
    split
    · exact ih _ _ _ (chain_rl _ _ _ _ _ h)
    · exact h

theorem t2_hvlineto_loop_chain (cmd : Int) (horizontal : Bool) :
    ∀ (k : Nat) (bottom : Int) (s y : CharstringInterp), Chain s y →
      Chain s (t2_hvlineto_loop cmd horizontal k bottom y) := by
  intro k
  induction k with
  | zero => intro bottom s y h; exact h
  | succ k ih =>
    intro bottom s y h
    rw [t2_hvlineto_loop]
    simp only []
    repeat' split
    all_goals
      first
      | exact h
      | exact ih _ _ _ (chain_rl _ _ _ _ _ h)
      | exact ih _ _ _ (chain_rl _ _ _ _ _ (chain_rl _ _ _ _ _ h))

theorem t2_rrcurveto_loop_chain (cmd : Int) (margin : Int) :
    ∀ (k : Nat) (bottom : Int) (s y : CharstringInterp), Chain s y →
      Chain s (t2_rrcurveto_loop cmd margin k bottom y).1 := by
  intro k
  induction k with
  | zero => intro bottom s y h; exact h
  | succ k ih =>
    intro bottom s y h
    rw [t2_rrcurveto_loop]
    split
    · exact ih _ _ _ (chain_rc _ _ _ _ _ _ _ _ _ h)
    · exact h

theorem t2_rlinecurve_loop_chain (cmd : Int) :
    ∀ (k : Nat) (bottom : Int) (s y : CharstringInterp), Chain s y →
      Chain s (t2_rlinecurve_loop cmd k bottom y).1 := by
  intro k
  induction k with
  | zero => intro bottom s y h; exact h
  | succ k ih =>
    intro bottom s y h
    rw [t2_rlinecurve_loop]
    split
    · exact ih _ _ _ (chain_rl _ _ _ _ _ h)
    · exact h

theorem t2_hhvvcurveto_loop_chain (cmd : Int) (horizontal : Bool) :
    ∀ (k : Nat) (bottom : Int) (s y : CharstringInterp), Chain s y →
      Chain s (t2_hhvvcurveto_loop cmd horizontal k bottom y) := by
  intro k
  induction k with
  | zero => intro bottom s y h; exact h
  | succ k ih =>
    intro bottom s y h
    rw [t2_hhvvcurveto_loop]
    simp only []
    repeat' split
    all_goals
      first
      | exact h
      | exact ih _ _ _ (chain_rc _ _ _ _ _ _ _ _ _ h)

theorem t2_hvvhcurveto_loop_chain (cmd : Int) (horizontal : Bool) :
    ∀ (k : Nat) (bottom : Int) (s y : CharstringInterp), Chain s y →
      Chain s (t2_hvvhcurveto_loop cmd horizontal k bottom y) := by
  intro k
  induction k with
  | zero => intro bottom s y h; exact h
  | succ k ih =>
    intro bottom s y h
    rw [t2_hvvhcurveto_loop]
    cases horizontal
    · simp only [Bool.false_eq_true, ↓reduceIte]
      split
      · split
        · exact ih _ _ _ (chain_hv _ _ _ _ (chain_vh _ _ _ _ h))
        · exact ih _ _ _ (chain_vh _ _ _ _ h)
      · exact h
    · simp only [↓reduceIte]
      split
      · split
        · exact ih _ _ _ (chain_vh _ _ _ _ (chain_hv _ _ _ _ h))
        · exact ih _ _ _ (chain_hv _ _ _ _ h)
      · exact h

theorem t2_draw_underflow (run : Runner) (cmd : Int) (data : Option (List Nat))
    (left : Option Int) (s : CharstringInterp) (hcmd : cmd ∈ t2_drawing)
    (hsize : s.size < t2_draw_operands cmd) :
    type2_command run cmd data left s = some (error errUnderflow cmd s, left) := by
  simp only [t2_drawing, List.mem_cons, List.mem_singleton, List.not_mem_nil, or_false] at hcmd
  rcases hcmd with h | h | h | h | h | h | h | h | h | h | h | h | h | h <;> subst h <;>
    (simp +decide [t2_draw_operands] at hsize
     unfold type2_command
     simp +decide [hsize])

theorem t2_draw_chain_late (run : Runner) (cmd : Int) (data : Option (List Nat))
    (left : Option Int) (s : CharstringInterp) (hcmd : cmd ∈ t2_drawing)
    (hsize : t2_draw_operands cmd ≤ s.size) (hstate : ¬ s._state < S_IPATH) :
    ∃ r : Result, type2_command run cmd data left s = some (r, left) ∧ Chain s r.2 := by
  have h0 := chain_state s S_PATH
  simp only [t2_drawing, List.mem_cons, List.mem_singleton, List.not_mem_nil, or_false] at hcmd
  rcases hcmd with h | h | h | h | h | h | h | h | h | h | h | h | h | h
  · subst h
    simp +decide [t2_draw_operands] at hsize
    have hs : ¬ s.size < _ := not_lt.mpr hsize
    unfold type2_command
    simp +decide only [hs, hstate, check_state, if_false, if_true, false_or, or_false]
    exact ⟨_, rfl, chain_finish _ _ (t2_rlineto_loop_chain _ _ _ _ _ h0)⟩
  · subst h
    simp +decide [t2_draw_operands] at hsize
    have hs : ¬ s.size < _ := not_lt.mpr hsize
    unfold type2_command
    simp +decide only [hs, hstate, check_state, if_false, if_true, false_or, or_false]
    exact ⟨_, rfl, chain_finish _ _ (t2_hvlineto_loop_chain _ _ _ _ _ _ h0)⟩
  · subst h
    simp +decide [t2_draw_operands] at hsize
    have hs : ¬ s.size < _ := not_lt.mpr hsize
    unfold type2_command
    simp +decide only [hs, hstate, check_state, if_false, if_true, false_or, or_false]
    exact ⟨_, rfl, chain_finish _ _ (t2_hvlineto_loop_chain _ _ _ _ _ _ h0)⟩
  · subst h
    simp +decide [t2_draw_operands] at hsize
    have hs : ¬ s.size < _ := not_lt.mpr hsize
    unfold type2_command
    simp +decide only [hs, hstate, check_state, if_false, if_true, false_or, or_false]
    exact ⟨_, rfl, chain_finish _ _ (t2_rrcurveto_loop_chain _ _ _ _ _ _ h0)⟩
  · subst h
    simp +decide [t2_draw_operands] at hsize
    have hs : ¬ s.size < _ := not_lt.mpr hsize
    unfold type2_command
    simp +decide only [hs, hstate, check_state, if_false, if_true, false_or, or_false]
    split
    · exact ⟨_, rfl, chain_finish _ _ (t2_hhvvcurveto_loop_chain _ _ _ _ _ _
        (chain_rc _ _ _ _ _ _ _ _ _ h0))⟩
    · exact ⟨_, rfl, chain_finish _ _ (t2_hhvvcurveto_loop_chain _ _ _ _ _ _ h0)⟩
  · subst h
    simp +decide [t2_draw_operands] at hsize
    have hs : ¬ s.size < _ := not_lt.mpr hsize
    unfold type2_command
    simp +decide only [hs, hstate, check_state, if_false, if_true, false_or, or_false]
    exact ⟨_, rfl, chain_finish _ _ (t2_hvvhcurveto_loop_chain _ _ _ _ _ _ h0)⟩
  · subst h
    simp +decide [t2_draw_operands] at hsize
    have hs : ¬ s.size < _ := not_lt.mpr hsize
    unfold type2_command
    simp +decide only [hs, hstate, check_state, if_false, if_true, false_or, or_false]
    exact ⟨_, rfl, chain_finish _ _ (t2_hvvhcurveto_loop_chain _ _ _ _ _ _ h0)⟩
  · subst h
    simp +decide [t2_draw_operands] at hsize
    have hs : ¬ s.size < _ := not_lt.mpr hsize
    unfold type2_command
    simp +decide only [hs, hstate, check_state, if_false, if_true, false_or, or_false]
    split
    · exact ⟨_, rfl, chain_finish _ _ (t2_hhvvcurveto_loop_chain _ _ _ _ _ _
        (chain_rc _ _ _ _ _ _ _ _ _ h0))⟩
    · exact ⟨_, rfl, chain_finish _ _ (t2_hhvvcurveto_loop_chain _ _ _ _ _ _ h0)⟩
  · subst h
    simp +decide [t2_draw_operands] at hsize
    have hs : ¬ s.size < _ := not_lt.mpr hsize
    unfold type2_command
    simp +decide only [hs, hstate, check_state, if_false, if_true, false_or, or_false]
    exact ⟨_, rfl, chain_finish _ _ (chain_rl _ _ _ _ _
      (t2_rrcurveto_loop_chain _ _ _ _ _ _ h0))⟩
  · subst h
    simp +decide [t2_draw_operands] at hsize
    have hs : ¬ s.size < _ := not_lt.mpr hsize
    unfold type2_command
    simp +decide only [hs, hstate, check_state, if_false, if_true, false_or, or_false]
    exact ⟨_, rfl, chain_finish _ _ (chain_rc _ _ _ _ _ _ _ _ _
      (t2_rlinecurve_loop_chain _ _ _ _ _ h0))⟩
  · subst h
    simp +decide [t2_draw_operands] at hsize
    have hs : ¬ s.size < _ := not_lt.mpr hsize
    unfold type2_command
    simp +decide only [hs, hstate, check_state, if_false, if_true, false_or, or_false]
    exact ⟨_, rfl, chain_finish _ _ (chain_rf _ _ _ _ _ _ _ _ _ _ _ _ _ _ _ _ h0)⟩
  · subst h
    simp +decide [t2_draw_operands] at hsize
    have hs : ¬ s.size < _ := not_lt.mpr hsize
    unfold type2_command
    simp +decide only [hs, hstate, check_state, if_false, if_true, false_or, or_false]
    exact ⟨_, rfl, chain_finish _ _ (chain_rf _ _ _ _ _ _ _ _ _ _ _ _ _ _ _ _ h0)⟩
  · subst h
    simp +decide [t2_draw_operands] at hsize
    have hs : ¬ s.size < _ := not_lt.mpr hsize
    unfold type2_command
    simp +decide only [hs, hstate, check_state, if_false, if_true, false_or, or_false]
    exact ⟨_, rfl, chain_finish _ _ (chain_rf _ _ _ _ _ _ _ _ _ _ _ _ _ _ _ _ h0)⟩
  · subst h
    simp +decide [t2_draw_operands] at hsize
    have hs : ¬ s.size < _ := not_lt.mpr hsize
    unfold type2_command
    simp +decide only [hs, hstate, check_state, if_false, if_true, false_or, or_false]
    split
    · exact ⟨_, rfl, chain_finish _ _ (chain_rf _ _ _ _ _ _ _ _ _ _ _ _ _ _ _ _ h0)⟩
    · exact ⟨_, rfl, chain_finish _ _ (chain_rf _ _ _ _ _ _ _ _ _ _ _ _ _ _ _ _ h0)⟩

theorem t2_draw_chain (run : Runner) (cmd : Int) (data : Option (List Nat))
    (left : Option Int) (s : CharstringInterp) (hcmd : cmd ∈ t2_drawing) :
    ∃ r : Result, type2_command run cmd data left s = some (r, left) ∧ Chain s r.2 := by
  by_cases hsize : t2_draw_operands cmd ≤ s.size
  · by_cases hstate : s._state < S_IPATH
    · exact ⟨_, t2_draw_early run cmd data left s hcmd hsize hstate,
        chain_of_same _ _ rfl rfl⟩
    · exact t2_draw_chain_late run cmd data left s hcmd hsize hstate
  · exact ⟨_, t2_draw_underflow run cmd data left s hcmd (not_le.mp hsize),
      chain_of_same _ _ rfl rfl⟩

theorem t2_rrcurveto_loop_cp (cmd : Int) :
    ∀ (k n : Nat) (bottom : Int) (s : CharstringInterp),
      k ≤ n → s.size = bottom + 6 * k →
      (t2_rrcurveto_loop cmd 5 n bottom s).1._cp.x
        = s._cp.x + (Finset.range (3 * k)).sum (fun i => s.«at» (bottom + 2 * i)) ∧
      (t2_rrcurveto_loop cmd 5 n bottom s).1._cp.y
        = s._cp.y + (Finset.range (3 * k)).sum (fun i => s.«at» (bottom + 2 * i + 1)) := by
  intro k
  induction k with
  | zero =>
    intro n bottom s _ hs
    have hc : ¬ bottom + 5 < s.size := by
      rw [hs]
      simp
    cases n with
    | zero => simp [t2_rrcurveto_loop]
    | succ n =>
      rw [t2_rrcurveto_loop, if_neg hc]
      simp
  | succ k ih =>
    intro n bottom s hn hs
    cases n with
    | zero => omega
    | succ n =>
      have hc : bottom + 5 < s.size := by
        rw [hs]
        push_cast
        omega
      rw [t2_rrcurveto_loop, if_pos hc]
      have hcp := (act_rrcurveto_seg cmd (s.«at» bottom) (s.«at» (bottom + 1))
        (s.«at» (bottom + 2)) (s.«at» (bottom + 3)) (s.«at» (bottom + 4))
        (s.«at» (bottom + 5)) s).2
      have hcells := act_rrcurveto_cells cmd (s.«at» bottom) (s.«at» (bottom + 1))
        (s.«at» (bottom + 2)) (s.«at» (bottom + 3)) (s.«at» (bottom + 4))
        (s.«at» (bottom + 5)) s
      have hsp := act_rrcurveto_sp cmd (s.«at» bottom) (s.«at» (bottom + 1))
        (s.«at» (bottom + 2)) (s.«at» (bottom + 3)) (s.«at» (bottom + 4))
        (s.«at» (bottom + 5)) s
      have h := ih n (bottom + 6) _ (by omega)
        (show (act_rrcurveto cmd (s.«at» bottom) (s.«at» (bottom + 1))
          (s.«at» (bottom + 2)) (s.«at» (bottom + 3)) (s.«at» (bottom + 4))
          (s.«at» (bottom + 5)) s).size = bottom + 6 + 6 * k by
            show (act_rrcurveto _ _ _ _ _ _ _ s)._sp = _
            rw [hsp]
            have hs' : s._sp = bottom + 6 * ((k + 1 : Nat) : Int) := hs
            rw [hs']
            push_cast
            ring)
      have hat : ∀ j, (act_rrcurveto cmd (s.«at» bottom) (s.«at» (bottom + 1))
          (s.«at» (bottom + 2)) (s.«at» (bottom + 3)) (s.«at» (bottom + 4))
          (s.«at» (bottom + 5)) s).«at» j = s.«at» j := fun j => congrFun hcells j
      have e3 : 3 * (k + 1) = 3 * k + 1 + 1 + 1 := by ring
      have i0 : ∀ i : Nat, bottom + 6 + 2 * (i : Int) = bottom + 2 * ((i + 1 + 1 + 1 : Nat) : Int) := by
        intro i; push_cast; ring
      rw [h.1, h.2, hcp, e3]
      simp only [hat, Finset.sum_range_succ', i0, Point.shifted]
      constructor
      · simp only [Nat.cast_zero, mul_zero, add_zero, zero_add, Nat.cast_one, mul_one,
          Nat.cast_add]
        ring_nf
        congr 1
        refine Finset.sum_congr rfl (fun x _ => ?_)
        congr 1
        ring
      · simp only [Nat.cast_zero, mul_zero, add_zero, zero_add, Nat.cast_one, mul_one,
          Nat.cast_add]
        ring_nf
        congr 1
        refine Finset.sum_congr rfl (fun x _ => ?_)
        congr 1
        ring

theorem point_eq (p q : Point) (hx : p.x = q.x) (hy : p.y = q.y) : p = q := by
  cases p
  cases q
  simp only [Point.mk.injEq]
  exact ⟨hx, hy⟩

theorem rrcurveto_cp (run : Runner) (data : Option (List Nat)) (left : Option Int)
    (s : CharstringInterp) (k : Nat) (hsize : s.size = 6 * k) (hstate : S_IPATH ≤ s._state) :
    ∃ r : Result, type2_command run CS.cRrcurveto data left s = some (r, left) ∧
      r.2._cp = s._cp.shifted ((Finset.range (3 * k)).sum (fun i => s.«at» (2 * i)))
        ((Finset.range (3 * k)).sum (fun i => s.«at» (2 * i + 1))) := by
  cases k with
  | zero =>
    refine ⟨_, t2_draw_underflow run CS.cRrcurveto data left s (by decide)
      (by rw [hsize]; decide), ?_⟩
    refine point_eq _ _ ?_ ?_ <;> simp [Point.shifted, error]
  | succ k =>
    have hs : ¬ s.size < 6 := by
      rw [hsize]
      push_cast
      omega
    have hst : ¬ s._state < S_IPATH := not_lt.mpr hstate
    have e : type2_command run CS.cRrcurveto data left s
        = some (finish (t2_rrcurveto_loop CS.cRrcurveto 5 s.size.toNat 0
            { s with _state := S_PATH }).1, left) := by
      unfold type2_command
      simp +decide only [hs, hst, check_state, if_false, if_true, false_or, or_false]
      rfl
    have h := t2_rrcurveto_loop_cp CS.cRrcurveto (k + 1) s.size.toNat 0
      { s with _state := S_PATH } (by rw [hsize]; omega)
      (by show s._sp = _; rw [zero_add]; exact hsize)
    refine ⟨_, e, ?_⟩
    refine point_eq _ _ ?_ ?_
    · refine h.1.trans ?_
      simp only [zero_add, Point.shifted]
      rfl
    · refine h.2.trans ?_
      simp only [zero_add, Point.shifted]
      rfl

/-- C34, amended: path segments are chained through the current point. The
call that `act_rlineto`, `act_rrcurveto` or `act_rrflex` makes (of `act_line`,
`act_curve`, `act_flex`) is a segment that starts at the current point held
before the call and ends at the current point held after it, and the curves
into which the implementation of the source resolves a line or a flex are
chained between the same two points. Every Type 2 drawing opcode returns, and
the calls it adds are segments of which the first starts at the current point
held before the opcode, each one starts where the one before it ended, and
the last ends at the current point held afterwards (no segment and the same
current point when the opcode fails). Type 2 rrcurveto with `6k` operands
executed in state IPath or Path leaves the current point at the starting
point shifted by the sum of the even-indexed operands and the sum of the
odd-indexed operands. -/
theorem C34_segments_chained :
    (∀ (cmd : Int) (dx dy : ℚ) (s : CharstringInterp),
      Seg s (act_rlineto cmd dx dy s)) ∧
    (∀ (cmd : Int) (dx1 dy1 dx2 dy2 dx3 dy3 : ℚ) (s : CharstringInterp),
      Seg s (act_rrcurveto cmd dx1 dy1 dx2 dy2 dx3 dy3 s)) ∧
    (∀ (cmd : Int) (dx1 dy1 dx2 dy2 dx3 dy3 dx4 dy4 dx5 dy5 dx6 dy6 flex_depth : ℚ)
        (s : CharstringInterp),
      Seg s (act_rrflex cmd dx1 dy1 dx2 dy2 dx3 dy3 dx4 dy4 dx5 dy5 dx6 dy6 flex_depth s)) ∧
    (∀ (run : Runner) (cmd : Int) (data : Option (List Nat)) (left : Option Int)
        (s : CharstringInterp), cmd ∈ t2_drawing →
      ∃ r : Result, type2_command run cmd data left s = some (r, left) ∧ Chain s r.2) ∧
    (∀ (run : Runner) (data : Option (List Nat)) (left : Option Int) (s : CharstringInterp)
        (k : Nat), s.size = 6 * k → S_IPATH ≤ s._state →
      ∃ r : Result, type2_command run CS.cRrcurveto data left s = some (r, left) ∧
        r.2._cp = s._cp.shifted ((Finset.range (3 * k)).sum (fun i => s.«at» (2 * i)))
          ((Finset.range (3 * k)).sum (fun i => s.«at» (2 * i + 1)))) :=
  ⟨fun cmd dx dy s => (act_rlineto_seg cmd dx dy s).1,
    fun cmd dx1 dy1 dx2 dy2 dx3 dy3 s => (act_rrcurveto_seg cmd dx1 dy1 dx2 dy2 dx3 dy3 s).1,
    fun cmd dx1 dy1 dx2 dy2 dx3 dy3 dx4 dy4 dx5 dy5 dx6 dy6 flex_depth s =>
      (act_rrflex_seg cmd dx1 dy1 dx2 dy2 dx3 dy3 dx4 dy4 dx5 dy5 dx6 dy6 flex_depth s).1,
    t2_draw_chain, rrcurveto_cp⟩

/-- C34, witness: the statement at `1 .. 12 rrcurveto` on the recording object in
state IPath with the current point `(0, 0)`: two curves, the first from
`(0, 0)` to `(9, 12)`, the second from `(9, 12)` to `(36, 42)`, which is the
current point afterwards. -/
theorem C34_segments_chained_witness :
    (∃ r : Result, type2_command (run 0) CS.cRrcurveto none none C34_input = some (r, none) ∧
      Chain C34_input r.2) ∧
    (∃ r : Result, type2_command (run 0) CS.cRrcurveto none none C34_input = some (r, none) ∧
      r.2._cp = C34_input._cp.shifted
        ((Finset.range (3 * 2)).sum (fun i => C34_input.«at» (2 * i)))
        ((Finset.range (3 * 2)).sum (fun i => C34_input.«at» (2 * i + 1)))) ∧
    CS.cRrcurveto ∈ t2_drawing ∧ C34_input.size = 6 * ((2 : Nat) : Int) ∧
    S_IPATH ≤ C34_input._state ∧ C34_input._cp = ⟨0, 0⟩ ∧
    (type2_command (run 0) CS.cRrcurveto none none C34_input).map
        (fun r => (r.1.1, r.1.2._cp, r.1.2.calls))
      = some (true, ⟨36, 42⟩,
          [Act.curve CS.cRrcurveto ⟨0, 0⟩ ⟨1, 2⟩ ⟨4, 6⟩ ⟨9, 12⟩,
           Act.curve CS.cRrcurveto ⟨9, 12⟩ ⟨16, 20⟩ ⟨25, 30⟩ ⟨36, 42⟩]) :=
  ⟨C34_segments_chained.2.2.2.1 (run 0) CS.cRrcurveto none none C34_input (by decide),
    C34_segments_chained.2.2.2.2 (run 0) none none C34_input 2 (by decide) (by decide),
    by decide, by decide, by decide, by decide!, by decide!⟩

/-- C34, counterexample: `1 .. 12 rrcurveto` executed in state Initial (twelve
operands, `6k` with `k = 2`) fails with `errOrdering`: no curve is emitted and
the current point stays `(0, 0)`, where the claim has it shifted by
`(1 + 3 + 5 + 7 + 9 + 11, 2 + 4 + 6 + 8 + 10 + 12) = (36, 42)`. -/
theorem C34_early_rrcurveto_counterexample :
    C34_early_input._state = S_INITIAL ∧ C34_early_input.size = 6 * 2 ∧
    C34_early_input._cp.shifted
        ((Finset.range (3 * 2)).sum (fun i => C34_early_input.«at» (2 * i)))
        ((Finset.range (3 * 2)).sum (fun i => C34_early_input.«at» (2 * i + 1)))
      = ⟨36, 42⟩ ∧
    (type2_command (run 0) CS.cRrcurveto none none C34_early_input).map
        (fun r => (r.1.1, r.1.2._error, r.1.2._cp, r.1.2.calls))
      = some (false, errOrdering, ⟨0, 0⟩, []) ∧
    ¬ (∃ r : Result,
      type2_command (run 0) CS.cRrcurveto none none C34_early_input = some (r, none) ∧
      r.2._cp = C34_early_input._cp.shifted
        ((Finset.range (3 * 2)).sum (fun i => C34_early_input.«at» (2 * i)))
        ((Finset.range (3 * 2)).sum (fun i => C34_early_input.«at» (2 * i + 1)))) := by
  have e1 : C34_early_input._cp.shifted
        ((Finset.range (3 * 2)).sum (fun i => C34_early_input.«at» (2 * i)))
        ((Finset.range (3 * 2)).sum (fun i => C34_early_input.«at» (2 * i + 1)))
      = ⟨36, 42⟩ := by decide!
  have e2 : (type2_command (run 0) CS.cRrcurveto none none C34_early_input).map
        (fun r => (r.1.1, r.1.2._error, r.1.2._cp, r.1.2.calls))
      = some (false, errOrdering, ⟨0, 0⟩, []) := by decide!
  refine ⟨by decide, by decide, e1, e2, ?_⟩
  rintro ⟨r, h1, h2⟩
  rw [h1] at e2
  simp only [Option.map_some', Option.some.injEq, Prod.mk.injEq] at e2
  rw [h2, e1] at e2
  exact absurd e2.2.2.1 (by decide)

/-! ### The error latch is polled once for each opcode -/

theorem t2_draw_polled (run : Runner) (cmd : Int) (data : Option (List Nat))
    (left : Option Int) (s : CharstringInterp) (hcmd : cmd ∈ t2_drawing) :
    ∃ r : Result, type2_command run cmd data left s = some (r, left) ∧
      r.1 = decide (r.2._error ≥ 0) := by
  by_cases hsize : t2_draw_operands cmd ≤ s.size
  · by_cases hstate : s._state < S_IPATH
    · exact ⟨_, t2_draw_early run cmd data left s hcmd hsize hstate, rfl⟩
    · simp only [t2_drawing, List.mem_cons, List.mem_singleton, List.not_mem_nil,
        or_false] at hcmd
      rcases hcmd with h | h | h | h | h | h | h | h | h | h | h | h | h | h <;> subst h <;>
        (simp +decide [t2_draw_operands] at hsize
         have hs : ¬ s.size < _ := not_lt.mpr hsize
         unfold type2_command
         simp +decide only [hs, hstate, check_state, if_false, if_true, false_or, or_false]
         first
         | exact ⟨_, rfl, rfl⟩
         | (split <;> exact ⟨_, rfl, rfl⟩))
  · exact ⟨_, t2_draw_underflow run cmd data left s hcmd (not_le.mp hsize), rfl⟩

theorem t1_draw_polled (run : Runner) (cmd : Int) (s : CharstringInterp)
    (hcmd : cmd ∈ t1_drawing) :
    ∃ r : Result, type1_command run cmd s = some r ∧ r.1 = decide (r.2._error ≥ 0) := by
  simp only [t1_drawing, List.mem_cons, List.mem_singleton, List.not_mem_nil,
    or_false] at hcmd
  rcases hcmd with h | h | h | h | h | h <;> subst h <;>
    (unfold type1_command
     simp +decide only [if_false, if_true, false_or, or_false]
     split <;> exact ⟨_, rfl, rfl⟩)

theorem run_type1_stops (run : Runner) (cmd : Int) (rest : List Item) (s : CharstringInterp)
    (r : Result) (h : type1_command run cmd s = some r) (hr : r.1 = false) :
    run_type1 run (Item.command cmd :: rest) s = some r.2 := by
  simp [run_type1, h, hr]

theorem run_type2_stops (run : Runner) (k : Nat) (cmd : Int) (rest : List Item)
    (s : CharstringInterp) (r : Result) (left : Option Int)
    (h : type2_command run cmd (some ((rest.takeWhile Item.is_byte).map Item.byte_value))
      (some (rest.length : Int)) s = some (r, left))
    (hr : r.1 = false) :
    run_type2 run (k + 1) (Item.command cmd :: rest) s = some r.2 := by
  simp [run_type2, h, hr]

/-- C22, amended: the error latch is polled once for each opcode. Every
drawing opcode of Type 1 and of Type 2 returns `error() >= 0` after it has made
all its callbacks, and when the error is then latched the run of the
charstring ends in the state the opcode left: no callback is made by a later
opcode of the charstring. -/
theorem C22_latch_polled_once (run : Runner) (s : CharstringInterp) (rest : List Item) :
    (∀ cmd ∈ t1_drawing, ∃ r : Result, type1_command run cmd s = some r ∧
      r.1 = decide (r.2._error ≥ 0) ∧
      (r.2._error < 0 → run_type1 run (Item.command cmd :: rest) s = some r.2)) ∧
    (∀ cmd ∈ t2_drawing, ∀ k : Nat, ∃ r : Result,
      type2_command run cmd (some ((rest.takeWhile Item.is_byte).map Item.byte_value))
        (some (rest.length : Int)) s = some (r, some (rest.length : Int)) ∧
      r.1 = decide (r.2._error ≥ 0) ∧
      (r.2._error < 0 → run_type2 run (k + 1) (Item.command cmd :: rest) s = some r.2)) := by
  constructor
  · intro cmd hcmd
    obtain ⟨r, h, hr⟩ := t1_draw_polled run cmd s hcmd
    refine ⟨r, h, hr, fun herr => run_type1_stops run cmd rest s r h ?_⟩
    rw [hr]
    exact decide_eq_false (by omega)
  · intro cmd hcmd k
    obtain ⟨r, h, hr⟩ := t2_draw_polled run cmd _ _ s hcmd
    refine ⟨r, h, hr, fun herr => run_type2_stops run k cmd rest s r _ h ?_⟩
    rw [hr]
    exact decide_eq_false (by omega)

/-- C22, amended, witness: on the operands `1 2 3 4` in state IPath with the
default callbacks, rlineto returns false with `errUnimplemented` latched, and
the run of `1 2 3 4 rlineto 5 6 rlineto` from there ends in the state the first
rlineto left; and the charstring `0 0 rmoveto 1 2 3 4 rlineto 5 6 rlineto` run
from `init()` makes the same calls as without its second rlineto. -/
theorem C22_latch_polled_once_witness :
    CS.cRlineto ∈ t2_drawing ∧
    (∃ r : Result,
      type2_command (run 0) CS.cRlineto (some []) (some 3) C22_line_input = some (r, some 3) ∧
      r.1 = false ∧ r.2._error = errUnimplemented ∧
      run_type2 (run 0) 1
        [.command CS.cRlineto, .number 5, .number 6, .command CS.cRlineto] C22_line_input
        = some r.2) ∧
    (run 1 C22_long_charstring (create none none)).map (fun x => x._trace)
      = (run 1 C22_charstring (create none none)).map (fun x => x._trace) := by
  obtain ⟨r, h, hr, hstop⟩ := (C22_latch_polled_once (run 0) C22_line_input
    [.number 5, .number 6, .command CS.cRlineto]).2 CS.cRlineto (by decide) 0
  have e : type2_command (run 0) CS.cRlineto (some []) (some 3) C22_line_input
      = some (r, some 3) := h
  have hr2 : r = ((type2_command (run 0) CS.cRlineto (some []) (some 3) C22_line_input).getD
      ((false, C22_line_input), none)).1 := by rw [e]; rfl
  have herr : r.2._error = errUnimplemented := by
    rw [hr2]
    decide!
  refine ⟨by decide, ⟨r, e, ?_, herr, hstop ?_⟩, by decide!⟩
  · rw [hr, herr]
    decide
  · rw [herr]
    decide

end CharstringInterp

end Efont

namespace T1reencode

/-! ### The encoding reader: `tokenize` -/

theorem skip_space_bounds : ∀ (l : List Nat) (pos : Nat) (line : Int),
    pos ≤ (skip_space l pos line).1 ∧ (skip_space l pos line).1 ≤ pos + l.length := by
  intro l
  induction l with
  | nil => intro pos line; simp [skip_space]
  | cons c rest ih =>
    intro pos line
    rw [skip_space]
    split
    · have h := ih (pos + 1) (if c = chNewline then line + 1
        else if c = chReturn ∧ (rest = [] ∨ rest.head? ≠ some chNewline) then line + 1
        else line)
      simp only [List.length_cons]
      omega
    · simp

theorem skip_space_stop : ∀ (l : List Nat) (pos : Nat) (line : Int) (c : Nat) (rest : List Nat),
    l.drop ((skip_space l pos line).1 - pos) = c :: rest → isspace c = false := by
  intro l
  induction l with
  | nil => intro pos line c rest h; simp at h
  | cons d l ih =>
    intro pos line c rest h
    rw [skip_space] at h
    split at h
    · rename_i hd
      have hb := skip_space_bounds l (pos + 1) (if d = chNewline then line + 1
        else if d = chReturn ∧ (l = [] ∨ l.head? ≠ some chNewline) then line + 1
        else line)
      simp only [] at h
      have e : (skip_space l (pos + 1) (if d = chNewline then line + 1
          else if d = chReturn ∧ (l = [] ∨ l.head? ≠ some chNewline) then line + 1
          else line)).1 - pos
        = ((skip_space l (pos + 1) (if d = chNewline then line + 1
          else if d = chReturn ∧ (l = [] ∨ l.head? ≠ some chNewline) then line + 1
          else line)).1 - (pos + 1)) + 1 := by omega
      rw [e, List.drop_succ_cons] at h
      exact ih _ _ c rest h
    · rename_i hd
      simp only [Nat.sub_self, List.drop_zero, List.cons.injEq] at h
      rw [← h.1]
      simpa using hd

theorem skip_comment_bounds : ∀ (l : List Nat) (pos : Nat),
    pos ≤ skip_comment l pos ∧ skip_comment l pos ≤ pos + l.length := by
  intro l
  induction l with
  | nil => intro pos; simp [skip_comment]
  | cons c rest ih =>
    intro pos
    rw [skip_comment]
    split
    · have h := ih (pos + 1)
      simp only [List.length_cons]
      omega
    · simp

theorem skip_slashes_bounds : ∀ (l : List Nat) (pos : Nat),
    pos ≤ skip_slashes l pos ∧ skip_slashes l pos ≤ pos + l.length := by
  intro l
  induction l with
  | nil => intro pos; simp [skip_slashes]
  | cons c rest ih =>
    intro pos
    rw [skip_slashes]
    split
    · have h := ih (pos + 1)
      simp only [List.length_cons]
      omega
    · simp

theorem scan_regular_bounds : ∀ (l : List Nat) (pos : Nat),
    pos ≤ scan_regular l pos ∧ scan_regular l pos ≤ pos + l.length := by
  intro l
  induction l with
  | nil => intro pos; simp [scan_regular]
  | cons c rest ih =>
    intro pos
    rw [scan_regular]
    split
    · have h := ih (pos + 1)
      simp only [List.length_cons]
      omega
    · simp

theorem scan_string_bounds : ∀ (n : Nat) (l : List Nat) (pos : Nat) (nest line : Int),
    l.length ≤ n →
    pos ≤ (scan_string l pos nest line).1 ∧ (scan_string l pos nest line).1 ≤ pos + l.length := by
  intro n
  induction n with
  | zero =>
    intro l pos nest line hl
    have e : l = [] := List.length_eq_zero.mp (Nat.le_zero.mp hl)
    subst e
    simp [scan_string]
  | succ n ih =>
    intro l pos nest line hl
    cases l with
    | nil => simp [scan_string]
    | cons c rest =>
      have hr : rest.length ≤ n := by
        simp only [List.length_cons] at hl
        omega
      have h1 : ∀ (ne li : Int), pos ≤ (scan_string rest (pos + 1) ne li).1 ∧
          (scan_string rest (pos + 1) ne li).1 ≤ pos + (c :: rest).length := by
        intro ne li
        have h := ih rest (pos + 1) ne li hr
        simp only [List.length_cons]
        omega
      cases rest with
      | nil =>
        simp only [scan_string]
        repeat' split
        all_goals simp
      | cons d rest2 =>
        have h2 : pos ≤ (scan_string rest2 (pos + 1 + 1) nest line).1 ∧
            (scan_string rest2 (pos + 1 + 1) nest line).1 ≤ pos + (c :: d :: rest2).length := by
          have h := ih rest2 (pos + 1 + 1) nest line (by
            simp only [List.length_cons] at hr
            omega)
          simp only [List.length_cons]
          omega
        simp only [scan_string]
        repeat' split
        all_goals first | exact h1 _ _ | exact h2 | simp

theorem name_advances (c : Nat) (rest : List Nat) (pos : Nat)
    (hs : isspace c = false) (h1 : c ≠ chPercent)
    (h2 : ¬ (c = chLBracket ∨ c = chRBracket ∨ c = chLBrace ∨ c = chRBrace))
    (h3 : c ≠ chLParen) :
    pos + 1 ≤ scan_regular ((c :: rest).drop (skip_slashes (c :: rest) pos - pos))
      (skip_slashes (c :: rest) pos) := by
  by_cases hc : c = chSlash
  · have h := skip_slashes_bounds rest (pos + 1)
    have e : skip_slashes (c :: rest) pos = skip_slashes rest (pos + 1) := by
      rw [skip_slashes, if_pos hc]
    rw [e]
    have h' := scan_regular_bounds ((c :: rest).drop (skip_slashes rest (pos + 1) - pos))
      (skip_slashes rest (pos + 1))
    omega
  · have e : skip_slashes (c :: rest) pos = pos := by
      rw [skip_slashes, if_neg hc]
    rw [e, Nat.sub_self, List.drop_zero, scan_regular]
    have hcond : c ≠ chSlash ∧ isspace c = false ∧ c ≠ chLBracket ∧ c ≠ chRBracket
        ∧ c ≠ chPercent ∧ c ≠ chLParen ∧ c ≠ chLBrace ∧ c ≠ chRBrace := by
      refine ⟨hc, hs, ?_, ?_, h1, h3, ?_, ?_⟩
      · exact fun h => h2 (Or.inl h)
      · exact fun h => h2 (Or.inr (Or.inl h))
      · exact fun h => h2 (Or.inr (Or.inr (Or.inl h)))
      · exact fun h => h2 (Or.inr (Or.inr (Or.inr h)))
    rw [if_pos hcond]
    exact (scan_regular_bounds rest (pos + 1)).1

theorem substring_ne_nil (s : List Nat) (pos n : Nat) (hp : pos < s.length) (hn : 1 ≤ n) :
    substring s pos n ≠ [] := by
  intro h
  have hl : (substring s pos n).length = 0 := by rw [h]; rfl
  simp only [substring, List.length_take, List.length_drop] at hl
  omega

theorem drop_cons_getD (s : List Nat) (pos : Nat) (hp : pos < s.length) :
    s.drop pos = s.getD pos 0 :: s.drop (pos + 1) := by
  rw [List.getD_eq_getElem s 0 hp]
  exact List.drop_eq_getElem_cons hp

theorem tokenize_loop_spec (s : List Nat) :
    ∀ (fuel pos : Nat) (line : Int), s.length + 1 ≤ pos + fuel → 1 ≤ fuel →
      ∃ (token : List Nat) (p : Nat) (l : Int),
        tokenize_loop s fuel pos line = some (token, p, l) ∧
        ((token = [] ∧ p = s.length) ∨ (token ≠ [] ∧ pos < p ∧ p ≤ s.length)) := by
  intro fuel
  induction fuel with
  | zero => intro pos line _ h; omega
  | succ fuel ih =>
    intro pos line hf _
    have hb := skip_space_bounds (s.drop pos) pos line
    have hstop := skip_space_stop (s.drop pos) pos line
    rw [tokenize_loop]
    simp only []
    generalize (skip_space (s.drop pos) pos line) = r at hb hstop
    rw [List.length_drop] at hb
    by_cases hlen : r.1 ≥ s.length
    · rw [if_pos hlen]
      exact ⟨_, _, _, rfl, Or.inl ⟨rfl, rfl⟩⟩
    · rw [if_neg hlen]
      have hp : r.1 < s.length := not_le.mp hlen
      have hd := drop_cons_getD s r.1 hp
      have hsp : isspace (s.getD r.1 0) = false := by
        refine hstop (s.getD r.1 0) (s.drop (r.1 + 1)) ?_
        rw [List.drop_drop, ← hd]
        congr 1
        omega
      by_cases h1 : s.getD r.1 0 = chPercent
      · rw [if_pos h1]
        have hc := skip_comment_bounds (s.drop (r.1 + 1)) (r.1 + 1)
        rw [List.length_drop] at hc
        obtain ⟨token, p, l, e, hr⟩ := ih (skip_comment (s.drop (r.1 + 1)) (r.1 + 1)) r.2
          (by omega) (by omega)
        refine ⟨token, p, l, e, ?_⟩
        rcases hr with h | h
        · exact Or.inl h
        · exact Or.inr ⟨h.1, by omega, h.2.2⟩
      · rw [if_neg h1]
        by_cases h2 : s.getD r.1 0 = chLBracket ∨ s.getD r.1 0 = chRBracket
            ∨ s.getD r.1 0 = chLBrace ∨ s.getD r.1 0 = chRBrace
        · rw [if_pos h2]
          exact ⟨_, _, _, rfl, Or.inr ⟨substring_ne_nil s r.1 1 hp (le_refl 1),
            by omega, by omega⟩⟩
        · rw [if_neg h2]
          by_cases h3 : s.getD r.1 0 = chLParen
          · rw [if_pos h3]
            have hc := scan_string_bounds _ (s.drop (r.1 + 1)) (r.1 + 1) 0 r.2 (le_refl _)
            rw [List.length_drop] at hc
            refine ⟨_, _, _, rfl, Or.inr ⟨?_, ?_, ?_⟩⟩
            · refine substring_ne_nil s r.1 _ hp ?_
              split <;> omega
            · split <;> omega
            · split <;> omega
          · rw [if_neg h3]
            have ha := name_advances (s.getD r.1 0) (s.drop (r.1 + 1)) r.1 hsp h1 h2 h3
            rw [← hd] at ha
            have hs1 := skip_slashes_bounds (s.drop r.1) r.1
            rw [List.length_drop] at hs1
            have e : (s.drop r.1).drop (skip_slashes (s.drop r.1) r.1 - r.1)
                = s.drop (skip_slashes (s.drop r.1) r.1) := by
              rw [List.drop_drop]
              congr 1
              omega
            rw [e] at ha
            have hs2 := scan_regular_bounds (s.drop (skip_slashes (s.drop r.1) r.1))
              (skip_slashes (s.drop r.1) r.1)
            rw [List.length_drop] at hs2
            exact ⟨_, _, _, rfl, Or.inr ⟨substring_ne_nil s r.1 _ hp (by omega),
              by omega, by omega⟩⟩

/-- The function `tokenize` returns on every input, and the token, position and
line it returns satisfy: either the token is empty and the position is the
input length, or the token is not empty and the position has strictly
advanced, not past the input length. -/
theorem tokenize_spec (s : List Nat) (pos : Nat) (line : Int) :
    ∃ (token : List Nat) (p : Nat) (l : Int),
      tokenize s pos line = some (token, p, l) ∧
      ((token = [] ∧ p = s.length) ∨ (token ≠ [] ∧ pos < p ∧ p ≤ s.length)) :=
  tokenize_loop_spec s (s.length + 1) pos line (by omega) (by omega)

/-! ### The encoding reader: `parse_encoding` -/

theorem is_name_ne_nil (token : List Nat) (h : is_name token = true) : token ≠ [] := by
  simp only [is_name, decide_eq_true_eq] at h
  exact h.1

theorem is_name_iff_head (token : List Nat) :
    is_name token = true ↔ token.head? = some chSlash := by
  simp only [is_name, decide_eq_true_eq]
  constructor
  · exact fun h => h.2
  · intro h
    refine ⟨?_, h⟩
    intro e
    rw [e] at h
    simp at h

theorem parse_loop_spec (s : List Nat) :
    ∀ (f pos : Nat) (line : Int) (e : Nat) (t1e : Type1Encoding) (F : Nat),
      257 ≤ e + f → e ≤ 256 → s.length + 1 ≤ pos + F → 1 ≤ F →
      ∃ msgs, parse_loop s f pos line e t1e
        = some (t1e ++ numbered e
            (((tokens_from s F pos line).takeWhile is_name).take (256 - e)), msgs) := by
  intro f
  induction f with
  | zero => intro pos line e t1e F h1 h2; omega
  | succ f ih =>
    intro pos line e t1e F h1 h2 h3 h4
    obtain ⟨token, p, l, ht, hr⟩ := tokenize_spec s pos line
    obtain ⟨F, rfl⟩ : ∃ G, F = G + 1 := ⟨F - 1, by omega⟩
    rw [parse_loop, tokens_from, ht]
    simp only []
    by_cases hn : is_name token = true
    · have hne := is_name_ne_nil token hn
      rw [if_pos hn, if_neg hne, List.takeWhile_cons_of_pos hn]
      rcases hr with hr | hr
      · exact absurd hr.1 hne
      · by_cases he : e > 255
        · rw [if_pos he]
          have e0 : 256 - e = 0 := by omega
          rw [e0]
          exact ⟨[Message.too_many l], by simp [numbered]⟩
        · rw [if_neg he]
          obtain ⟨msgs, hm⟩ := ih p l (e + 1) (t1e ++ [(e, substring token 1 token.length)]) F
            (by omega) (by omega) (by omega) (by omega)
          refine ⟨msgs, ?_⟩
          rw [hm]
          have e1 : 256 - e = (256 - (e + 1)) + 1 := by omega
          rw [e1, List.take_succ_cons]
          simp [numbered]
    · rw [if_neg hn]
      refine ⟨[], ?_⟩
      by_cases h0 : token = []
      · rw [if_pos h0]
        simp [numbered]
      · rw [if_neg h0, List.takeWhile_cons_of_neg hn]
        simp [numbered]

theorem numbered_length : ∀ (l : List (List Nat)) (e : Nat), (numbered e l).length = l.length := by
  intro l
  induction l with
  | nil => intro e; rfl
  | cons t l ih => intro e; simp [numbered, ih]

theorem numbered_codes : ∀ (l : List (List Nat)) (e : Nat),
    (numbered e l).map Prod.fst = List.range' e l.length := by
  intro l
  induction l with
  | nil => intro e; rfl
  | cons t l ih => intro e; simp [numbered, ih, List.range']

theorem parse_encoding_spec (s : List Nat) :
    ∃ r : Parsed, parse_encoding s = some r ∧
      (r.encoding = none ↔
        ((first_tokens s).1.head? ≠ some chSlash ∨ (first_tokens s).2 ≠ [chLBracket])) ∧
      ∀ enc, r.encoding = some enc →
        enc = numbered 0 (((tokens_from s (s.length + 1) (after_bracket s).1
          (after_bracket s).2).takeWhile is_name).take 256) ∧
        enc.length ≤ 256 ∧ enc.map Prod.fst = List.range enc.length := by
  obtain ⟨t1, p1, l1, h1, hr1⟩ := tokenize_spec s 0 1
  obtain ⟨t2, p2, l2, h2, hr2⟩ := tokenize_spec s p1 l1
  have hf : first_tokens s = (t1, t2) := by
    simp only [first_tokens, h1, h2]
  have ha : after_bracket s = (p2, l2) := by
    simp only [after_bracket, h1, h2]
  rw [hf, ha]
  unfold parse_encoding
  rw [h1]
  simp only []
  by_cases hn : is_name t1 = true
  · have hh := (is_name_iff_head t1).mp hn
    rw [if_neg (by simpa using hn), h2]
    simp only []
    by_cases hb : t2 ≠ [chLBracket]
    · rw [if_pos hb]
      exact ⟨_, rfl, by simp [hb], by simp⟩
    · rw [if_neg hb]
      have hp2 : p2 ≤ s.length := by
        rcases hr2 with h | h
        · omega
        · exact h.2.2
      obtain ⟨msgs, hm⟩ := parse_loop_spec s 257 p2 l2 0 [] (s.length + 1)
        (by omega) (by omega) (by omega) (by omega)
      rw [hm]
      refine ⟨_, rfl, ?_, ?_⟩
      · simp only [Option.map_some', reduceCtorEq, false_iff, not_or, not_not]
        exact ⟨hh, not_not.mp hb⟩
      · intro enc henc
        simp only [Option.map_some', Option.some.injEq, List.nil_append, Nat.sub_zero] at henc
        subst henc
        refine ⟨rfl, ?_, ?_⟩
        · rw [numbered_length, List.length_take]
          omega
        · rw [numbered_codes, numbered_length, List.range_eq_range']
  · have hh : t1.head? ≠ some chSlash := fun h => hn ((is_name_iff_head t1).mpr h)
    rw [if_pos (by simpa using hn)]
    exact ⟨_, rfl, by simp [hh], by simp⟩

/-- C35, amended: `parse_encoding` returns on every input string. Each call of
`tokenize` returns, either the empty token with the position set to the input
length, or a non-empty token with the position strictly advanced and not past
the input length. `parse_encoding` returns no encoding exactly when the first
token does not start with `/` or the second token is not `[`; otherwise it
stores at most 256 glyph names, at the codes `0, 1, 2, ...` in order: the
name at code `i` is the `i`-th token of the unbroken run of `/`-prefixed
tokens that follows the `[`, without its first character. -/
theorem C35_encoding_reader :
    (∀ (s : List Nat) (pos : Nat) (line : Int),
      ∃ (token : List Nat) (p : Nat) (l : Int),
        tokenize s pos line = some (token, p, l) ∧
        ((token = [] ∧ p = s.length) ∨ (token ≠ [] ∧ pos < p ∧ p ≤ s.length))) ∧
    (∀ s : List Nat,
      ∃ r : Parsed, parse_encoding s = some r ∧
        (r.encoding = none ↔
          ((first_tokens s).1.head? ≠ some chSlash ∨ (first_tokens s).2 ≠ [chLBracket])) ∧
        ∀ enc, r.encoding = some enc →
          enc = numbered 0 (((tokens_from s (s.length + 1) (after_bracket s).1
            (after_bracket s).2).takeWhile is_name).take 256) ∧
          enc.length ≤ 256 ∧ enc.map Prod.fst = List.range enc.length) :=
  ⟨tokenize_spec, parse_encoding_spec⟩

/-- C35, witness: the statement at the text `/E [ /a x /b ]`: the first token is
`/E`, read up to position 2, and the encoding returned holds the one name
`a` at code 0, the run of names ending at the token `x`. -/
theorem C35_encoding_reader_witness :
    (∃ (token : List Nat) (p : Nat) (l : Int),
      tokenize C35_input 0 1 = some (token, p, l) ∧
      ((token = [] ∧ p = C35_input.length) ∨ (token ≠ [] ∧ 0 < p ∧ p ≤ C35_input.length))) ∧
    (∃ r : Parsed, parse_encoding C35_input = some r ∧
      (r.encoding = none ↔
        ((first_tokens C35_input).1.head? ≠ some chSlash
          ∨ (first_tokens C35_input).2 ≠ [chLBracket])) ∧
      ∀ enc, r.encoding = some enc →
        enc = numbered 0 (((tokens_from C35_input (C35_input.length + 1)
          (after_bracket C35_input).1 (after_bracket C35_input).2).takeWhile is_name).take 256) ∧
        enc.length ≤ 256 ∧ enc.map Prod.fst = List.range enc.length) ∧
    tokenize C35_input 0 1 = some (bytes "/E", 2, 1) ∧
    first_tokens C35_input = (bytes "/E", bytes "[") ∧
    parse_encoding C35_input = some ⟨some [(0, bytes "a")], some (bytes "E"), []⟩ ∧
    parse_encoding (bytes "E [ /a ]")
      = some ⟨none, none, [Message.expected_name 1]⟩ ∧
    parse_encoding (bytes "/E /a ]")
      = some ⟨none, some (bytes "E"), [Message.expected_bracket 1]⟩ :=
  ⟨C35_encoding_reader.1 C35_input 0 1, C35_encoding_reader.2 C35_input,
    by decide!, by decide!, by decide!, by decide!, by decide!⟩

/-- C35, counterexample: on the text `/E [ /a x /b ]` the tokens after the `[`
are `/a`, `x`, `/b` and `]`, of which `/a` and `/b` start with `/`; the
encoding returned holds `a` at code 0 and nothing at code 1, where the claim
has the second `/`-prefixed token, `/b`, stored at code 1: the loop ends at
the token `x`. -/
theorem C35_broken_run_counterexample :
    tokens_from C35_input (C35_input.length + 1) (after_bracket C35_input).1
        (after_bracket C35_input).2
      = [bytes "/a", bytes "x", bytes "/b", bytes "]"] ∧
    numbered 0 (((tokens_from C35_input (C35_input.length + 1) (after_bracket C35_input).1
        (after_bracket C35_input).2).filter is_name).take 256)
      = [(0, bytes "a"), (1, bytes "b")] ∧
    parse_encoding C35_input = some ⟨some [(0, bytes "a")], some (bytes "E"), []⟩ ∧
    ¬ (∃ r : Parsed, parse_encoding C35_input = some r ∧
      r.encoding = some (numbered 0 (((tokens_from C35_input (C35_input.length + 1)
        (after_bracket C35_input).1 (after_bracket C35_input).2).filter is_name).take 256))) := by
  have e1 : numbered 0 (((tokens_from C35_input (C35_input.length + 1)
        (after_bracket C35_input).1 (after_bracket C35_input).2).filter is_name).take 256)
      = [(0, bytes "a"), (1, bytes "b")] := by decide!
  have e2 : parse_encoding C35_input
      = some ⟨some [(0, bytes "a")], some (bytes "E"), []⟩ := by decide!
  refine ⟨by decide!, e1, e2, ?_⟩
  rintro ⟨r, h1, h2⟩
  rw [e2] at h1
  cases h1
  rw [e1] at h2
  exact absurd h2 (by decide!)

end T1reencode
